import Mathlib

/-!
# Nim server: game rules, rooms and sessions

A shallow embedding of the C sources under `src/server_src` (`game.c`, `player.c`,
`room.c`, `protocol.c`, `server.c`, `config.h`) together with theorems about them.

Conventions of the embedding.

* A C `int` is an `Int`.  On the paths modelled here the only arithmetic is
  `stones - count` (taken after `1 <= count <= stones` was checked), `skips - 1`
  (taken after `skips > 0` was checked), `player_count + 1`, `player_count - 1`
  and `1 - index`; none of them leaves the 32-bit range for the values a running
  server holds, so no wrap-around is modelled.
* A pointer `Game *` that is written through becomes a returned `Game`; the
  `NULL` guards of the C functions disappear because the embedding always passes a
  record.
* An access outside the two-element array `player_skips` has no defined result;
  functions that perform such an access for some argument return `Option` and
  yield `none` there.
* Logging (`LOG_INFO`, `LOG_DEBUG`, `LOG_WARNING`) has no effect on any modelled
  state and is left out.
-/

namespace Nim

/-! ## Constants of `config.h` -/

/-- Constant `BUFFER_SIZE` of `config.h`. -/
def BUFFER_SIZE : Nat := 1024

/-- Constant `PLAYERS_PER_ROOM` of `config.h`. -/
def PLAYERS_PER_ROOM : Int := 2

/-- Constant `MAX_NICKNAME_LENGTH` of `config.h`. -/
def MAX_NICKNAME_LENGTH : Nat := 32

/-- Constant `MAX_ROOM_NAME_LENGTH` of `config.h`. -/
def MAX_ROOM_NAME_LENGTH : Nat := 64

/-- Constant `INITIAL_STONES` of `config.h`. -/
def INITIAL_STONES : Int := 21

/-- Constant `MIN_TAKE` of `config.h`. -/
def MIN_TAKE : Int := 1

/-- Constant `MAX_TAKE` of `config.h`. -/
def MAX_TAKE : Int := 3

/-- Constant `SKIPS_PER_PLAYER` of `config.h`. -/
def SKIPS_PER_PLAYER : Int := 1

/-- Constant `SHORT_DISCONNECT_TIMEOUT` of `config.h`. -/
def SHORT_DISCONNECT_TIMEOUT : Int := 30

/-- Constant `MAX_MESSAGE_LENGTH` of `config.h`. -/
def MAX_MESSAGE_LENGTH : Nat := 512

/-- Constant `PING_INTERVAL` of `config.h`. -/
def PING_INTERVAL : Int := 10

/-- Constant `PING_TIMEOUT` of `config.h`. -/
def PING_TIMEOUT : Int := 5

/-- Constant `MAX_INVALID_MESSAGES` of `config.h`. -/
def MAX_INVALID_MESSAGES : Int := 3

/-- Constant `MAX_MESSAGE_WITHOUT_NEWLINE` of `config.h`. -/
def MAX_MESSAGE_WITHOUT_NEWLINE : Int := 256

/-- Constant `MAX_MESSAGES_PER_SECOND` of `config.h`. -/
def MAX_MESSAGES_PER_SECOND : Int := 20

/-- Constant `LOGIN_TIMEOUT` of `config.h`. -/
def LOGIN_TIMEOUT : Int := 30

/-- Constant `MAX_PARAMS` of `protocol.h`. -/
def MAX_PARAMS : Nat := 10

/-- Constant `MAX_PARAM_LENGTH` of `protocol.h`. -/
def MAX_PARAM_LENGTH : Nat := 128

/-! ## `game.h` / `game.c` -/

/-- The enum `GameState`. -/
inductive GameState where
  | WAITING
  | PLAYING
  | PAUSED
  | FINISHED
  deriving DecidableEq, Repr

/-- The struct `Game`; `player_skips0` and `player_skips1` are the two cells of the
array `player_skips[2]`. -/
structure Game where
  state : GameState
  stones : Int
  current_player : Int
  player_skips0 : Int
  player_skips1 : Int
  winner : Int
  deriving DecidableEq, Repr

/-- Read of `game->player_skips[i]`; `none` outside the array. -/
def Game.player_skips (g : Game) (i : Int) : Option Int :=
  if i = 0 then some g.player_skips0
  else if i = 1 then some g.player_skips1
  else none

/-- Write of `game->player_skips[i] = v`; `none` outside the array. -/
def Game.set_player_skips (g : Game) (i : Int) (v : Int) : Option Game :=
  if i = 0 then some { g with player_skips0 := v }
  else if i = 1 then some { g with player_skips1 := v }
  else none

/-- Function `game_init`: every field is overwritten, so the result does not depend on the
record passed in. -/
def game_init (_game : Game) : Game :=
  { state := GameState.WAITING
    stones := INITIAL_STONES
    current_player := 0
    player_skips0 := SKIPS_PER_PLAYER
    player_skips1 := SKIPS_PER_PLAYER
    winner := -1 }

/-- Function `game_start`: no check of the current phase is made. -/
def game_start (game : Game) : Game :=
  { game with
    state := GameState.PLAYING
    stones := INITIAL_STONES
    current_player := 0
    player_skips0 := SKIPS_PER_PLAYER
    player_skips1 := SKIPS_PER_PLAYER
    winner := -1 }

/-- Function `game_reset` of `game.c`. -/
def game_reset (game : Game) : Game :=
  game_init game

/-- Function `game_validate_take_count` of `game.c`. -/
def game_validate_take_count (game : Game) (count : Int) : Bool :=
  if count < MIN_TAKE ∨ count > MAX_TAKE then false
  else if count > game.stones then false
  else true

/-- Function `game_take_stones`: the returned pair is the C return value and the game
record after the call. -/
def game_take_stones (game : Game) (player_index : Int) (count : Int) : Bool × Game :=
  if game.state ≠ GameState.PLAYING then (false, game)
  else if game.current_player ≠ player_index then (false, game)
  else if !game_validate_take_count game count then (false, game)
  else
    let game1 := { game with stones := game.stones - count }
    if game1.stones = 0 then
      (true, { game1 with state := GameState.FINISHED, winner := 1 - player_index })
    else
      (true, { game1 with current_player := 1 - game1.current_player })

/-- Function `game_skip_turn`: the returned pair is the C return value and the game record
after the call; `none` when `player_skips[player_index]` is outside the array. -/
def game_skip_turn (game : Game) (player_index : Int) : Option (Bool × Game) :=
  if game.state ≠ GameState.PLAYING then some (false, game)
  else if game.current_player ≠ player_index then some (false, game)
  else
    match game.player_skips player_index with
    | none => none
    | some skips =>
      if skips ≤ 0 then some (false, game)
      else
        match game.set_player_skips player_index (skips - 1) with
        | none => none
        | some game1 =>
          some (true, { game1 with current_player := 1 - game1.current_player })

/-- Function `game_is_over` of `game.c`. -/
def game_is_over (game : Game) : Bool :=
  game.state = GameState.FINISHED

/-- Function `game_is_player_turn` of `game.c`. -/
def game_is_player_turn (game : Game) (player_index : Int) : Bool :=
  game.state = GameState.PLAYING ∧ game.current_player = player_index

/-- Function `game_can_skip`; `none` when `player_skips[player_index]` is outside the array. -/
def game_can_skip (game : Game) (player_index : Int) : Option Bool :=
  match game.player_skips player_index with
  | none => none
  | some skips => some (decide (skips > 0))

/-- Function `game_pause` of `game.c`. -/
def game_pause (game : Game) : Game :=
  if game.state = GameState.PLAYING then { game with state := GameState.PAUSED }
  else game

/-- Function `game_resume` of `game.c`. -/
def game_resume (game : Game) : Game :=
  if game.state = GameState.PAUSED then { game with state := GameState.PLAYING }
  else game

/-- Function `game_get_stones` of `game.c`. -/
def game_get_stones (game : Game) : Int := game.stones

/-- Function `game_get_current_player` of `game.c`. -/
def game_get_current_player (game : Game) : Int := game.current_player

/-- Function `game_get_winner` of `game.c`. -/
def game_get_winner (game : Game) : Int := game.winner

/-- Function `game_get_loser` of `game.c`. -/
def game_get_loser (game : Game) : Int :=
  if game.winner < 0 then -1 else 1 - game.winner

/-! ## Sequences of game operations -/

/-- One call on a game record: the six operations of `game.h` that write to it. -/
inductive GameOp where
  | start
  | take (player_index : Int) (count : Int)
  | skip (player_index : Int)
  | pause
  | resume
  | reset
  deriving DecidableEq, Repr

/-- An accepted move: a call of `game_take_stones` or `game_skip_turn` that
returned `true`. -/
inductive Move where
  | took (player_index : Int) (count : Int)
  | skipped (player_index : Int)
  deriving DecidableEq, Repr

/-- Performs one call; the list holds the move when the call was a take or a skip
that returned `true`.  The result is `none` when the call reads outside
`player_skips`. -/
def applyOp (g : Game) : GameOp → Option (Game × List Move)
  | GameOp.start => some (game_start g, [])
  | GameOp.take p k =>
    let r := game_take_stones g p k
    some (r.2, if r.1 then [Move.took p k] else [])
  | GameOp.skip p =>
    match game_skip_turn g p with
    | none => none
    | some r => some (r.2, if r.1 then [Move.skipped p] else [])
  | GameOp.pause => some (game_pause g, [])
  | GameOp.resume => some (game_resume g, [])
  | GameOp.reset => some (game_reset g, [])

/-- Performs the calls from left to right, starting from a game and the moves
accepted so far. -/
def runFrom (st : Game × List Move) : List GameOp → Option (Game × List Move)
  | [] => some st
  | op :: ops =>
    match applyOp st.1 op with
    | none => none
    | some r => runFrom (r.1, st.2 ++ r.2) ops

/-- Performs the calls from left to right on a game, with no move accepted yet. -/
def runOps (g : Game) (ops : List GameOp) : Option (Game × List Move) :=
  runFrom (g, []) ops

/-- Sum of the counts of the accepted takes. -/
def takenSum : List Move → Int
  | [] => 0
  | Move.took _ k :: ms => k + takenSum ms
  | Move.skipped _ :: ms => takenSum ms

/-- Player index of the last accepted take, if there is one. -/
def lastTaker : List Move → Option Int
  | [] => none
  | Move.took p _ :: ms =>
    match lastTaker ms with
    | none => some p
    | some q => some q
  | Move.skipped _ :: ms => lastTaker ms

/-- Number of accepted skips of player index `p`. -/
def skipCount (p : Int) : List Move → Nat
  | [] => 0
  | Move.took _ _ :: ms => skipCount p ms
  | Move.skipped q :: ms => (if q = p then 1 else 0) + skipCount p ms

/-- Invariant of a game record together with the moves accepted on it so far:
the ranges of the fields, and that a record with no stones left is FINISHED and
won by the opponent of the player whose take was accepted last. -/
def GameInv (g : Game) (ms : List Move) : Prop :=
  0 ≤ g.stones ∧ g.stones ≤ 21 ∧
  (g.current_player = 0 ∨ g.current_player = 1) ∧
  (g.player_skips0 = 0 ∨ g.player_skips0 = 1) ∧
  (g.player_skips1 = 0 ∨ g.player_skips1 = 1) ∧
  (g.stones = 0 →
    g.state = GameState.FINISHED ∧ ∃ p, lastTaker ms = some p ∧ g.winner = 1 - p)

/-- Bookkeeping of one game, from its start: the stones left and the stones
taken add up to 21, and each player's skip credit left and skips used add up
to 1. -/
def PlayInv (g : Game) (ms : List Move) : Prop :=
  g.stones + takenSum ms = 21 ∧
  (skipCount 0 ms : Int) + g.player_skips0 = 1 ∧
  (skipCount 1 ms : Int) + g.player_skips1 = 1 ∧
  ∀ p : Int, p ≠ 0 → p ≠ 1 → skipCount p ms = 0

/-- Holds for `start` and `reset`, the two calls that begin a new game. -/
def GameOp.isRestart : GameOp → Bool
  | GameOp.start => true
  | GameOp.reset => true
  | _ => false

/-! ## `protocol.h` / `protocol.c`

Text is a list of characters, one per byte of the C string (without the
terminating NUL).  A function that fills a caller's buffer with `snprintf` is
modelled by the text it leaves there. -/

/-- The enum `ErrorCode`. -/
inductive ErrorCode where
  | ERR_NONE
  | ERR_INVALID_FORMAT
  | ERR_UNKNOWN_COMMAND
  | ERR_INVALID_PARAMS
  | ERR_NOT_LOGGED_IN
  | ERR_ALREADY_LOGGED_IN
  | ERR_NICKNAME_TAKEN
  | ERR_NICKNAME_INVALID
  | ERR_ROOM_NOT_FOUND
  | ERR_ROOM_FULL
  | ERR_ROOM_NAME_TAKEN
  | ERR_NOT_IN_ROOM
  | ERR_NOT_IN_GAME
  | ERR_NOT_YOUR_TURN
  | ERR_INVALID_MOVE
  | ERR_NO_SKIPS_LEFT
  | ERR_SERVER_FULL
  | ERR_MAX_ROOMS
  | ERR_GAME_IN_PROGRESS
  | ERR_INTERNAL
  deriving DecidableEq, Repr

/-- Numeric value of an `ErrorCode`, as `%d` prints it. -/
def ErrorCode.toInt : ErrorCode → Int
  | ERR_NONE => 0
  | ERR_INVALID_FORMAT => 1
  | ERR_UNKNOWN_COMMAND => 2
  | ERR_INVALID_PARAMS => 3
  | ERR_NOT_LOGGED_IN => 4
  | ERR_ALREADY_LOGGED_IN => 5
  | ERR_NICKNAME_TAKEN => 6
  | ERR_NICKNAME_INVALID => 7
  | ERR_ROOM_NOT_FOUND => 8
  | ERR_ROOM_FULL => 9
  | ERR_ROOM_NAME_TAKEN => 10
  | ERR_NOT_IN_ROOM => 11
  | ERR_NOT_IN_GAME => 12
  | ERR_NOT_YOUR_TURN => 13
  | ERR_INVALID_MOVE => 14
  | ERR_NO_SKIPS_LEFT => 15
  | ERR_SERVER_FULL => 16
  | ERR_MAX_ROOMS => 17
  | ERR_GAME_IN_PROGRESS => 18
  | ERR_INTERNAL => 99

/-- The enum `MessageType`. -/
inductive MessageType where
  | MSG_LOGIN
  | MSG_LIST_ROOMS
  | MSG_CREATE_ROOM
  | MSG_JOIN_ROOM
  | MSG_LEAVE_ROOM
  | MSG_TAKE
  | MSG_SKIP
  | MSG_PING
  | MSG_LOGOUT
  | MSG_LOGIN_OK
  | MSG_LOGIN_ERR
  | MSG_ROOMS
  | MSG_ROOM_CREATED
  | MSG_ROOM_JOINED
  | MSG_ROOM_ERR
  | MSG_LEAVE_OK
  | MSG_GAME_START
  | MSG_TAKE_OK
  | MSG_TAKE_ERR
  | MSG_SKIP_OK
  | MSG_SKIP_ERR
  | MSG_OPPONENT_ACTION
  | MSG_GAME_OVER
  | MSG_PONG
  | MSG_PLAYER_STATUS
  | MSG_ERROR
  | MSG_SERVER_SHUTDOWN
  | MSG_WAIT_OPPONENT
  | MSG_GAME_RESUMED
  | MSG_UNKNOWN
  deriving DecidableEq, Repr

/-- The enum `PlayerStatusType`. -/
inductive PlayerStatusType where
  | STATUS_CONNECTED
  | STATUS_DISCONNECTED
  | STATUS_RECONNECTED
  deriving DecidableEq, Repr

/-- The struct `ParsedMessage` without its `raw` copy: the message type, the
number of parameters and the parameters; a cell of `params` that was never
written holds the empty string left by `memset`. -/
structure ParsedMessage where
  type : MessageType
  param_count : Int
  params : List (List Char)
  deriving DecidableEq, Repr

/-- Read of `msg->params[i]`. -/
def ParsedMessage.param (msg : ParsedMessage) (i : Nat) : List Char :=
  msg.params.getD i []

/-- Text that `snprintf(buffer, size, ...)` leaves in `buffer` when the formatted
text is `text`: at most `size - 1` bytes of it. -/
def snprintf (size : Nat) (text : List Char) : List Char :=
  text.take (size - 1)

/-- Text printed for an `int` by the conversion `%d`. -/
def fmt_d (n : Int) : List Char :=
  (toString n).toList

/-- Text printed for `flag ? 1 : 0` by the conversion `%d`. -/
def fmt_flag (flag : Bool) : List Char :=
  fmt_d (if flag then 1 else 0)

/-- Function `protocol_error_to_string` of `protocol.c` (the table `error_map`). -/
def protocol_error_to_string : ErrorCode → List Char
  | ErrorCode.ERR_NONE => "OK".toList
  | ErrorCode.ERR_INVALID_FORMAT => "Invalid message format".toList
  | ErrorCode.ERR_UNKNOWN_COMMAND => "Unknown command".toList
  | ErrorCode.ERR_INVALID_PARAMS => "Invalid parameters".toList
  | ErrorCode.ERR_NOT_LOGGED_IN => "Not logged in".toList
  | ErrorCode.ERR_ALREADY_LOGGED_IN => "Already logged in".toList
  | ErrorCode.ERR_NICKNAME_TAKEN => "Nickname already taken".toList
  | ErrorCode.ERR_NICKNAME_INVALID => "Invalid nickname".toList
  | ErrorCode.ERR_ROOM_NOT_FOUND => "Room not found".toList
  | ErrorCode.ERR_ROOM_FULL => "Room is full".toList
  | ErrorCode.ERR_ROOM_NAME_TAKEN => "Room name already taken".toList
  | ErrorCode.ERR_NOT_IN_ROOM => "Not in a room".toList
  | ErrorCode.ERR_NOT_IN_GAME => "Not in a game".toList
  | ErrorCode.ERR_NOT_YOUR_TURN => "Not your turn".toList
  | ErrorCode.ERR_INVALID_MOVE => "Invalid move".toList
  | ErrorCode.ERR_NO_SKIPS_LEFT => "No skips remaining".toList
  | ErrorCode.ERR_SERVER_FULL => "Server is full".toList
  | ErrorCode.ERR_MAX_ROOMS => "Maximum rooms reached".toList
  | ErrorCode.ERR_GAME_IN_PROGRESS => "Game already in progress".toList
  | ErrorCode.ERR_INTERNAL => "Internal server error".toList

/-- The argument `reason ? reason : protocol_error_to_string(code)`. -/
def reason_or_default (code : ErrorCode) (reason : Option (List Char)) : List Char :=
  match reason with
  | some text => text
  | none => protocol_error_to_string code

/-- Text of the form `NAME;%d;%s\n` shared by the error replies. -/
def error_reply (size : Nat) (name : List Char) (code : ErrorCode)
    (reason : Option (List Char)) : List Char :=
  snprintf size (name ++ fmt_d code.toInt ++ ";".toList ++ reason_or_default code reason
    ++ "\n".toList)

/-- Function `protocol_create_login_ok` of `protocol.c`. -/
def protocol_create_login_ok (size : Nat) : List Char :=
  snprintf size "LOGIN_OK\n".toList

/-- Function `protocol_create_login_err` of `protocol.c`. -/
def protocol_create_login_err (size : Nat) (code : ErrorCode)
    (reason : Option (List Char)) : List Char :=
  error_reply size "LOGIN_ERR;".toList code reason

/-- Function `protocol_create_room_err` of `protocol.c`. -/
def protocol_create_room_err (size : Nat) (code : ErrorCode)
    (reason : Option (List Char)) : List Char :=
  error_reply size "ROOM_ERR;".toList code reason

/-- Function `protocol_create_take_ok` of `protocol.c`. -/
def protocol_create_take_ok (size : Nat) (remaining : Int) (your_turn : Bool) : List Char :=
  snprintf size ("TAKE_OK;".toList ++ fmt_d remaining ++ ";".toList ++ fmt_flag your_turn
    ++ "\n".toList)

/-- Function `protocol_create_take_err` of `protocol.c`. -/
def protocol_create_take_err (size : Nat) (code : ErrorCode)
    (reason : Option (List Char)) : List Char :=
  error_reply size "TAKE_ERR;".toList code reason

/-- Function `protocol_create_skip_ok` of `protocol.c`. -/
def protocol_create_skip_ok (size : Nat) (your_turn : Bool) : List Char :=
  snprintf size ("SKIP_OK;".toList ++ fmt_flag your_turn ++ "\n".toList)

/-- Function `protocol_create_skip_err` of `protocol.c`. -/
def protocol_create_skip_err (size : Nat) (code : ErrorCode)
    (reason : Option (List Char)) : List Char :=
  error_reply size "SKIP_ERR;".toList code reason

/-- Function `protocol_create_opponent_action` of `protocol.c`. -/
def protocol_create_opponent_action (size : Nat) (action : List Char) (param : Int)
    (remaining : Int) : List Char :=
  snprintf size ("OPPONENT_ACTION;".toList ++ action ++ ";".toList ++ fmt_d param
    ++ ";".toList ++ fmt_d remaining ++ "\n".toList)

/-- Function `protocol_create_game_over` of `protocol.c`. -/
def protocol_create_game_over (size : Nat) (winner loser : List Char) : List Char :=
  snprintf size ("GAME_OVER;".toList ++ winner ++ ";".toList ++ loser ++ "\n".toList)

/-- Function `protocol_create_player_status` of `protocol.c`. -/
def protocol_create_player_status (size : Nat) (nickname : List Char)
    (status : PlayerStatusType) : List Char :=
  let status_str :=
    match status with
    | PlayerStatusType.STATUS_CONNECTED => "CONNECTED".toList
    | PlayerStatusType.STATUS_DISCONNECTED => "DISCONNECTED".toList
    | PlayerStatusType.STATUS_RECONNECTED => "RECONNECTED".toList
  snprintf size ("PLAYER_STATUS;".toList ++ nickname ++ ";".toList ++ status_str
    ++ "\n".toList)

/-- Function `protocol_create_error` of `protocol.c`. -/
def protocol_create_error (size : Nat) (code : ErrorCode)
    (message : Option (List Char)) : List Char :=
  error_reply size "ERROR;".toList code message

/-- Function `protocol_create_game_resumed` of `protocol.c`. -/
def protocol_create_game_resumed (size : Nat) (stones : Int) (your_turn : Bool)
    (your_skips : Int) (opponent_skips : Int) : List Char :=
  snprintf size ("GAME_RESUMED;".toList ++ fmt_d stones ++ ";".toList ++ fmt_flag your_turn
    ++ ";".toList ++ fmt_d your_skips ++ ";".toList ++ fmt_d opponent_skips ++ "\n".toList)

/-- Function `protocol_create_rooms` of `protocol.c`; the listing is a buffer
the caller has filled, so it is never `NULL`. -/
def protocol_create_rooms (size : Nat) (rooms_data : List Char) : List Char :=
  if rooms_data.length > 0 then
    snprintf size ("ROOMS;".toList ++ rooms_data ++ "\n".toList)
  else snprintf size "ROOMS;0\n".toList

/-- Function `protocol_create_room_created` of `protocol.c`. -/
def protocol_create_room_created (size : Nat) (room_id : Int) : List Char :=
  snprintf size ("ROOM_CREATED;".toList ++ fmt_d room_id ++ "\n".toList)

/-- Function `protocol_create_room_joined` of `protocol.c`; the caller always
passes a text for the opponent, possibly the empty one. -/
def protocol_create_room_joined (size : Nat) (room_id : Int) (opponent : List Char) :
    List Char :=
  if opponent.length > 0 then
    snprintf size ("ROOM_JOINED;".toList ++ fmt_d room_id ++ ";".toList ++ opponent ++ "\n".toList)
  else snprintf size ("ROOM_JOINED;".toList ++ fmt_d room_id ++ ";\n".toList)

/-- Function `protocol_create_leave_ok` of `protocol.c`. -/
def protocol_create_leave_ok (size : Nat) : List Char :=
  snprintf size "LEAVE_OK\n".toList

/-- Function `protocol_create_game_start` of `protocol.c`; the caller always
passes a text for the opponent, possibly the empty one. -/
def protocol_create_game_start (size : Nat) (stones : Int) (your_turn : Bool)
    (opponent : List Char) : List Char :=
  snprintf size ("GAME_START;".toList ++ fmt_d stones ++ ";".toList ++ fmt_flag your_turn
    ++ ";".toList ++ opponent ++ "\n".toList)

/-- Function `protocol_create_wait_opponent` of `protocol.c`. -/
def protocol_create_wait_opponent (size : Nat) : List Char :=
  snprintf size "WAIT_OPPONENT\n".toList

/-- Function `protocol_create_pong` of `protocol.c`. -/
def protocol_create_pong (size : Nat) : List Char :=
  snprintf size "PONG\n".toList

/-- The static function `safe_strcpy` of `protocol.c` for a destination of
`size > 0` bytes: the text left in the destination. -/
def safe_strcpy (src : List Char) (size : Nat) : List Char :=
  src.take (size - 1)

/-- The table `message_map` of `protocol.c`, without its closing `NULL` entry. -/
def message_map : List (MessageType × List Char) :=
  [(MessageType.MSG_LOGIN, "LOGIN".toList),
    (MessageType.MSG_LIST_ROOMS, "LIST_ROOMS".toList),
    (MessageType.MSG_CREATE_ROOM, "CREATE_ROOM".toList),
    (MessageType.MSG_JOIN_ROOM, "JOIN_ROOM".toList),
    (MessageType.MSG_LEAVE_ROOM, "LEAVE_ROOM".toList),
    (MessageType.MSG_TAKE, "TAKE".toList),
    (MessageType.MSG_SKIP, "SKIP".toList),
    (MessageType.MSG_PING, "PING".toList),
    (MessageType.MSG_LOGOUT, "LOGOUT".toList),
    (MessageType.MSG_LOGIN_OK, "LOGIN_OK".toList),
    (MessageType.MSG_LOGIN_ERR, "LOGIN_ERR".toList),
    (MessageType.MSG_ROOMS, "ROOMS".toList),
    (MessageType.MSG_ROOM_CREATED, "ROOM_CREATED".toList),
    (MessageType.MSG_ROOM_JOINED, "ROOM_JOINED".toList),
    (MessageType.MSG_ROOM_ERR, "ROOM_ERR".toList),
    (MessageType.MSG_LEAVE_OK, "LEAVE_OK".toList),
    (MessageType.MSG_GAME_START, "GAME_START".toList),
    (MessageType.MSG_TAKE_OK, "TAKE_OK".toList),
    (MessageType.MSG_TAKE_ERR, "TAKE_ERR".toList),
    (MessageType.MSG_SKIP_OK, "SKIP_OK".toList),
    (MessageType.MSG_SKIP_ERR, "SKIP_ERR".toList),
    (MessageType.MSG_OPPONENT_ACTION, "OPPONENT_ACTION".toList),
    (MessageType.MSG_GAME_OVER, "GAME_OVER".toList),
    (MessageType.MSG_PONG, "PONG".toList),
    (MessageType.MSG_PLAYER_STATUS, "PLAYER_STATUS".toList),
    (MessageType.MSG_ERROR, "ERROR".toList),
    (MessageType.MSG_SERVER_SHUTDOWN, "SERVER_SHUTDOWN".toList),
    (MessageType.MSG_WAIT_OPPONENT, "WAIT_OPPONENT".toList),
    (MessageType.MSG_GAME_RESUMED, "GAME_RESUMED".toList)]

/-- Function `protocol_string_to_message_type` of `protocol.c`. -/
def protocol_string_to_message_type (str : List Char) : MessageType :=
  match message_map.find? (fun entry => decide (entry.2 = str)) with
  | some entry => entry.1
  | none => MessageType.MSG_UNKNOWN

/-- The statements `p = strchr(buffer, c); if (p) *p = 0;`: the text in front of
the first occurrence of `c`. -/
def cut_at (c : Char) (text : List Char) : List Char :=
  text.takeWhile (fun x => x != c)

/-- The tokens that successive calls of `strtok_r` with the delimiter `;` return:
the maximal runs of characters other than `;`, in order; `current` is the run
being read. -/
def strtok_loop : List Char → List Char → List (List Char)
  | [], current => if current = [] then [] else [current]
  | c :: rest, current =>
    if c = ';' then
      if current = [] then strtok_loop rest [] else current :: strtok_loop rest []
    else strtok_loop rest (current ++ [c])

/-- The tokens of a text for the delimiter `;`. -/
def strtok_tokens (text : List Char) : List (List Char) :=
  strtok_loop text []

/-- The record a failed `protocol_parse_message` leaves behind. -/
def ParsedMessage.unknown : ParsedMessage :=
  { type := MessageType.MSG_UNKNOWN, param_count := 0, params := [] }

/-- Function `protocol_parse_message` of `protocol.c`: the returned flag and the
parsed record (its `raw` copy is not modelled). -/
def protocol_parse_message (raw_message : List Char) : Bool × ParsedMessage :=
  if raw_message.length = 0 ∨ raw_message.length ≥ MAX_MESSAGE_LENGTH then
    (false, ParsedMessage.unknown)
  else
    let buffer := safe_strcpy raw_message MAX_MESSAGE_LENGTH
    let buffer1 := cut_at '\n' buffer
    let buffer2 := cut_at '\r' buffer1
    match strtok_tokens buffer2 with
    | [] => (false, ParsedMessage.unknown)
    | command :: rest =>
      let type := protocol_string_to_message_type command
      let params := (rest.take MAX_PARAMS).map (fun token => safe_strcpy token MAX_PARAM_LENGTH)
      (decide (type ≠ MessageType.MSG_UNKNOWN),
        { type := type, param_count := params.length, params := params })

/-- The test `isalpha(c)` of the C locale on a 7-bit character. -/
def isalpha (c : Char) : Bool :=
  ('a'.toNat ≤ c.toNat ∧ c.toNat ≤ 'z'.toNat) ∨ ('A'.toNat ≤ c.toNat ∧ c.toNat ≤ 'Z'.toNat)

/-- The test `isdigit(c)`. -/
def isdigit (c : Char) : Bool :=
  '0'.toNat ≤ c.toNat ∧ c.toNat ≤ '9'.toNat

/-- The test `isalnum(c)` of the C locale on a 7-bit character. -/
def isalnum (c : Char) : Bool :=
  isalpha c || isdigit c

/-- The test `isspace(c)` of the C locale. -/
def isspace (c : Char) : Bool :=
  c.toNat = 32 ∨ (9 ≤ c.toNat ∧ c.toNat ≤ 13)

/-- Function `protocol_validate_nickname` of `protocol.c`. -/
def protocol_validate_nickname (nickname : List Char) : ErrorCode :=
  if nickname.length = 0 then ErrorCode.ERR_NICKNAME_INVALID
  else if nickname.length > MAX_NICKNAME_LENGTH then ErrorCode.ERR_NICKNAME_INVALID
  else if nickname.any (fun c => !isalnum c && c != '_') then ErrorCode.ERR_NICKNAME_INVALID
  else if !isalpha (nickname.headD ' ') then ErrorCode.ERR_NICKNAME_INVALID
  else ErrorCode.ERR_NONE

/-- Function `protocol_validate_room_name` of `protocol.c`. -/
def protocol_validate_room_name (name : List Char) : ErrorCode :=
  if name.length = 0 then ErrorCode.ERR_INVALID_PARAMS
  else if name.length > MAX_ROOM_NAME_LENGTH then ErrorCode.ERR_INVALID_PARAMS
  else if name.any (fun c => !isalnum c && c != '_' && c != ' ') then
    ErrorCode.ERR_INVALID_PARAMS
  else ErrorCode.ERR_NONE

/-- Value accumulated by `atoi` over the leading decimal digits of a text. -/
def atoi_digits (acc : Int) : List Char → Int
  | [] => acc
  | c :: cs => if isdigit c then atoi_digits (acc * 10 + (c.toNat - '0'.toNat : Nat)) cs else acc

/-- Conversion of a `long` to an `int` where `long` has 64 bits and `int` has 32: the
low 32 bits of the value, read as a signed number. -/
def long_to_int (value : Int) : Int :=
  (value + 2147483648) % 4294967296 - 2147483648

/-- The library function `atoi`, which the C library computes as
`(int) strtol(text, NULL, 10)`: leading white space is skipped, an optional sign is
read, then the leading decimal digits; `strtol` keeps the value within the range of
`long`, and the conversion to `int` keeps the low 32 bits.  For a value in the range
of `int` the result is the value. -/
def atoi (text : List Char) : Int :=
  let value :=
    match text.dropWhile isspace with
    | '-' :: cs => - atoi_digits 0 cs
    | '+' :: cs => atoi_digits 0 cs
    | cs => atoi_digits 0 cs
  long_to_int (max (-9223372036854775808) (min value 9223372036854775807))

/-! ## `player.h` / `player.c`

A `time_t` is an `Int`; a function that calls `time(NULL)` takes the current
time as its argument `now`.  Closing a socket has no effect on the modelled
state. -/

/-- The enum `PlayerState`. -/
inductive PlayerState where
  | CONNECTING
  | LOBBY
  | IN_ROOM
  | IN_GAME
  | DISCONNECTED
  deriving DecidableEq, Repr

/-- The struct `Player`; `recv_buffer` holds the first `recv_buffer_len` bytes of
the C array. -/
structure Player where
  socket_fd : Int
  nickname : List Char
  state : PlayerState
  room_id : Int
  skips_remaining : Int
  recv_buffer : List Char
  recv_buffer_len : Int
  last_activity : Int
  disconnect_time : Int
  last_ping : Int
  waiting_pong : Bool
  invalid_message_count : Int
  messages_this_second : Int
  rate_limit_second : Int
  is_active : Bool
  deriving DecidableEq, Repr

/-- The record left by `memset(player, 0, sizeof(Player))`. -/
def Player.zeroed : Player :=
  { socket_fd := 0
    nickname := []
    state := PlayerState.CONNECTING
    room_id := 0
    skips_remaining := 0
    recv_buffer := []
    recv_buffer_len := 0
    last_activity := 0
    disconnect_time := 0
    last_ping := 0
    waiting_pong := false
    invalid_message_count := 0
    messages_this_second := 0
    rate_limit_second := 0
    is_active := false }

/-- Function `player_create` of `player.c`. -/
def player_create (socket_fd : Int) (now : Int) : Player :=
  { Player.zeroed with
    socket_fd := socket_fd
    state := PlayerState.CONNECTING
    room_id := -1
    skips_remaining := SKIPS_PER_PLAYER
    recv_buffer_len := 0
    last_activity := now
    disconnect_time := 0
    last_ping := 0
    waiting_pong := false
    invalid_message_count := 0
    is_active := true
    nickname := [] }

/-- Function `player_reset` of `player.c`. -/
def player_reset (player : Player) (keep_for_reconnect : Bool) (now : Int) : Player :=
  if keep_for_reconnect then
    { player with
      socket_fd := -1
      state := PlayerState.DISCONNECTED
      disconnect_time := now
      recv_buffer := []
      recv_buffer_len := 0
      waiting_pong := false
      invalid_message_count := 0 }
  else
    { Player.zeroed with
      socket_fd := -1
      room_id := -1
      is_active := false
      state := PlayerState.CONNECTING }

/-- The loop `for (i = 0; i < count; i++) if (test(items[i])) return i;` that
several lookup functions share: the index of the first item passing the test. -/
def find_first {α : Type} (test : α → Bool) : List α → Option Nat
  | [] => none
  | x :: xs => if test x then some 0 else (find_first test xs).map (fun i => i + 1)

/-- Function `player_find_free_slot` of `player.c`; `none` stands for `-1`. -/
def player_find_free_slot (players : List Player) : Option Nat :=
  find_first (fun p => !p.is_active) players

/-- Function `player_find_by_nickname` of `player.c`; the result is the slot of the
record found. -/
def player_find_by_nickname (players : List Player) (nickname : List Char) : Option Nat :=
  find_first (fun p => p.is_active && decide (p.nickname.length > 0) &&
    decide (p.nickname = nickname)) players

/-- Function `player_find_disconnected` of `player.c`; the result is the slot of the
record found. -/
def player_find_disconnected (players : List Player) (nickname : List Char) : Option Nat :=
  find_first (fun p => p.is_active && decide (p.state = PlayerState.DISCONNECTED) &&
    decide (p.nickname = nickname)) players

/-- Function `player_set_nickname` of `player.c`. -/
def player_set_nickname (player : Player) (nickname : List Char) : Player :=
  { player with nickname := nickname.take MAX_NICKNAME_LENGTH }

/-- Function `player_reconnect_timeout_expired` of `player.c`. -/
def player_reconnect_timeout_expired (player : Player) (now : Int) : Bool :=
  if player.state ≠ PlayerState.DISCONNECTED then false
  else decide (now - player.disconnect_time > SHORT_DISCONNECT_TIMEOUT)

/-- Function `player_init_all` of `player.c`: the array of `count` free records. -/
def player_init_all (count : Nat) : List Player :=
  List.replicate count
    { Player.zeroed with
      socket_fd := -1
      room_id := -1
      is_active := false
      state := PlayerState.CONNECTING }

/-- Function `player_update_activity` of `player.c`; `now` is the time at the
call. -/
def player_update_activity (player : Player) (now : Int) : Player :=
  { player with last_activity := now }

/-- Function `player_needs_ping` of `player.c`; `now` is the time at the call. -/
def player_needs_ping (player : Player) (now : Int) : Bool :=
  if player.socket_fd < 0 then false
  else !player.waiting_pong && decide (now - player.last_activity > PING_INTERVAL)

/-- Function `player_pong_timeout_expired` of `player.c`; `now` is the time at the
call. -/
def player_pong_timeout_expired (player : Player) (now : Int) : Bool :=
  if !player.waiting_pong then false
  else decide (now - player.last_ping > PING_TIMEOUT)

/-! ## `room.h` / `room.c` and the server state

A `Player *` is the slot index of the record in `server->players`, a `Room *` the
slot index of the room in `server->rooms`; `NULL` is `none`.  A function that
writes through such pointers takes the server state and returns the new one. -/

/-- The struct `Room`; `players0` and `players1` are the two cells of the array
`players[PLAYERS_PER_ROOM]`. -/
structure Room where
  id : Int
  name : List Char
  players0 : Option Nat
  players1 : Option Nat
  player_count : Int
  game : Game
  is_active : Bool
  deriving DecidableEq, Repr

/-- Read of `room->players[i]`; the outer `none` is an index outside the array. -/
def Room.players (room : Room) (i : Int) : Option (Option Nat) :=
  if i = 0 then some room.players0
  else if i = 1 then some room.players1
  else none

/-- The part of the struct `Server` that the handlers read and write: the
array of player slots (`config.max_clients` long) and the array of room slots
(`config.max_rooms` long). -/
structure Server where
  players : List Player
  rooms : List Room
  deriving DecidableEq, Repr

/-- Assignment of a whole record to `server->players[slot]`. -/
def Server.setPlayer (server : Server) (slot : Nat) (player : Player) : Server :=
  { server with players := server.players.set slot player }

/-- Assignment of a whole record to `server->rooms[r]`. -/
def Server.setRoom (server : Server) (r : Nat) (room : Room) : Server :=
  { server with rooms := server.rooms.set r room }

/-- Update of the record a `Player *` points to. -/
def Server.updPlayer (server : Server) (slot : Nat) (f : Player → Player) : Server :=
  match server.players[slot]? with
  | some player => server.setPlayer slot (f player)
  | none => server

/-- Function `player_set_state` of `player.c`, applied through a pointer; a `NULL`
pointer is ignored. -/
def player_set_state (server : Server) (player : Option Nat) (state : PlayerState) : Server :=
  match player with
  | some slot => server.updPlayer slot (fun p => { p with state := state })
  | none => server

/-- Function `room_find_by_id` of `room.c`. -/
def room_find_by_id (rooms : List Room) (id : Int) : Option Nat :=
  if id < 0 ∨ id ≥ rooms.length then none
  else
    match rooms[id.toNat]? with
    | some room => if room.is_active then some id.toNat else none
    | none => none

/-- Function `room_is_full` of `room.c`. -/
def room_is_full (room : Room) : Bool :=
  room.player_count ≥ PLAYERS_PER_ROOM

/-- Function `room_is_empty` of `room.c`. -/
def room_is_empty (room : Room) : Bool :=
  room.player_count = 0

/-- Function `room_get_player_index` of `room.c`. -/
def room_get_player_index (room : Room) (player : Option Nat) : Int :=
  match player with
  | none => -1
  | some slot =>
    if room.players0 = some slot then 0
    else if room.players1 = some slot then 1
    else -1

/-- Function `room_get_opponent` of `room.c`. -/
def room_get_opponent (room : Room) (player : Option Nat) : Option Nat :=
  match player with
  | none => none
  | some slot =>
    if room.players0 ≠ none ∧ room.players0 ≠ some slot then room.players0
    else if room.players1 ≠ none ∧ room.players1 ≠ some slot then room.players1
    else none

/-- Function `room_destroy` of `room.c`. -/
def room_destroy (server : Server) (r : Nat) : Server :=
  match server.rooms[r]? with
  | none => server
  | some room =>
    let server1 :=
      match room.players0 with
      | some slot => server.updPlayer slot (fun p => { p with room_id := -1 })
      | none => server
    let server2 :=
      match room.players1 with
      | some slot => server1.updPlayer slot (fun p => { p with room_id := -1 })
      | none => server1
    server2.setRoom r
      { room with
        players0 := none
        players1 := none
        is_active := false
        player_count := 0
        id := -1
        name := []
        game := game_reset room.game }

/-- Function `room_remove_player` of `room.c`. -/
def room_remove_player (server : Server) (r : Nat) (player : Option Nat) : Bool × Server :=
  match server.rooms[r]?, player with
  | some room, some slot =>
    if room.players0 = some slot then
      let room1 := { room with players0 := none, player_count := room.player_count - 1 }
      let server1 :=
        (server.setRoom r room1).updPlayer slot (fun p => { p with room_id := -1 })
      if room_is_empty room1 then (true, room_destroy server1 r) else (true, server1)
    else if room.players1 = some slot then
      let room1 := { room with players1 := none, player_count := room.player_count - 1 }
      let server1 :=
        (server.setRoom r room1).updPlayer slot (fun p => { p with room_id := -1 })
      if room_is_empty room1 then (true, room_destroy server1 r) else (true, server1)
    else (false, server)
  | _, _ => (false, server)

/-- Function `room_start_game` of `room.c`. -/
def room_start_game (server : Server) (r : Nat) : Bool × Server :=
  match server.rooms[r]? with
  | none => (false, server)
  | some room =>
    if !room_is_full room then (false, server)
    else if room.game.state ≠ GameState.WAITING then (false, server)
    else
      let server1 := server.setRoom r { room with game := game_start room.game }
      let server2 :=
        match room.players0 with
        | some slot =>
          server1.updPlayer slot (fun p =>
            { p with state := PlayerState.IN_GAME, skips_remaining := SKIPS_PER_PLAYER })
        | none => server1
      let server3 :=
        match room.players1 with
        | some slot =>
          server2.updPlayer slot (fun p =>
            { p with state := PlayerState.IN_GAME, skips_remaining := SKIPS_PER_PLAYER })
        | none => server2
      (true, server3)

/-- The number of player references of a room that are not `NULL`. -/
def Room.present (room : Room) : Int :=
  (if room.players0 = none then 0 else 1) + (if room.players1 = none then 0 else 1)

/-- Function `room_init_all` of `room.c`: the array of `count` free rooms. -/
def room_init_all (count : Nat) : List Room :=
  List.replicate count
    { id := -1
      name := []
      players0 := none
      players1 := none
      player_count := 0
      game := game_init ⟨GameState.WAITING, 0, 0, 0, 0, 0⟩
      is_active := false }

/-- The static function `find_free_slot` of `room.c`; `none` stands for `-1`. -/
def find_free_slot (rooms : List Room) : Option Nat :=
  find_first (fun room => !room.is_active) rooms

/-- Function `room_find_by_name` of `room.c`. -/
def room_find_by_name (rooms : List Room) (name : List Char) : Option Nat :=
  find_first (fun room => room.is_active && decide (room.name = name)) rooms

/-- Function `room_count_active` of `room.c`. -/
def room_count_active : List Room → Int
  | [] => 0
  | room :: rest => (if room.is_active then 1 else 0) + room_count_active rest

/-- Function `room_add_player` of `room.c`. -/
def room_add_player (server : Server) (r : Nat) (player : Option Nat) : Bool × Server :=
  match server.rooms[r]?, player with
  | some room, some slot =>
    if room_is_full room then (false, server)
    else if room.players0 = none then
      (true, (server.setRoom r
          { room with players0 := some slot, player_count := room.player_count + 1 }).updPlayer
        slot (fun p => { p with room_id := room.id, skips_remaining := SKIPS_PER_PLAYER }))
    else if room.players1 = none then
      (true, (server.setRoom r
          { room with players1 := some slot, player_count := room.player_count + 1 }).updPlayer
        slot (fun p => { p with room_id := room.id, skips_remaining := SKIPS_PER_PLAYER }))
    else (false, server)
  | _, _ => (false, server)

/-- Function `room_create` of `room.c`: the returned id (`-1` on failure) and the
new state. -/
def room_create (server : Server) (name : List Char) (creator : Option Nat) : Int × Server :=
  match creator with
  | none => (-1, server)
  | some _ =>
    match room_find_by_name server.rooms name with
    | some _ => (-1, server)
    | none =>
      match find_free_slot server.rooms with
      | none => (-1, server)
      | some slot =>
        match server.rooms[slot]? with
        | none => (-1, server)
        | some old =>
          let room : Room :=
            { old with
              id := slot
              name := name.take MAX_ROOM_NAME_LENGTH
              is_active := true
              player_count := 0
              players0 := none
              players1 := none
              game := game_init old.game }
          let added := room_add_player (server.setRoom slot room) slot creator
          if !added.1 then
            (-1, match added.2.rooms[slot]? with
              | some room1 => added.2.setRoom slot { room1 with is_active := false }
              | none => added.2)
          else
            (match added.2.rooms[slot]? with
              | some room1 => room1.id
              | none => -1, added.2)

/-- The text one active room adds to the listing of `room_list_to_string`. -/
def room_list_entry (room : Room) : List Char :=
  ";".toList ++ fmt_d room.id ++ ",".toList ++ room.name ++ ",".toList
    ++ fmt_d room.player_count ++ ",".toList ++ fmt_d PLAYERS_PER_ROOM

/-- The loop of `room_list_to_string` over the rooms not yet visited: the buffer
and the running value of `written`, which counts what `snprintf` would have
written without a bound. -/
def room_list_loop (size : Nat) : List Room → List Char → Nat → List Char × Nat
  | [], buffer, written => (buffer, written)
  | room :: rest, buffer, written =>
    if written < size - 1 then
      if room.is_active then
        room_list_loop size rest
          (buffer.take written ++ snprintf (size - written) (room_list_entry room))
          (written + (room_list_entry room).length)
      else room_list_loop size rest buffer written
    else (buffer, written)

/-- Function `room_list_to_string` of `room.c` for a buffer of `size > 0` bytes:
the text left in the buffer and the returned count. -/
def room_list_to_string (rooms : List Room) (size : Nat) : List Char × Nat :=
  let active_count := room_count_active rooms
  let buffer := snprintf size (fmt_d active_count)
  let written := (fmt_d active_count).length
  if active_count = 0 then (buffer, written)
  else room_list_loop size rooms buffer written

/-- The listing that the description of `LIST_ROOMS` calls for, to be compared with
what `room_list_to_string` leaves in its buffer: the entries of the active rooms in
ascending slot order. -/
def listing_of_active_rooms : List Room → List Char
  | [] => []
  | room :: rest =>
    (if room.is_active then room_list_entry room else []) ++ listing_of_active_rooms rest

/-! ## `server.c`

A handler returns the new server state and the messages handed to `send`, in
order, each with the slot of the receiving player; `send` on an open socket is
taken to succeed.  A handler whose C code would dereference `NULL` or index
outside an array returns `none`.  Bookkeeping of descriptors (`update_max_fd`,
`close`) is not part of the modelled state. -/

/-- The test `player != NULL && player->socket_fd >= 0`. -/
def has_socket (server : Server) (player : Option Nat) : Bool :=
  match player with
  | none => false
  | some slot =>
    match server.players[slot]? with
    | some p => decide (p.socket_fd ≥ 0)
    | none => false

/-- Function `server_send_to_player` of `server.c`: the C return value and the
message sent, if one was. -/
def server_send_to_player (server : Server) (player : Option Nat) (message : List Char) :
    Bool × List (Nat × List Char) :=
  match player with
  | none => (false, [])
  | some slot =>
    if has_socket server (some slot) then (true, [(slot, message)]) else (false, [])

/-- The statement `player->invalid_message_count++`. -/
def count_invalid (server : Server) (slot : Nat) : Server :=
  server.updPlayer slot (fun p => { p with invalid_message_count := p.invalid_message_count + 1 })

/-- Function `handle_take` of `server.c`. -/
def handle_take (server : Server) (slot : Nat) (msg : ParsedMessage) :
    Option (Server × List (Nat × List Char)) :=
  match server.players[slot]? with
  | none => none
  | some player =>
    if player.state ≠ PlayerState.IN_GAME then
      some (server, (server_send_to_player server (some slot)
        (protocol_create_take_err BUFFER_SIZE ErrorCode.ERR_NOT_IN_GAME none)).2)
    else if msg.param_count < 1 then
      some (count_invalid server slot, (server_send_to_player server (some slot)
        (protocol_create_take_err BUFFER_SIZE ErrorCode.ERR_INVALID_PARAMS
          (some "Missing count".toList))).2)
    else
      let count := atoi (msg.param 0)
      match room_find_by_id server.rooms player.room_id with
      | none =>
        some (server, (server_send_to_player server (some slot)
          (protocol_create_take_err BUFFER_SIZE ErrorCode.ERR_INTERNAL none)).2)
      | some r =>
        match server.rooms[r]? with
        | none => none
        | some room =>
          let player_idx := room_get_player_index room (some slot)
          if !game_is_player_turn room.game player_idx then
            some (count_invalid server slot, (server_send_to_player server (some slot)
              (protocol_create_take_err BUFFER_SIZE ErrorCode.ERR_NOT_YOUR_TURN none)).2)
          else if !game_validate_take_count room.game count then
            some (count_invalid server slot, (server_send_to_player server (some slot)
              (protocol_create_take_err BUFFER_SIZE ErrorCode.ERR_INVALID_MOVE none)).2)
          else
            let taken := game_take_stones room.game player_idx count
            let room1 := { room with game := taken.2 }
            let server1 := server.setRoom r room1
            if !taken.1 then
              some (server1, (server_send_to_player server1 (some slot)
                (protocol_create_take_err BUFFER_SIZE ErrorCode.ERR_INVALID_MOVE none)).2)
            else
              let remaining := game_get_stones room1.game
              let opponent := room_get_opponent room1 (some slot)
              if game_is_over room1.game then
                let winner_idx := game_get_winner room1.game
                match room1.players winner_idx, room1.players (1 - winner_idx) with
                | some (some w), some (some l) =>
                  match server1.players[w]?, server1.players[l]? with
                  | some winner, some loser =>
                    let response :=
                      protocol_create_game_over BUFFER_SIZE winner.nickname loser.nickname
                    let out1 := (server_send_to_player server1 (some slot) response).2
                    let out2 :=
                      if has_socket server1 opponent then
                        (server_send_to_player server1 opponent response).2
                      else []
                    let server2 := player_set_state server1 (some slot) PlayerState.LOBBY
                    let server3 :=
                      match opponent with
                      | some o =>
                        (room_remove_player
                          (player_set_state server2 (some o) PlayerState.LOBBY) r (some o)).2
                      | none => server2
                    let server4 := (room_remove_player server3 r (some slot)).2
                    some (server4, out1 ++ out2)
                  | _, _ => none
                | _, _ => none
              else
                let still_my_turn := game_is_player_turn room1.game player_idx
                let out1 := (server_send_to_player server1 (some slot)
                  (protocol_create_take_ok BUFFER_SIZE remaining still_my_turn)).2
                let out2 :=
                  if has_socket server1 opponent then
                    (server_send_to_player server1 opponent
                      (protocol_create_opponent_action BUFFER_SIZE "TAKE".toList count
                        remaining)).2
                  else []
                some (server1, out1 ++ out2)

/-- Function `handle_skip` of `server.c`. -/
def handle_skip (server : Server) (slot : Nat) (_msg : ParsedMessage) :
    Option (Server × List (Nat × List Char)) :=
  match server.players[slot]? with
  | none => none
  | some player =>
    if player.state ≠ PlayerState.IN_GAME then
      some (server, (server_send_to_player server (some slot)
        (protocol_create_skip_err BUFFER_SIZE ErrorCode.ERR_NOT_IN_GAME none)).2)
    else
      match room_find_by_id server.rooms player.room_id with
      | none =>
        some (server, (server_send_to_player server (some slot)
          (protocol_create_skip_err BUFFER_SIZE ErrorCode.ERR_INTERNAL none)).2)
      | some r =>
        match server.rooms[r]? with
        | none => none
        | some room =>
          let player_idx := room_get_player_index room (some slot)
          if !game_is_player_turn room.game player_idx then
            some (count_invalid server slot, (server_send_to_player server (some slot)
              (protocol_create_skip_err BUFFER_SIZE ErrorCode.ERR_NOT_YOUR_TURN none)).2)
          else
            match game_can_skip room.game player_idx with
            | none => none
            | some false =>
              some (count_invalid server slot, (server_send_to_player server (some slot)
                (protocol_create_skip_err BUFFER_SIZE ErrorCode.ERR_NO_SKIPS_LEFT none)).2)
            | some true =>
              match game_skip_turn room.game player_idx with
              | none => none
              | some skipped =>
                let room1 := { room with game := skipped.2 }
                let server1 := server.setRoom r room1
                if !skipped.1 then
                  some (server1, (server_send_to_player server1 (some slot)
                    (protocol_create_skip_err BUFFER_SIZE ErrorCode.ERR_INTERNAL none)).2)
                else
                  match room1.game.player_skips player_idx with
                  | none => none
                  | some left =>
                    let server2 :=
                      server1.updPlayer slot (fun p => { p with skips_remaining := left })
                    let still_my_turn := game_is_player_turn room1.game player_idx
                    let out1 := (server_send_to_player server2 (some slot)
                      (protocol_create_skip_ok BUFFER_SIZE still_my_turn)).2
                    let opponent := room_get_opponent room1 (some slot)
                    let out2 :=
                      if has_socket server2 opponent then
                        (server_send_to_player server2 opponent
                          (protocol_create_opponent_action BUFFER_SIZE "SKIP".toList 0
                            (game_get_stones room1.game))).2
                      else []
                    some (server2, out1 ++ out2)

/-- The loop of `handle_login` that redirects the room's pointer from the dormant
record to the new one: the first cell equal to `old_slot` receives `new_slot`. -/
def room_replace_player (room : Room) (old_slot new_slot : Nat) : Room :=
  if room.players0 = some old_slot then { room with players0 := some new_slot }
  else if room.players1 = some old_slot then { room with players1 := some new_slot }
  else room

/-- Function `handle_login` of `server.c`; `now` is the time at the call. -/
def handle_login (server : Server) (slot : Nat) (msg : ParsedMessage) (now : Int) :
    Option (Server × List (Nat × List Char)) :=
  match server.players[slot]? with
  | none => none
  | some player =>
    if player.state ≠ PlayerState.CONNECTING then
      some (server, (server_send_to_player server (some slot)
        (protocol_create_login_err BUFFER_SIZE ErrorCode.ERR_ALREADY_LOGGED_IN none)).2)
    else if msg.param_count < 1 then
      some (count_invalid server slot, (server_send_to_player server (some slot)
        (protocol_create_login_err BUFFER_SIZE ErrorCode.ERR_INVALID_PARAMS
          (some "Missing nickname".toList))).2)
    else
      let nickname := msg.param 0
      let err := protocol_validate_nickname nickname
      if err ≠ ErrorCode.ERR_NONE then
        some (count_invalid server slot, (server_send_to_player server (some slot)
          (protocol_create_login_err BUFFER_SIZE err none)).2)
      else
        match player_find_disconnected server.players nickname with
        | some d =>
          match server.players[d]? with
          | none => none
          | some disconnected =>
            let old_room_id := disconnected.room_id
            let old_skips := disconnected.skips_remaining
            let old_state :=
              if disconnected.state = PlayerState.DISCONNECTED then PlayerState.IN_GAME
              else disconnected.state
            let server1 := server.setPlayer d (player_reset disconnected false now)
            let server2 := server1.updPlayer slot (fun p =>
              { player_set_nickname p nickname with
                room_id := old_room_id
                skips_remaining := old_skips })
            let out1 := (server_send_to_player server2 (some slot)
              (protocol_create_login_ok BUFFER_SIZE)).2
            if old_room_id ≥ 0 then
              match room_find_by_id server2.rooms old_room_id with
              | none => some (server2, out1)
              | some r =>
                match server2.rooms[r]? with
                | none => none
                | some room =>
                  let room1 := room_replace_player room d slot
                  let server3 :=
                    player_set_state (server2.setRoom r room1) (some slot) old_state
                  if room1.game.state = GameState.PAUSED then
                    let room2 := { room1 with game := game_resume room1.game }
                    let server4 := server3.setRoom r room2
                    let player_idx := room_get_player_index room2 (some slot)
                    let my_turn := game_is_player_turn room2.game player_idx
                    let opp_idx := 1 - player_idx
                    match server4.players[slot]?, room2.game.player_skips opp_idx with
                    | some me, some opp_skips =>
                      let out2 := (server_send_to_player server4 (some slot)
                        (protocol_create_game_resumed BUFFER_SIZE (game_get_stones room2.game)
                          my_turn me.skips_remaining opp_skips)).2
                      let opponent := room_get_opponent room2 (some slot)
                      let out3 :=
                        if has_socket server4 opponent then
                          (server_send_to_player server4 opponent
                            (protocol_create_player_status BUFFER_SIZE nickname
                              PlayerStatusType.STATUS_RECONNECTED)).2
                        else []
                      some (server4, out1 ++ out2 ++ out3)
                    | _, _ => none
                  else some (server3, out1)
            else some (player_set_state server2 (some slot) PlayerState.LOBBY, out1)
        | none =>
          match player_find_by_nickname server.players nickname with
          | some _ =>
            some (server, (server_send_to_player server (some slot)
              (protocol_create_login_err BUFFER_SIZE ErrorCode.ERR_NICKNAME_TAKEN none)).2)
          | none =>
            let server1 := server.updPlayer slot (fun p =>
              { player_set_nickname p nickname with state := PlayerState.LOBBY })
            some (server1, (server_send_to_player server1 (some slot)
              (protocol_create_login_ok BUFFER_SIZE)).2)

/-- Function `server_handle_disconnect` of `server.c`; `now` is the time at the
call.  A slot outside the array stands for the `NULL` player, which the function
ignores. -/
def server_handle_disconnect (server : Server) (slot : Nat) (graceful : Bool) (now : Int) :
    Server × List (Nat × List Char) :=
  match server.players[slot]? with
  | none => (server, [])
  | some player =>
    let full_reset (sv : Server) (out : List (Nat × List Char)) :
        Server × List (Nat × List Char) :=
      (sv.updPlayer slot (fun p => player_reset p false now), out)
    if player.room_id ≥ 0 then
      match room_find_by_id server.rooms player.room_id with
      | none => full_reset server []
      | some r =>
        match server.rooms[r]? with
        | none => full_reset server []
        | some room =>
          let opponent := room_get_opponent room (some slot)
          if graceful ∨ opponent = none then
            if room.game.state = GameState.PLAYING then
              let server1 :=
                server.setRoom r
                  { room with game := { room.game with state := GameState.FINISHED } }
              if has_socket server1 opponent then
                let opp_nick :=
                  match opponent with
                  | some o =>
                    match server1.players[o]? with
                    | some p => p.nickname
                    | none => []
                  | none => []
                let out := (server_send_to_player server1 opponent
                  (protocol_create_game_over BUFFER_SIZE opp_nick player.nickname)).2
                let server2 := (room_remove_player server1 r opponent).2
                let server3 := player_set_state server2 opponent PlayerState.LOBBY
                full_reset (room_remove_player server3 r (some slot)).2 out
              else
                full_reset (room_remove_player server1 r (some slot)).2 []
            else
              full_reset (room_remove_player server r (some slot)).2 []
          else
            let out :=
              if has_socket server opponent then
                (server_send_to_player server opponent
                  (protocol_create_player_status BUFFER_SIZE player.nickname
                    PlayerStatusType.STATUS_DISCONNECTED)).2
              else []
            let server1 :=
              if room.game.state = GameState.PLAYING then
                server.setRoom r { room with game := game_pause room.game }
              else server
            (server1.updPlayer slot (fun p => player_reset p true now), out)
    else full_reset server []

/-- Function `server_handle_timeout` of `server.c`; `now` is the time at the call.
A slot outside the array stands for the `NULL` player, which the function
ignores. -/
def server_handle_timeout (server : Server) (slot : Nat) (now : Int) :
    Server × List (Nat × List Char) :=
  match server.players[slot]? with
  | none => (server, [])
  | some player =>
    let full_reset (sv : Server) (out : List (Nat × List Char)) :
        Server × List (Nat × List Char) :=
      (sv.updPlayer slot (fun p => player_reset p false now), out)
    if player.room_id ≥ 0 then
      match room_find_by_id server.rooms player.room_id with
      | none => full_reset server []
      | some r =>
        match server.rooms[r]? with
        | none => full_reset server []
        | some room =>
          let opponent := room_get_opponent room (some slot)
          if has_socket server opponent then
            let opp_nick :=
              match opponent with
              | some o =>
                match server.players[o]? with
                | some p => p.nickname
                | none => []
              | none => []
            let out := (server_send_to_player server opponent
              (protocol_create_game_over BUFFER_SIZE opp_nick player.nickname)).2
            let server1 := (room_remove_player server r opponent).2
            let server2 := player_set_state server1 opponent PlayerState.LOBBY
            full_reset (room_remove_player server2 r (some slot)).2 out
          else
            full_reset (room_remove_player server r (some slot)).2 []
    else full_reset server []

/-- The text `p ? p->nickname : ""` for a player pointer. -/
def nickname_or_empty (server : Server) (player : Option Nat) : List Char :=
  match player with
  | some slot =>
    match server.players[slot]? with
    | some p => p.nickname
    | none => []
  | none => []

/-- Function `handle_list_rooms` of `server.c`; the listing is built in a buffer
of `BUFFER_SIZE - 64` bytes. -/
def handle_list_rooms (server : Server) (slot : Nat) (_msg : ParsedMessage) :
    Option (Server × List (Nat × List Char)) :=
  match server.players[slot]? with
  | none => none
  | some player =>
    if player.state = PlayerState.CONNECTING then
      some (server, (server_send_to_player server (some slot)
        (protocol_create_error BUFFER_SIZE ErrorCode.ERR_NOT_LOGGED_IN none)).2)
    else
      let rooms_data := (room_list_to_string server.rooms (BUFFER_SIZE - 64)).1
      some (server, (server_send_to_player server (some slot)
        (protocol_create_rooms BUFFER_SIZE rooms_data)).2)

/-- Function `handle_create_room` of `server.c`; `max_rooms` is the length of the
room array. -/
def handle_create_room (server : Server) (slot : Nat) (msg : ParsedMessage) :
    Option (Server × List (Nat × List Char)) :=
  match server.players[slot]? with
  | none => none
  | some player =>
    if player.state ≠ PlayerState.LOBBY then
      let err :=
        if player.state = PlayerState.CONNECTING then ErrorCode.ERR_NOT_LOGGED_IN
        else ErrorCode.ERR_GAME_IN_PROGRESS
      some (server, (server_send_to_player server (some slot)
        (protocol_create_room_err BUFFER_SIZE err none)).2)
    else if msg.param_count < 1 then
      some (count_invalid server slot, (server_send_to_player server (some slot)
        (protocol_create_room_err BUFFER_SIZE ErrorCode.ERR_INVALID_PARAMS
          (some "Missing room name".toList))).2)
    else
      let room_name := msg.param 0
      let err := protocol_validate_room_name room_name
      if err ≠ ErrorCode.ERR_NONE then
        some (count_invalid server slot, (server_send_to_player server (some slot)
          (protocol_create_room_err BUFFER_SIZE err none)).2)
      else if room_count_active server.rooms ≥ server.rooms.length then
        some (server, (server_send_to_player server (some slot)
          (protocol_create_room_err BUFFER_SIZE ErrorCode.ERR_MAX_ROOMS none)).2)
      else
        let created := room_create server room_name (some slot)
        if created.1 < 0 then
          some (created.2, (server_send_to_player created.2 (some slot)
            (protocol_create_room_err BUFFER_SIZE ErrorCode.ERR_ROOM_NAME_TAKEN none)).2)
        else
          let server1 := player_set_state created.2 (some slot) PlayerState.IN_ROOM
          some (server1,
            (server_send_to_player server1 (some slot)
              (protocol_create_room_created BUFFER_SIZE created.1)).2
            ++ (server_send_to_player server1 (some slot)
              (protocol_create_wait_opponent BUFFER_SIZE)).2)

/-- The body of the loop of `handle_join_room` that sends `GAME_START` to the
player of room index `i`. -/
def send_game_start (server : Server) (r : Nat) (i : Int) : List (Nat × List Char) :=
  match server.rooms[r]? with
  | none => []
  | some room =>
    match room.players i with
    | some (some p) =>
      if has_socket server (some p) then
        let opp := room_get_opponent room (some p)
        let my_turn := game_is_player_turn room.game i
        (server_send_to_player server (some p)
          (protocol_create_game_start BUFFER_SIZE (game_get_stones room.game) my_turn
            (nickname_or_empty server opp))).2
      else []
    | _ => []

/-- Function `handle_join_room` of `server.c`. -/
def handle_join_room (server : Server) (slot : Nat) (msg : ParsedMessage) :
    Option (Server × List (Nat × List Char)) :=
  match server.players[slot]? with
  | none => none
  | some player =>
    if player.state ≠ PlayerState.LOBBY then
      let err :=
        if player.state = PlayerState.CONNECTING then ErrorCode.ERR_NOT_LOGGED_IN
        else ErrorCode.ERR_GAME_IN_PROGRESS
      some (server, (server_send_to_player server (some slot)
        (protocol_create_room_err BUFFER_SIZE err none)).2)
    else if msg.param_count < 1 then
      some (count_invalid server slot, (server_send_to_player server (some slot)
        (protocol_create_room_err BUFFER_SIZE ErrorCode.ERR_INVALID_PARAMS
          (some "Missing room ID".toList))).2)
    else
      let room_id := atoi (msg.param 0)
      match room_find_by_id server.rooms room_id with
      | none =>
        some (server, (server_send_to_player server (some slot)
          (protocol_create_room_err BUFFER_SIZE ErrorCode.ERR_ROOM_NOT_FOUND none)).2)
      | some r =>
        match server.rooms[r]? with
        | none => none
        | some room =>
          if room_is_full room then
            some (server, (server_send_to_player server (some slot)
              (protocol_create_room_err BUFFER_SIZE ErrorCode.ERR_ROOM_FULL none)).2)
          else
            let opponent := room_get_opponent room none
            let added := room_add_player server r (some slot)
            if !added.1 then
              some (added.2, (server_send_to_player added.2 (some slot)
                (protocol_create_room_err BUFFER_SIZE ErrorCode.ERR_INTERNAL none)).2)
            else
              let server1 := player_set_state added.2 (some slot) PlayerState.IN_ROOM
              let out1 := (server_send_to_player server1 (some slot)
                (protocol_create_room_joined BUFFER_SIZE room_id
                  (nickname_or_empty server1 opponent))).2
              match server1.rooms[r]? with
              | none => none
              | some room1 =>
                if room_is_full room1 then
                  let server2 := (room_start_game server1 r).2
                  some (server2,
                    out1 ++ send_game_start server2 r 0 ++ send_game_start server2 r 1)
                else some (server1, out1)

/-- Function `handle_leave_room` of `server.c`. -/
def handle_leave_room (server : Server) (slot : Nat) (_msg : ParsedMessage) :
    Option (Server × List (Nat × List Char)) :=
  match server.players[slot]? with
  | none => none
  | some player =>
    if player.state ≠ PlayerState.IN_ROOM ∧ player.state ≠ PlayerState.IN_GAME then
      some (server, (server_send_to_player server (some slot)
        (protocol_create_error BUFFER_SIZE ErrorCode.ERR_NOT_IN_ROOM none)).2)
    else
      match room_find_by_id server.rooms player.room_id with
      | none =>
        some (server, (server_send_to_player server (some slot)
          (protocol_create_error BUFFER_SIZE ErrorCode.ERR_INTERNAL none)).2)
      | some r =>
        match server.rooms[r]? with
        | none => none
        | some room =>
          let opponent := room_get_opponent room (some slot)
          let step : Server × List (Nat × List Char) :=
            if room.game.state = GameState.PLAYING ∨ room.game.state = GameState.PAUSED then
              let server1 :=
                server.setRoom r
                  { room with game := { room.game with state := GameState.FINISHED } }
              if has_socket server1 opponent then
                (player_set_state (room_remove_player server1 r opponent).2 opponent
                    PlayerState.LOBBY,
                  (server_send_to_player server1 opponent
                    (protocol_create_game_over BUFFER_SIZE
                      (nickname_or_empty server1 opponent) player.nickname)).2)
              else (server1, [])
            else if has_socket server opponent then
              (player_set_state (room_remove_player server r opponent).2 opponent
                  PlayerState.LOBBY,
                (server_send_to_player server opponent
                  (protocol_create_player_status BUFFER_SIZE player.nickname
                    PlayerStatusType.STATUS_DISCONNECTED)).2)
            else (server, [])
          let server2 := (room_remove_player step.1 r (some slot)).2
          let server3 := player_set_state server2 (some slot) PlayerState.LOBBY
          some (server3, step.2 ++ (server_send_to_player server3 (some slot)
            (protocol_create_leave_ok BUFFER_SIZE)).2)

/-- Function `handle_logout` of `server.c`; `now` is the time at the call. -/
def handle_logout (server : Server) (slot : Nat) (_msg : ParsedMessage) (now : Int) :
    Server × List (Nat × List Char) :=
  server_handle_disconnect server slot true now

/-- The part of `accept_new_client` that claims a slot: `player_create` on
`server->players[slot]` for the accepted descriptor. -/
def accept_in_slot (server : Server) (slot : Nat) (socket_fd : Int) (now : Int) : Server :=
  server.setPlayer slot (player_create socket_fd now)

/-- Function `handle_ping` of `server.c`. -/
def handle_ping (server : Server) (slot : Nat) (_msg : ParsedMessage) :
    Option (Server × List (Nat × List Char)) :=
  match server.players[slot]? with
  | none => none
  | some _ =>
    some (server, (server_send_to_player server (some slot)
      (protocol_create_pong BUFFER_SIZE)).2)

/-- Function `handle_pong` of `server.c`; `now` is the time at the call. -/
def handle_pong (server : Server) (slot : Nat) (_msg : ParsedMessage) (now : Int) :
    Option (Server × List (Nat × List Char)) :=
  match server.players[slot]? with
  | none => none
  | some _ =>
    some (server.updPlayer slot (fun p =>
      player_update_activity { p with waiting_pong := false } now), [])

/-- The `switch` of `server_handle_message` over the type of a parsed message;
`now` is the time at the call. -/
def dispatch_message (server : Server) (slot : Nat) (parsed : ParsedMessage) (now : Int) :
    Option (Server × List (Nat × List Char)) :=
  match parsed.type with
  | MessageType.MSG_LOGIN => handle_login server slot parsed now
  | MessageType.MSG_LIST_ROOMS => handle_list_rooms server slot parsed
  | MessageType.MSG_CREATE_ROOM => handle_create_room server slot parsed
  | MessageType.MSG_JOIN_ROOM => handle_join_room server slot parsed
  | MessageType.MSG_LEAVE_ROOM => handle_leave_room server slot parsed
  | MessageType.MSG_TAKE => handle_take server slot parsed
  | MessageType.MSG_SKIP => handle_skip server slot parsed
  | MessageType.MSG_PING => handle_ping server slot parsed
  | MessageType.MSG_PONG => handle_pong server slot parsed now
  | MessageType.MSG_LOGOUT => some (handle_logout server slot parsed now)
  | _ => some (count_invalid server slot, [])

/-- Function `server_handle_message` of `server.c` for one frame; `now` is the
time at the call. -/
def server_handle_message (server : Server) (slot : Nat) (message : List Char) (now : Int) :
    Option (Server × List (Nat × List Char)) :=
  match server.players[slot]? with
  | none => none
  | some player =>
    let parsed := protocol_parse_message message
    if !parsed.1 then
      let server1 := count_invalid server slot
      if player.invalid_message_count + 1 ≥ MAX_INVALID_MESSAGES then
        let out := (server_send_to_player server1 (some slot)
          (protocol_create_error BUFFER_SIZE ErrorCode.ERR_INVALID_FORMAT
            (some "Too many invalid messages".toList))).2
        let disconnected := server_handle_disconnect server1 slot false now
        some (disconnected.1, out ++ disconnected.2)
      else some (server1, [])
    else dispatch_message server slot parsed.2 now

/-- The static function `is_valid_protocol_data` of `server.c`; a byte is a
character below 256. -/
def is_valid_protocol_data (data : List Char) : Bool :=
  data.all (fun c =>
    decide (32 ≤ c.toNat ∧ c.toNat ≤ 126) || decide (c = '\n') || decide (c = '\r'))

/-- The static function `check_rate_limit` of `server.c`: the returned flag and
the updated record; `now` is the time at the call. -/
def check_rate_limit (player : Player) (now : Int) : Bool × Player :=
  let player1 :=
    if player.rate_limit_second ≠ now then
      { player with rate_limit_second := now, messages_this_second := 0 }
    else player
  let player2 := { player1 with messages_this_second := player1.messages_this_second + 1 }
  if player2.messages_this_second > MAX_MESSAGES_PER_SECOND then (false, player2)
  else (true, player2)

/-- The body of the loop of `read_from_client` for one frame of positive length:
the new state, the messages sent, and whether the frame was handed to
`server_handle_message`. -/
def process_frame (server : Server) (slot : Nat) (frame : List Char) (now : Int) :
    Option (Server × List (Nat × List Char) × Bool) :=
  match server.players[slot]? with
  | none => none
  | some player =>
    let limited := check_rate_limit player now
    let server1 := server.setPlayer slot limited.2
    if !limited.1 then some (count_invalid server1 slot, [], false)
    else
      match server_handle_message server1 slot frame now with
      | none => none
      | some result => some (result.1, result.2, true)

/-- The complete lines of a buffer (each without its `\n`) and the text after
the last `\n`; `current` is the line being read. -/
def split_lines_loop : List Char → List Char → List (List Char) × List Char
  | [], current => ([], current)
  | c :: rest, current =>
    if c = '\n' then ((current :: (split_lines_loop rest []).1), (split_lines_loop rest []).2)
    else split_lines_loop rest (current ++ [c])

/-- The complete lines of a buffer and its unterminated tail. -/
def split_lines (text : List Char) : List (List Char) × List Char :=
  split_lines_loop text []

/-- The removal of a `\r` that stands directly in front of the `\n`. -/
def strip_cr (line : List Char) : List Char :=
  if line.getLast? = some '\r' then line.dropLast else line

/-- The loop of `read_from_client` over the complete lines of the buffer: the new
state, the messages sent, and whether the loop ran to its end (`false`: the player
was disconnected while a frame was handled, and the function returned). -/
def process_lines (server : Server) (slot : Nat) (now : Int) :
    List (List Char) → Option (Server × List (Nat × List Char) × Bool)
  | [] => some (server, [], true)
  | line :: rest =>
    let frame := strip_cr line
    if frame.length > 0 then
      match process_frame server slot frame now with
      | none => none
      | some (server1, out, dispatched) =>
        match server1.players[slot]? with
        | none => none
        | some player =>
          if dispatched ∧ (player.socket_fd < 0 ∨ player.is_active = false) then
            some (server1, out, false)
          else
            match process_lines server1 slot now rest with
            | none => none
            | some (server2, out2, finished) => some (server2, out ++ out2, finished)
    else process_lines server slot now rest

/-- Function `read_from_client` of `server.c` for a `recv` that returned the
bytes `buffer` (at least one); `now` is the time during the call. -/
def read_from_client (server : Server) (slot : Nat) (buffer : List Char) (now : Int) :
    Option (Server × List (Nat × List Char)) :=
  match server.players[slot]? with
  | none => none
  | some player =>
    let server0 := server.updPlayer slot (fun p => player_update_activity p now)
    if !is_valid_protocol_data buffer then
      let server1 := count_invalid server0 slot
      if player.invalid_message_count + 1 ≥ MAX_INVALID_MESSAGES then
        let out := (server_send_to_player server1 (some slot)
          (protocol_create_error BUFFER_SIZE ErrorCode.ERR_INVALID_FORMAT
            (some "Binary data not allowed".toList))).2
        let disconnected := server_handle_disconnect server1 slot false now
        some (disconnected.1, out ++ disconnected.2)
      else some (server1, [])
    else
      let space_left : Int := BUFFER_SIZE - player.recv_buffer_len - 1
      if (buffer.length : Int) > space_left then
        some (server_handle_disconnect server0 slot false now)
      else
        let text := player.recv_buffer ++ buffer
        let length : Int := player.recv_buffer_len + buffer.length
        let server1 := server0.updPlayer slot (fun p =>
          { p with recv_buffer := text, recv_buffer_len := length })
        if length > MAX_MESSAGE_WITHOUT_NEWLINE ∧ ¬ '\n' ∈ text then
          let out := (server_send_to_player server1 (some slot)
            (protocol_create_error BUFFER_SIZE ErrorCode.ERR_INVALID_FORMAT
              (some "Message too long".toList))).2
          let disconnected := server_handle_disconnect server1 slot false now
          some (disconnected.1, out ++ disconnected.2)
        else
          match process_lines server1 slot now (split_lines text).1 with
          | none => none
          | some (server2, out, false) => some (server2, out)
          | some (server2, out, true) =>
            let consumed : Int := text.length - (split_lines text).2.length
            some (server2.updPlayer slot (fun p =>
              let remaining := p.recv_buffer_len - consumed
              if remaining > 0 ∧ remaining ≤ BUFFER_SIZE then
                { p with recv_buffer := (split_lines text).2, recv_buffer_len := remaining }
              else { p with recv_buffer := [], recv_buffer_len := 0 }), out)

/-- The body of the loop of `server_check_timeouts` for the record in `slot`;
`now` is the time at the call. -/
def check_timeouts_slot (server : Server) (slot : Nat) (now : Int) :
    Server × List (Nat × List Char) :=
  match server.players[slot]? with
  | none => (server, [])
  | some player =>
    if !player.is_active then (server, [])
    else if player.state = PlayerState.DISCONNECTED then
      if player_reconnect_timeout_expired player now then server_handle_timeout server slot now
      else (server, [])
    else if player.state = PlayerState.CONNECTING ∧ player.socket_fd ≥ 0 ∧
        now - player.last_activity > LOGIN_TIMEOUT then
      let out := (server_send_to_player server (some slot)
        (protocol_create_error BUFFER_SIZE ErrorCode.ERR_NOT_LOGGED_IN
          (some "Login timeout".toList))).2
      let disconnected := server_handle_disconnect server slot false now
      (disconnected.1, out ++ disconnected.2)
    else
      let pinged : Server × List (Nat × List Char) :=
        if player.socket_fd ≥ 0 ∧ player_needs_ping player now = true then
          let sent := server_send_to_player server (some slot) (snprintf BUFFER_SIZE "PING\n".toList)
          if sent.1 then
            (server.updPlayer slot (fun p => { p with last_ping := now, waiting_pong := true }),
              sent.2)
          else (server, sent.2)
        else (server, [])
      match pinged.1.players[slot]? with
      | none => pinged
      | some player1 =>
        if player_pong_timeout_expired player1 now then
          let disconnected := server_handle_disconnect pinged.1 slot false now
          (disconnected.1, pinged.2 ++ disconnected.2)
        else pinged

/-- The loop of `server_check_timeouts` over the given slots. -/
def check_timeouts_loop (now : Int) :
    List Nat → Server → Server × List (Nat × List Char)
  | [], server => (server, [])
  | slot :: rest, server =>
    let checked := check_timeouts_slot server slot now
    let later := check_timeouts_loop now rest checked.1
    (later.1, checked.2 ++ later.2)

/-- Function `server_check_timeouts` of `server.c`; `now` is the time at the
call and `max_clients` is the length of the player array. -/
def server_check_timeouts (server : Server) (now : Int) : Server × List (Nat × List Char) :=
  check_timeouts_loop now (List.range server.players.length) server

/-- The static function `accept_new_client` of `server.c` after `accept` returned
the descriptor `client_fd`: the new record is created in the first free slot;
with no free slot the state is left as it is (the `LOGIN_ERR` written to the
descriptor is not modelled). -/
def accept_new_client (server : Server) (client_fd : Int) (now : Int) : Server :=
  match player_find_free_slot server.players with
  | none => server
  | some slot => server.setPlayer slot (player_create client_fd now)

/-- The state `server_init` and `server_start` set up: all player and room slots
free. -/
def server_initial (max_clients max_rooms : Nat) : Server :=
  { players := player_init_all max_clients, rooms := room_init_all max_rooms }

/-- What one pass of the loop of `server_run` can meet: a new connection, bytes
read from the client in a slot, a `recv` that reports the connection closed or
failed, and the timer check. -/
inductive ServerEvent where
  | connection (client_fd : Int) (now : Int)
  | received (slot : Nat) (buffer : List Char) (now : Int)
  | closed (slot : Nat) (now : Int)
  | tick (now : Int)
  deriving Repr

/-- The effect of one event in the loop of `server_run`.  Bytes are read only
from an active record with a socket (`FD_SET`), at least one and at most
`BUFFER_SIZE - 1` at a time; an event that the loop cannot meet leaves the state
as it is. -/
def server_step (server : Server) : ServerEvent → Option (Server × List (Nat × List Char))
  | ServerEvent.connection client_fd now =>
    if client_fd < 0 then some (server, [])
    else some (accept_new_client server client_fd now, [])
  | ServerEvent.received slot buffer now =>
    match server.players[slot]? with
    | none => some (server, [])
    | some player =>
      if player.is_active = true ∧ player.socket_fd ≥ 0 ∧ 0 < buffer.length ∧
          buffer.length ≤ BUFFER_SIZE - 1 then
        read_from_client server slot buffer now
      else some (server, [])
  | ServerEvent.closed slot now =>
    match server.players[slot]? with
    | none => some (server, [])
    | some player =>
      if player.is_active = true ∧ player.socket_fd ≥ 0 then
        some (server_handle_disconnect server slot false now)
      else some (server, [])
  | ServerEvent.tick now => some (server_check_timeouts server now)

/-- The effect of a sequence of events, with all messages sent. -/
def run_events : Server → List ServerEvent → Option (Server × List (Nat × List Char))
  | server, [] => some (server, [])
  | server, event :: rest =>
    match server_step server event with
    | none => none
    | some (server1, out) =>
      match run_events server1 rest with
      | none => none
      | some (server2, out2) => some (server2, out ++ out2)

/-- A state the server can be in: one that a sequence of events leads to from the
initial state of a server with the given numbers of player and room slots. -/
def Reachable (max_clients max_rooms : Nat) (server : Server) : Prop :=
  ∃ events out, run_events (server_initial max_clients max_rooms) events = some (server, out)

/-! ## Runs of game commands -/

/-- A command a client sends during a game, with the slot of the sending player
and the parsed message. -/
inductive GameCommand where
  | take (slot : Nat) (msg : ParsedMessage)
  | skip (slot : Nat) (msg : ParsedMessage)
  deriving DecidableEq, Repr

/-- The dispatch of `server_handle_message` for the message types `MSG_TAKE` and
`MSG_SKIP`. -/
def dispatch_game_command (server : Server) :
    GameCommand → Option (Server × List (Nat × List Char))
  | GameCommand.take slot msg => handle_take server slot msg
  | GameCommand.skip slot msg => handle_skip server slot msg

/-- The messages sent while the commands are dispatched one after the other; the
run ends at a command whose handler would dereference `NULL` or index outside an
array. -/
def run_game_commands (server : Server) : List GameCommand → List (Nat × List Char)
  | [] => []
  | c :: cs =>
    match dispatch_game_command server c with
    | none => []
    | some r => r.2 ++ run_game_commands r.1 cs

/-- Holds for the two texts `protocol_create_skip_ok` produces, `SKIP_OK;1` and
`SKIP_OK;0` (each with its newline). -/
def is_skip_ok (text : List Char) : Bool :=
  decide (text = protocol_create_skip_ok BUFFER_SIZE true) ||
    decide (text = protocol_create_skip_ok BUFFER_SIZE false)

/-- Number of `SKIP_OK` messages sent to the player of a slot. -/
def count_skip_ok (slot : Nat) (out : List (Nat × List Char)) : Nat :=
  (out.filter (fun m => decide (m.1 = slot) && is_skip_ok m.2)).length

/-- A free player slot, as `player_init_all` leaves it. -/
def scenario_free_player : Player :=
  { Player.zeroed with socket_fd := -1, room_id := -1 }

/-- A free room slot, as `room_init_all` leaves it. -/
def scenario_free_room : Room :=
  { id := -1
    name := []
    players0 := none
    players1 := none
    player_count := 0
    game := game_init ⟨GameState.WAITING, 0, 0, 0, 0, 0⟩
    is_active := false }

/-- A logged-in player who is in the game of room 0. -/
def scenario_player (socket_fd : Int) (nickname : List Char) : Player :=
  { player_create socket_fd 0 with
    nickname := nickname
    state := PlayerState.IN_GAME
    room_id := 0 }

/-- Room 0 with the players of slots 0 and 1 and the given game. -/
def scenario_room (game : Game) : Room :=
  { id := 0
    name := "r1".toList
    players0 := some 0
    players1 := some 1
    player_count := 2
    game := game
    is_active := true }

/-- A server with four player slots and two room slots in which alice (slot 0,
room index 0) and bob (slot 1, room index 1) play in room 0; it is alice's turn
and `stones` stones are left. -/
def scenario_server (stones : Int) : Server :=
  { players :=
      [scenario_player 4 "alice".toList, scenario_player 5 "bob".toList,
        scenario_free_player, scenario_free_player]
    rooms :=
      [scenario_room ⟨GameState.PLAYING, stones, 0, 1, 1, -1⟩, scenario_free_room] }

/-- The message `TAKE;<text>` after parsing. -/
def take_message (text : List Char) : ParsedMessage :=
  { type := MessageType.MSG_TAKE, param_count := 1, params := [text] }

/-- The message `LOGIN;<nickname>` after parsing. -/
def login_message (nickname : List Char) : ParsedMessage :=
  { type := MessageType.MSG_LOGIN, param_count := 1, params := [nickname] }

/-- The message `SKIP` after parsing. -/
def skip_message : ParsedMessage :=
  { type := MessageType.MSG_SKIP, param_count := 0, params := [] }

/-- The state after alice and then bob lost their connections during the game of
`scenario_server`. -/
def scenario_both_dropped (stones : Int) : Server :=
  (server_handle_disconnect
    (server_handle_disconnect (scenario_server stones) 0 false 100).1 1 false 101).1

/-- The result of alice's return on a new connection (slot 2, descriptor 7) while
bob is still away. -/
def scenario_alice_back (stones : Int) : Option (Server × List (Nat × List Char)) :=
  handle_login (accept_in_slot (scenario_both_dropped stones) 2 7 105) 2
    (login_message "alice".toList) 106

/-- The result of bob's return on a new connection (slot 0, descriptor 7) after
both connections dropped and alice's reconnect window ran out while bob was still
away: bob is back in the game, alone in the room. -/
def scenario_bob_alone : Option (Server × List (Nat × List Char)) :=
  handle_login
    (accept_in_slot (server_handle_timeout (scenario_both_dropped 10) 0 131).1 0 7 131) 0
    (login_message "bob".toList) 131

/-- The message `CREATE_ROOM;<name>` after parsing. -/
def create_room_message (name : List Char) : ParsedMessage :=
  { type := MessageType.MSG_CREATE_ROOM, param_count := 1, params := [name] }

/-- The message `JOIN_ROOM;<text>` after parsing. -/
def join_room_message (text : List Char) : ParsedMessage :=
  { type := MessageType.MSG_JOIN_ROOM, param_count := 1, params := [text] }

/-- A message without parameters after parsing. -/
def plain_message (type : MessageType) : ParsedMessage :=
  { type := type, param_count := 0, params := [] }

/-- A logged-in player in the lobby. -/
def scenario_lobby_player (socket_fd : Int) (nickname : List Char) : Player :=
  { player_create socket_fd 0 with nickname := nickname, state := PlayerState.LOBBY }

/-- A server with four player slots and two room slots, no room yet, in which
alice (slot 0) and bob (slot 1) are in the lobby. -/
def scenario_lobby : Server :=
  { players :=
      [scenario_lobby_player 4 "alice".toList, scenario_lobby_player 5 "bob".toList,
        scenario_free_player, scenario_free_player]
    rooms := [scenario_free_room, scenario_free_room] }

/-- The result of alice's `CREATE_ROOM;r1` in `scenario_lobby`. -/
def scenario_room_created : Option (Server × List (Nat × List Char)) :=
  handle_create_room scenario_lobby 0 (create_room_message "r1".toList)

/-- The state after alice's connection dropped at time 100 during the game of
`scenario_server`: the game is PAUSED and alice's record is DISCONNECTED. -/
def scenario_alice_dropped (stones : Int) : Server :=
  (server_handle_disconnect (scenario_server stones) 0 false 100).1

/-- The state after alice's `CREATE_ROOM;r1` in `scenario_lobby`: alice waits in
room 0, bob is in the lobby. -/
def scenario_waiting : Server :=
  { players :=
      [{ scenario_lobby_player 4 "alice".toList with
          state := PlayerState.IN_ROOM, room_id := 0 },
        scenario_lobby_player 5 "bob".toList, scenario_free_player, scenario_free_player]
    rooms :=
      [{ id := 0, name := "r1".toList, players0 := some 0, players1 := none,
          player_count := 1, game := ⟨GameState.WAITING, 21, 0, 1, 1, -1⟩, is_active := true },
        scenario_free_room] }

/-- A valid room name of 64 characters, different for each `i < 26`. -/
def scenario_long_name (i : Nat) : List Char :=
  List.replicate 63 'a' ++ [Char.ofNat (97 + i)]

/-- A server with `n` player slots and `n` room slots, no room yet, in which every
player is logged in and in the lobby. -/
def scenario_many_lobby (n : Nat) : Server :=
  { players := (List.range n).map (fun i =>
      scenario_lobby_player ((4 + i : Nat) : Int) ['p', Char.ofNat (97 + i)])
    rooms := List.replicate n scenario_free_room }

/-- The state after each player `i` of `scenario_many_lobby n` has sent
`CREATE_ROOM;<scenario_long_name i>`. -/
def scenario_many_rooms (n : Nat) : Option Server :=
  (List.range n).foldl (fun acc i => acc.bind (fun st =>
    (handle_create_room st i (create_room_message (scenario_long_name i))).map
      (fun x => x.1))) (some (scenario_many_lobby n))

/-- The state of `scenario_lobby` after a third client connected at time 100 with
descriptor 6: slot 2 holds a record in state CONNECTING. -/
def scenario_connecting : Server :=
  accept_new_client scenario_lobby 6 100

/-- A server with three player slots and two room slots right after its first
client connected at time 100 with descriptor 4. -/
def scenario_fresh : Server :=
  accept_new_client (server_initial 3 2) 4 100

/-- A client connects and sends three batches that each hold one byte 0x00. -/
def scenario_binary_events : List ServerEvent :=
  [ServerEvent.connection 4 100, ServerEvent.received 0 [Char.ofNat 0] 101,
    ServerEvent.received 0 [Char.ofNat 0] 102, ServerEvent.received 0 [Char.ofNat 0] 103]

/-- Two clients connect, log in as alice (slot 0) and bob (slot 1); alice creates
room `r1` and bob joins it, which starts the game. -/
def scenario_setup_events : List ServerEvent :=
  [ServerEvent.connection 4 100, ServerEvent.connection 5 100,
    ServerEvent.received 0 "LOGIN;alice\n".toList 100,
    ServerEvent.received 1 "LOGIN;bob\n".toList 100,
    ServerEvent.received 0 "CREATE_ROOM;r1\n".toList 100,
    ServerEvent.received 1 "JOIN_ROOM;0\n".toList 100]

/-- After `scenario_setup_events`, alice and bob take three stones each three
times (3 stones are left, alice is to move), both connections drop, alice comes back
on a new connection (slot 2) and takes the last three stones while bob is still
away; two timer checks follow. -/
def scenario_abandoned_events : List ServerEvent :=
  scenario_setup_events ++
  [ServerEvent.received 0 "TAKE;3\n".toList 101, ServerEvent.received 1 "TAKE;3\n".toList 102,
    ServerEvent.received 0 "TAKE;3\n".toList 103, ServerEvent.received 1 "TAKE;3\n".toList 104,
    ServerEvent.received 0 "TAKE;3\n".toList 105, ServerEvent.received 1 "TAKE;3\n".toList 106,
    ServerEvent.closed 0 107, ServerEvent.closed 1 108, ServerEvent.connection 6 109,
    ServerEvent.received 2 "LOGIN;alice\n".toList 110,
    ServerEvent.received 2 "TAKE;3\n".toList 111, ServerEvent.tick 112, ServerEvent.tick 1000]

/-- The fields `is_active`, `state`, `socket_fd`, `nickname` and `room_id` of the
record in a slot. -/
def player_summary (server : Server) (slot : Nat) :
    Option (Bool × PlayerState × Int × List Char × Int) :=
  server.players[slot]?.map (fun p => (p.is_active, p.state, p.socket_fd, p.nickname, p.room_id))

/-! ## Consistency of the server state -/

/-- One of the two player references of the room names the slot. -/
def Room.has (room : Room) (slot : Nat) : Prop :=
  room.players0 = some slot ∨ room.players1 = some slot

/-- Consistency of the room record at index `r`: `player_count` is the number of
player references that are set, the room is active exactly when it has a player, an
active room carries its index as id, and the two references differ. -/
def RoomOK (r : Nat) (room : Room) : Prop :=
  room.player_count = room.present ∧
  (room.is_active = true ↔ 0 < room.player_count) ∧
  (room.is_active = true → room.id = r) ∧
  (∀ i, room.players0 = some i → room.players1 ≠ some i)

/-- How the state of a player record goes with its room id and nickname: a record
in IN_ROOM or IN_GAME has a room id, a record in CONNECTING or LOBBY has none, and a
record in CONNECTING has no nickname. -/
def Link (p : Player) : Prop :=
  ((p.state = PlayerState.IN_ROOM ∨ p.state = PlayerState.IN_GAME) → 0 ≤ p.room_id) ∧
  ((p.state = PlayerState.CONNECTING ∨ p.state = PlayerState.LOBBY) → p.room_id < 0) ∧
  (p.state = PlayerState.CONNECTING → p.nickname = [])

/-- Consistency of the server state; the players in `X` are exempt from `Link`
(they are the players a handler is moving between rooms and states). -/
structure ServerInv (X : Nat → Prop) (t : Server) : Prop where
  room_ok : ∀ (r : Nat) (room : Room), t.rooms[r]? = some room → RoomOK r room
  cell_player : ∀ (r : Nat) (room : Room) (i : Nat), t.rooms[r]? = some room → room.has i →
    ∃ p : Player, t.players[i]? = some p ∧ p.is_active = true ∧ p.room_id = r
  player_cell : ∀ (i : Nat) (p : Player), t.players[i]? = some p → p.is_active = true → 0 ≤ p.room_id →
    ∃ room : Room, t.rooms[p.room_id.toNat]? = some room ∧ room.has i
  names : ∀ (r k : Nat) (room other : Room), t.rooms[r]? = some room → t.rooms[k]? = some other →
    room.is_active = true → other.is_active = true → room.name = other.name → r = k
  nicks : ∀ (i j : Nat) (p q : Player), t.players[i]? = some p → t.players[j]? = some q →
    p.is_active = true → q.is_active = true → p.nickname ≠ [] → p.nickname = q.nickname → i = j
  link : ∀ (i : Nat) (p : Player), ¬ X i → t.players[i]? = some p → p.is_active = true → Link p

/-- Consistency of the server state with no player exempt. -/
@[reducible] def ServerOK (t : Server) : Prop :=
  ServerInv (fun _ => False) t

/-- The record in slot `x`, if there is one, satisfies `Q`. -/
def PlayerSat (Q : Player → Prop) (x : Nat) (t : Server) : Prop :=
  ∀ p : Player, t.players[x]? = some p → Q p

/-- State after the events of `scenario_setup_events`: alice and bob play in room 0. -/
def scenario_started : Server :=
  match run_events (server_initial 3 2) scenario_setup_events with
  | some r => r.1
  | none => server_initial 3 2

/-- State after alice's connection dropped during the game and a third client
connected. -/
def scenario_reconnecting : Server :=
  match run_events (server_initial 3 2)
      (scenario_setup_events ++ [ServerEvent.closed 0 101, ServerEvent.connection 6 102]) with
  | some r => r.1
  | none => server_initial 3 2

/-! ## Fixtures and helpers for the message path -/

/-- The second record has the socket, activity flag, nickname, state, receive buffer
and rate-limiter fields of the first. -/
@[reducible] def Player.keeps (q p : Player) : Prop :=
  q.socket_fd = p.socket_fd ∧ q.is_active = p.is_active ∧ q.nickname = p.nickname ∧
  q.state = p.state ∧ q.recv_buffer = p.recv_buffer ∧ q.recv_buffer_len = p.recv_buffer_len ∧
  q.messages_this_second = p.messages_this_second ∧ q.rate_limit_second = p.rate_limit_second

/-- A property of player records that the message handlers cannot disturb: it
depends only on the fields named in `Player.keeps`, it survives a change of state to
one other than DISCONNECTED, it survives `player_reset`, and it survives taking a
nickname that passes validation. -/
structure HandlerStable (Q : Player → Prop) : Prop where
  fields : ∀ p q : Player, Player.keeps q p → Q p → Q q
  staged : ∀ (p : Player) (st : PlayerState), st ≠ PlayerState.DISCONNECTED → Q p →
    Q { p with state := st }
  reset : ∀ (p : Player) (keep : Bool) (now : Int), Q p → Q (player_reset p keep now)
  named : ∀ (p : Player) (nickname : List Char),
    protocol_validate_nickname nickname = ErrorCode.ERR_NONE → Q p →
    Q (player_set_nickname p nickname)

/-- A property of player records that no event of the server loop disturbs. -/
structure EventStable (Q : Player → Prop) : Prop where
  handlers : HandlerStable Q
  limited : ∀ (p : Player) (now : Int), Q p → Q (check_rate_limit p now).2
  buffered : ∀ (p : Player) (text : List Char) (len : Int), Q p →
    Q { p with recv_buffer := text, recv_buffer_len := len }
  created : ∀ (fd : Int) (now : Int), Q (player_create fd now)

/-- The loop of `read_from_client` over the complete lines as in `process_lines`,
which also records, for every frame of positive length that the loop reaches, whether
the frame was handed to `server_handle_message`. -/
def process_lines_trace (server : Server) (slot : Nat) (now : Int) :
    List (List Char) → Option (Server × List (Nat × List Char) × Bool × List Bool)
  | [] => some (server, [], true, [])
  | line :: rest =>
    let frame := strip_cr line
    if frame.length > 0 then
      match process_frame server slot frame now with
      | none => none
      | some (server1, out, dispatched) =>
        match server1.players[slot]? with
        | none => none
        | some player =>
          if dispatched ∧ (player.socket_fd < 0 ∨ player.is_active = false) then
            some (server1, out, false, [dispatched])
          else
            match process_lines_trace server1 slot now rest with
            | none => none
            | some (server2, out2, finished, flags) =>
              some (server2, out ++ out2, finished, dispatched :: flags)
    else process_lines_trace server slot now rest

/-- A connected client sends 25 `PING` frames in one batch. -/
def scenario_ping_flood : List Char :=
  (List.replicate 25 "PING\n".toList).flatten

/-- The texts, in order, that a list of sent messages holds for the player in `slot`. -/
def replies_to (slot : Nat) (out : List (Nat × List Char)) : List (List Char) :=
  (out.filter (fun m => decide (m.1 = slot))).map (fun m => m.2)

/-! ## Fixtures and helpers for the inbound buffer and the parser -/

/-- The inbound buffer of a record is consistent: the stored length is the length of
the text, and one byte of the `BUFFER_SIZE` is left for the terminator. -/
@[reducible] def BufferOK (p : Player) : Prop :=
  (p.recv_buffer.length : Int) = p.recv_buffer_len ∧ p.recv_buffer_len ≤ BUFFER_SIZE - 1

/-- State in which the first client has sent the single byte `a`. -/
def scenario_one_byte : Server :=
  match run_events (server_initial 3 2)
      [ServerEvent.connection 4 100, ServerEvent.received 0 ['a'] 100] with
  | some r => r.1
  | none => server_initial 3 2

/-- The loop of `read_from_client` over the complete lines as in `process_lines`,
which also records every frame of positive length that the loop reaches, with the flag
whether the frame was handed to `server_handle_message`. -/
def process_lines_frames (server : Server) (slot : Nat) (now : Int) :
    List (List Char) →
      Option (Server × List (Nat × List Char) × Bool × List (List Char × Bool))
  | [] => some (server, [], true, [])
  | line :: rest =>
    let frame := strip_cr line
    if frame.length > 0 then
      match process_frame server slot frame now with
      | none => none
      | some (server1, out, dispatched) =>
        match server1.players[slot]? with
        | none => none
        | some player =>
          if dispatched ∧ (player.socket_fd < 0 ∨ player.is_active = false) then
            some (server1, out, false, [(frame, dispatched)])
          else
            match process_lines_frames server1 slot now rest with
            | none => none
            | some (server2, out2, finished, frames) =>
              some (server2, out ++ out2, finished, (frame, dispatched) :: frames)
    else process_lines_frames server slot now rest

/-- Function `read_from_client` of `server.c` as in `read_from_client`, which also
records the frames that its loop reaches, as `process_lines_frames` does. -/
def read_from_client_frames (server : Server) (slot : Nat) (buffer : List Char) (now : Int) :
    Option (Server × List (Nat × List Char) × List (List Char × Bool)) :=
  match server.players[slot]? with
  | none => none
  | some player =>
    let server0 := server.updPlayer slot (fun p => player_update_activity p now)
    if !is_valid_protocol_data buffer then
      let server1 := count_invalid server0 slot
      if player.invalid_message_count + 1 ≥ MAX_INVALID_MESSAGES then
        let out := (server_send_to_player server1 (some slot)
          (protocol_create_error BUFFER_SIZE ErrorCode.ERR_INVALID_FORMAT
            (some "Binary data not allowed".toList))).2
        let disconnected := server_handle_disconnect server1 slot false now
        some (disconnected.1, out ++ disconnected.2, [])
      else some (server1, [], [])
    else
      let space_left : Int := BUFFER_SIZE - player.recv_buffer_len - 1
      if (buffer.length : Int) > space_left then
        some ((server_handle_disconnect server0 slot false now).1,
          (server_handle_disconnect server0 slot false now).2, [])
      else
        let text := player.recv_buffer ++ buffer
        let length : Int := player.recv_buffer_len + buffer.length
        let server1 := server0.updPlayer slot (fun p =>
          { p with recv_buffer := text, recv_buffer_len := length })
        if length > MAX_MESSAGE_WITHOUT_NEWLINE ∧ ¬ '\n' ∈ text then
          let out := (server_send_to_player server1 (some slot)
            (protocol_create_error BUFFER_SIZE ErrorCode.ERR_INVALID_FORMAT
              (some "Message too long".toList))).2
          let disconnected := server_handle_disconnect server1 slot false now
          some (disconnected.1, out ++ disconnected.2, [])
        else
          match process_lines_frames server1 slot now (split_lines text).1 with
          | none => none
          | some (server2, out, false, frames) => some (server2, out, frames)
          | some (server2, out, true, frames) =>
            let consumed : Int := text.length - (split_lines text).2.length
            some (server2.updPlayer slot (fun p =>
              let remaining := p.recv_buffer_len - consumed
              if remaining > 0 ∧ remaining ≤ BUFFER_SIZE then
                { p with recv_buffer := (split_lines text).2, recv_buffer_len := remaining }
              else { p with recv_buffer := [], recv_buffer_len := 0 }), out, frames)

/-- Successive reads from the player in `slot`, each given by its bytes and its time
and made as the loop of `server_run` makes it: from an active record with a socket, of
at least one and at most `BUFFER_SIZE - 1` bytes.  The result is the final state and
the frames that the reads reached, in order; there is none when a read cannot be made,
the player having no connection any more. -/
def read_sequence (server : Server) (slot : Nat) :
    List (List Char × Int) → Option (Server × List (List Char × Bool))
  | [] => some (server, [])
  | read :: rest =>
    match server.players[slot]? with
    | none => none
    | some player =>
      if player.is_active = true ∧ player.socket_fd ≥ 0 ∧ 0 < read.1.length ∧
          read.1.length ≤ BUFFER_SIZE - 1 then
        match read_from_client_frames server slot read.1 read.2 with
        | none => none
        | some (server1, _, frames) =>
          match read_sequence server1 slot rest with
          | none => none
          | some (server2, frames2) => some (server2, frames ++ frames2)
      else none

/-- The bytes of a list of messages, each followed by LF. -/
def lf_terminated (messages : List (List Char)) : List Char :=
  (messages.map (fun m => m ++ ['\n'])).flatten

/-- The text `c;p1;...;pn` for a command name and its parameters. -/
def join_message (command : List Char) (params : List (List Char)) : List Char :=
  command ++ (params.map (fun p => ';' :: p)).flatten

/-- The second text is the first one with extra `;` characters inserted in front of
it, at its end, or next to a `;` it already has. -/
inductive ExtraSemicolons : List Char → List Char → Prop where
  | same (m : List Char) : ExtraSemicolons m m
  | front (m m' : List Char) : ExtraSemicolons m m' → ExtraSemicolons m (';' :: m')
  | back (m m' : List Char) : ExtraSemicolons m m' → ExtraSemicolons m (m' ++ [';'])
  | beside (m a b : List Char) :
    ExtraSemicolons m (a ++ ';' :: b) → ExtraSemicolons m (a ++ ';' :: ';' :: b)

/-! ## Fixtures for identifiers out of range, for the counter of invalid messages and
for the last take -/

/-- Two clients connect and log in as alice (slot 0) and bob (slot 1); alice creates
room `r1`, which gets index 0, and bob sends `JOIN_ROOM;4294967296`. -/
def scenario_wrapped_join_events : List ServerEvent :=
  [ServerEvent.connection 4 100, ServerEvent.connection 5 100,
    ServerEvent.received 0 "LOGIN;alice\n".toList 100,
    ServerEvent.received 1 "LOGIN;bob\n".toList 100,
    ServerEvent.received 0 "CREATE_ROOM;r1\n".toList 100,
    ServerEvent.received 1 "JOIN_ROOM;4294967296\n".toList 100]

/-- After `scenario_setup_events` alice, whose turn it is, sends `TAKE;9` four times,
one second apart. -/
def scenario_invalid_takes_events : List ServerEvent :=
  scenario_setup_events ++
  [ServerEvent.received 0 "TAKE;9\n".toList 101, ServerEvent.received 0 "TAKE;9\n".toList 102,
    ServerEvent.received 0 "TAKE;9\n".toList 103, ServerEvent.received 0 "TAKE;9\n".toList 104]

/-- After `scenario_setup_events`, alice and bob take three stones each three times. -/
def scenario_last_stones_events : List ServerEvent :=
  scenario_setup_events ++
    [ServerEvent.received 0 "TAKE;3\n".toList 101,
      ServerEvent.received 1 "TAKE;3\n".toList 102,
      ServerEvent.received 0 "TAKE;3\n".toList 103,
      ServerEvent.received 1 "TAKE;3\n".toList 104,
      ServerEvent.received 0 "TAKE;3\n".toList 105,
      ServerEvent.received 1 "TAKE;3\n".toList 106]

/-- State after `scenario_last_stones_events`: three stones are left and alice is to
move. -/
def scenario_last_stones : Server :=
  match run_events (server_initial 3 2) scenario_last_stones_events with
  | some r => r.1
  | none => server_initial 3 2

end Nim

/-! # Theorems -/

namespace Nim

/-! ## Bookkeeping of accepted moves -/

theorem takenSum_append (ms ns : List Move) :
    takenSum (ms ++ ns) = takenSum ms + takenSum ns := by
  induction ms with
  | nil => simp [takenSum]
  | cons m ms ih =>
    cases m with
    | took p k => simp [takenSum, ih, add_assoc]
    | skipped p => simp [takenSum, ih]

theorem skipCount_append (p : Int) (ms ns : List Move) :
    skipCount p (ms ++ ns) = skipCount p ms + skipCount p ns := by
  induction ms with
  | nil => simp [skipCount]
  | cons m ms ih =>
    cases m with
    | took q k => simp [skipCount, ih]
    | skipped q => simp [skipCount, ih, add_assoc]

theorem lastTaker_append_took (ms : List Move) (p k : Int) :
    lastTaker (ms ++ [Move.took p k]) = some p := by
  induction ms with
  | nil => simp [lastTaker]
  | cons m ms ih =>
    cases m with
    | took q j => simp [lastTaker, ih]
    | skipped q => simp [lastTaker, ih]

theorem lastTaker_append_skipped (ms : List Move) (p : Int) :
    lastTaker (ms ++ [Move.skipped p]) = lastTaker ms := by
  induction ms with
  | nil => simp [lastTaker]
  | cons m ms ih =>
    cases m with
    | took q j => simp [lastTaker, ih]
    | skipped q => simp [lastTaker, ih]

/-! ## `game_skip_turn` at the two player indices -/

theorem game_skip_turn_zero (g : Game) :
    game_skip_turn g 0 = some
      (if g.state = GameState.PLAYING ∧ g.current_player = 0 ∧ 0 < g.player_skips0 then
        (true, { g with player_skips0 := g.player_skips0 - 1,
                        current_player := 1 - g.current_player })
      else (false, g)) := by
  unfold game_skip_turn
  by_cases h1 : g.state = GameState.PLAYING
  · by_cases h2 : g.current_player = 0
    · by_cases h3 : g.player_skips0 ≤ 0
      · have h3n : ¬ 0 < g.player_skips0 := by omega
        simp [h1, h2, h3, h3n, Game.player_skips]
      · have h3p : 0 < g.player_skips0 := by omega
        simp [h1, h2, h3, h3p, Game.player_skips, Game.set_player_skips]
    · simp [h1, h2]
  · simp [h1]

theorem game_skip_turn_one (g : Game) :
    game_skip_turn g 1 = some
      (if g.state = GameState.PLAYING ∧ g.current_player = 1 ∧ 0 < g.player_skips1 then
        (true, { g with player_skips1 := g.player_skips1 - 1,
                        current_player := 1 - g.current_player })
      else (false, g)) := by
  unfold game_skip_turn
  by_cases h1 : g.state = GameState.PLAYING
  · by_cases h2 : g.current_player = 1
    · by_cases h3 : g.player_skips1 ≤ 0
      · have h3n : ¬ 0 < g.player_skips1 := by omega
        simp [h1, h2, h3, h3n, Game.player_skips]
      · have h3p : 0 < g.player_skips1 := by omega
        simp [h1, h2, h3, h3p, Game.player_skips, Game.set_player_skips]
    · simp [h1, h2]
  · simp [h1]

theorem game_skip_turn_other (g : Game) (p : Int) (h : g.current_player ≠ p) :
    game_skip_turn g p = some (false, g) := by
  unfold game_skip_turn
  by_cases h1 : g.state = GameState.PLAYING <;> simp [h1, h]

/-! ## Invariants along a sequence of calls -/

theorem game_take_stones_eq (g : Game) (p k : Int) :
    game_take_stones g p k =
      if g.state = GameState.PLAYING ∧ g.current_player = p ∧ 1 ≤ k ∧ k ≤ 3 ∧ k ≤ g.stones then
        (if g.stones - k = 0 then
          (true, { g with stones := g.stones - k, state := GameState.FINISHED,
                          winner := 1 - p })
        else
          (true, { g with stones := g.stones - k,
                          current_player := 1 - g.current_player }))
      else (false, g) := by
  unfold game_take_stones game_validate_take_count MIN_TAKE MAX_TAKE
  by_cases h1 : g.state = GameState.PLAYING
  · by_cases h2 : g.current_player = p
    · by_cases h3 : k < 1 ∨ k > 3
      · have h3n : ¬ (1 ≤ k ∧ k ≤ 3 ∧ k ≤ g.stones) := by omega
        simp [h1, h2, h3, h3n]
      · by_cases h4 : k > g.stones
        · have h4n : ¬ (1 ≤ k ∧ k ≤ 3 ∧ k ≤ g.stones) := by omega
          simp [h1, h2, h3, h4, h4n]
        · have h4p : 1 ≤ k ∧ k ≤ 3 ∧ k ≤ g.stones := by omega
          simp [h1, h2, h3, h4, h4p]
    · simp [h1, h2]
  · simp [h1]

theorem applyOp_GameInv (g : Game) (ms : List Move) (op : GameOp) (h : GameInv g ms) :
    ∃ r, applyOp g op = some r ∧ GameInv r.1 (ms ++ r.2) := by
  obtain ⟨h0, h21, hc, hs0, hs1, hz⟩ := h
  cases op with
  | start =>
    refine ⟨_, rfl, ?_⟩
    simp [GameInv, game_start, INITIAL_STONES, SKIPS_PER_PLAYER]
  | reset =>
    refine ⟨_, rfl, ?_⟩
    simp [GameInv, game_reset, game_init, INITIAL_STONES, SKIPS_PER_PLAYER]
  | pause =>
    refine ⟨_, rfl, ?_⟩
    unfold game_pause
    by_cases hp : g.state = GameState.PLAYING
    · have hne : g.stones ≠ 0 := fun hz0 => by
        have := (hz hz0).1
        rw [hp] at this
        exact GameState.noConfusion this
      simp [GameInv, hp, h0, h21, hc, hs0, hs1, hne]
    · simpa [GameInv, hp] using ⟨h0, h21, hc, hs0, hs1, hz⟩
  | resume =>
    refine ⟨_, rfl, ?_⟩
    unfold game_resume
    by_cases hp : g.state = GameState.PAUSED
    · have hne : g.stones ≠ 0 := fun hz0 => by
        have := (hz hz0).1
        rw [hp] at this
        exact GameState.noConfusion this
      simp [GameInv, hp, h0, h21, hc, hs0, hs1, hne]
    · simpa [GameInv, hp] using ⟨h0, h21, hc, hs0, hs1, hz⟩
  | take p k =>
    refine ⟨_, rfl, ?_⟩
    rw [game_take_stones_eq]
    by_cases hg : g.state = GameState.PLAYING ∧ g.current_player = p ∧ 1 ≤ k ∧ k ≤ 3 ∧
        k ≤ g.stones
    · rw [if_pos hg]
      obtain ⟨_, hcp, hk1, hk3, hks⟩ := hg
      by_cases hz' : g.stones - k = 0
      · rw [if_pos hz']
        simp only [if_true]
        refine ⟨by simp [hz'], by simp [hz'], hc, hs0, hs1, ?_⟩
        intro _
        exact ⟨rfl, p, lastTaker_append_took ms p k, rfl⟩
      · rw [if_neg hz']
        simp only [if_true]
        refine ⟨by simp; omega, by simp; omega, ?_, hs0, hs1, ?_⟩
        · simp only
          rcases hc with hc | hc <;> rw [hc] <;> simp
        · intro hz0
          exact absurd hz0 hz'
    · rw [if_neg hg]
      simpa [GameInv] using ⟨h0, h21, hc, hs0, hs1, hz⟩
  | skip p =>
    by_cases hcp : g.current_player = p
    · have hne : g.state = GameState.PLAYING → g.stones ≠ 0 := fun hp hz0 => by
        have := (hz hz0).1
        rw [hp] at this
        exact GameState.noConfusion this
      rcases hc with hc | hc
      · have hp0 : p = 0 := by rw [← hcp, hc]
        subst hp0
        simp only [applyOp, game_skip_turn_zero]
        refine ⟨_, rfl, ?_⟩
        by_cases hg : g.state = GameState.PLAYING ∧ g.current_player = 0 ∧ 0 < g.player_skips0
        · rw [if_pos hg]
          simp only [if_true]
          refine ⟨h0, h21, by simp [hc], ?_, hs1, ?_⟩
          · have := hg.2.2
            simp only
            omega
          · intro hz0
            exact absurd hz0 (hne hg.1)
        · rw [if_neg hg]
          simpa [GameInv] using ⟨h0, h21, Or.inl hc, hs0, hs1, hz⟩
      · have hp1 : p = 1 := by rw [← hcp, hc]
        subst hp1
        simp only [applyOp, game_skip_turn_one]
        refine ⟨_, rfl, ?_⟩
        by_cases hg : g.state = GameState.PLAYING ∧ g.current_player = 1 ∧ 0 < g.player_skips1
        · rw [if_pos hg]
          simp only [if_true]
          refine ⟨h0, h21, by simp [hc], hs0, ?_, ?_⟩
          · have := hg.2.2
            simp only
            omega
          · intro hz0
            exact absurd hz0 (hne hg.1)
        · rw [if_neg hg]
          simpa [GameInv] using ⟨h0, h21, Or.inr hc, hs0, hs1, hz⟩
    · simp only [applyOp, game_skip_turn_other g p hcp]
      refine ⟨_, rfl, ?_⟩
      simpa [GameInv] using ⟨h0, h21, hc, hs0, hs1, hz⟩

theorem applyOp_PlayInv (g : Game) (ms : List Move) (op : GameOp)
    (hi : GameInv g ms) (h : PlayInv g ms) (hop : op.isRestart = false) :
    ∀ r, applyOp g op = some r → PlayInv r.1 (ms ++ r.2) := by
  obtain ⟨_, _, hc, _, _, _⟩ := hi
  obtain ⟨hsum, hk0, hk1, hko⟩ := h
  intro r hr
  cases op with
  | start => simp [GameOp.isRestart] at hop
  | reset => simp [GameOp.isRestart] at hop
  | pause =>
    simp only [applyOp, Option.some.injEq] at hr
    subst hr
    unfold game_pause
    split_ifs <;> simpa [PlayInv] using ⟨hsum, hk0, hk1, hko⟩
  | resume =>
    simp only [applyOp, Option.some.injEq] at hr
    subst hr
    unfold game_resume
    split_ifs <;> simpa [PlayInv] using ⟨hsum, hk0, hk1, hko⟩
  | take p k =>
    simp only [applyOp, Option.some.injEq] at hr
    subst hr
    rw [game_take_stones_eq]
    by_cases hg : g.state = GameState.PLAYING ∧ g.current_player = p ∧ 1 ≤ k ∧ k ≤ 3 ∧
        k ≤ g.stones
    · rw [if_pos hg]
      by_cases hz' : g.stones - k = 0
      · rw [if_pos hz']
        simp only [if_true, PlayInv, takenSum_append, skipCount_append, takenSum, skipCount]
        refine ⟨by omega, by simpa using hk0, by simpa using hk1, ?_⟩
        intro q hq0 hq1
        simpa using hko q hq0 hq1
      · rw [if_neg hz']
        simp only [if_true, PlayInv, takenSum_append, skipCount_append, takenSum, skipCount]
        refine ⟨by omega, by simpa using hk0, by simpa using hk1, ?_⟩
        intro q hq0 hq1
        simpa using hko q hq0 hq1
    · rw [if_neg hg]
      simpa [PlayInv] using ⟨hsum, hk0, hk1, hko⟩
  | skip p =>
    by_cases hcp : g.current_player = p
    · rcases hc with hc | hc
      · have hp0 : p = 0 := by rw [← hcp, hc]
        subst hp0
        simp only [applyOp, game_skip_turn_zero, Option.some.injEq] at hr
        subst hr
        by_cases hg : g.state = GameState.PLAYING ∧ g.current_player = 0 ∧ 0 < g.player_skips0
        · rw [if_pos hg]
          simp only [if_true, PlayInv, takenSum_append, skipCount_append, takenSum, skipCount]
          refine ⟨by simpa using hsum, ?_, by simpa using hk1, ?_⟩
          · push_cast
            omega
          · intro q hq0 hq1
            have hq0' : ¬ (0 : Int) = q := fun h => hq0 h.symm
            simpa [hq0'] using hko q hq0 hq1
        · rw [if_neg hg]
          simpa [PlayInv] using ⟨hsum, hk0, hk1, hko⟩
      · have hp1 : p = 1 := by rw [← hcp, hc]
        subst hp1
        simp only [applyOp, game_skip_turn_one, Option.some.injEq] at hr
        subst hr
        by_cases hg : g.state = GameState.PLAYING ∧ g.current_player = 1 ∧ 0 < g.player_skips1
        · rw [if_pos hg]
          simp only [if_true, PlayInv, takenSum_append, skipCount_append, takenSum, skipCount]
          refine ⟨by simpa using hsum, by simpa using hk0, ?_, ?_⟩
          · push_cast
            omega
          · intro q hq0 hq1
            have hq1' : ¬ (1 : Int) = q := fun h => hq1 h.symm
            simpa [hq1'] using hko q hq0 hq1
        · rw [if_neg hg]
          simpa [PlayInv] using ⟨hsum, hk0, hk1, hko⟩
    · simp only [applyOp, game_skip_turn_other g p hcp, Option.some.injEq] at hr
      subst hr
      simpa [PlayInv] using ⟨hsum, hk0, hk1, hko⟩

theorem runFrom_GameInv (ops : List GameOp) :
    ∀ st : Game × List Move, GameInv st.1 st.2 →
      ∃ st', runFrom st ops = some st' ∧ GameInv st'.1 st'.2 := by
  induction ops with
  | nil =>
    intro st h
    exact ⟨st, rfl, h⟩
  | cons op ops ih =>
    intro st h
    obtain ⟨r, hr, hinv⟩ := applyOp_GameInv st.1 st.2 op h
    obtain ⟨st', hst', hinv'⟩ := ih (r.1, st.2 ++ r.2) hinv
    exact ⟨st', by simp [runFrom, hr, hst'], hinv'⟩

theorem runFrom_PlayInv (ops : List GameOp) (hops : ∀ op ∈ ops, op.isRestart = false) :
    ∀ st : Game × List Move, GameInv st.1 st.2 → PlayInv st.1 st.2 →
      ∃ st', runFrom st ops = some st' ∧ GameInv st'.1 st'.2 ∧ PlayInv st'.1 st'.2 := by
  induction ops with
  | nil =>
    intro st h hp
    exact ⟨st, rfl, h, hp⟩
  | cons op ops ih =>
    intro st h hp
    obtain ⟨r, hr, hinv⟩ := applyOp_GameInv st.1 st.2 op h
    have hplay := applyOp_PlayInv st.1 st.2 op h hp (hops op (List.mem_cons_self _ _)) r hr
    obtain ⟨st', hst', hinv', hplay'⟩ :=
      ih (fun o ho => hops o (List.mem_cons_of_mem _ ho)) (r.1, st.2 ++ r.2) hinv hplay
    exact ⟨st', by simp [runFrom, hr, hst'], hinv', hplay'⟩

theorem game_init_GameInv (g0 : Game) : GameInv (game_init g0) [] := by
  simp [GameInv, game_init, INITIAL_STONES, SKIPS_PER_PLAYER]

theorem game_start_GameInv (g0 : Game) : GameInv (game_start g0) [] := by
  simp [GameInv, game_start, INITIAL_STONES, SKIPS_PER_PLAYER]

theorem game_start_PlayInv (g0 : Game) : PlayInv (game_start g0) [] := by
  simp [PlayInv, game_start, INITIAL_STONES, SKIPS_PER_PLAYER, takenSum, skipCount]

/-! ## Reads after writes in the server state -/

theorem list_set_get {α : Type} (l : List α) (i j : Nat) (a : α) :
    (l.set i a)[j]? = if i = j then (l[j]?).map (fun _ => a) else l[j]? := by
  by_cases h : i = j
  · subst h
    rw [if_pos rfl, List.getElem?_set_self']
    rfl
  · rw [if_neg h, List.getElem?_set_ne h]

theorem setPlayer_players (s : Server) (i j : Nat) (p : Player) :
    (s.setPlayer i p).players[j]? =
      if i = j then (s.players[j]?).map (fun _ => p) else s.players[j]? :=
  list_set_get s.players i j p

theorem setPlayer_rooms (s : Server) (i : Nat) (p : Player) :
    (s.setPlayer i p).rooms = s.rooms := rfl

theorem updPlayer_players (s : Server) (i j : Nat) (f : Player → Player) :
    (s.updPlayer i f).players[j]? =
      if i = j then (s.players[j]?).map f else s.players[j]? := by
  unfold Server.updPlayer
  cases hq : s.players[i]? with
  | none =>
    by_cases h : i = j
    · subst h
      simp [hq]
    · simp [h]
  | some q =>
    rw [setPlayer_players]
    by_cases h : i = j
    · subst h
      simp [hq]
    · simp [h]

theorem updPlayer_rooms (s : Server) (i : Nat) (f : Player → Player) :
    (s.updPlayer i f).rooms = s.rooms := by
  unfold Server.updPlayer
  cases s.players[i]? <;> rfl

theorem setRoom_rooms (s : Server) (r k : Nat) (x : Room) :
    (s.setRoom r x).rooms[k]? =
      if r = k then (s.rooms[k]?).map (fun _ => x) else s.rooms[k]? :=
  list_set_get s.rooms r k x

theorem setRoom_players (s : Server) (r : Nat) (x : Room) :
    (s.setRoom r x).players = s.players := rfl

theorem take_accepted_final {g : Game} {p k : Int}
    (hacc : (game_take_stones g p k).1 = true)
    (hzero : (game_take_stones g p k).2.stones = 0) :
    g.state = GameState.PLAYING ∧ g.current_player = p ∧ 1 ≤ k ∧ k ≤ 3 ∧ k ≤ g.stones ∧
    game_take_stones g p k =
      (true, { g with stones := 0, state := GameState.FINISHED, winner := 1 - p }) := by
  rw [game_take_stones_eq] at hacc hzero ⊢
  by_cases hg : g.state = GameState.PLAYING ∧ g.current_player = p ∧ 1 ≤ k ∧ k ≤ 3 ∧
      k ≤ g.stones
  · rw [if_pos hg] at hacc hzero ⊢
    by_cases hz : g.stones - k = 0
    · rw [if_pos hz]
      simp only [hz]
      exact ⟨hg.1, hg.2.1, hg.2.2.1, hg.2.2.2.1, hg.2.2.2.2, trivial⟩
    · rw [if_neg hz] at hzero
      exact absurd hzero hz
  · rw [if_neg hg] at hacc
    simp at hacc

theorem snprintf_short {size : Nat} {text : List Char} (h : text.length ≤ size - 1) :
    snprintf size text = text := by
  unfold snprintf
  exact List.take_of_length_le h

/-! ## Game rules -/

/-- C1. `game_take_stones g p k` returns `true` exactly when the phase is PLAYING,
`p` is the current player, `1 ≤ k ≤ 3` and `k ≤ stones`; when it returns `true` the
stones are decreased by exactly `k`, both skip credits are unchanged, and either
the stones reached 0 and the phase is FINISHED with winner `1 - p`, or the stones
are still positive, the phase is still PLAYING and the current player is toggled. -/
theorem game_take_stones_contract (g : Game) (p k : Int) :
    ((game_take_stones g p k).1 = true ↔
      (g.state = GameState.PLAYING ∧ p = g.current_player ∧ 1 ≤ k ∧ k ≤ 3 ∧
        k ≤ g.stones)) ∧
    ((game_take_stones g p k).1 = true →
      (game_take_stones g p k).2.stones = g.stones - k ∧
      (game_take_stones g p k).2.player_skips0 = g.player_skips0 ∧
      (game_take_stones g p k).2.player_skips1 = g.player_skips1 ∧
      (((game_take_stones g p k).2.stones = 0 ∧
          (game_take_stones g p k).2.state = GameState.FINISHED ∧
          (game_take_stones g p k).2.winner = 1 - p) ∨
        (0 < (game_take_stones g p k).2.stones ∧
          (game_take_stones g p k).2.state = GameState.PLAYING ∧
          (game_take_stones g p k).2.current_player = 1 - g.current_player))) := by
  unfold game_take_stones game_validate_take_count MIN_TAKE MAX_TAKE
  by_cases h1 : g.state = GameState.PLAYING
  · by_cases h2 : g.current_player = p
    · by_cases h3 : k < 1 ∨ k > 3
      · simp [h1, h2, h3]
        intros
        omega
      · by_cases h4 : k > g.stones
        · simp [h1, h2, h3, h4]
        · by_cases h5 : g.stones - k = 0
          · simp [h1, h2, h3, h4, h5]
            omega
          · simp [h1, h2, h3, h4, h5]
            omega
    · simp [h1, h2]
      intro h
      exact absurd h.symm h2
  · simp [h1]

/-- C2. For a player index `p` (0 or 1) `game_skip_turn g p` is defined, and it
returns `true` exactly when the phase is PLAYING, `p` is the current player and
`player_skips[p] > 0`; when it returns `true`, `player_skips[p]` is decreased by
exactly one and the current player is toggled, while the stones, the phase, the
winner and the other player's skip credit are unchanged. -/
theorem game_skip_turn_contract (g : Game) (p : Int) (hp : p = 0 ∨ p = 1) :
    ∃ b g' s, game_skip_turn g p = some (b, g') ∧ g.player_skips p = some s ∧
      (b = true ↔ (g.state = GameState.PLAYING ∧ p = g.current_player ∧ 0 < s)) ∧
      (b = true →
        g'.player_skips p = some (s - 1) ∧
        g'.current_player = 1 - g.current_player ∧
        g'.stones = g.stones ∧ g'.state = g.state ∧ g'.winner = g.winner ∧
        g'.player_skips (1 - p) = g.player_skips (1 - p)) := by
  unfold game_skip_turn
  by_cases h1 : g.state = GameState.PLAYING
  · by_cases h2 : g.current_player = p
    · rcases hp with hp | hp
      · subst hp
        by_cases h3 : g.player_skips0 ≤ 0
        · simp [h1, h2, h3, Game.player_skips, Game.set_player_skips]
        · simp [h1, h2, h3, Game.player_skips, Game.set_player_skips]
          omega
      · subst hp
        by_cases h3 : g.player_skips1 ≤ 0
        · simp [h1, h2, h3, Game.player_skips, Game.set_player_skips]
        · simp [h1, h2, h3, Game.player_skips, Game.set_player_skips]
          omega
    · have h2n : ¬ p = g.current_player := fun h => h2 h.symm
      rcases hp with hp | hp <;> subst hp <;>
        simp [h1, h2, h2n, Game.player_skips]
  · rcases hp with hp | hp <;> subst hp <;> simp [h1, Game.player_skips]

/-- Witness of C2: player 0 skips at the start of a game. -/
theorem game_skip_turn_contract_witness :
    ∃ b g' s, game_skip_turn (game_start (game_init ⟨GameState.WAITING, 0, 0, 0, 0, 0⟩)) 0
        = some (b, g') ∧
      (game_start (game_init ⟨GameState.WAITING, 0, 0, 0, 0, 0⟩)).player_skips 0 = some s ∧
      (b = true ↔
        ((game_start (game_init ⟨GameState.WAITING, 0, 0, 0, 0, 0⟩)).state = GameState.PLAYING ∧
          (0 : Int) = (game_start (game_init ⟨GameState.WAITING, 0, 0, 0, 0, 0⟩)).current_player ∧
          0 < s)) ∧
      (b = true →
        g'.player_skips 0 = some (s - 1) ∧
        g'.current_player =
          1 - (game_start (game_init ⟨GameState.WAITING, 0, 0, 0, 0, 0⟩)).current_player ∧
        g'.stones = (game_start (game_init ⟨GameState.WAITING, 0, 0, 0, 0, 0⟩)).stones ∧
        g'.state = (game_start (game_init ⟨GameState.WAITING, 0, 0, 0, 0, 0⟩)).state ∧
        g'.winner = (game_start (game_init ⟨GameState.WAITING, 0, 0, 0, 0, 0⟩)).winner ∧
        g'.player_skips (1 - 0) =
          (game_start (game_init ⟨GameState.WAITING, 0, 0, 0, 0, 0⟩)).player_skips (1 - 0)) :=
  game_skip_turn_contract _ 0 (Or.inl rfl)

/-- C7. A call of `game_take_stones` that returns `false` leaves the game record
exactly as it was, and so does a call of `game_skip_turn` that returns `false`;
`game_skip_turn` is defined for both player indices. -/
theorem rejected_move_leaves_game_unchanged :
    (∀ (g : Game) (p k : Int),
      (game_take_stones g p k).1 = false → (game_take_stones g p k).2 = g) ∧
    (∀ (g : Game) (p : Int) (g' : Game),
      game_skip_turn g p = some (false, g') → g' = g) ∧
    (∀ (g : Game) (p : Int), p = 0 ∨ p = 1 → (game_skip_turn g p).isSome = true) := by
  refine ⟨?_, ?_, ?_⟩
  · intro g p k
    unfold game_take_stones
    dsimp only
    split_ifs <;> simp
  · intro g p g'
    unfold game_skip_turn
    split_ifs
    · simp
      intro h
      exact h.symm
    · simp
      intro h
      exact h.symm
    · cases hs : g.player_skips p with
      | none => simp
      | some s =>
        simp only []
        split_ifs
        · simp
          intro h
          exact h.symm
        · cases hw : g.set_player_skips p (s - 1) <;> simp
  · intro g p hp
    rcases hp with hp | hp <;> subst hp
    · rw [game_skip_turn_zero]; rfl
    · rw [game_skip_turn_one]; rfl

/-- C9. `game_pause` changes a record only when its phase is PLAYING, and then only
the phase, to PAUSED; `game_resume` changes a record only when its phase is PAUSED,
and then only the phase, to PLAYING; so resuming a paused PLAYING game gives the
game back unchanged. -/
theorem game_pause_resume_contract (g : Game) :
    (g.state ≠ GameState.PLAYING → game_pause g = g) ∧
    (g.state = GameState.PLAYING → game_pause g = { g with state := GameState.PAUSED }) ∧
    (g.state ≠ GameState.PAUSED → game_resume g = g) ∧
    (g.state = GameState.PAUSED → game_resume g = { g with state := GameState.PLAYING }) ∧
    (game_pause g).stones = g.stones ∧
    (game_pause g).current_player = g.current_player ∧
    (game_pause g).player_skips0 = g.player_skips0 ∧
    (game_pause g).player_skips1 = g.player_skips1 ∧
    (game_pause g).winner = g.winner ∧
    (game_resume g).stones = g.stones ∧
    (game_resume g).current_player = g.current_player ∧
    (game_resume g).player_skips0 = g.player_skips0 ∧
    (game_resume g).player_skips1 = g.player_skips1 ∧
    (game_resume g).winner = g.winner ∧
    (g.state = GameState.PLAYING → game_resume (game_pause g) = g) := by
  unfold game_pause game_resume
  refine ⟨?_, ?_, ?_, ?_, ?_, ?_, ?_, ?_, ?_, ?_, ?_, ?_, ?_, ?_, ?_⟩ <;>
    first
      | (intro h; cases g; simp_all)
      | (split_ifs <;> rfl)

/-- C4. Every sequence of `game_start`, `game_take_stones`, `game_skip_turn`,
`game_pause`, `game_resume` and `game_reset` calls applied to the result of
`game_init` runs without an access outside `player_skips`, and in the game record
it reaches: `0 ≤ stones ≤ 21`, the current player is 0 or 1, each skip credit is 0
or 1, `stones = 0` implies that the phase is FINISHED and the winner is `1 - p` for
the player `p` of the last accepted take, and phase PLAYING implies `stones > 0`. -/
theorem reachable_game_invariant (g0 : Game) (ops : List GameOp) :
    ∃ g ms, runOps (game_init g0) ops = some (g, ms) ∧
      0 ≤ g.stones ∧ g.stones ≤ 21 ∧
      (g.current_player = 0 ∨ g.current_player = 1) ∧
      (g.player_skips0 = 0 ∨ g.player_skips0 = 1) ∧
      (g.player_skips1 = 0 ∨ g.player_skips1 = 1) ∧
      (g.stones = 0 →
        g.state = GameState.FINISHED ∧ ∃ p, lastTaker ms = some p ∧ g.winner = 1 - p) ∧
      (g.state = GameState.PLAYING → 0 < g.stones) := by
  obtain ⟨st, hst, h0, h21, hc, hs0, hs1, hz⟩ :=
    runFrom_GameInv ops (game_init g0, []) (game_init_GameInv g0)
  refine ⟨st.1, st.2, hst, h0, h21, hc, hs0, hs1, hz, ?_⟩
  intro hp
  rcases lt_or_eq_of_le h0 with h | h
  · exact h
  · have := (hz h.symm).1
    rw [hp] at this
    exact GameState.noConfusion this

/-- C5. For every sequence of take, skip, pause and resume calls applied to a
freshly started game, 21 minus the stones left equals the sum of the counts of
the accepted takes; so when no stone is left the accepted takes sum to exactly 21
and the winner is the opponent of the player whose take was accepted last. -/
theorem accepted_takes_sum (g0 : Game) (ops : List GameOp)
    (hops : ∀ op ∈ ops, op.isRestart = false) :
    ∃ g ms, runOps (game_start g0) ops = some (g, ms) ∧
      21 - g.stones = takenSum ms ∧
      (g.stones = 0 →
        takenSum ms = 21 ∧ g.state = GameState.FINISHED ∧
        ∃ p, lastTaker ms = some p ∧ g.winner = 1 - p) := by
  obtain ⟨st, hst, ⟨_, _, _, _, _, hz⟩, hsum, _⟩ :=
    runFrom_PlayInv ops hops (game_start g0, []) (game_start_GameInv g0)
      (game_start_PlayInv g0)
  refine ⟨st.1, st.2, hst, by omega, ?_⟩
  intro h
  exact ⟨by omega, (hz h).1, (hz h).2⟩

/-- Witness of C5: the game of the first scenario, seven takes of three stones. -/
theorem accepted_takes_sum_witness :
    ∃ g ms, runOps (game_start ⟨GameState.WAITING, 21, 0, 1, 1, -1⟩)
        [GameOp.take 0 3, GameOp.take 1 3, GameOp.take 0 3, GameOp.take 1 3,
          GameOp.take 0 3, GameOp.take 1 3, GameOp.take 0 3] = some (g, ms) ∧
      21 - g.stones = takenSum ms ∧
      (g.stones = 0 →
        takenSum ms = 21 ∧ g.state = GameState.FINISHED ∧
        ∃ p, lastTaker ms = some p ∧ g.winner = 1 - p) :=
  accepted_takes_sum _ _ (by decide)

/-! ## Take that ends the game -/

theorem game_over_text {winner loser : List Char}
    (hw : winner.length ≤ MAX_NICKNAME_LENGTH) (hl : loser.length ≤ MAX_NICKNAME_LENGTH) :
    protocol_create_game_over BUFFER_SIZE winner loser =
      "GAME_OVER;".toList ++ winner ++ ";".toList ++ loser ++ "\n".toList := by
  unfold protocol_create_game_over
  apply snprintf_short
  simp only [List.length_append, BUFFER_SIZE, MAX_NICKNAME_LENGTH] at *
  have h1 : "GAME_OVER;".toList.length = 10 := rfl
  have h2 : ";".toList.length = 1 := rfl
  have h3 : "\n".toList.length = 1 := rfl
  omega

theorem handle_take_final_aux
    (s : Server) (slot o r : Nat) (msg : ParsedMessage) (player opp : Player) (room : Room)
    (hplayer : s.players[slot]? = some player)
    (hopp : s.players[o]? = some opp)
    (hne : o ≠ slot)
    (hstate : player.state = PlayerState.IN_GAME)
    (hsock : 0 ≤ player.socket_fd)
    (hfind : room_find_by_id s.rooms player.room_id = some r)
    (hroom : s.rooms[r]? = some room)
    (hcells : (room.players0 = some slot ∧ room.players1 = some o) ∨
      (room.players0 = some o ∧ room.players1 = some slot))
    (hcount : room.player_count = 2)
    (hparam : 1 ≤ msg.param_count)
    (hacc : (game_take_stones room.game (room_get_player_index room (some slot))
      (atoi (msg.param 0))).1 = true)
    (hzero : (game_take_stones room.game (room_get_player_index room (some slot))
      (atoi (msg.param 0))).2.stones = 0) :
    ∃ s', handle_take s slot msg = some (s',
        (slot, protocol_create_game_over BUFFER_SIZE opp.nickname player.nickname) ::
          (if 0 ≤ opp.socket_fd then
            [(o, protocol_create_game_over BUFFER_SIZE opp.nickname player.nickname)]
          else [])) ∧
      s'.players[slot]? = some { player with state := PlayerState.LOBBY, room_id := -1 } ∧
      s'.players[o]? = some { opp with state := PlayerState.LOBBY, room_id := -1 } ∧
      ∃ room', s'.rooms[r]? = some room' ∧ room'.is_active = false := by
  have hne' : slot ≠ o := fun h => hne h.symm
  have hparam' : ¬ msg.param_count < 1 := by omega
  rcases hcells with ⟨h0, h1⟩ | ⟨h0, h1⟩
  · have hidx : room_get_player_index room (some slot) = 0 := by
      simp [room_get_player_index, h0]
    rw [hidx] at hacc hzero
    obtain ⟨hpl, hcur, hk1, hk3, hks, htake⟩ := take_accepted_final hacc hzero
    have hturn : game_is_player_turn room.game 0 = true := by
      simp [game_is_player_turn, hpl, hcur]
    have hvalid : game_validate_take_count room.game (atoi (msg.param 0)) = true := by
      unfold game_validate_take_count MIN_TAKE MAX_TAKE
      have h1 : ¬ (atoi (msg.param 0) < 1 ∨ atoi (msg.param 0) > 3) := by omega
      have h2 : ¬ (atoi (msg.param 0) > room.game.stones) := by omega
      simp [h1, h2]
    unfold handle_take
    simp only [hplayer, hstate, hfind, hroom, hidx, hparam', hturn, hvalid, ne_eq,
      not_true_eq_false, if_false, Bool.not_true, Bool.false_eq_true, htake]
    simp only [game_is_over, game_get_winner, Room.players, h0, h1, setRoom_players, hplayer,
      hopp, has_socket, server_send_to_player, hsock, room_get_opponent, hne, hne']
    simp [hplayer, hopp, hsock, hne, hne', room_remove_player, player_set_state,
      updPlayer_players, updPlayer_rooms, setRoom_rooms, setRoom_players, hroom, hcount,
      room_is_empty, room_destroy]
    refine ⟨_, ⟨rfl, ?_⟩, ?_, ?_, ?_⟩
    · split_ifs <;> rfl
    · simp [updPlayer_players, setRoom_players, hplayer, hne, hne']
    · simp [updPlayer_players, setRoom_players, hopp, hne, hne']
    · simp [updPlayer_rooms, setRoom_rooms, hroom]
  · have hidx : room_get_player_index room (some slot) = 1 := by
      simp [room_get_player_index, h0, h1, hne]
    rw [hidx] at hacc hzero
    obtain ⟨hpl, hcur, hk1, hk3, hks, htake⟩ := take_accepted_final hacc hzero
    have hturn : game_is_player_turn room.game 1 = true := by
      simp [game_is_player_turn, hpl, hcur]
    have hvalid : game_validate_take_count room.game (atoi (msg.param 0)) = true := by
      unfold game_validate_take_count MIN_TAKE MAX_TAKE
      have h1 : ¬ (atoi (msg.param 0) < 1 ∨ atoi (msg.param 0) > 3) := by omega
      have h2 : ¬ (atoi (msg.param 0) > room.game.stones) := by omega
      simp [h1, h2]
    unfold handle_take
    simp only [hplayer, hstate, hfind, hroom, hidx, hparam', hturn, hvalid, ne_eq,
      not_true_eq_false, if_false, Bool.not_true, Bool.false_eq_true, htake]
    simp only [game_is_over, game_get_winner, Room.players, h0, h1, setRoom_players, hplayer,
      hopp, has_socket, server_send_to_player, hsock, room_get_opponent, hne, hne']
    simp [hplayer, hopp, hsock, hne, hne', room_remove_player, player_set_state,
      updPlayer_players, updPlayer_rooms, setRoom_rooms, setRoom_players, hroom, hcount,
      room_is_empty, room_destroy]
    refine ⟨_, ⟨rfl, ?_⟩, ?_, ?_, ?_⟩
    · split_ifs <;> rfl
    · simp [updPlayer_players, setRoom_players, hplayer, hne, hne']
    · simp [updPlayer_players, setRoom_players, hopp, hne, hne']
    · simp [updPlayer_rooms, setRoom_rooms, hroom]

/-- Counterexample to C3 as stated.  Alice and bob play with one stone left and it
is alice's turn; both connections drop, alice logs in again on a new connection
(the game is PLAYING again, bob is still DISCONNECTED) and takes the last stone:
`GAME_OVER;bob;alice` is sent to alice only, nothing is sent to bob. -/
theorem handle_take_game_over_counterexample :
    ((scenario_alice_back 1).map (fun st =>
        (st.1.rooms[0]?.map (fun room => (room.game, room.players0, room.players1)),
          st.1.players[1]?.map (fun p => (p.state, p.socket_fd)),
          st.1.players[2]?.map (fun p => (p.state, p.nickname))))
      = some (some (⟨GameState.PLAYING, 1, 0, 1, 1, -1⟩, some 2, some 1),
          some (PlayerState.DISCONNECTED, -1),
          some (PlayerState.IN_GAME, "alice".toList))) ∧
    (((scenario_alice_back 1).bind (fun st =>
        handle_take st.1 2 (take_message "1".toList))).map (fun st => st.2)
      = some [(2, "GAME_OVER;bob;alice\n".toList)]) := by
  constructor <;> rfl

/-! ## Start of a game -/

/-- C8, as the code has it.  The rule that a game starts only from WAITING is
enforced by `room_start_game`: for a room whose game is PLAYING, PAUSED or
FINISHED it returns `false` and leaves every room and player record unchanged.
`game_start` itself checks nothing and always yields the start position:
PLAYING, 21 stones, current player 0, skip credits (1,1), no winner. -/
theorem room_start_game_guard (s : Server) (r : Nat) (room : Room)
    (hroom : s.rooms[r]? = some room) (hstate : room.game.state ≠ GameState.WAITING) :
    room_start_game s r = (false, s) ∧
    ∀ g : Game, game_start g = ⟨GameState.PLAYING, 21, 0, 1, 1, -1⟩ := by
  constructor
  · unfold room_start_game
    simp only [hroom]
    split_ifs <;> rfl
  · intro g
    rfl

/-- Witness of C8: the room of a game in progress. -/
theorem room_start_game_guard_witness :
    room_start_game (scenario_server 5) 0 = (false, scenario_server 5) ∧
    ∀ g : Game, game_start g = ⟨GameState.PLAYING, 21, 0, 1, 1, -1⟩ :=
  room_start_game_guard (scenario_server 5) 0
    (scenario_room ⟨GameState.PLAYING, 5, 0, 1, 1, -1⟩) rfl (by decide)

/-- Counterexample to C8 as stated: `game_start` applied to a PLAYING game with 5
stones, player 1 to move and player 0 out of skips is not rejected; it yields the
start position. -/
theorem game_start_unguarded_counterexample :
    game_start ⟨GameState.PLAYING, 5, 1, 0, 1, -1⟩ = ⟨GameState.PLAYING, 21, 0, 1, 1, -1⟩ ∧
    (⟨GameState.PLAYING, 21, 0, 1, 1, -1⟩ : Game) ≠ ⟨GameState.PLAYING, 5, 1, 0, 1, -1⟩ := by
  constructor <;> decide

/-! ## Disconnect and reconnect -/

theorem find_first_eq_some {α : Type} (test : α → Bool) :
    ∀ (l : List α) (d : Nat) (x : α), l[d]? = some x → test x = true →
      (∀ i y, i < d → l[i]? = some y → test y = false) → find_first test l = some d := by
  intro l
  induction l with
  | nil =>
    intro d x h
    simp at h
  | cons a l ih =>
    intro d x h hx hlt
    cases d with
    | zero =>
      simp at h
      subst h
      simp [find_first, hx]
    | succ d =>
      have ha : test a = false := hlt 0 a (Nat.succ_pos d) (by simp)
      simp only [List.getElem?_cons_succ] at h
      have := ih d x h hx (fun i y hi hy => hlt (i + 1) y (Nat.succ_lt_succ hi) (by simpa using hy))
      simp [find_first, ha, this]

theorem room_find_by_id_eq_some {rooms : List Room} {id : Int} {r : Nat} :
    room_find_by_id rooms id = some r ↔
      0 ≤ id ∧ id < rooms.length ∧ id.toNat = r ∧
        ∃ room, rooms[r]? = some room ∧ room.is_active = true := by
  unfold room_find_by_id
  by_cases h : id < 0 ∨ id ≥ rooms.length
  · simp only [h, if_true]
    constructor
    · intro h'
      cases h'
    · rintro ⟨h1, h2, _⟩
      omega
  · simp only [h, if_false]
    have h1 : 0 ≤ id := by omega
    have h2 : id < rooms.length := by omega
    cases hr : rooms[id.toNat]? with
    | none =>
      simp only []
      constructor
      · intro h'
        cases h'
      · rintro ⟨_, _, h3, room, h4, _⟩
        rw [← h3, hr] at h4
        cases h4
    | some room =>
      simp only []
      by_cases ha : room.is_active = true
      · simp only [ha, if_true, Option.some.injEq]
        constructor
        · intro h'
          subst h'
          exact ⟨h1, h2, rfl, room, hr, ha⟩
        · rintro ⟨_, _, h3, _⟩
          exact h3
      · simp only [ha, if_false]
        constructor
        · intro h'
          cases h'
        · rintro ⟨_, _, h3, room', h4, h5⟩
          rw [← h3, hr] at h4
          cases h4
          exact absurd h5 ha

theorem handle_login_resume_aux
    (s : Server) (d o j r : Nat) (N D O : Player) (room : Room) (nick : List Char) (t : Int)
    (hN : s.players[j]? = some N) (hD : s.players[d]? = some D) (hO : s.players[o]? = some O)
    (hjd : j ≠ d) (hjo : j ≠ o) (hod : o ≠ d)
    (hNstate : N.state = PlayerState.CONNECTING) (hNsock : 0 ≤ N.socket_fd)
    (hDstate : D.state = PlayerState.DISCONNECTED)
    (hvalid : protocol_validate_nickname nick = ErrorCode.ERR_NONE)
    (hfd : player_find_disconnected s.players nick = some d)
    (hfind : room_find_by_id s.rooms D.room_id = some r)
    (hroom : s.rooms[r]? = some room)
    (hpaused : room.game.state = GameState.PAUSED)
    (idx : Int)
    (hcells : (idx = 0 ∧ room.players0 = some d ∧ room.players1 = some o) ∨
      (idx = 1 ∧ room.players0 = some o ∧ room.players1 = some d)) :
    ∃ opp_skips, room.game.player_skips (1 - idx) = some opp_skips ∧
      ∃ s3, handle_login s j (login_message nick) t =
        some (s3,
          [(j, protocol_create_login_ok BUFFER_SIZE),
            (j, protocol_create_game_resumed BUFFER_SIZE room.game.stones
              (decide (room.game.current_player = idx)) D.skips_remaining opp_skips)] ++
          (if 0 ≤ O.socket_fd then
            [(o, protocol_create_player_status BUFFER_SIZE nick
              PlayerStatusType.STATUS_RECONNECTED)]
          else [])) ∧
      s3.rooms[r]? = some
        { room_replace_player room d j with game := game_resume room.game } ∧
      room_get_player_index (room_replace_player room d j) (some j) = idx ∧
      s3.players[j]? = some
        { player_set_nickname N nick with
          room_id := D.room_id
          skips_remaining := D.skips_remaining
          state := PlayerState.IN_GAME } := by
  have hdj : d ≠ j := fun h => hjd h.symm
  have hoj : o ≠ j := fun h => hjo h.symm
  have hdo : d ≠ o := fun h => hod h.symm
  obtain ⟨hrid, hrlt, hrnat, room0, hroom0, hactive0⟩ := room_find_by_id_eq_some.mp hfind
  have hfind2 : ∀ (l : List Room), l.length = s.rooms.length →
      (∃ x, l[r]? = some x ∧ x.is_active = true) → room_find_by_id l D.room_id = some r := by
    intro l hl hx
    rw [room_find_by_id_eq_some]
    exact ⟨hrid, by rw [hl]; exact hrlt, hrnat, hx⟩
  have hf := hfind2 s.rooms rfl ⟨room0, hroom0, hactive0⟩
  rcases hcells with ⟨hi, h0, h1⟩ | ⟨hi, h0, h1⟩
  · subst hi
    refine ⟨room.game.player_skips1, by simp [Game.player_skips], ?_⟩
    unfold handle_login
    simp only [hN, hNstate, login_message, ParsedMessage.param, hvalid, hfd, hD, hDstate,
      setPlayer_rooms, updPlayer_rooms, hf, hroom, hrid, ne_eq, not_true_eq_false, if_false,
      if_true, ge_iff_le, List.getD_cons_zero]
    simp [room_replace_player, h0, h1, hpaused, player_set_state, updPlayer_players,
      setPlayer_players, setRoom_players, hN, hD, hO, hjd, hdj, hjo, hoj, hod, hdo,
      room_get_player_index, Game.player_skips, game_resume, game_is_player_turn,
      game_get_stones, has_socket, server_send_to_player, room_get_opponent, hNsock,
      updPlayer_rooms, setRoom_rooms, setPlayer_rooms, hroom, player_set_nickname]
    refine ⟨_, ⟨rfl, ?_⟩, ?_, ?_⟩
    · split_ifs <;> rfl
    · simp [updPlayer_rooms, setRoom_rooms, setPlayer_rooms, hroom]
    · simp [updPlayer_players, setPlayer_players, setRoom_players, hN, hjd, hdj]
  · subst hi
    refine ⟨room.game.player_skips0, by simp [Game.player_skips], ?_⟩
    unfold handle_login
    simp only [hN, hNstate, login_message, ParsedMessage.param, hvalid, hfd, hD, hDstate,
      setPlayer_rooms, updPlayer_rooms, hf, hroom, hrid, ne_eq, not_true_eq_false, if_false,
      if_true, ge_iff_le, List.getD_cons_zero]
    simp [room_replace_player, h0, h1, hpaused, player_set_state, updPlayer_players,
      setPlayer_players, setRoom_players, hN, hD, hO, hjd, hdj, hjo, hoj, hod, hdo,
      room_get_player_index, Game.player_skips, game_resume, game_is_player_turn,
      game_get_stones, has_socket, server_send_to_player, room_get_opponent, hNsock,
      updPlayer_rooms, setRoom_rooms, setPlayer_rooms, hroom, player_set_nickname]
    refine ⟨_, ⟨rfl, ?_⟩, ?_, ?_⟩
    · split_ifs <;> rfl
    · simp [updPlayer_rooms, setRoom_rooms, setPlayer_rooms, hroom]
    · simp [updPlayer_players, setPlayer_players, setRoom_players, hN, hjd, hdj]

theorem valid_nickname_length {nick : List Char}
    (h : protocol_validate_nickname nick = ErrorCode.ERR_NONE) :
    nick.length ≤ MAX_NICKNAME_LENGTH := by
  unfold protocol_validate_nickname at h
  by_contra hlen
  have hgt : nick.length > MAX_NICKNAME_LENGTH := by omega
  by_cases h0 : nick.length = 0
  · simp [h0] at h
  · simp [h0, hgt] at h

theorem game_resume_pause {g : Game} (h : g.state = GameState.PLAYING) :
    game_resume (game_pause g) = g := by
  cases g
  simp_all [game_pause, game_resume]

theorem ungraceful_disconnect_aux
    (s : Server) (d o r : Nat) (P O : Player) (room : Room) (t : Int)
    (hP : s.players[d]? = some P) (hO : s.players[o]? = some O) (hne : o ≠ d)
    (hfind : room_find_by_id s.rooms P.room_id = some r)
    (hroom : s.rooms[r]? = some room)
    (hcells : (room.players0 = some d ∧ room.players1 = some o) ∨
      (room.players0 = some o ∧ room.players1 = some d))
    (hplaying : room.game.state = GameState.PLAYING) :
    server_handle_disconnect s d false t =
      (((s.setRoom r { room with game := game_pause room.game }).updPlayer d
          (fun p => player_reset p true t)),
        if 0 ≤ O.socket_fd then
          [(o, protocol_create_player_status BUFFER_SIZE P.nickname
            PlayerStatusType.STATUS_DISCONNECTED)]
        else []) := by
  have hrid : 0 ≤ P.room_id := (room_find_by_id_eq_some.mp hfind).1
  have hgopp : room_get_opponent room (some d) = some o := by
    rcases hcells with ⟨h0, h1⟩ | ⟨h0, h1⟩ <;> simp [room_get_opponent, h0, h1, hne]
  unfold server_handle_disconnect
  simp [hP, hrid, hfind, hroom, hgopp, hplaying, has_socket, hO, server_send_to_player]
  split_ifs <;> rfl

/-- The reconnect of a player whose room holds an opponent.  Let a player (slot `d`,
record `P`) be in a room whose game is PLAYING and which also holds an opponent's
record (slot `o`), let `P` carry a valid nickname that no other active record carries,
and let `idx` be the player's index in the room.  If the player is disconnected
ungracefully, a new connection is accepted in a free slot `j` and logs in with the same
nickname, nothing happening in between, then `handle_login` sends `LOGIN_OK` followed
by a `GAME_RESUMED` built from the stones, the your-turn flag and the opponent's skip
credit of the game position before the disconnect and from the `skips_remaining` of
the record `P`; the opponent, if connected, is sent `PLAYER_STATUS;<nick>;RECONNECTED`;
the game position is again the one before the disconnect, and the new record occupies
index `idx` of the room, in state IN_GAME. -/
theorem resume_after_disconnect
    (s : Server) (d o j r : Nat) (P O Q : Player) (room : Room) (fd t1 t2 t3 : Int)
    (idx : Int)
    (hP : s.players[d]? = some P) (hO : s.players[o]? = some O) (hQ : s.players[j]? = some Q)
    (hPact : P.is_active = true) (hOact : O.is_active = true) (hQfree : Q.is_active = false)
    (hne : o ≠ d)
    (hfd : 0 ≤ fd)
    (hvalid : protocol_validate_nickname P.nickname = ErrorCode.ERR_NONE)
    (huniq : ∀ i q, s.players[i]? = some q → q.is_active = true →
      q.nickname = P.nickname → i = d)
    (hfind : room_find_by_id s.rooms P.room_id = some r)
    (hroom : s.rooms[r]? = some room)
    (hcells : (idx = 0 ∧ room.players0 = some d ∧ room.players1 = some o) ∨
      (idx = 1 ∧ room.players0 = some o ∧ room.players1 = some d))
    (hplaying : room.game.state = GameState.PLAYING) :
    room_get_player_index room (some d) = idx ∧
    ∃ opp_skips, room.game.player_skips (1 - idx) = some opp_skips ∧
      ∃ s3,
        handle_login (accept_in_slot (server_handle_disconnect s d false t1).1 j fd t2) j
            (login_message P.nickname) t3 =
          some (s3,
            [(j, protocol_create_login_ok BUFFER_SIZE),
              (j, protocol_create_game_resumed BUFFER_SIZE room.game.stones
                (game_is_player_turn room.game idx) P.skips_remaining opp_skips)] ++
            (if 0 ≤ O.socket_fd then
              [(o, protocol_create_player_status BUFFER_SIZE P.nickname
                PlayerStatusType.STATUS_RECONNECTED)]
            else [])) ∧
        (∃ room3, s3.rooms[r]? = some room3 ∧ room3.game = room.game ∧
          room_get_player_index room3 (some j) = idx) ∧
        (∃ N, s3.players[j]? = some N ∧ N.state = PlayerState.IN_GAME ∧
          N.nickname = P.nickname ∧ N.room_id = P.room_id ∧
          N.skips_remaining = P.skips_remaining ∧ N.socket_fd = fd) := by
  have hjd : j ≠ d := by
    intro h; subst h; rw [hP] at hQ; cases hQ; rw [hPact] at hQfree; cases hQfree
  have hjo : j ≠ o := by
    intro h; subst h; rw [hO] at hQ; cases hQ; rw [hOact] at hQfree; cases hQfree
  have hdj : d ≠ j := fun h => hjd h.symm
  have hoj : o ≠ j := fun h => hjo h.symm
  have hcells' : (room.players0 = some d ∧ room.players1 = some o) ∨
      (room.players0 = some o ∧ room.players1 = some d) := by
    rcases hcells with ⟨_, h0, h1⟩ | ⟨_, h0, h1⟩
    · exact Or.inl ⟨h0, h1⟩
    · exact Or.inr ⟨h0, h1⟩
  have hindex : room_get_player_index room (some d) = idx := by
    rcases hcells with ⟨hi, h0, h1⟩ | ⟨hi, h0, h1⟩
    · simp [room_get_player_index, h0, hi]
    · simp [room_get_player_index, h0, h1, hi, hne]
  refine ⟨hindex, ?_⟩
  rw [ungraceful_disconnect_aux s d o r P O room t1 hP hO hne hfind hroom hcells' hplaying]
  obtain ⟨hrid, hrlt, hrnat, room0, hroom0, hactive0⟩ := room_find_by_id_eq_some.mp hfind
  have hactive : room.is_active = true := by
    rw [hroom] at hroom0; cases hroom0; exact hactive0
  have hfd' : player_find_disconnected
      (accept_in_slot ((s.setRoom r { room with game := game_pause room.game }).updPlayer d
        (fun p => player_reset p true t1)) j fd t2).players P.nickname = some d := by
    unfold player_find_disconnected
    apply find_first_eq_some _ _ d (player_reset P true t1)
    · simp [accept_in_slot, setPlayer_players, updPlayer_players, setRoom_players, hjd, hP]
    · simp [player_reset, hPact]
    · intro i y hi hy
      simp only [accept_in_slot, setPlayer_players, updPlayer_players, setRoom_players] at hy
      by_cases hji : j = i
      · subst hji
        simp only [if_true, hdj, if_false, hQ, Option.map_some', Option.some.injEq] at hy
        subst hy
        simp [player_create]
      · have hdi : ¬ d = i := by omega
        simp only [hji, hdi, if_false] at hy
        by_cases hact : y.is_active = true
        · by_cases hn : y.nickname = P.nickname
          · have := huniq i y hy hact hn
            omega
          · simp [hn]
        · simp [hact]
  have hfind2 : room_find_by_id
      (accept_in_slot ((s.setRoom r { room with game := game_pause room.game }).updPlayer d
        (fun p => player_reset p true t1)) j fd t2).rooms (player_reset P true t1).room_id
        = some r := by
    rw [room_find_by_id_eq_some]
    refine ⟨hrid, ?_, hrnat, { room with game := game_pause room.game }, ?_, hactive⟩
    · simpa [accept_in_slot, setPlayer_rooms, updPlayer_rooms, Server.setRoom, player_reset]
        using hrlt
    · simp [accept_in_slot, setPlayer_rooms, updPlayer_rooms, setRoom_rooms, hroom]
  have hpaused : game_pause room.game =
      { room.game with state := GameState.PAUSED } := by
    simp [game_pause, hplaying]
  obtain ⟨v, hv, s3, hlogin, hroom3, hidx3, hN3⟩ :=
    handle_login_resume_aux
      (accept_in_slot ((s.setRoom r { room with game := game_pause room.game }).updPlayer d
        (fun p => player_reset p true t1)) j fd t2)
      d o j r (player_create fd t2) (player_reset P true t1) O
      { room with game := game_pause room.game } P.nickname t3
      (by simp [accept_in_slot, setPlayer_players, updPlayer_players, setRoom_players, hQ, hdj])
      (by simp [accept_in_slot, setPlayer_players, updPlayer_players, setRoom_players, hjd, hP])
      (by simp [accept_in_slot, setPlayer_players, updPlayer_players, setRoom_players, hjo, hne.symm, hO])
      hjd hjo hne rfl (by simpa [player_create] using hfd) (by simp [player_reset])
      hvalid hfd' hfind2
      (by simp [accept_in_slot, setPlayer_rooms, updPlayer_rooms, setRoom_rooms, hroom])
      (by simp [hpaused]) idx (by simpa using hcells)
  have hnick : P.nickname.take MAX_NICKNAME_LENGTH = P.nickname :=
    List.take_of_length_le (valid_nickname_length hvalid)
  refine ⟨v, by simpa [hpaused, Game.player_skips] using hv, s3, ?_, ?_, ?_⟩
  · rw [hlogin]
    simp [hpaused, game_is_player_turn, hplaying, player_reset]
  · refine ⟨_, hroom3, ?_, ?_⟩
    · exact game_resume_pause hplaying
    · simpa [room_get_player_index, room_replace_player] using hidx3
  · refine ⟨_, hN3, rfl, ?_, ?_, ?_, ?_⟩
    · simp [player_set_nickname, hnick]
    · simp [player_reset]
    · simp [player_reset]
    · simp [player_set_nickname, player_create]

/-- C10, as the code has it.  Let a player (slot `d`, record `P`) be in a room whose
game is PLAYING and which also holds an opponent's record (slot `o`), let `P` carry a
valid nickname that no other active record carries and the skip count that the game
holds for the player, and let `idx` be the player's index in the room.  If the player
is disconnected ungracefully, a new connection is accepted in a free slot `j` and logs
in with the same nickname, nothing happening in between, then `handle_login` sends
`LOGIN_OK` followed by a `GAME_RESUMED` that carries the stones, the your-turn flag and
the own and the opponent's skip count of the game position before the disconnect; the
opponent, if connected, is sent `PLAYER_STATUS;<nick>;RECONNECTED`; the game position is
again exactly the one before the disconnect (so PLAYING), and the new record occupies
index `idx` of the room, in state IN_GAME. -/
theorem reconnect_is_lossless
    (s : Server) (d o j r : Nat) (P O Q : Player) (room : Room) (fd t1 t2 t3 : Int)
    (idx : Int)
    (hP : s.players[d]? = some P) (hO : s.players[o]? = some O) (hQ : s.players[j]? = some Q)
    (hPact : P.is_active = true) (hOact : O.is_active = true) (hQfree : Q.is_active = false)
    (hne : o ≠ d)
    (hfd : 0 ≤ fd)
    (hvalid : protocol_validate_nickname P.nickname = ErrorCode.ERR_NONE)
    (huniq : ∀ i q, s.players[i]? = some q → q.is_active = true →
      q.nickname = P.nickname → i = d)
    (hfind : room_find_by_id s.rooms P.room_id = some r)
    (hroom : s.rooms[r]? = some room)
    (hcells : (idx = 0 ∧ room.players0 = some d ∧ room.players1 = some o) ∨
      (idx = 1 ∧ room.players0 = some o ∧ room.players1 = some d))
    (hplaying : room.game.state = GameState.PLAYING)
    (hskips : room.game.player_skips idx = some P.skips_remaining) :
    room_get_player_index room (some d) = idx ∧
    ∃ own_skips opp_skips, room.game.player_skips idx = some own_skips ∧
      room.game.player_skips (1 - idx) = some opp_skips ∧
      ∃ s3,
        handle_login (accept_in_slot (server_handle_disconnect s d false t1).1 j fd t2) j
            (login_message P.nickname) t3 =
          some (s3,
            [(j, protocol_create_login_ok BUFFER_SIZE),
              (j, protocol_create_game_resumed BUFFER_SIZE room.game.stones
                (game_is_player_turn room.game idx) own_skips opp_skips)] ++
            (if 0 ≤ O.socket_fd then
              [(o, protocol_create_player_status BUFFER_SIZE P.nickname
                PlayerStatusType.STATUS_RECONNECTED)]
            else [])) ∧
        (∃ room3, s3.rooms[r]? = some room3 ∧ room3.game = room.game ∧
          room_get_player_index room3 (some j) = idx) ∧
        (∃ N, s3.players[j]? = some N ∧ N.state = PlayerState.IN_GAME ∧
          N.nickname = P.nickname ∧ N.room_id = P.room_id ∧
          N.skips_remaining = own_skips ∧ N.socket_fd = fd) := by
  obtain ⟨hidx, opp_skips, hopp, s3, hlogin, hroom3, hN⟩ :=
    resume_after_disconnect s d o j r P O Q room fd t1 t2 t3 idx hP hO hQ hPact hOact hQfree hne
      hfd hvalid huniq hfind hroom hcells hplaying
  exact ⟨hidx, P.skips_remaining, opp_skips, hskips, hopp, s3, hlogin, hroom3, hN⟩

/-- Witness of C10: with 10 stones left and alice to move, alice's connection drops
and she logs in again on a new connection in slot 2; her record and the game both hold
one skip for her. -/
theorem reconnect_is_lossless_witness :
    room_get_player_index (scenario_room ⟨GameState.PLAYING, 10, 0, 1, 1, -1⟩) (some 0) = 0 ∧
    ∃ s3,
      handle_login
          (accept_in_slot (server_handle_disconnect (scenario_server 10) 0 false 100).1 2 7 105)
          2 (login_message "alice".toList) 106 =
        some (s3,
          [(2, "LOGIN_OK\n".toList), (2, "GAME_RESUMED;10;1;1;1\n".toList),
            (1, "PLAYER_STATUS;alice;RECONNECTED\n".toList)]) ∧
      (∃ room3, s3.rooms[0]? = some room3 ∧
        room3.game = ⟨GameState.PLAYING, 10, 0, 1, 1, -1⟩ ∧
        room_get_player_index room3 (some 2) = 0) ∧
      (∃ N, s3.players[2]? = some N ∧ N.state = PlayerState.IN_GAME ∧
        N.nickname = "alice".toList ∧ N.room_id = 0 ∧ N.skips_remaining = 1 ∧
        N.socket_fd = 7) :=
  match reconnect_is_lossless (scenario_server 10) 0 1 2 0
    (scenario_player 4 "alice".toList) (scenario_player 5 "bob".toList) scenario_free_player
    (scenario_room ⟨GameState.PLAYING, 10, 0, 1, 1, -1⟩) 7 100 105 106 0
    rfl rfl rfl rfl rfl rfl (by decide) (by decide) (by decide)
    (by
      intro i q h _ hn
      match i, h with
      | 0, _ => rfl
      | 1, h =>
        simp only [scenario_server, List.getElem?_cons_succ, List.getElem?_cons_zero,
          Option.some.injEq] at h
        subst h
        exact absurd hn (by decide)
      | 2, h =>
        simp only [scenario_server, List.getElem?_cons_succ, List.getElem?_cons_zero,
          Option.some.injEq] at h
        subst h
        exact absurd hn (by decide)
      | 3, h =>
        simp only [scenario_server, List.getElem?_cons_succ, List.getElem?_cons_zero,
          Option.some.injEq] at h
        subst h
        exact absurd hn (by decide)
      | n + 4, h => simp [scenario_server] at h)
    rfl rfl (Or.inl ⟨rfl, rfl, rfl⟩) rfl rfl with
  | ⟨hidx, own, opp, hown, hopp, s3, hlogin, hroom3, hN⟩ => by
    cases hown
    cases hopp
    exact ⟨hidx, s3, hlogin, hroom3, hN⟩

/-- Counterexample to C10 as stated.  After both connections dropped, alice's
reconnect window ran out and bob logged in again, bob is IN_GAME in room 0, whose
game is PLAYING with 10 stones, and is the only player of the room.  When bob's
connection now drops ungracefully and a new connection logs in as bob, the only
message is `LOGIN_OK`: no `GAME_RESUMED` is sent, room 0 is inactive with its game
reset to WAITING, and bob is in LOBBY. -/
theorem reconnect_without_opponent_counterexample :
    (scenario_bob_alone.map (fun st =>
        (st.1.rooms[0]?.map (fun room =>
            (room.is_active, room.game, room.players0, room.players1)),
          st.1.players[0]?.map (fun p => (p.state, p.nickname, p.socket_fd, p.room_id))))
      = some (some (true, ⟨GameState.PLAYING, 10, 0, 1, 1, -1⟩, none, some 0),
          some (PlayerState.IN_GAME, "bob".toList, 7, 0))) ∧
    ((scenario_bob_alone.bind (fun st =>
        handle_login (accept_in_slot (server_handle_disconnect st.1 0 false 140).1 0 8 141) 0
          (login_message "bob".toList) 142)).map (fun st =>
        (st.2, st.1.rooms[0]?.map (fun room => (room.is_active, room.game.state)),
          st.1.players[0]?.map (fun p => (p.state, p.room_id))))
      = some ([(0, "LOGIN_OK\n".toList)], some (false, GameState.WAITING),
          some (PlayerState.LOBBY, -1))) := by
  constructor <;> rfl

/-! ## Skip credit at the server level -/

theorem snprintf_getElem (lit rest : List Char) (k : Nat) (hk : k < lit.length)
    (hs : k < BUFFER_SIZE - 1) :
    (snprintf BUFFER_SIZE (lit ++ rest))[k]? = lit[k]? := by
  unfold snprintf
  rw [List.getElem?_take_of_lt hs, List.getElem?_append_left hk]

theorem count_skip_ok_nil (slot : Nat) : count_skip_ok slot [] = 0 := rfl

/-- In the run of the witness of C6 alice does receive one `SKIP_OK`, and so does
bob. -/
theorem skip_ok_is_sent_once :
    count_skip_ok 0 (run_game_commands (scenario_server 21)
      [GameCommand.skip 0 skip_message, GameCommand.skip 0 skip_message,
        GameCommand.take 1 (take_message "2".toList), GameCommand.skip 0 skip_message,
        GameCommand.take 0 (take_message "1".toList), GameCommand.skip 1 skip_message]) = 1 ∧
    count_skip_ok 1 (run_game_commands (scenario_server 21)
      [GameCommand.skip 0 skip_message, GameCommand.skip 0 skip_message,
        GameCommand.take 1 (take_message "2".toList), GameCommand.skip 0 skip_message,
        GameCommand.take 0 (take_message "1".toList), GameCommand.skip 1 skip_message]) = 1 := by
  constructor <;> rfl

/-! ## Ungraceful disconnect -/

theorem player_status_text {nickname : List Char} (status : PlayerStatusType)
    (h : nickname.length ≤ MAX_NICKNAME_LENGTH) :
    protocol_create_player_status BUFFER_SIZE nickname status =
      "PLAYER_STATUS;".toList ++ nickname ++ ";".toList ++
        (match status with
          | PlayerStatusType.STATUS_CONNECTED => "CONNECTED".toList
          | PlayerStatusType.STATUS_DISCONNECTED => "DISCONNECTED".toList
          | PlayerStatusType.STATUS_RECONNECTED => "RECONNECTED".toList) ++ "\n".toList := by
  unfold protocol_create_player_status
  apply snprintf_short
  have h1 : "PLAYER_STATUS;".toList.length = 14 := rfl
  have h2 : ";".toList.length = 1 := rfl
  have h3 : "\n".toList.length = 1 := rfl
  have h4 : "CONNECTED".toList.length = 9 := rfl
  have h5 : "DISCONNECTED".toList.length = 12 := rfl
  have h6 : "RECONNECTED".toList.length = 11 := rfl
  cases status <;>
    simp only [List.length_append, BUFFER_SIZE, MAX_NICKNAME_LENGTH] at * <;> omega

theorem room_destroy_players_isSome (t : Server) (r slot : Nat)
    (h : (t.players[slot]?).isSome = true) :
    ((room_destroy t r).players[slot]?).isSome = true := by
  unfold room_destroy
  cases hr : t.rooms[r]? with
  | none => simpa using h
  | some room =>
    simp only
    cases h0 : room.players0 <;> cases h1 : room.players1 <;>
      simp [updPlayer_players, setRoom_players] <;> (try split_ifs) <;> simp_all

theorem room_remove_player_players_isSome (t : Server) (r : Nat) (x : Option Nat) (slot : Nat)
    (h : (t.players[slot]?).isSome = true) :
    ((room_remove_player t r x).2.players[slot]?).isSome = true := by
  unfold room_remove_player
  cases hr : t.rooms[r]? with
  | none => simpa using h
  | some room =>
    cases x with
    | none => simpa using h
    | some j =>
      simp only
      split_ifs <;> first
        | exact h
        | (apply room_destroy_players_isSome; simp [updPlayer_players, setRoom_players]; split_ifs <;> simp_all)
        | (simp [updPlayer_players, setRoom_players]; split_ifs <;> simp_all)

/-- C11, as the code has it.  For an ungraceful disconnect of the player in `slot`
(`server_handle_disconnect` with `graceful = false`): if the player's room id names
an active room that also holds an opponent's record, the player's record keeps its
`is_active` flag, goes to state DISCONNECTED with no socket, keeps its nickname and
room id, the opponent is sent `PLAYER_STATUS;<nick>;DISCONNECTED` if it is
connected, and the game becomes PAUSED if it was PLAYING and is left as it is in any
other phase; in every other case (no active room under the player's room id, or no
opponent's record in that room) the player's slot is freed. -/
theorem ungraceful_disconnect_contract
    (s : Server) (slot : Nat) (player : Player) (now : Int)
    (hplayer : s.players[slot]? = some player)
    (hnick : player.nickname.length ≤ MAX_NICKNAME_LENGTH) :
    (∀ r room o, room_find_by_id s.rooms player.room_id = some r →
        s.rooms[r]? = some room → room_get_opponent room (some slot) = some o →
        (server_handle_disconnect s slot false now).2 =
          (if has_socket s (some o) then
            [(o, "PLAYER_STATUS;".toList ++ player.nickname ++ ";DISCONNECTED\n".toList)]
          else []) ∧
        (∃ p', (server_handle_disconnect s slot false now).1.players[slot]? = some p' ∧
          p'.is_active = player.is_active ∧ p'.state = PlayerState.DISCONNECTED ∧
          p'.socket_fd = -1 ∧ p'.nickname = player.nickname ∧
          p'.room_id = player.room_id ∧ p'.disconnect_time = now) ∧
        (∃ room', (server_handle_disconnect s slot false now).1.rooms[r]? = some room' ∧
          room'.game =
            (if room.game.state = GameState.PLAYING then
              { room.game with state := GameState.PAUSED }
            else room.game))) ∧
    ((room_find_by_id s.rooms player.room_id = none ∨
        ∃ r room, room_find_by_id s.rooms player.room_id = some r ∧
          s.rooms[r]? = some room ∧ room_get_opponent room (some slot) = none) →
      ∃ p', (server_handle_disconnect s slot false now).1.players[slot]? = some p' ∧
        p'.is_active = false ∧ p'.socket_fd = -1 ∧ p'.nickname = [] ∧ p'.room_id = -1 ∧
        p'.state = PlayerState.CONNECTING) := by
  constructor
  · intro r room o hfind hroom hopp
    have hrid : 0 ≤ player.room_id := (room_find_by_id_eq_some.mp hfind).1
    have htext := player_status_text PlayerStatusType.STATUS_DISCONNECTED hnick
    simp only at htext
    unfold server_handle_disconnect
    simp only [hplayer, hrid, hfind, hroom, hopp, ge_iff_le, if_true]
    simp only [Bool.false_eq_true, false_or, reduceCtorEq, if_false]
    refine ⟨?_, ?_, ?_⟩
    · by_cases hs : has_socket s (some o) = true
      · simp [hs, server_send_to_player, htext]
      · simp [hs]
    · by_cases hp : room.game.state = GameState.PLAYING
      · simp [hp, updPlayer_players, setRoom_players, hplayer, player_reset]
      · simp [hp, updPlayer_players, hplayer, player_reset]
    · by_cases hp : room.game.state = GameState.PLAYING
      · simp [hp, updPlayer_rooms, setRoom_rooms, hroom, game_pause]
      · simp [hp, updPlayer_rooms, hroom]
  · intro h
    have hfree : ∀ t : Server, (t.players[slot]?).isSome = true →
        ∃ p', (t.updPlayer slot (fun p => player_reset p false now)).players[slot]? = some p' ∧
          p'.is_active = false ∧ p'.socket_fd = -1 ∧ p'.nickname = [] ∧ p'.room_id = -1 ∧
          p'.state = PlayerState.CONNECTING := by
      intro t ht
      obtain ⟨q, hq⟩ := Option.isSome_iff_exists.mp ht
      refine ⟨player_reset q false now, ?_, ?_⟩
      · simp [updPlayer_players, hq]
      · simp [player_reset, Player.zeroed]
    have hsome : (s.players[slot]?).isSome = true := by simp [hplayer]
    unfold server_handle_disconnect
    simp only [hplayer]
    rcases h with hnone | ⟨r, room, hfind, hroom, hopp⟩
    · simp only [hnone]
      split_ifs <;> exact hfree s hsome
    · have hrid : 0 ≤ player.room_id := (room_find_by_id_eq_some.mp hfind).1
      simp only [hrid, hfind, hroom, hopp, ge_iff_le, if_true, or_true, has_socket]
      simp only [Bool.false_eq_true, if_false]
      split_ifs
      · apply hfree
        apply room_remove_player_players_isSome
        simpa [setRoom_players] using hsome
      · apply hfree
        apply room_remove_player_players_isSome
        exact hsome

/-- Witness of C11: alice's connection drops during the game of `scenario_server`;
bob is told so and the game is PAUSED. -/
theorem ungraceful_disconnect_contract_witness :
    (server_handle_disconnect (scenario_server 10) 0 false 100).2 =
        [(1, "PLAYER_STATUS;alice;DISCONNECTED\n".toList)] ∧
      (∃ p', (server_handle_disconnect (scenario_server 10) 0 false 100).1.players[0]? =
          some p' ∧ p'.is_active = true ∧ p'.state = PlayerState.DISCONNECTED ∧
          p'.socket_fd = -1 ∧ p'.nickname = "alice".toList ∧ p'.room_id = 0 ∧
          p'.disconnect_time = 100) ∧
      (∃ room', (server_handle_disconnect (scenario_server 10) 0 false 100).1.rooms[0]? =
          some room' ∧ room'.game = ⟨GameState.PAUSED, 10, 0, 1, 1, -1⟩) :=
  (ungraceful_disconnect_contract (scenario_server 10) 0 (scenario_player 4 "alice".toList)
    100 rfl (by decide)).1 0 (scenario_room ⟨GameState.PLAYING, 10, 0, 1, 1, -1⟩) 1 rfl rfl rfl

/-- Counterexample to C11 as stated.  First: alice's connection drops, which pauses
the game; then bob's connection drops too.  Bob's room has a game that is PAUSED,
not PLAYING, yet his slot is not freed: the record stays active and DISCONNECTED
with its nickname and room id.  Second: bob is alone in a room whose game is
PLAYING (`scenario_bob_alone`) and his connection drops: the game is not PAUSED
(the room is torn down, which resets its game) and his slot is freed. -/
theorem ungraceful_disconnect_counterexample :
    ((server_handle_disconnect (scenario_server 10) 0 false 100).1.rooms[0]?.map
        (fun room => room.game.state) = some GameState.PAUSED) ∧
    ((scenario_both_dropped 10).players[1]?.map
        (fun p => (p.is_active, p.state, p.room_id, p.nickname))
      = some (true, PlayerState.DISCONNECTED, 0, "bob".toList)) ∧
    (scenario_bob_alone.map (fun st =>
        (st.1.rooms[0]?.map (fun room => (room.game.state, room.players0, room.players1)),
          st.1.players[0]?.map (fun p => (p.state, p.nickname))))
      = some (some (GameState.PLAYING, none, some 0),
          some (PlayerState.IN_GAME, "bob".toList))) ∧
    (scenario_bob_alone.map (fun st =>
        ((server_handle_disconnect st.1 0 false 140).1.players[0]?.map
            (fun p => (p.is_active, p.state, p.nickname)),
          (server_handle_disconnect st.1 0 false 140).1.rooms[0]?.map
            (fun room => (room.game.state, room.is_active))))
      = some (some (false, PlayerState.CONNECTING, []),
          some (GameState.WAITING, false))) := by
  refine ⟨?_, ?_, ?_, ?_⟩ <;> rfl

/-! ## Expiry of the reconnect window -/

/-- C12.  Function `player_reconnect_timeout_expired` holds exactly when the record is
DISCONNECTED and `now - disconnect_time > 30`.  When it holds for the player in
`slot`, whose room holds this player and an opponent with an open socket,
`server_handle_timeout` sends `GAME_OVER;<opponent>;<expired player>` to the
opponent and nothing else, puts the opponent in LOBBY with no room id, deactivates
the room and frees the expired player's slot. -/
theorem reconnect_timeout_contract
    (s : Server) (slot o r : Nat) (player opp : Player) (room : Room) (now : Int)
    (hplayer : s.players[slot]? = some player)
    (hopp : s.players[o]? = some opp)
    (hne : o ≠ slot)
    (hexpired : player_reconnect_timeout_expired player now = true)
    (hsock : 0 ≤ opp.socket_fd)
    (hnick : player.nickname.length ≤ MAX_NICKNAME_LENGTH)
    (hnick_opp : opp.nickname.length ≤ MAX_NICKNAME_LENGTH)
    (hfind : room_find_by_id s.rooms player.room_id = some r)
    (hroom : s.rooms[r]? = some room)
    (hcells : (room.players0 = some slot ∧ room.players1 = some o) ∨
      (room.players0 = some o ∧ room.players1 = some slot))
    (hcount : room.player_count = 2) :
    (∀ (p : Player) (t : Int), player_reconnect_timeout_expired p t = true ↔
      (p.state = PlayerState.DISCONNECTED ∧ t - p.disconnect_time > 30)) ∧
    (player.state = PlayerState.DISCONNECTED ∧ now - player.disconnect_time > 30) ∧
    (server_handle_timeout s slot now).2 =
      [(o, "GAME_OVER;".toList ++ opp.nickname ++ ";".toList ++ player.nickname
        ++ "\n".toList)] ∧
    (server_handle_timeout s slot now).1.players[o]? =
      some { opp with state := PlayerState.LOBBY, room_id := -1 } ∧
    (∃ room', (server_handle_timeout s slot now).1.rooms[r]? = some room' ∧
      room'.is_active = false) ∧
    (∃ p', (server_handle_timeout s slot now).1.players[slot]? = some p' ∧
      p'.is_active = false ∧ p'.socket_fd = -1 ∧ p'.nickname = [] ∧ p'.room_id = -1 ∧
      p'.state = PlayerState.CONNECTING) := by
  have hchar : ∀ (p : Player) (t : Int), player_reconnect_timeout_expired p t = true ↔
      (p.state = PlayerState.DISCONNECTED ∧ t - p.disconnect_time > 30) := by
    intro p t
    unfold player_reconnect_timeout_expired SHORT_DISCONNECT_TIMEOUT
    by_cases h : p.state = PlayerState.DISCONNECTED <;> simp [h]
  refine ⟨hchar, (hchar player now).mp hexpired, ?_⟩
  have hne' : slot ≠ o := fun h => hne h.symm
  have hrid : 0 ≤ player.room_id := (room_find_by_id_eq_some.mp hfind).1
  have hgopp : room_get_opponent room (some slot) = some o := by
    rcases hcells with ⟨h0, h1⟩ | ⟨h0, h1⟩ <;> simp [room_get_opponent, h0, h1, hne]
  have htext := game_over_text hnick_opp hnick
  unfold server_handle_timeout
  simp only [hplayer, hrid, hfind, hroom, hgopp, has_socket, hopp, hsock, ge_iff_le,
    decide_True, if_true, server_send_to_player, htext]
  rcases hcells with ⟨h0, h1⟩ | ⟨h0, h1⟩
  · simp [hplayer, hopp, hsock, hne, hne', room_remove_player, player_set_state,
      updPlayer_players, updPlayer_rooms, setRoom_rooms, setRoom_players, hroom, hcount,
      room_is_empty, room_destroy, h0, h1, player_reset, Player.zeroed]
  · simp [hplayer, hopp, hsock, hne, hne', room_remove_player, player_set_state,
      updPlayer_players, updPlayer_rooms, setRoom_rooms, setRoom_players, hroom, hcount,
      room_is_empty, room_destroy, h0, h1, player_reset, Player.zeroed]


/-- Witness of C12: alice's connection dropped at time 100 during the game of
`scenario_server`; at time 131 her reconnect window has run out and bob wins. -/
theorem reconnect_timeout_contract_witness :
    (player_reconnect_timeout_expired (player_reset (scenario_player 4 "alice".toList) true 100)
        131 = true) ∧
    (server_handle_timeout (scenario_alice_dropped 10) 0 131).2 =
      [(1, "GAME_OVER;bob;alice\n".toList)] ∧
    (server_handle_timeout (scenario_alice_dropped 10) 0 131).1.players[1]? =
      some { scenario_player 5 "bob".toList with state := PlayerState.LOBBY, room_id := -1 } ∧
    (∃ room', (server_handle_timeout (scenario_alice_dropped 10) 0 131).1.rooms[0]? =
      some room' ∧ room'.is_active = false) ∧
    (∃ p', (server_handle_timeout (scenario_alice_dropped 10) 0 131).1.players[0]? = some p' ∧
      p'.is_active = false ∧ p'.socket_fd = -1 ∧ p'.nickname = [] ∧ p'.room_id = -1 ∧
      p'.state = PlayerState.CONNECTING) :=
  ⟨rfl, (reconnect_timeout_contract (scenario_alice_dropped 10) 0 1 0
    (player_reset (scenario_player 4 "alice".toList) true 100)
    (scenario_player 5 "bob".toList)
    (scenario_room ⟨GameState.PAUSED, 10, 0, 1, 1, -1⟩) 131
    rfl rfl (by decide) rfl (by decide) (by decide) (by decide) rfl rfl
    (Or.inl ⟨rfl, rfl⟩) rfl).2.2⟩

/-! ## Logout during a game -/

/-- C13, as the code has it.  Let a player whose room holds this player and an
opponent, with a game that is PLAYING, send LOGOUT.  The departing player's slot is
freed.  If the opponent has an open socket, the opponent is sent
`GAME_OVER;<opponent>;<departing player>` and nothing else is sent, the opponent is
placed in LOBBY with no room id, and the room is deactivated with no players (its
game, set to FINISHED on the way, is reset to WAITING by `room_destroy`).  If the
opponent has no open socket, nothing is sent, the opponent's record is left as it
is, and the room stays active with the opponent as its only player and the game in
phase FINISHED. -/
theorem logout_ends_game
    (s : Server) (slot o r : Nat) (msg : ParsedMessage) (player opp : Player) (room : Room)
    (now : Int)
    (hplayer : s.players[slot]? = some player)
    (hopp : s.players[o]? = some opp)
    (hne : o ≠ slot)
    (hnick : player.nickname.length ≤ MAX_NICKNAME_LENGTH)
    (hnick_opp : opp.nickname.length ≤ MAX_NICKNAME_LENGTH)
    (hfind : room_find_by_id s.rooms player.room_id = some r)
    (hroom : s.rooms[r]? = some room)
    (hcells : (room.players0 = some slot ∧ room.players1 = some o) ∨
      (room.players0 = some o ∧ room.players1 = some slot))
    (hcount : room.player_count = 2)
    (hplaying : room.game.state = GameState.PLAYING) :
    (∃ p', (handle_logout s slot msg now).1.players[slot]? = some p' ∧
      p'.is_active = false ∧ p'.socket_fd = -1 ∧ p'.nickname = [] ∧ p'.room_id = -1 ∧
      p'.state = PlayerState.CONNECTING) ∧
    (0 ≤ opp.socket_fd →
      (handle_logout s slot msg now).2 =
        [(o, "GAME_OVER;".toList ++ opp.nickname ++ ";".toList ++ player.nickname
          ++ "\n".toList)] ∧
      (handle_logout s slot msg now).1.players[o]? =
        some { opp with state := PlayerState.LOBBY, room_id := -1 } ∧
      ∃ room', (handle_logout s slot msg now).1.rooms[r]? = some room' ∧
        room'.is_active = false ∧ room'.player_count = 0 ∧
        room'.game.state = GameState.WAITING) ∧
    (opp.socket_fd < 0 →
      (handle_logout s slot msg now).2 = [] ∧
      (handle_logout s slot msg now).1.players[o]? = some opp ∧
      ∃ room', (handle_logout s slot msg now).1.rooms[r]? = some room' ∧
        room'.is_active = true ∧ room'.player_count = 1 ∧
        room'.game = { room.game with state := GameState.FINISHED } ∧
        room_get_player_index room' (some o) = room_get_player_index room (some o)) := by
  have hne' : slot ≠ o := fun h => hne h.symm
  have hrid : 0 ≤ player.room_id := (room_find_by_id_eq_some.mp hfind).1
  have hgopp : room_get_opponent room (some slot) = some o := by
    rcases hcells with ⟨h0, h1⟩ | ⟨h0, h1⟩ <;> simp [room_get_opponent, h0, h1, hne]
  have hact : room.is_active = true := by
    obtain ⟨_, _, _, room2, hr2, ha2⟩ := room_find_by_id_eq_some.mp hfind
    rw [hroom] at hr2
    cases hr2
    exact ha2
  have htext := game_over_text hnick_opp hnick
  unfold handle_logout server_handle_disconnect
  simp only [hplayer, hrid, hfind, hroom, hgopp, hplaying, has_socket, hopp, ge_iff_le,
    if_true, true_or, server_send_to_player, htext, setRoom_players]
  by_cases hs : 0 ≤ opp.socket_fd
  · have hs' : ¬ opp.socket_fd < 0 := by omega
    rcases hcells with ⟨h0, h1⟩ | ⟨h0, h1⟩
    · simp [hplayer, hopp, hs, hs', hne, hne', room_remove_player, player_set_state,
        updPlayer_players, updPlayer_rooms, setRoom_rooms, setRoom_players, hroom, hcount,
        room_is_empty, room_destroy, h0, h1, player_reset, Player.zeroed, game_reset, game_init]
    · simp [hplayer, hopp, hs, hs', hne, hne', room_remove_player, player_set_state,
        updPlayer_players, updPlayer_rooms, setRoom_rooms, setRoom_players, hroom, hcount,
        room_is_empty, room_destroy, h0, h1, player_reset, Player.zeroed, game_reset, game_init]
  · have hs' : opp.socket_fd < 0 := by omega
    rcases hcells with ⟨h0, h1⟩ | ⟨h0, h1⟩
    · simp [hplayer, hopp, hs, hs', hne, hne', room_remove_player, player_set_state,
        updPlayer_players, updPlayer_rooms, setRoom_rooms, setRoom_players, hroom, hcount,
        room_is_empty, room_destroy, h0, h1, player_reset, Player.zeroed,
        room_get_player_index, hact]
    · simp [hplayer, hopp, hs, hs', hne, hne', room_remove_player, player_set_state,
        updPlayer_players, updPlayer_rooms, setRoom_rooms, setRoom_players, hroom, hcount,
        room_is_empty, room_destroy, h0, h1, player_reset, Player.zeroed,
        room_get_player_index, hact]


/-- Witness of C13: alice sends LOGOUT during the game of `scenario_server`; bob is
connected. -/
theorem logout_ends_game_witness :
    (handle_logout (scenario_server 10) 0 (plain_message MessageType.MSG_LOGOUT) 110).2 =
        [(1, "GAME_OVER;bob;alice\n".toList)] ∧
      (handle_logout (scenario_server 10) 0 (plain_message MessageType.MSG_LOGOUT)
          110).1.players[1]? =
        some { scenario_player 5 "bob".toList with
          state := PlayerState.LOBBY, room_id := -1 } ∧
      ∃ room', (handle_logout (scenario_server 10) 0 (plain_message MessageType.MSG_LOGOUT)
          110).1.rooms[0]? = some room' ∧
        room'.is_active = false ∧ room'.player_count = 0 ∧
        room'.game.state = GameState.WAITING :=
  (logout_ends_game (scenario_server 10) 0 1 0 (plain_message MessageType.MSG_LOGOUT)
    (scenario_player 4 "alice".toList) (scenario_player 5 "bob".toList)
    (scenario_room ⟨GameState.PLAYING, 10, 0, 1, 1, -1⟩) 110
    rfl rfl (by decide) (by decide) (by decide) rfl rfl (Or.inl ⟨rfl, rfl⟩) rfl rfl).2.1
    (by decide)

/-- Counterexample to C13 as stated.  Alice and bob play; both connections drop and
alice logs in again on a new connection (slot 2), so the game is PLAYING while bob
is DISCONNECTED.  Alice sends LOGOUT: no `GAME_OVER` is sent, bob is not placed in
LOBBY and keeps his room id, and the room stays active. -/
theorem logout_disconnected_opponent_counterexample :
    ((scenario_alice_back 10).map (fun st =>
        (st.1.rooms[0]?.map (fun room => (room.game.state, room.players0, room.players1)),
          st.1.players[1]?.map (fun p => (p.state, p.socket_fd, p.nickname)),
          st.1.players[2]?.map (fun p => (p.state, p.nickname, p.room_id))))
      = some (some (GameState.PLAYING, some 2, some 1),
          some (PlayerState.DISCONNECTED, -1, "bob".toList),
          some (PlayerState.IN_GAME, "alice".toList, 0))) ∧
    ((scenario_alice_back 10).map (fun st =>
        ((handle_logout st.1 2 (plain_message MessageType.MSG_LOGOUT) 110).2,
          (handle_logout st.1 2 (plain_message MessageType.MSG_LOGOUT) 110).1.players[1]?.map
            (fun p => (p.state, p.room_id)),
          (handle_logout st.1 2 (plain_message MessageType.MSG_LOGOUT) 110).1.rooms[0]?.map
            (fun room => (room.is_active, room.player_count, room.game.state))))
      = some ([], some (PlayerState.DISCONNECTED, 0),
          some (true, 1, GameState.FINISHED))) := by
  constructor <;> rfl

/-! ## Messages of an accepted take -/

theorem leave_ok_text : protocol_create_leave_ok BUFFER_SIZE = "LEAVE_OK\n".toList := rfl

/-- C14, as the code has it.  Let a connected player in state IN_ROOM or IN_GAME,
whose room id names an active room, send LEAVE_ROOM.  In every case the leaver ends
in LOBBY with no room id and is sent `LEAVE_OK` as the last message.  If the room
also holds an opponent with an open socket, the opponent is sent
`GAME_OVER;<opponent>;<leaver>` when the game was PLAYING or PAUSED and
`PLAYER_STATUS;<leaver>;DISCONNECTED` otherwise, it ends in LOBBY with no room id,
and the room, now with zero players, is inactive.  If the opponent has no open
socket, it is sent nothing and its record is left as it is, so the room stays
active with one player; its game is FINISHED if it was PLAYING or PAUSED.  If the
leaver is alone in the room, the room, now with zero players, is inactive. -/
theorem leave_room_contract
    (s : Server) (slot r : Nat) (msg : ParsedMessage) (player : Player) (room : Room)
    (hplayer : s.players[slot]? = some player)
    (hstate : player.state = PlayerState.IN_ROOM ∨ player.state = PlayerState.IN_GAME)
    (hsock : 0 ≤ player.socket_fd)
    (hnick : player.nickname.length ≤ MAX_NICKNAME_LENGTH)
    (hfind : room_find_by_id s.rooms player.room_id = some r)
    (hroom : s.rooms[r]? = some room) :
    (∀ (o : Nat) (opp : Player), s.players[o]? = some opp → o ≠ slot →
      opp.nickname.length ≤ MAX_NICKNAME_LENGTH →
      ((room.players0 = some slot ∧ room.players1 = some o) ∨
        (room.players0 = some o ∧ room.players1 = some slot)) →
      room.player_count = 2 →
      (0 ≤ opp.socket_fd →
        ∃ s', handle_leave_room s slot msg = some (s',
            [(o, if room.game.state = GameState.PLAYING ∨ room.game.state = GameState.PAUSED
                then "GAME_OVER;".toList ++ opp.nickname ++ ";".toList ++ player.nickname
                  ++ "\n".toList
                else "PLAYER_STATUS;".toList ++ player.nickname
                  ++ ";DISCONNECTED\n".toList),
              (slot, "LEAVE_OK\n".toList)]) ∧
          s'.players[slot]? = some { player with state := PlayerState.LOBBY, room_id := -1 } ∧
          s'.players[o]? = some { opp with state := PlayerState.LOBBY, room_id := -1 } ∧
          ∃ room', s'.rooms[r]? = some room' ∧ room'.is_active = false ∧
            room'.player_count = 0) ∧
      (opp.socket_fd < 0 →
        ∃ s', handle_leave_room s slot msg = some (s', [(slot, "LEAVE_OK\n".toList)]) ∧
          s'.players[slot]? = some { player with state := PlayerState.LOBBY, room_id := -1 } ∧
          s'.players[o]? = some opp ∧
          ∃ room', s'.rooms[r]? = some room' ∧ room'.is_active = true ∧
            room'.player_count = 1 ∧
            room'.game.state =
              (if room.game.state = GameState.PLAYING ∨ room.game.state = GameState.PAUSED
                then GameState.FINISHED else room.game.state))) ∧
    (((room.players0 = some slot ∧ room.players1 = none) ∨
        (room.players0 = none ∧ room.players1 = some slot)) →
      room.player_count = 1 →
      ∃ s', handle_leave_room s slot msg = some (s', [(slot, "LEAVE_OK\n".toList)]) ∧
        s'.players[slot]? = some { player with state := PlayerState.LOBBY, room_id := -1 } ∧
        ∃ room', s'.rooms[r]? = some room' ∧ room'.is_active = false ∧
          room'.player_count = 0) := by
  have hact : room.is_active = true := by
    obtain ⟨_, _, _, room2, hr2, ha2⟩ := room_find_by_id_eq_some.mp hfind
    rw [hroom] at hr2
    cases hr2
    exact ha2
  have hst : ¬ (player.state ≠ PlayerState.IN_ROOM ∧ player.state ≠ PlayerState.IN_GAME) := by
    rcases hstate with h | h <;> simp [h]
  refine ⟨?_, ?_⟩
  · intro o opp hopp hne hnick_opp hcells hcount
    have hne' : slot ≠ o := fun h => hne h.symm
    have hgopp : room_get_opponent room (some slot) = some o := by
      rcases hcells with ⟨h0, h1⟩ | ⟨h0, h1⟩ <;> simp [room_get_opponent, h0, h1, hne]
    have htext := game_over_text hnick_opp hnick
    have htext2 := player_status_text PlayerStatusType.STATUS_DISCONNECTED hnick
    simp only at htext2
    unfold handle_leave_room
    simp only [hplayer, hst, hfind, hroom, hgopp, if_false, has_socket, hopp,
      server_send_to_player, nickname_or_empty, setRoom_players, htext, htext2, leave_ok_text]
    constructor
    · intro hs
      by_cases hlive : room.game.state = GameState.PLAYING ∨ room.game.state = GameState.PAUSED
      · rcases hcells with ⟨h0, h1⟩ | ⟨h0, h1⟩ <;>
        simp [hplayer, hopp, hs, hsock, hne, hne', room_remove_player, player_set_state,
          updPlayer_players, updPlayer_rooms, setRoom_rooms, setRoom_players, hroom, hcount,
          room_is_empty, room_destroy, h0, h1, hlive, has_socket]
      · rcases hcells with ⟨h0, h1⟩ | ⟨h0, h1⟩ <;>
        simp [hplayer, hopp, hs, hsock, hne, hne', room_remove_player, player_set_state,
          updPlayer_players, updPlayer_rooms, setRoom_rooms, setRoom_players, hroom, hcount,
          room_is_empty, room_destroy, h0, h1, hlive, has_socket]
    · intro hs
      have hs' : ¬ 0 ≤ opp.socket_fd := by omega
      by_cases hlive : room.game.state = GameState.PLAYING ∨ room.game.state = GameState.PAUSED
      · rcases hcells with ⟨h0, h1⟩ | ⟨h0, h1⟩ <;>
        simp [hplayer, hopp, hs, hs', hsock, hne, hne', room_remove_player, player_set_state,
          updPlayer_players, updPlayer_rooms, setRoom_rooms, setRoom_players, hroom, hcount,
          room_is_empty, room_destroy, h0, h1, hlive, has_socket, hact]
      · rcases hcells with ⟨h0, h1⟩ | ⟨h0, h1⟩ <;>
        simp [hplayer, hopp, hs, hs', hsock, hne, hne', room_remove_player, player_set_state,
          updPlayer_players, updPlayer_rooms, setRoom_rooms, setRoom_players, hroom, hcount,
          room_is_empty, room_destroy, h0, h1, hlive, has_socket, hact]
  · intro hcells hcount
    have hgopp : room_get_opponent room (some slot) = none := by
      rcases hcells with ⟨h0, h1⟩ | ⟨h0, h1⟩ <;> simp [room_get_opponent, h0, h1]
    unfold handle_leave_room
    simp only [hplayer, hst, hfind, hroom, hgopp, if_false, has_socket,
      server_send_to_player, nickname_or_empty, setRoom_players, leave_ok_text]
    by_cases hlive : room.game.state = GameState.PLAYING ∨ room.game.state = GameState.PAUSED
    · rcases hcells with ⟨h0, h1⟩ | ⟨h0, h1⟩ <;>
      simp [hplayer, hsock, room_remove_player, player_set_state,
        updPlayer_players, updPlayer_rooms, setRoom_rooms, setRoom_players, hroom, hcount,
        room_is_empty, room_destroy, h0, h1, hlive, has_socket]
    · rcases hcells with ⟨h0, h1⟩ | ⟨h0, h1⟩ <;>
      simp [hplayer, hsock, room_remove_player, player_set_state,
        updPlayer_players, updPlayer_rooms, setRoom_rooms, setRoom_players, hroom, hcount,
        room_is_empty, room_destroy, h0, h1, hlive, has_socket]


/-- Witness of C14: bob leaves the game of `scenario_server`; alice is connected. -/
theorem leave_room_contract_witness :
    ∃ s', handle_leave_room (scenario_server 10) 1 (plain_message MessageType.MSG_LEAVE_ROOM)
        = some (s', [(0, "GAME_OVER;alice;bob\n".toList), (1, "LEAVE_OK\n".toList)]) ∧
      s'.players[1]? = some
        { scenario_player 5 "bob".toList with state := PlayerState.LOBBY, room_id := -1 } ∧
      s'.players[0]? = some
        { scenario_player 4 "alice".toList with state := PlayerState.LOBBY, room_id := -1 } ∧
      ∃ room', s'.rooms[0]? = some room' ∧ room'.is_active = false ∧
        room'.player_count = 0 :=
  ((leave_room_contract (scenario_server 10) 1 0 (plain_message MessageType.MSG_LEAVE_ROOM)
    (scenario_player 5 "bob".toList) (scenario_room ⟨GameState.PLAYING, 10, 0, 1, 1, -1⟩)
    rfl (Or.inr rfl) (by decide) (by decide) rfl rfl).1 0 (scenario_player 4 "alice".toList)
    rfl (by decide) (by decide) (Or.inr ⟨rfl, rfl⟩) rfl).1 (by decide)

/-- Counterexample to C14 as stated.  Alice's connection drops during the game, which
is PAUSED, and bob sends LEAVE_ROOM: only `LEAVE_OK` is sent, no `GAME_OVER`;
alice's record stays DISCONNECTED with room id 0, and the room stays active with
one player. -/
theorem leave_room_paused_counterexample :
    ((scenario_alice_dropped 10).rooms[0]?.map (fun room => room.game.state)
      = some GameState.PAUSED) ∧
    ((scenario_alice_dropped 10).players[1]?.map (fun p => (p.state, p.nickname))
      = some (PlayerState.IN_GAME, "bob".toList)) ∧
    ((handle_leave_room (scenario_alice_dropped 10) 1
        (plain_message MessageType.MSG_LEAVE_ROOM)).map (fun st =>
        (st.2,
          st.1.players[0]?.map (fun p => (p.state, p.room_id, p.nickname)),
          st.1.rooms[0]?.map (fun room =>
            (room.is_active, room.player_count, room.players0, room.game.state))))
      = some ([(1, "LEAVE_OK\n".toList)],
          some (PlayerState.DISCONNECTED, 0, "alice".toList),
          some (true, 1, some 0, GameState.FINISHED))) := by
  refine ⟨?_, ?_, ?_⟩ <;> rfl

/-! ## Joining a room -/

theorem game_start_text (your_turn : Bool) {opponent : List Char}
    (h : opponent.length ≤ MAX_NICKNAME_LENGTH) :
    protocol_create_game_start BUFFER_SIZE 21 your_turn opponent =
      "GAME_START;21;".toList ++ (if your_turn then "1".toList else "0".toList)
        ++ ";".toList ++ opponent ++ "\n".toList := by
  unfold protocol_create_game_start
  have hd : fmt_d 21 = "21".toList := rfl
  have hf : fmt_flag your_turn = if your_turn then "1".toList else "0".toList := by
    cases your_turn <;> rfl
  rw [hd, hf, snprintf_short]
  · cases your_turn <;> simp
  · have h1 : "GAME_START;".toList.length = 11 := rfl
    have h2 : ";".toList.length = 1 := rfl
    have h3 : "\n".toList.length = 1 := rfl
    have h4 : "21".toList.length = 2 := rfl
    have h5 : "1".toList.length = 1 := rfl
    have h6 : "0".toList.length = 1 := rfl
    cases your_turn <;>
      simp only [List.length_append, BUFFER_SIZE, MAX_NICKNAME_LENGTH, h1, h2, h3, h4, h5, h6,
        if_true, if_false, Bool.false_eq_true] at * <;> omega

/-- C16, as the code has it.  Let a connected player in LOBBY send a JOIN_ROOM whose
id names an active room that holds one connected waiting player and whose game is
WAITING.  Then the room is full, its game is started (phase PLAYING, 21 stones,
current player 0, skip credits (1,1)), both players are in state IN_GAME, and after
the reply to the joiner each of the two receives `GAME_START;21;<your_turn>;<opponent
nickname>`, first the player at room index 0 with `your_turn = 1`, then the player at
room index 1 with `your_turn = 0`. -/
theorem join_starts_game
    (s : Server) (slot w r : Nat) (msg : ParsedMessage) (player waiting : Player) (room : Room)
    (hplayer : s.players[slot]? = some player)
    (hwaiting : s.players[w]? = some waiting)
    (hne : w ≠ slot)
    (hstate : player.state = PlayerState.LOBBY)
    (hsock : 0 ≤ player.socket_fd)
    (hsock_w : 0 ≤ waiting.socket_fd)
    (hnick : player.nickname.length ≤ MAX_NICKNAME_LENGTH)
    (hnick_w : waiting.nickname.length ≤ MAX_NICKNAME_LENGTH)
    (hparam : 1 ≤ msg.param_count)
    (hfind : room_find_by_id s.rooms (atoi (msg.param 0)) = some r)
    (hroom : s.rooms[r]? = some room)
    (hcount : room.player_count = 1)
    (hcells : (room.players0 = some w ∧ room.players1 = none) ∨
      (room.players0 = none ∧ room.players1 = some w))
    (hwaitgame : room.game.state = GameState.WAITING) :
    ∃ s', handle_join_room s slot msg = some (s',
        (slot, protocol_create_room_joined BUFFER_SIZE (atoi (msg.param 0)) []) ::
          (if room.players0 = some w then
            [(w, "GAME_START;21;1;".toList ++ player.nickname ++ "\n".toList),
              (slot, "GAME_START;21;0;".toList ++ waiting.nickname ++ "\n".toList)]
          else
            [(slot, "GAME_START;21;1;".toList ++ waiting.nickname ++ "\n".toList),
              (w, "GAME_START;21;0;".toList ++ player.nickname ++ "\n".toList)])) ∧
      (∃ room', s'.rooms[r]? = some room' ∧
        room'.game = ⟨GameState.PLAYING, 21, 0, 1, 1, -1⟩ ∧ room'.player_count = 2 ∧
        room_get_player_index room' (some w) = room_get_player_index room (some w) ∧
        room_get_player_index room' (some slot) = 1 - room_get_player_index room (some w)) ∧
      (∃ p', s'.players[slot]? = some p' ∧ p'.state = PlayerState.IN_GAME ∧
        p'.room_id = room.id ∧ p'.nickname = player.nickname) ∧
      (∃ p', s'.players[w]? = some p' ∧ p'.state = PlayerState.IN_GAME ∧
        p'.room_id = waiting.room_id ∧ p'.nickname = waiting.nickname) := by
  have hne' : slot ≠ w := fun h => hne h.symm
  have hparam' : ¬ msg.param_count < 1 := by omega
  have ht1 := game_start_text true hnick
  have ht2 := game_start_text false hnick
  have ht3 := game_start_text true hnick_w
  have ht4 := game_start_text false hnick_w
  simp only [if_true, Bool.false_eq_true, if_false] at ht1 ht2 ht3 ht4
  unfold handle_join_room
  simp only [hplayer, hstate, hparam', hfind, hroom, ne_eq, not_true_eq_false, if_false]
  rcases hcells with ⟨h0, h1⟩ | ⟨h0, h1⟩
  · simp [room_is_full, PLAYERS_PER_ROOM, hcount, room_add_player, hroom, h0, h1,
      player_set_state, updPlayer_players, updPlayer_rooms, setRoom_rooms, setRoom_players,
      hplayer, hwaiting, hne, hne', room_start_game, hwaitgame, send_game_start,
      Room.players, has_socket, hsock, hsock_w, server_send_to_player, room_get_opponent,
      game_is_player_turn, game_start, game_get_stones, nickname_or_empty, INITIAL_STONES,
      SKIPS_PER_PLAYER, ht1, ht2, ht3, ht4, room_get_player_index]
  · simp [room_is_full, PLAYERS_PER_ROOM, hcount, room_add_player, hroom, h0, h1,
      player_set_state, updPlayer_players, updPlayer_rooms, setRoom_rooms, setRoom_players,
      hplayer, hwaiting, hne, hne', room_start_game, hwaitgame, send_game_start,
      Room.players, has_socket, hsock, hsock_w, server_send_to_player, room_get_opponent,
      game_is_player_turn, game_start, game_get_stones, nickname_or_empty, INITIAL_STONES,
      SKIPS_PER_PLAYER, ht1, ht2, ht3, ht4, room_get_player_index]


/-- Witness of C16: alice has created room 0 (`scenario_room_created`) and bob joins
it. -/
theorem join_starts_game_witness :
    ∃ s', (scenario_room_created.bind (fun st =>
        handle_join_room st.1 1 (join_room_message "0".toList))) = some (s',
        [(1, protocol_create_room_joined BUFFER_SIZE 0 []),
          (0, "GAME_START;21;1;bob\n".toList), (1, "GAME_START;21;0;alice\n".toList)]) ∧
      (∃ room', s'.rooms[0]? = some room' ∧
        room'.game = ⟨GameState.PLAYING, 21, 0, 1, 1, -1⟩ ∧ room'.player_count = 2 ∧
        room_get_player_index room' (some 0) = 0 ∧
        room_get_player_index room' (some 1) = 1) ∧
      (∃ p', s'.players[1]? = some p' ∧ p'.state = PlayerState.IN_GAME ∧
        p'.room_id = 0 ∧ p'.nickname = "bob".toList) ∧
      (∃ p', s'.players[0]? = some p' ∧ p'.state = PlayerState.IN_GAME ∧
        p'.room_id = 0 ∧ p'.nickname = "alice".toList) :=
  join_starts_game
    ((scenario_lobby.setRoom 0
      { id := 0, name := "r1".toList, players0 := some 0, players1 := none,
        player_count := 1, game := game_init ⟨GameState.WAITING, 0, 0, 0, 0, 0⟩,
        is_active := true }).setPlayer 0
      { scenario_lobby_player 4 "alice".toList with
        state := PlayerState.IN_ROOM, room_id := 0 })
    1 0 0 (join_room_message "0".toList)
    (scenario_lobby_player 5 "bob".toList)
    { scenario_lobby_player 4 "alice".toList with state := PlayerState.IN_ROOM, room_id := 0 }
    { id := 0, name := "r1".toList, players0 := some 0, players1 := none,
      player_count := 1, game := game_init ⟨GameState.WAITING, 0, 0, 0, 0, 0⟩,
      is_active := true }
    rfl rfl (by decide) rfl (by decide) (by decide) (by decide) (by decide) (by decide)
    rfl rfl rfl (Or.inl ⟨rfl, rfl⟩) rfl

/-- Counterexample to C16 as stated.  Alice's connection drops during the game and
bob leaves the room, which stays active with alice's DISCONNECTED record as its only
player and a FINISHED game.  Bob then sends `JOIN_ROOM;0`: the room is full again,
but `room_start_game` refuses a game that is not WAITING, so the game stays
FINISHED with 10 stones and bob stays in state IN_ROOM. -/
theorem join_full_room_not_started_counterexample :
    ((handle_leave_room (scenario_alice_dropped 10) 1
        (plain_message MessageType.MSG_LEAVE_ROOM)).map (fun st =>
        (st.1.rooms[0]?.map (fun room =>
            (room.is_active, room.player_count, room.players0, room.players1,
              room.game.state)),
          st.1.players[1]?.map (fun p => (p.state, p.room_id))))
      = some (some (true, 1, some 0, none, GameState.FINISHED),
          some (PlayerState.LOBBY, -1))) ∧
    (((handle_leave_room (scenario_alice_dropped 10) 1
        (plain_message MessageType.MSG_LEAVE_ROOM)).bind (fun st =>
          handle_join_room st.1 1 (join_room_message "0".toList))).map (fun st =>
        (st.2,
          st.1.rooms[0]?.map (fun room => (room.player_count, room.game.state)),
          st.1.players[0]?.map (fun p => p.state),
          st.1.players[1]?.map (fun p => (p.state, p.room_id))))
      = some ([(1, "ROOM_JOINED;0;\n".toList), (1, "GAME_START;10;0;alice\n".toList)],
          some (2, GameState.FINISHED),
          some PlayerState.DISCONNECTED, some (PlayerState.IN_ROOM, 0))) := by
  constructor <;> rfl

/-! ## Reply to a join -/

/-- C17, what the code does.  Function `room_get_opponent` returns `NULL` whenever it
is called with a `NULL` player, as `handle_join_room` calls it to find the waiting
player; so in the scenario of the claim (alice has created room 0 and waits, bob in
LOBBY sends `JOIN_ROOM;0`) the reply on bob's socket is `ROOM_JOINED;0;` with an
empty nickname, not `ROOM_JOINED;0;alice`. -/
theorem room_joined_reply_lacks_nickname :
    (∀ room : Room, room_get_opponent room none = none) ∧
    (scenario_room_created.map (fun st =>
        (st.1.rooms[0]?.map (fun room =>
            (room.is_active, room.players0, room.players1, room.game.state)),
          st.1.players[0]?.map (fun p => (p.nickname, p.state, p.room_id)),
          st.1.players[1]?.map (fun p => (p.nickname, p.state))))
      = some (some (true, some 0, none, GameState.WAITING),
          some ("alice".toList, PlayerState.IN_ROOM, 0),
          some ("bob".toList, PlayerState.LOBBY))) ∧
    ((scenario_room_created.bind (fun st =>
        handle_join_room st.1 1 (join_room_message "0".toList))).map (fun st => st.2)
      = some [(1, "ROOM_JOINED;0;\n".toList), (0, "GAME_START;21;1;bob\n".toList),
          (1, "GAME_START;21;0;alice\n".toList)]) := by
  refine ⟨fun _ => rfl, ?_, ?_⟩ <;> rfl

/-! ## Creating a room -/

theorem find_first_eq_none {α : Type} (test : α → Bool) (l : List α) :
    find_first test l = none ↔ ∀ x ∈ l, test x = false := by
  induction l with
  | nil => simp [find_first]
  | cons a l ih =>
    by_cases ha : test a = true
    · simp [find_first, ha]
    · simp only [Bool.not_eq_true] at ha
      simp [find_first, ha, ih]

theorem find_first_some_spec {α : Type} (test : α → Bool) :
    ∀ (l : List α) (d : Nat), find_first test l = some d →
      ∃ x, l[d]? = some x ∧ test x = true ∧
        ∀ i y, i < d → l[i]? = some y → test y = false := by
  intro l
  induction l with
  | nil =>
    intro d h
    simp [find_first] at h
  | cons a l ih =>
    intro d h
    by_cases ha : test a = true
    · simp [find_first, ha] at h
      subst h
      exact ⟨a, by simp, ha, fun i y hi => absurd hi (Nat.not_lt_zero i)⟩
    · simp only [Bool.not_eq_true] at ha
      simp only [find_first, ha, Bool.false_eq_true, if_false, Option.map_eq_some'] at h
      obtain ⟨e, he, hd⟩ := h
      subst hd
      obtain ⟨x, hx, htx, hlt⟩ := ih e he
      refine ⟨x, by simpa using hx, htx, ?_⟩
      intro i y hi hy
      cases i with
      | zero =>
        simp at hy
        subst hy
        exact ha
      | succ i =>
        exact hlt i y (by omega) (by simpa using hy)

theorem room_count_active_le (rooms : List Room) : room_count_active rooms ≤ rooms.length := by
  induction rooms with
  | nil => simp [room_count_active]
  | cons a l ih =>
    simp only [room_count_active, List.length_cons, Nat.cast_add, Nat.cast_one]
    split_ifs <;> omega

theorem room_count_active_full (rooms : List Room) :
    room_count_active rooms ≥ rooms.length ↔ ∀ room ∈ rooms, room.is_active = true := by
  induction rooms with
  | nil => simp [room_count_active]
  | cons a l ih =>
    have hle := room_count_active_le l
    simp only [room_count_active, List.length_cons, Nat.cast_add, Nat.cast_one,
      List.mem_cons, forall_eq_or_imp]
    by_cases ha : a.is_active = true
    · simp only [ha, if_true, true_and]
      rw [← ih]
      constructor <;> intro h <;> omega
    · simp only [ha, Bool.false_eq_true, if_false, false_and, iff_false]
      omega

theorem valid_room_name_length {name : List Char}
    (h : protocol_validate_room_name name = ErrorCode.ERR_NONE) :
    name.length ≤ MAX_ROOM_NAME_LENGTH := by
  unfold protocol_validate_room_name at h
  split_ifs at h
  omega

/-- C18.  Let a connected player in LOBBY send `CREATE_ROOM;<name>` with a valid room
name.  If every room slot is active the reply is `ROOM_ERR;17` and nothing changes;
otherwise, if an active room already has that name, the reply is `ROOM_ERR;10` and
nothing changes; otherwise the lowest-index inactive slot `i` becomes an active
room with `id = i`, that name, the creator as its only player and a WAITING game,
the creator is in state IN_ROOM with room id `i`, and the replies are
`ROOM_CREATED;i` and then `WAIT_OPPONENT`. -/
theorem create_room_contract
    (s : Server) (slot : Nat) (msg : ParsedMessage) (player : Player)
    (hplayer : s.players[slot]? = some player)
    (hstate : player.state = PlayerState.LOBBY)
    (hsock : 0 ≤ player.socket_fd)
    (hparam : 1 ≤ msg.param_count)
    (hvalid : protocol_validate_room_name (msg.param 0) = ErrorCode.ERR_NONE) :
    ((∀ room ∈ s.rooms, room.is_active = true) →
      handle_create_room s slot msg =
        some (s, [(slot, "ROOM_ERR;17;Maximum rooms reached\n".toList)])) ∧
    (¬ (∀ room ∈ s.rooms, room.is_active = true) →
      (∃ room ∈ s.rooms, room.is_active = true ∧ room.name = msg.param 0) →
      handle_create_room s slot msg =
        some (s, [(slot, "ROOM_ERR;10;Room name already taken\n".toList)])) ∧
    (¬ (∀ room ∈ s.rooms, room.is_active = true) →
      ¬ (∃ room ∈ s.rooms, room.is_active = true ∧ room.name = msg.param 0) →
      ∃ (i : Nat) (old : Room), s.rooms[i]? = some old ∧ old.is_active = false ∧
        (∀ k y, k < i → s.rooms[k]? = some y → y.is_active = true) ∧
        handle_create_room s slot msg =
          some ((s.setRoom i
              { id := i
                name := msg.param 0
                players0 := some slot
                players1 := none
                player_count := 1
                game := ⟨GameState.WAITING, 21, 0, 1, 1, -1⟩
                is_active := true }).setPlayer slot
              { player with room_id := i, skips_remaining := 1, state := PlayerState.IN_ROOM },
            [(slot, protocol_create_room_created BUFFER_SIZE i),
              (slot, "WAIT_OPPONENT\n".toList)])) := by
  have hparam' : ¬ msg.param_count < 1 := by omega
  have hsend : ∀ text, server_send_to_player s (some slot) text = (true, [(slot, text)]) := by
    intro text
    simp [server_send_to_player, has_socket, hplayer, hsock]
  have herr17 : protocol_create_room_err BUFFER_SIZE ErrorCode.ERR_MAX_ROOMS none =
      "ROOM_ERR;17;Maximum rooms reached\n".toList := rfl
  have herr10 : protocol_create_room_err BUFFER_SIZE ErrorCode.ERR_ROOM_NAME_TAKEN none =
      "ROOM_ERR;10;Room name already taken\n".toList := rfl
  have hwait : protocol_create_wait_opponent BUFFER_SIZE = "WAIT_OPPONENT\n".toList := rfl
  unfold handle_create_room
  simp only [hplayer, hstate, hparam', hvalid, ne_eq, not_true_eq_false, if_false, hsend]
  refine ⟨?_, ?_, ?_⟩
  · intro hall
    rw [if_pos ((room_count_active_full s.rooms).mpr hall), herr17]
  · intro hnall htaken
    rw [if_neg (fun h => hnall ((room_count_active_full s.rooms).mp h))]
    have hname : ∃ d, room_find_by_name s.rooms (msg.param 0) = some d := by
      cases hf : room_find_by_name s.rooms (msg.param 0) with
      | some d => exact ⟨d, rfl⟩
      | none =>
        exfalso
        obtain ⟨room, hmem, hact, hn⟩ := htaken
        have := (find_first_eq_none _ _).mp hf room hmem
        simp [hact, hn] at this
    obtain ⟨d, hd⟩ := hname
    simp [room_create, hd, hsend, herr10]
  · intro hnall hfree
    rw [if_neg (fun h => hnall ((room_count_active_full s.rooms).mp h))]
    have hname : room_find_by_name s.rooms (msg.param 0) = none := by
      apply (find_first_eq_none _ _).mpr
      intro room hmem
      by_cases hact : room.is_active = true
      · have : room.name ≠ msg.param 0 := fun hn => hfree ⟨room, hmem, hact, hn⟩
        simp [hact, this]
      · simp [hact]
    have hslot : ∃ i, find_free_slot s.rooms = some i := by
      cases hf : find_free_slot s.rooms with
      | some i => exact ⟨i, rfl⟩
      | none =>
        exfalso
        apply hnall
        intro room hmem
        have := (find_first_eq_none _ _).mp hf room hmem
        simpa using this
    obtain ⟨i, hi⟩ := hslot
    obtain ⟨old, hold, htest, hlt⟩ := find_first_some_spec _ _ _ hi
    refine ⟨i, old, hold, by simpa using htest, ?_, ?_⟩
    · intro k y hk hy
      simpa using hlt k y hk hy
    · have hlen := valid_room_name_length hvalid
      have htake : List.take MAX_ROOM_NAME_LENGTH (msg.param 0) = msg.param 0 :=
        List.take_of_length_le hlen
      have hi' : i < s.rooms.length := by
        rcases List.getElem?_eq_some_iff.mp hold with ⟨h, _⟩
        exact h
      have hneg : ¬ ((i : Int) < 0) := by omega
      have hslot : slot < s.players.length := by
        rcases List.getElem?_eq_some_iff.mp hplayer with ⟨h, _⟩
        exact h
      simp [room_create, hname, hi, hold, htake, room_add_player, setRoom_rooms, hi',
        room_is_full, PLAYERS_PER_ROOM, updPlayer_players, updPlayer_rooms, setRoom_players,
        hplayer, player_set_state, server_send_to_player, has_socket, hsock, hwait,
        game_init, INITIAL_STONES, SKIPS_PER_PLAYER, hneg, Server.updPlayer,
        setPlayer_players, setPlayer_rooms, hslot]
      simp [Server.setPlayer, Server.setRoom]


/-- Witness of C18: alice creates room `r1` in `scenario_lobby`, where no room is
active. -/
theorem create_room_contract_witness :
    ∃ (i : Nat) (old : Room), scenario_lobby.rooms[i]? = some old ∧ old.is_active = false ∧
      (∀ k y, k < i → scenario_lobby.rooms[k]? = some y → y.is_active = true) ∧
      handle_create_room scenario_lobby 0 (create_room_message "r1".toList) =
        some ((scenario_lobby.setRoom i
            { id := i
              name := "r1".toList
              players0 := some 0
              players1 := none
              player_count := 1
              game := ⟨GameState.WAITING, 21, 0, 1, 1, -1⟩
              is_active := true }).setPlayer 0
            { scenario_lobby_player 4 "alice".toList with
              room_id := i, skips_remaining := 1, state := PlayerState.IN_ROOM },
          [(0, protocol_create_room_created BUFFER_SIZE i), (0, "WAIT_OPPONENT\n".toList)]) :=
  (create_room_contract scenario_lobby 0 (create_room_message "r1".toList)
    (scenario_lobby_player 4 "alice".toList) rfl rfl (by decide) (by decide) (by decide)).2.2
    (by decide) (by decide)

/-! ## Errors of a join -/

theorem room_joined_getElem_five (id : Int) (opponent : List Char) :
    (protocol_create_room_joined BUFFER_SIZE id opponent)[5]? = some 'J' := by
  unfold protocol_create_room_joined
  split_ifs
  · rw [List.append_assoc, List.append_assoc, List.append_assoc,
      snprintf_getElem _ _ 5 (by decide) (by decide)]
    rfl
  · rw [List.append_assoc, snprintf_getElem _ _ 5 (by decide) (by decide)]
    rfl

theorem room_find_by_id_eq_none {rooms : List Room} {id : Int} :
    room_find_by_id rooms id = none ↔
      ¬ ∃ (r : Nat) (room : Room), id = r ∧ rooms[r]? = some room ∧ room.is_active = true := by
  constructor
  · rintro hnone ⟨r, room, hid, hroom, hact⟩
    have hlt : r < rooms.length := (List.getElem?_eq_some_iff.mp hroom).1
    have : room_find_by_id rooms id = some r :=
      room_find_by_id_eq_some.mpr ⟨by omega, by omega, by omega, room, hroom, hact⟩
    rw [hnone] at this
    cases this
  · intro h
    cases hf : room_find_by_id rooms id with
    | none => rfl
    | some r =>
      exfalso
      obtain ⟨h0, _, hr, room, hroom, hact⟩ := room_find_by_id_eq_some.mp hf
      exact h ⟨r, room, by omega, hroom, hact⟩

/-- JOIN_ROOM for the id that `atoi` reads.  Let a connected player in LOBBY send a
JOIN_ROOM whose parameter `atoi` reads as `id`, in a state where every active room has its slot index as id and
a player count equal to its number of player references.  The reply is
`ROOM_ERR;8` exactly when `id` is not the index of an active room, and `ROOM_ERR;9`
exactly when it is the index of an active room that already has two players; in
both error cases nothing else is sent and no record changes; otherwise the player
is added to that room (one more player, the player in one of its two places) and
the player's record carries the room id and is in state IN_ROOM, or IN_GAME if the
game has started. -/
theorem join_room_contract
    (s : Server) (slot : Nat) (msg : ParsedMessage) (player : Player) (id : Int)
    (hplayer : s.players[slot]? = some player)
    (hstate : player.state = PlayerState.LOBBY)
    (hsock : 0 ≤ player.socket_fd)
    (hparam : 1 ≤ msg.param_count)
    (hid : atoi (msg.param 0) = id)
    (hwf : ∀ (r : Nat) (room : Room), s.rooms[r]? = some room → room.is_active = true →
      room.id = r ∧ room.player_count = room.present) :
    ((∃ s' rest, handle_join_room s slot msg =
          some (s', (slot, "ROOM_ERR;8;Room not found\n".toList) :: rest)) ↔
      ¬ ∃ (r : Nat) (room : Room), id = r ∧ s.rooms[r]? = some room ∧
        room.is_active = true) ∧
    ((∃ s' rest, handle_join_room s slot msg =
          some (s', (slot, "ROOM_ERR;9;Room is full\n".toList) :: rest)) ↔
      ∃ (r : Nat) (room : Room), id = r ∧ s.rooms[r]? = some room ∧
        room.is_active = true ∧ room.players0 ≠ none ∧ room.players1 ≠ none) ∧
    (∀ s' rest text, handle_join_room s slot msg = some (s', (slot, text) :: rest) →
      text = "ROOM_ERR;8;Room not found\n".toList ∨ text = "ROOM_ERR;9;Room is full\n".toList →
      s' = s ∧ rest = []) ∧
    (∀ (r : Nat) (room : Room), id = r → s.rooms[r]? = some room → room.is_active = true →
      ¬ (room.players0 ≠ none ∧ room.players1 ≠ none) →
      ∃ s' out room' p', handle_join_room s slot msg = some (s', out) ∧
        s'.rooms[r]? = some room' ∧ room'.is_active = true ∧
        (room'.players0 = some slot ∨ room'.players1 = some slot) ∧
        room'.player_count = room.player_count + 1 ∧
        s'.players[slot]? = some p' ∧ p'.room_id = id ∧
        (p'.state = PlayerState.IN_ROOM ∨ p'.state = PlayerState.IN_GAME)) := by
  have hparam' : ¬ msg.param_count < 1 := by omega
  have herr8 : protocol_create_room_err BUFFER_SIZE ErrorCode.ERR_ROOM_NOT_FOUND none =
      "ROOM_ERR;8;Room not found\n".toList := rfl
  have herr9 : protocol_create_room_err BUFFER_SIZE ErrorCode.ERR_ROOM_FULL none =
      "ROOM_ERR;9;Room is full\n".toList := rfl
  have hne89 : "ROOM_ERR;8;Room not found\n".toList ≠ "ROOM_ERR;9;Room is full\n".toList := by
    decide
  have hsend : ∀ text, server_send_to_player s (some slot) text = (true, [(slot, text)]) := by
    intro text
    simp [server_send_to_player, has_socket, hplayer, hsock]
  have hfull : ∀ (r : Nat) (room : Room), s.rooms[r]? = some room → room.is_active = true →
      (room_is_full room = true ↔ (room.players0 ≠ none ∧ room.players1 ≠ none)) := by
    intro r room hroom hact
    have hc := (hwf r room hroom hact).2
    unfold room_is_full PLAYERS_PER_ROOM
    unfold Room.present at hc
    rw [hc]
    by_cases h0 : room.players0 = none <;> by_cases h1 : room.players1 = none <;>
      simp [h0, h1]
  have caseA : room_find_by_id s.rooms id = none →
      handle_join_room s slot msg = some (s, [(slot, "ROOM_ERR;8;Room not found\n".toList)]) := by
    intro hf
    unfold handle_join_room
    simp only [hplayer, hstate, hparam', hid, hf, ne_eq, not_true_eq_false, if_false, hsend,
      herr8]
  have caseB : ∀ (r : Nat) (room : Room), room_find_by_id s.rooms id = some r →
      s.rooms[r]? = some room → room_is_full room = true →
      handle_join_room s slot msg = some (s, [(slot, "ROOM_ERR;9;Room is full\n".toList)]) := by
    intro r room hf hroom hfl
    unfold handle_join_room
    simp only [hplayer, hstate, hparam', hid, hf, hroom, hfl, ne_eq, not_true_eq_false,
      if_false, if_true, hsend, herr9]
  have caseC : ∀ (r : Nat) (room : Room), room_find_by_id s.rooms id = some r →
      s.rooms[r]? = some room → room.is_active = true → ¬ room_is_full room = true →
      ∃ s' rest room' p', handle_join_room s slot msg =
          some (s', (slot, protocol_create_room_joined BUFFER_SIZE id []) :: rest) ∧
        s'.rooms[r]? = some room' ∧ room'.is_active = true ∧
        (room'.players0 = some slot ∨ room'.players1 = some slot) ∧
        room'.player_count = room.player_count + 1 ∧
        s'.players[slot]? = some p' ∧ p'.room_id = id ∧
        (p'.state = PlayerState.IN_ROOM ∨ p'.state = PlayerState.IN_GAME) := by
    intro r room hf hroom hact hnf
    have hrid : room.id = id := by
      have h1 := (hwf r room hroom hact).1
      have h2 := (room_find_by_id_eq_some.mp hf)
      omega
    have hnb := (not_congr (hfull r room hroom hact)).mp hnf
    unfold handle_join_room
    simp only [hplayer, hstate, hparam', hid, hf, hroom, hnf, ne_eq, not_true_eq_false,
      if_false, Bool.false_eq_true]
    have hnf' : ¬ (2 ≤ room.player_count) := by
      simpa [room_is_full, PLAYERS_PER_ROOM] using hnf
    have hcells : room.players0 = none ∨
        (∃ v, room.players0 = some v ∧ room.players1 = none) := by
      cases h0 : room.players0 with
      | none => exact Or.inl rfl
      | some v =>
        right
        refine ⟨v, rfl, ?_⟩
        by_contra h1
        exact hnb ⟨by simp [h0], h1⟩
    rcases hcells with h0 | ⟨v, h0, h1⟩
    · by_cases hfl1 : 2 ≤ room.player_count + 1 <;>
        by_cases hwait : room.game.state = GameState.WAITING <;>
        cases h1 : room.players1 <;>
        simp [room_add_player, hroom, hnf, h0, h1, hnf', hfl1, hwait, room_is_full,
          PLAYERS_PER_ROOM, room_get_opponent, nickname_or_empty, player_set_state,
          updPlayer_players, updPlayer_rooms, setRoom_rooms, setRoom_players, hplayer,
          has_socket, hsock, server_send_to_player, room_start_game, hact, hrid]
    · by_cases hfl1 : 2 ≤ room.player_count + 1 <;>
        by_cases hwait : room.game.state = GameState.WAITING <;>
        simp [room_add_player, hroom, hnf, h0, h1, hnf', hfl1, hwait, room_is_full,
          PLAYERS_PER_ROOM, room_get_opponent, nickname_or_empty, player_set_state,
          updPlayer_players, updPlayer_rooms, setRoom_rooms, setRoom_players, hplayer,
          has_socket, hsock, server_send_to_player, room_start_game, hact, hrid]
      split_ifs <;> simp
  have hj8 : protocol_create_room_joined BUFFER_SIZE id [] ≠
      "ROOM_ERR;8;Room not found\n".toList := by
    intro h
    have := room_joined_getElem_five id []
    rw [h] at this
    revert this
    decide
  have hj9 : protocol_create_room_joined BUFFER_SIZE id [] ≠
      "ROOM_ERR;9;Room is full\n".toList := by
    intro h
    have := room_joined_getElem_five id []
    rw [h] at this
    revert this
    decide
  have hfound : ∀ r, room_find_by_id s.rooms id = some r →
      ∃ room, id = r ∧ s.rooms[r]? = some room ∧ room.is_active = true := by
    intro r hf
    obtain ⟨h0, _, hr, room, hroom, hact⟩ := room_find_by_id_eq_some.mp hf
    exact ⟨room, by omega, hroom, hact⟩
  have hfind_of : ∀ (r : Nat) (room : Room), id = r → s.rooms[r]? = some room →
      room.is_active = true → room_find_by_id s.rooms id = some r := by
    intro r room hidr hroom hact
    have hlt : r < s.rooms.length := (List.getElem?_eq_some_iff.mp hroom).1
    exact room_find_by_id_eq_some.mpr ⟨by omega, by omega, by omega, room, hroom, hact⟩
  refine ⟨?_, ?_, ?_, ?_⟩
  · rw [← room_find_by_id_eq_none]
    constructor
    · rintro ⟨s', rest, h⟩
      cases hf : room_find_by_id s.rooms id with
      | none => rfl
      | some r =>
        exfalso
        obtain ⟨room, _, hroom, hact⟩ := hfound r hf
        by_cases hfl : room_is_full room = true
        · rw [caseB r room hf hroom hfl] at h
          simp only [Option.some.injEq, Prod.mk.injEq, List.cons.injEq] at h
          exact hne89 h.2.1.2.symm
        · obtain ⟨s2, rest2, _, _, h2, _⟩ := caseC r room hf hroom hact hfl
          rw [h2] at h
          simp only [Option.some.injEq, Prod.mk.injEq, List.cons.injEq] at h
          exact hj8 h.2.1.2
    · intro hf
      exact ⟨s, [], caseA hf⟩
  · constructor
    · rintro ⟨s', rest, h⟩
      cases hf : room_find_by_id s.rooms id with
      | none =>
        exfalso
        rw [caseA hf] at h
        simp only [Option.some.injEq, Prod.mk.injEq, List.cons.injEq] at h
        exact hne89 h.2.1.2
      | some r =>
        obtain ⟨room, hidr, hroom, hact⟩ := hfound r hf
        by_cases hfl : room_is_full room = true
        · exact ⟨r, room, hidr, hroom, hact, (hfull r room hroom hact).mp hfl⟩
        · exfalso
          obtain ⟨s2, rest2, _, _, h2, _⟩ := caseC r room hf hroom hact hfl
          rw [h2] at h
          simp only [Option.some.injEq, Prod.mk.injEq, List.cons.injEq] at h
          exact hj9 h.2.1.2
    · rintro ⟨r, room, hidr, hroom, hact, hb⟩
      exact ⟨s, [], caseB r room (hfind_of r room hidr hroom hact) hroom
        ((hfull r room hroom hact).mpr hb)⟩
  · intro s' rest text h htext
    cases hf : room_find_by_id s.rooms id with
    | none =>
      rw [caseA hf] at h
      simp only [Option.some.injEq, Prod.mk.injEq, List.cons.injEq] at h
      exact ⟨h.1.symm, h.2.2.symm⟩
    | some r =>
      obtain ⟨room, hidr, hroom, hact⟩ := hfound r hf
      by_cases hfl : room_is_full room = true
      · rw [caseB r room hf hroom hfl] at h
        simp only [Option.some.injEq, Prod.mk.injEq, List.cons.injEq] at h
        exact ⟨h.1.symm, h.2.2.symm⟩
      · exfalso
        obtain ⟨s2, rest2, _, _, h2, _⟩ := caseC r room hf hroom hact hfl
        rw [h2] at h
        simp only [Option.some.injEq, Prod.mk.injEq, List.cons.injEq] at h
        rcases htext with ht | ht
        · exact hj8 (h.2.1.2.trans ht)
        · exact hj9 (h.2.1.2.trans ht)
  · intro r room hidr hroom hact hnb
    have hf := hfind_of r room hidr hroom hact
    have hfl : ¬ room_is_full room = true := fun h => hnb ((hfull r room hroom hact).mp h)
    obtain ⟨s2, rest2, room', p', h2, h3⟩ := caseC r room hf hroom hact hfl
    exact ⟨s2, _, room', p', h2, h3⟩


/-- An instance of `join_room_contract`: bob joins room 0, in which alice waits (`scenario_waiting` is the
state after alice's `CREATE_ROOM;r1`). -/
theorem join_room_contract_witness :
    (scenario_room_created.map (fun st => st.1) = some scenario_waiting) ∧
    ∃ s' out room' p', handle_join_room scenario_waiting 1 (join_room_message "0".toList) =
        some (s', out) ∧
      s'.rooms[0]? = some room' ∧ room'.is_active = true ∧
      (room'.players0 = some 1 ∨ room'.players1 = some 1) ∧
      room'.player_count = 1 + 1 ∧
      s'.players[1]? = some p' ∧ p'.room_id = 0 ∧
      (p'.state = PlayerState.IN_ROOM ∨ p'.state = PlayerState.IN_GAME) :=
  ⟨rfl, (join_room_contract scenario_waiting 1 (join_room_message "0".toList)
    (scenario_lobby_player 5 "bob".toList) 0 rfl rfl (by decide) (by decide) rfl
    (by
      intro r room hroom hact
      rcases r with _ | _ | r
      · cases hroom
        exact ⟨rfl, rfl⟩
      · cases hroom
        cases hact
      · cases hroom)).2.2.2 0
    { id := 0, name := "r1".toList, players0 := some 0, players1 := none,
      player_count := 1, game := ⟨GameState.WAITING, 21, 0, 1, 1, -1⟩, is_active := true }
    rfl rfl rfl (by decide)⟩

/-! ## Listing of rooms -/

theorem room_count_active_eq_filter (rooms : List Room) :
    room_count_active rooms = ((rooms.filter (fun room => room.is_active)).length : Int) := by
  induction rooms with
  | nil => rfl
  | cons a l ih =>
    by_cases ha : a.is_active = true
    · simp [room_count_active, ha, ih]
      omega
    · simp [room_count_active, ha, ih]

theorem room_list_entry_length_pos (room : Room) : 0 < (room_list_entry room).length := by
  simp [room_list_entry]

theorem listing_empty_of_count_zero (rooms : List Room) (h : room_count_active rooms = 0) :
    listing_of_active_rooms rooms = [] := by
  induction rooms with
  | nil => rfl
  | cons a l ih =>
    have hle : 0 ≤ room_count_active l := by
      rw [room_count_active_eq_filter]
      omega
    by_cases ha : a.is_active = true
    · simp [room_count_active, ha] at h
      omega
    · simp [room_count_active, ha] at h
      simp [listing_of_active_rooms, ha, ih h]

theorem listing_pos_of_count_ne_zero (rooms : List Room) (h : room_count_active rooms ≠ 0) :
    0 < (listing_of_active_rooms rooms).length := by
  induction rooms with
  | nil => simp [room_count_active] at h
  | cons a l ih =>
    by_cases ha : a.is_active = true
    · have := room_list_entry_length_pos a
      simp [listing_of_active_rooms, ha]
      omega
    · simp [room_count_active, ha] at h
      have := ih h
      simp [listing_of_active_rooms, ha]
      omega

theorem room_list_loop_fits (size : Nat) :
    ∀ (rooms : List Room) (buffer : List Char) (written : Nat),
      buffer.length = written →
      written + (listing_of_active_rooms rooms).length ≤ size - 1 →
      (room_list_loop size rooms buffer written).1 = buffer ++ listing_of_active_rooms rooms := by
  intro rooms
  induction rooms with
  | nil =>
    intro buffer written _ _
    simp [room_list_loop, listing_of_active_rooms]
  | cons a l ih =>
    intro buffer written hlen hfit
    unfold room_list_loop
    by_cases hw : written < size - 1
    · rw [if_pos hw]
      by_cases ha : a.is_active = true
      · simp only [listing_of_active_rooms, ha, if_true, List.length_append] at hfit ⊢
        have htake : List.take written buffer = buffer := by
          rw [← hlen, List.take_length]
        have hsn : snprintf (size - written) (room_list_entry a) = room_list_entry a := by
          apply snprintf_short
          omega
        rw [htake, hsn, ih _ _ (by simp [hlen]) (by omega), List.append_assoc]
      · simp only [listing_of_active_rooms, ha, Bool.false_eq_true, if_false,
          List.nil_append] at hfit ⊢
        exact ih _ _ hlen hfit
    · rw [if_neg hw]
      have hz : (listing_of_active_rooms (a :: l)).length = 0 := by omega
      have : listing_of_active_rooms (a :: l) = [] := List.length_eq_zero.mp hz
      simp [this]


theorem room_list_to_string_fits (rooms : List Room) (size : Nat)
    (hfit : (fmt_d (room_count_active rooms) ++ listing_of_active_rooms rooms).length
      ≤ size - 1) :
    (room_list_to_string rooms size).1 =
      fmt_d (room_count_active rooms) ++ listing_of_active_rooms rooms := by
  unfold room_list_to_string
  simp only [List.length_append] at hfit
  have hsn : snprintf size (fmt_d (room_count_active rooms)) = fmt_d (room_count_active rooms) :=
    snprintf_short (by omega)
  by_cases hz : room_count_active rooms = 0
  · simp only [hz, if_true]
    rw [listing_empty_of_count_zero rooms hz, List.append_nil]
    apply snprintf_short
    rw [hz] at hfit
    omega
  · simp only [hz, if_false]
    rw [hsn]
    exact room_list_loop_fits size rooms _ _ rfl hfit

/-- C20, as the code has it.  For a connected player who is logged in (not in state
CONNECTING), `handle_list_rooms` changes no record and sends one message to the
player.  If the count of active rooms followed by the entries of the active rooms
fits the listing buffer (at most 959 characters), the message is `ROOMS;<count>`
followed, for each active room in ascending slot order, by
`;<id>,<name>,<player_count>,2`, and a final newline, where count is the number of
active rooms; it is `ROOMS;0` when no room is active.  Two consecutive calls with
no change in between produce identical messages. -/
theorem list_rooms_contract
    (s : Server) (slot : Nat) (msg : ParsedMessage) (player : Player)
    (hplayer : s.players[slot]? = some player)
    (hstate : player.state ≠ PlayerState.CONNECTING)
    (hsock : 0 ≤ player.socket_fd) :
    (∃ text, handle_list_rooms s slot msg = some (s, [(slot, text)])) ∧
    ((fmt_d ((s.rooms.filter (fun room => room.is_active)).length : Int)
          ++ listing_of_active_rooms s.rooms).length ≤ BUFFER_SIZE - 64 - 1 →
      handle_list_rooms s slot msg = some (s, [(slot, "ROOMS;".toList
        ++ fmt_d ((s.rooms.filter (fun room => room.is_active)).length : Int)
        ++ listing_of_active_rooms s.rooms ++ "\n".toList)])) ∧
    ((∀ room ∈ s.rooms, room.is_active = false) →
      handle_list_rooms s slot msg = some (s, [(slot, "ROOMS;0\n".toList)])) ∧
    (∀ s' out, handle_list_rooms s slot msg = some (s', out) →
      handle_list_rooms s' slot msg = some (s', out)) ∧
    (∀ room : Room, room_list_entry room =
      ";".toList ++ fmt_d room.id ++ ",".toList ++ room.name ++ ",".toList
        ++ fmt_d room.player_count ++ ",2".toList) := by
  have hrun : handle_list_rooms s slot msg = some (s, [(slot,
      protocol_create_rooms BUFFER_SIZE (room_list_to_string s.rooms (BUFFER_SIZE - 64)).1)]) := by
    unfold handle_list_rooms
    simp [hplayer, hstate, server_send_to_player, has_socket, hsock]
  have hfitcase : (fmt_d ((s.rooms.filter (fun room => room.is_active)).length : Int)
        ++ listing_of_active_rooms s.rooms).length ≤ BUFFER_SIZE - 64 - 1 →
      handle_list_rooms s slot msg = some (s, [(slot, "ROOMS;".toList
        ++ fmt_d ((s.rooms.filter (fun room => room.is_active)).length : Int)
        ++ listing_of_active_rooms s.rooms ++ "\n".toList)]) := by
    intro hfit
    rw [← room_count_active_eq_filter] at hfit ⊢
    rw [hrun, room_list_to_string_fits s.rooms (BUFFER_SIZE - 64) hfit]
    have hpos : 0 < (fmt_d (room_count_active s.rooms)
        ++ listing_of_active_rooms s.rooms).length := by
      by_cases hz : room_count_active s.rooms = 0
      · rw [hz]
        simp only [List.length_append]
        have : (fmt_d 0).length = 1 := rfl
        omega
      · have := listing_pos_of_count_ne_zero s.rooms hz
        simp only [List.length_append]
        omega
    unfold protocol_create_rooms
    rw [if_pos hpos, snprintf_short]
    · simp
    · have h1 : "ROOMS;".toList.length = 6 := rfl
      have h2 : "\n".toList.length = 1 := rfl
      simp only [List.length_append, BUFFER_SIZE, h1, h2] at hfit ⊢
      omega
  refine ⟨⟨_, hrun⟩, hfitcase, ?_, ?_, ?_⟩
  · intro hnone
    have hfilter : s.rooms.filter (fun room => room.is_active) = [] := by
      simpa using hnone
    have hz : room_count_active s.rooms = 0 := by
      rw [room_count_active_eq_filter, hfilter]
      rfl
    have hl := listing_empty_of_count_zero s.rooms hz
    have := hfitcase (by rw [hfilter, hl]; decide)
    rw [this, hfilter, hl]
    rfl
  · intro s' out h
    rw [hrun] at h
    simp only [Option.some.injEq, Prod.mk.injEq] at h
    rw [← h.1, ← h.2]
    exact hrun
  · intro room
    unfold room_list_entry
    have h2 : fmt_d PLAYERS_PER_ROOM = "2".toList := rfl
    rw [h2, List.append_assoc _ ",".toList "2".toList]
    rfl


/-- Witness of C20: bob lists the rooms while alice waits in room 0 (`r1`). -/
theorem list_rooms_contract_witness :
    handle_list_rooms scenario_waiting 1 (plain_message MessageType.MSG_LIST_ROOMS) =
      some (scenario_waiting, [(1, "ROOMS;1;0,r1,1,2\n".toList)]) :=
  (list_rooms_contract scenario_waiting 1 (plain_message MessageType.MSG_LIST_ROOMS)
    (scenario_lobby_player 5 "bob".toList) rfl (by decide) (by decide)).2.1 (by decide)

set_option maxRecDepth 100000

/-- Counterexample to C20 as stated.  On a server with 14 room slots, 14 players
create one room each, with valid names of 64 characters.  The count and the 14
entries take 1000 characters, more than the listing buffer holds: the reply to
`LIST_ROOMS` is 966 characters long and ends in `;13,aaaaaaaaaaaaaaaaaaaaaaaaaaa`
and the newline, so the entry of room 13 is cut off after 27 characters of its
name. -/
theorem list_rooms_truncated_counterexample :
    ((scenario_many_rooms 14).map (fun st =>
        (st.rooms.map (fun room => (room.id, room.is_active, room.name.length)),
          (fmt_d 14 ++ listing_of_active_rooms st.rooms).length))
      = some ([(0, true, 64), (1, true, 64), (2, true, 64), (3, true, 64), (4, true, 64),
          (5, true, 64), (6, true, 64), (7, true, 64), (8, true, 64), (9, true, 64),
          (10, true, 64), (11, true, 64), (12, true, 64), (13, true, 64)], 1000)) ∧
    (((scenario_many_rooms 14).bind (fun st =>
        handle_list_rooms st 0 (plain_message MessageType.MSG_LIST_ROOMS))).map (fun st =>
          st.2.map (fun m => (m.1, m.2.length, m.2.drop 934)))
      = some [(0, 966, ";13,aaaaaaaaaaaaaaaaaaaaaaaaaaa\n".toList)]) := by
  constructor <;> rfl

/-! ## Rejected batches -/

/-- An update of one record keeps every slot of the player array occupied. -/
theorem updPlayer_players_isSome (t : Server) (i slot : Nat) (f : Player → Player)
    (h : (t.players[slot]?).isSome = true) :
    ((t.updPlayer i f).players[slot]?).isSome = true := by
  rw [updPlayer_players]
  split_ifs <;> simp_all

/-- `player_set_state` keeps every slot of the player array occupied. -/
theorem player_set_state_players_isSome (t : Server) (x : Option Nat) (st : PlayerState)
    (slot : Nat) (h : (t.players[slot]?).isSome = true) :
    ((player_set_state t x st).players[slot]?).isSome = true := by
  unfold player_set_state
  cases x with
  | none => exact h
  | some i => exact updPlayer_players_isSome t i slot _ h

/-- A write to a room keeps every slot of the player array occupied. -/
theorem setRoom_players_isSome (t : Server) (r : Nat) (room : Room) (slot : Nat)
    (h : (t.players[slot]?).isSome = true) :
    ((t.setRoom r room).players[slot]?).isSome = true := by
  simpa [setRoom_players] using h

/-- After `server_handle_disconnect` the record of the disconnected player has no
socket. -/
theorem disconnect_closes (s : Server) (slot : Nat) (player : Player) (graceful : Bool)
    (now : Int) (hplayer : s.players[slot]? = some player) :
    ∃ p', (server_handle_disconnect s slot graceful now).1.players[slot]? = some p' ∧
      p'.socket_fd = -1 := by
  have hsome : (s.players[slot]?).isSome = true := by simp [hplayer]
  have hfree : ∀ (t : Server) (out : List (Nat × List Char)),
      (t.players[slot]?).isSome = true →
      ∃ p', ((t.updPlayer slot (fun p => player_reset p false now), out) :
          Server × List (Nat × List Char)).1.players[slot]? = some p' ∧ p'.socket_fd = -1 := by
    intro t out ht
    obtain ⟨q, hq⟩ := Option.isSome_iff_exists.mp ht
    exact ⟨player_reset q false now, by simp [updPlayer_players, hq], by simp [player_reset]⟩
  have hkeep : ∀ (t : Server) (out : List (Nat × List Char)),
      (t.players[slot]?).isSome = true →
      ∃ p', ((t.updPlayer slot (fun p => player_reset p true now), out) :
          Server × List (Nat × List Char)).1.players[slot]? = some p' ∧ p'.socket_fd = -1 := by
    intro t out ht
    obtain ⟨q, hq⟩ := Option.isSome_iff_exists.mp ht
    exact ⟨player_reset q true now, by simp [updPlayer_players, hq], by simp [player_reset]⟩
  unfold server_handle_disconnect
  simp only [hplayer]
  repeat' split
  all_goals first
    | apply hfree
    | apply hkeep
  all_goals first
    | exact hsome
    | (apply room_remove_player_players_isSome
       first
         | exact hsome
         | (apply player_set_state_players_isSome
            apply room_remove_player_players_isSome
            apply setRoom_players_isSome
            exact hsome))


/-- C30.  `is_valid_protocol_data` accepts exactly the batches in which every byte is
in 32..126 or is LF or CR.  For a rejected batch read from a connected player,
`read_from_client` dispatches nothing and sends nothing while the counter of invalid
messages stays below 3 after its increment by one: the state changes only in the
player's `last_activity` and `invalid_message_count`, so the inbound buffer is
unchanged.  When the incremented counter reaches 3 the player is sent
`ERROR;1;Binary data not allowed` and is disconnected by
`server_handle_disconnect`, after which the record has no socket. -/
theorem binary_batch_contract
    (s : Server) (slot : Nat) (player : Player) (buffer : List Char) (now : Int)
    (hplayer : s.players[slot]? = some player)
    (hsock : 0 ≤ player.socket_fd) :
    (is_valid_protocol_data buffer = true ↔
      ∀ c ∈ buffer, (32 ≤ c.toNat ∧ c.toNat ≤ 126) ∨ c = '\n' ∨ c = '\r') ∧
    (is_valid_protocol_data buffer = false →
      (player.invalid_message_count + 1 < 3 →
        read_from_client s slot buffer now =
          some (s.setPlayer slot
            { player with
              last_activity := now
              invalid_message_count := player.invalid_message_count + 1 }, [])) ∧
      (3 ≤ player.invalid_message_count + 1 →
        ∃ s' rest p', read_from_client s slot buffer now =
            some (s', (slot, "ERROR;1;Binary data not allowed\n".toList) :: rest) ∧
          (s', rest) = server_handle_disconnect (s.setPlayer slot
            { player with
              last_activity := now
              invalid_message_count := player.invalid_message_count + 1 }) slot false now ∧
          s'.players[slot]? = some p' ∧ p'.socket_fd = -1)) := by
  constructor
  · unfold is_valid_protocol_data
    simp only [List.all_eq_true, Bool.or_eq_true, decide_eq_true_eq]
    constructor
    · intro h c hc
      rcases h c hc with (h1 | h2) | h3
      · exact Or.inl h1
      · exact Or.inr (Or.inl h2)
      · exact Or.inr (Or.inr h3)
    · intro h c hc
      rcases h c hc with h1 | h2 | h3
      · exact Or.inl (Or.inl h1)
      · exact Or.inl (Or.inr h2)
      · exact Or.inr h3
  · intro hbad
    have hstate : count_invalid (s.updPlayer slot (fun p => player_update_activity p now)) slot =
        s.setPlayer slot
          { player with
            last_activity := now
            invalid_message_count := player.invalid_message_count + 1 } := by
      have hlt : slot < s.players.length := (List.getElem?_eq_some_iff.mp hplayer).1
      simp [count_invalid, Server.updPlayer, hplayer, Server.setPlayer, player_update_activity,
        hlt]
    have htext : protocol_create_error BUFFER_SIZE ErrorCode.ERR_INVALID_FORMAT
        (some "Binary data not allowed".toList) = "ERROR;1;Binary data not allowed\n".toList := rfl
    unfold read_from_client
    simp only [hplayer, hbad, Bool.not_false, if_true, hstate, htext, MAX_INVALID_MESSAGES]
    constructor
    · intro hlt
      have : ¬ (player.invalid_message_count + 1 ≥ 3) := by omega
      simp only [this, if_false]
    · intro hge
      have hge' : player.invalid_message_count + 1 ≥ 3 := hge
      have hp1 : (s.setPlayer slot
          { player with
            last_activity := now
            invalid_message_count := player.invalid_message_count + 1 }).players[slot]? =
          some { player with
            last_activity := now
            invalid_message_count := player.invalid_message_count + 1 } := by
        have hlt : slot < s.players.length := (List.getElem?_eq_some_iff.mp hplayer).1
        simp [setPlayer_players, hlt]
      obtain ⟨p', hp', hsock'⟩ := disconnect_closes _ slot _ false now hp1
      simp only [hge', if_true]
      refine ⟨(server_handle_disconnect _ slot false now).1,
        (server_handle_disconnect _ slot false now).2, p', ?_, rfl, hp', hsock'⟩
      simp only [server_send_to_player, has_socket, hp1, hsock, ge_iff_le, decide_True, if_true,
        List.singleton_append]

/-- Witness of C30: the first 0x00 batch of a fresh session only counts, and three
such batches end the session with `ERROR;1;Binary data not allowed`, leaving all
slots free. -/
theorem binary_batch_contract_witness :
    (0 : Int) ≤ (player_create 4 100).socket_fd ∧
    read_from_client scenario_fresh 0 [Char.ofNat 0] 101 =
      some (scenario_fresh.setPlayer 0 { player_create 4 100 with
              last_activity := 101
              invalid_message_count := (player_create 4 100).invalid_message_count + 1 }, []) ∧
    run_events (server_initial 3 2) scenario_binary_events =
      some (server_initial 3 2, [(0, "ERROR;1;Binary data not allowed\n".toList)]) :=
  ⟨by decide,
    ((binary_batch_contract scenario_fresh 0 (player_create 4 100) [Char.ofNat 0] 101 rfl
      (by decide)).2 rfl).1 (by decide),
    rfl⟩

/-! ## Commands outside the state table -/

/-- A message for a player with a socket is sent to that player. -/
theorem send_to_connected (s : Server) (slot : Nat) (player : Player) (text : List Char)
    (hplayer : s.players[slot]? = some player) (hsock : 0 ≤ player.socket_fd) :
    server_send_to_player s (some slot) text = (true, [(slot, text)]) := by
  simp [server_send_to_player, has_socket, hplayer, hsock]

/-- C26, as the code has it.  For a connected player, a command that the state table
does not list for the player's state is answered by exactly one message to the
sender and leaves the whole server state unchanged: in CONNECTING, LIST_ROOMS gets
`ERROR;4` and CREATE_ROOM and JOIN_ROOM get `ROOM_ERR;4` (NOT_LOGGED_IN); in
CONNECTING and LOBBY, LEAVE_ROOM gets `ERROR;11` (NOT_IN_ROOM); in CONNECTING, LOBBY
and IN_ROOM, TAKE gets `TAKE_ERR;12` and SKIP gets `SKIP_ERR;12` (NOT_IN_GAME); in
IN_ROOM and IN_GAME, CREATE_ROOM and JOIN_ROOM get `ROOM_ERR;18`
(GAME_IN_PROGRESS).  LOGIN in LOBBY, IN_ROOM and IN_GAME gets `LOGIN_ERR;5`
(ALREADY_LOGGED_IN), and LIST_ROOMS in IN_ROOM and IN_GAME is answered with the
room list. -/
theorem wrong_state_command_contract
    (s : Server) (slot : Nat) (player : Player) (msg : ParsedMessage) (now : Int)
    (hplayer : s.players[slot]? = some player)
    (hsock : 0 ≤ player.socket_fd) :
    (player.state = PlayerState.CONNECTING →
      (msg.type = MessageType.MSG_LIST_ROOMS → dispatch_message s slot msg now =
        some (s, [(slot, "ERROR;4;Not logged in\n".toList)])) ∧
      (msg.type = MessageType.MSG_CREATE_ROOM ∨ msg.type = MessageType.MSG_JOIN_ROOM →
        dispatch_message s slot msg now =
          some (s, [(slot, "ROOM_ERR;4;Not logged in\n".toList)]))) ∧
    (player.state = PlayerState.CONNECTING ∨ player.state = PlayerState.LOBBY →
      msg.type = MessageType.MSG_LEAVE_ROOM →
      dispatch_message s slot msg now = some (s, [(slot, "ERROR;11;Not in a room\n".toList)])) ∧
    (player.state = PlayerState.CONNECTING ∨ player.state = PlayerState.LOBBY ∨
        player.state = PlayerState.IN_ROOM →
      (msg.type = MessageType.MSG_TAKE → dispatch_message s slot msg now =
        some (s, [(slot, "TAKE_ERR;12;Not in a game\n".toList)])) ∧
      (msg.type = MessageType.MSG_SKIP → dispatch_message s slot msg now =
        some (s, [(slot, "SKIP_ERR;12;Not in a game\n".toList)]))) ∧
    (player.state = PlayerState.IN_ROOM ∨ player.state = PlayerState.IN_GAME →
      msg.type = MessageType.MSG_CREATE_ROOM ∨ msg.type = MessageType.MSG_JOIN_ROOM →
      dispatch_message s slot msg now =
        some (s, [(slot, "ROOM_ERR;18;Game already in progress\n".toList)])) ∧
    (player.state = PlayerState.LOBBY ∨ player.state = PlayerState.IN_ROOM ∨
        player.state = PlayerState.IN_GAME →
      msg.type = MessageType.MSG_LOGIN →
      dispatch_message s slot msg now =
        some (s, [(slot, "LOGIN_ERR;5;Already logged in\n".toList)])) ∧
    (player.state = PlayerState.IN_ROOM ∨ player.state = PlayerState.IN_GAME →
      msg.type = MessageType.MSG_LIST_ROOMS →
      dispatch_message s slot msg now = some (s, [(slot,
        protocol_create_rooms BUFFER_SIZE (room_list_to_string s.rooms (BUFFER_SIZE - 64)).1)])) := by
  have hsend := fun text => send_to_connected s slot player text hplayer hsock
  have e1 : protocol_create_error BUFFER_SIZE ErrorCode.ERR_NOT_LOGGED_IN none =
      "ERROR;4;Not logged in\n".toList := rfl
  have e2 : protocol_create_room_err BUFFER_SIZE ErrorCode.ERR_NOT_LOGGED_IN none =
      "ROOM_ERR;4;Not logged in\n".toList := rfl
  have e3 : protocol_create_error BUFFER_SIZE ErrorCode.ERR_NOT_IN_ROOM none =
      "ERROR;11;Not in a room\n".toList := rfl
  have e4 : protocol_create_take_err BUFFER_SIZE ErrorCode.ERR_NOT_IN_GAME none =
      "TAKE_ERR;12;Not in a game\n".toList := rfl
  have e5 : protocol_create_skip_err BUFFER_SIZE ErrorCode.ERR_NOT_IN_GAME none =
      "SKIP_ERR;12;Not in a game\n".toList := rfl
  have e6 : protocol_create_room_err BUFFER_SIZE ErrorCode.ERR_GAME_IN_PROGRESS none =
      "ROOM_ERR;18;Game already in progress\n".toList := rfl
  have e7 : protocol_create_login_err BUFFER_SIZE ErrorCode.ERR_ALREADY_LOGGED_IN none =
      "LOGIN_ERR;5;Already logged in\n".toList := rfl
  refine ⟨?_, ?_, ?_, ?_, ?_, ?_⟩
  · intro hst
    constructor
    · intro ht
      simp [dispatch_message, ht, handle_list_rooms, hplayer, hst, hsend, e1]
    · rintro (ht | ht)
      · simp [dispatch_message, ht, handle_create_room, hplayer, hst, hsend, e2]
      · simp [dispatch_message, ht, handle_join_room, hplayer, hst, hsend, e2]
  · rintro (hst | hst) ht <;>
      simp [dispatch_message, ht, handle_leave_room, hplayer, hst, hsend, e3]
  · intro hst
    constructor
    · intro ht
      rcases hst with hst | hst | hst <;>
        simp [dispatch_message, ht, handle_take, hplayer, hst, hsend, e4]
    · intro ht
      rcases hst with hst | hst | hst <;>
        simp [dispatch_message, ht, handle_skip, hplayer, hst, hsend, e5]
  · rintro (hst | hst) (ht | ht) <;>
      simp [dispatch_message, ht, handle_create_room, handle_join_room, hplayer, hst, hsend, e6]
  · rintro (hst | hst | hst) ht <;>
      simp [dispatch_message, ht, handle_login, hplayer, hst, hsend, e7]
  · rintro (hst | hst) ht <;>
      simp [dispatch_message, ht, handle_list_rooms, hplayer, hst, hsend]

/-- Witness of C26: alice sends TAKE in the lobby. -/
theorem wrong_state_command_contract_witness :
    (0 : Int) ≤ (scenario_lobby_player 4 "alice".toList).socket_fd ∧
    dispatch_message scenario_lobby 0 (plain_message MessageType.MSG_TAKE) 100 =
      some (scenario_lobby, [(0, "TAKE_ERR;12;Not in a game\n".toList)]) :=
  ⟨by decide,
    ((wrong_state_command_contract scenario_lobby 0 (scenario_lobby_player 4 "alice".toList)
      (plain_message MessageType.MSG_TAKE) 100 rfl (by decide)).2.2.1
        (Or.inr (Or.inl rfl))).1 rfl⟩

/-- Counterexample to C26 as stated.  LOGIN from a player in the lobby is answered
with code 5 (ALREADY_LOGGED_IN), which is not among the five codes of the claim;
LIST_ROOMS from a player in a game is answered with the room list, a success
reply; LOGOUT from a connected player in state CONNECTING is answered with
silence and frees the slot. -/
theorem wrong_state_command_counterexample :
    dispatch_message scenario_lobby 0 (login_message "carol".toList) 100 =
      some (scenario_lobby, [(0, "LOGIN_ERR;5;Already logged in\n".toList)]) ∧
    dispatch_message (scenario_server 21) 0 (plain_message MessageType.MSG_LIST_ROOMS) 100 =
      some (scenario_server 21, [(0, "ROOMS;1;0,r1,2,2\n".toList)]) ∧
    (scenario_connecting.players[2]?.map (fun p => (p.state, decide (0 ≤ p.socket_fd))) =
        some (PlayerState.CONNECTING, true) ∧
      dispatch_message scenario_connecting 2 (plain_message MessageType.MSG_LOGOUT) 100 =
        some (scenario_lobby, [])) := by
  refine ⟨?_, ?_, ?_, ?_⟩ <;> rfl

/-! ## Counter of invalid messages -/

/-- The only error of `protocol_validate_nickname` is NICKNAME_INVALID. -/
theorem validate_nickname_codes (nickname : List Char)
    (h : protocol_validate_nickname nickname ≠ ErrorCode.ERR_NONE) :
    protocol_validate_nickname nickname = ErrorCode.ERR_NICKNAME_INVALID := by
  unfold protocol_validate_nickname at h ⊢
  split_ifs at h ⊢ <;> first | rfl | exact absurd rfl h

/-- The only error of `protocol_validate_room_name` is INVALID_PARAMS. -/
theorem validate_room_name_codes (name : List Char)
    (h : protocol_validate_room_name name ≠ ErrorCode.ERR_NONE) :
    protocol_validate_room_name name = ErrorCode.ERR_INVALID_PARAMS := by
  unfold protocol_validate_room_name at h ⊢
  split_ifs at h ⊢ <;> first | rfl | exact absurd rfl h

/-- The statement `invalid_message_count++` adds one to the counter of the record and
changes nothing else in it. -/
theorem count_invalid_players (s : Server) (slot : Nat) (player : Player)
    (hplayer : s.players[slot]? = some player) :
    (count_invalid s slot).players[slot]? =
      some { player with invalid_message_count := player.invalid_message_count + 1 } := by
  simp [count_invalid, updPlayer_players, hplayer]

/-- `check_rate_limit` keeps the socket, the activity flag, the state and the counter
of invalid messages of the record. -/
theorem check_rate_limit_fields (player : Player) (now : Int) :
    (check_rate_limit player now).2.socket_fd = player.socket_fd ∧
    (check_rate_limit player now).2.is_active = player.is_active ∧
    (check_rate_limit player now).2.state = player.state ∧
    (check_rate_limit player now).2.invalid_message_count = player.invalid_message_count := by
  unfold check_rate_limit
  simp only []
  split_ifs <;> simp

/-- Counting of invalid messages.  For a connected player, `count_invalid` adds one to
the counter of invalid messages.  Each of the following is answered by the one
error reply named and the state `count_invalid` of the state before, with the
sender still connected whatever the counter has reached: LOGIN without a nickname
(`LOGIN_ERR;3`) or with an invalid one (`LOGIN_ERR;7`), CREATE_ROOM without a name
or with an invalid one and JOIN_ROOM without an id (`ROOM_ERR;3`), TAKE without a
count (`TAKE_ERR;3`), out of turn (`TAKE_ERR;13`) or with a count that is not
allowed (`TAKE_ERR;14`), SKIP out of turn (`SKIP_ERR;13`) or without a skip left
(`SKIP_ERR;15`).  A parsed message whose type is none of the ten client commands
is counted in the same way without a reply.  A frame that does not parse (an
unknown command among them) is counted, and only there the limit is checked: below
3 nothing is sent, and when the incremented counter is 3 or more the sender gets
`ERROR;1;Too many invalid messages` and is disconnected.  A frame over the rate
limit is counted, gets no reply, is not dispatched, and leaves the sender
connected. -/
theorem invalid_counter_contract
    (s : Server) (slot : Nat) (player : Player) (msg : ParsedMessage) (frame : List Char)
    (now : Int)
    (hplayer : s.players[slot]? = some player)
    (hsock : 0 ≤ player.socket_fd) :
    (count_invalid s slot).players[slot]? =
      some { player with invalid_message_count := player.invalid_message_count + 1 } ∧
    (msg.type = MessageType.MSG_LOGIN → player.state = PlayerState.CONNECTING →
      (msg.param_count < 1 → dispatch_message s slot msg now =
        some (count_invalid s slot, [(slot, "LOGIN_ERR;3;Missing nickname\n".toList)])) ∧
      (1 ≤ msg.param_count → protocol_validate_nickname (msg.param 0) ≠ ErrorCode.ERR_NONE →
        dispatch_message s slot msg now =
          some (count_invalid s slot, [(slot, "LOGIN_ERR;7;Invalid nickname\n".toList)]))) ∧
    (msg.type = MessageType.MSG_CREATE_ROOM → player.state = PlayerState.LOBBY →
      (msg.param_count < 1 → dispatch_message s slot msg now =
        some (count_invalid s slot, [(slot, "ROOM_ERR;3;Missing room name\n".toList)])) ∧
      (1 ≤ msg.param_count → protocol_validate_room_name (msg.param 0) ≠ ErrorCode.ERR_NONE →
        dispatch_message s slot msg now =
          some (count_invalid s slot, [(slot, "ROOM_ERR;3;Invalid parameters\n".toList)]))) ∧
    (msg.type = MessageType.MSG_JOIN_ROOM → player.state = PlayerState.LOBBY →
      msg.param_count < 1 → dispatch_message s slot msg now =
        some (count_invalid s slot, [(slot, "ROOM_ERR;3;Missing room ID\n".toList)])) ∧
    (msg.type = MessageType.MSG_TAKE → player.state = PlayerState.IN_GAME →
      (msg.param_count < 1 → dispatch_message s slot msg now =
        some (count_invalid s slot, [(slot, "TAKE_ERR;3;Missing count\n".toList)])) ∧
      (∀ r room, 1 ≤ msg.param_count →
        room_find_by_id s.rooms player.room_id = some r → s.rooms[r]? = some room →
        (game_is_player_turn room.game (room_get_player_index room (some slot)) = false →
          dispatch_message s slot msg now =
            some (count_invalid s slot, [(slot, "TAKE_ERR;13;Not your turn\n".toList)])) ∧
        (game_is_player_turn room.game (room_get_player_index room (some slot)) = true →
          game_validate_take_count room.game (atoi (msg.param 0)) = false →
          dispatch_message s slot msg now =
            some (count_invalid s slot, [(slot, "TAKE_ERR;14;Invalid move\n".toList)])))) ∧
    (msg.type = MessageType.MSG_SKIP → player.state = PlayerState.IN_GAME →
      ∀ r room, room_find_by_id s.rooms player.room_id = some r → s.rooms[r]? = some room →
        (game_is_player_turn room.game (room_get_player_index room (some slot)) = false →
          dispatch_message s slot msg now =
            some (count_invalid s slot, [(slot, "SKIP_ERR;13;Not your turn\n".toList)])) ∧
        (game_is_player_turn room.game (room_get_player_index room (some slot)) = true →
          game_can_skip room.game (room_get_player_index room (some slot)) = some false →
          dispatch_message s slot msg now =
            some (count_invalid s slot,
              [(slot, "SKIP_ERR;15;No skips remaining\n".toList)]))) ∧
    (msg.type ≠ MessageType.MSG_LOGIN → msg.type ≠ MessageType.MSG_LIST_ROOMS →
      msg.type ≠ MessageType.MSG_CREATE_ROOM → msg.type ≠ MessageType.MSG_JOIN_ROOM →
      msg.type ≠ MessageType.MSG_LEAVE_ROOM → msg.type ≠ MessageType.MSG_TAKE →
      msg.type ≠ MessageType.MSG_SKIP → msg.type ≠ MessageType.MSG_PING →
      msg.type ≠ MessageType.MSG_PONG → msg.type ≠ MessageType.MSG_LOGOUT →
      dispatch_message s slot msg now = some (count_invalid s slot, [])) ∧
    ((protocol_parse_message frame).1 = false →
      (player.invalid_message_count + 1 < 3 →
        server_handle_message s slot frame now = some (count_invalid s slot, [])) ∧
      (3 ≤ player.invalid_message_count + 1 →
        ∃ s' rest p', server_handle_message s slot frame now =
            some (s', (slot, "ERROR;1;Too many invalid messages\n".toList) :: rest) ∧
          (s', rest) = server_handle_disconnect (count_invalid s slot) slot false now ∧
          s'.players[slot]? = some p' ∧ p'.socket_fd = -1)) ∧
    ((check_rate_limit player now).1 = false →
      process_frame s slot frame now =
        some (count_invalid (s.setPlayer slot (check_rate_limit player now).2) slot, [], false) ∧
      (count_invalid (s.setPlayer slot (check_rate_limit player now).2) slot).players[slot]? =
        some { (check_rate_limit player now).2 with
          invalid_message_count := player.invalid_message_count + 1 } ∧
      (check_rate_limit player now).2.socket_fd = player.socket_fd ∧
      (check_rate_limit player now).2.is_active = player.is_active ∧
      (check_rate_limit player now).2.state = player.state) := by
  have hsend := fun text => send_to_connected s slot player text hplayer hsock
  have hcount := count_invalid_players s slot player hplayer
  refine ⟨hcount, ?_, ?_, ?_, ?_, ?_, ?_, ?_, ?_⟩
  · intro ht hst
    constructor
    · intro hp
      simp [dispatch_message, ht, handle_login, hplayer, hst, hsend, hp]
      rfl
    · intro hp hv
      have hp' : ¬ msg.param_count < 1 := by omega
      simp [dispatch_message, ht, handle_login, hplayer, hst, hsend, hp', hv,
        validate_nickname_codes _ hv]
      rfl
  · intro ht hst
    constructor
    · intro hp
      simp [dispatch_message, ht, handle_create_room, hplayer, hst, hsend, hp]
      rfl
    · intro hp hv
      have hp' : ¬ msg.param_count < 1 := by omega
      simp [dispatch_message, ht, handle_create_room, hplayer, hst, hsend, hp', hv,
        validate_room_name_codes _ hv]
      rfl
  · intro ht hst hp
    simp [dispatch_message, ht, handle_join_room, hplayer, hst, hsend, hp]
    rfl
  · intro ht hst
    constructor
    · intro hp
      simp [dispatch_message, ht, handle_take, hplayer, hst, hsend, hp]
      rfl
    · intro r room hp hfind hroom
      have hp' : ¬ msg.param_count < 1 := by omega
      constructor
      · intro hturn
        simp [dispatch_message, ht, handle_take, hplayer, hst, hsend, hp', hfind, hroom, hturn]
        rfl
      · intro hturn hval
        simp [dispatch_message, ht, handle_take, hplayer, hst, hsend, hp', hfind, hroom, hturn,
          hval]
        rfl
  · intro ht hst r room hfind hroom
    constructor
    · intro hturn
      simp [dispatch_message, ht, handle_skip, hplayer, hst, hsend, hfind, hroom, hturn]
      rfl
    · intro hturn hskip
      simp [dispatch_message, ht, handle_skip, hplayer, hst, hsend, hfind, hroom, hturn, hskip]
      rfl
  · intro h1 h2 h3 h4 h5 h6 h7 h8 h9 h10
    unfold dispatch_message
    split <;> first | rfl | contradiction
  · intro hparse
    have hp1 := hcount
    constructor
    · intro hlt
      have hlt' : ¬ player.invalid_message_count + 1 ≥ MAX_INVALID_MESSAGES := by
        simp only [MAX_INVALID_MESSAGES]; omega
      simp [server_handle_message, hplayer, hparse, hlt']
    · intro hge
      have hge' : player.invalid_message_count + 1 ≥ MAX_INVALID_MESSAGES := by
        simp only [MAX_INVALID_MESSAGES]; omega
      obtain ⟨p', hp', hsock'⟩ := disconnect_closes (count_invalid s slot) slot _ false now hp1
      refine ⟨(server_handle_disconnect (count_invalid s slot) slot false now).1,
        (server_handle_disconnect (count_invalid s slot) slot false now).2, p', ?_, rfl, hp',
        hsock'⟩
      have htext : protocol_create_error BUFFER_SIZE ErrorCode.ERR_INVALID_FORMAT
          (some "Too many invalid messages".toList) =
          "ERROR;1;Too many invalid messages\n".toList := rfl
      unfold server_handle_message
      simp only [hplayer, hparse, Bool.not_false, if_true, hge', htext, server_send_to_player,
        has_socket, hp1, hsock, ge_iff_le, decide_True, List.singleton_append]
  · intro hlim
    have hlt : slot < s.players.length := (List.getElem?_eq_some_iff.mp hplayer).1
    have hfields := check_rate_limit_fields player now
    refine ⟨?_, ?_, hfields.1, hfields.2.1, hfields.2.2.1⟩
    · simp [process_frame, hplayer, hlim]
    · simp [count_invalid, updPlayer_players, setPlayer_players, hlt, hfields.2.2.2]

/-- An instance of `invalid_counter_contract`: alice, whose turn it is, sends `TAKE;9` and then the unknown
command `FOO` in a game with 21 stones. -/
theorem invalid_counter_contract_witness :
    (0 : Int) ≤ (scenario_player 4 "alice".toList).socket_fd ∧
    dispatch_message (scenario_server 21) 0 (take_message "9".toList) 100 =
      some (count_invalid (scenario_server 21) 0,
        [(0, "TAKE_ERR;14;Invalid move\n".toList)]) ∧
    server_handle_message (scenario_server 21) 0 "FOO".toList 100 =
      some (count_invalid (scenario_server 21) 0, []) :=
  ⟨by decide,
    (((invalid_counter_contract (scenario_server 21) 0 (scenario_player 4 "alice".toList)
      (take_message "9".toList) "FOO".toList 100 rfl (by decide)).2.2.2.2.1 rfl rfl).2 0
        (scenario_room ⟨GameState.PLAYING, 21, 0, 1, 1, -1⟩) (by decide) rfl rfl).2 rfl rfl,
    ((invalid_counter_contract (scenario_server 21) 0 (scenario_player 4 "alice".toList)
      (take_message "9".toList) "FOO".toList 100 rfl (by decide)).2.2.2.2.2.2.2.1 rfl).1
        (by decide)⟩

/-! ## Sockets of active records -/

set_option maxRecDepth 100000

/-- C24 fails on the code.  After the events of `scenario_abandoned_events`, which
start from the initial state, bob's record in slot 1 is active and in state LOBBY
with `socket_fd = -1`: when alice's last take ended the game, `handle_take` moved
the disconnected opponent to the lobby.  The timer checks that follow leave the
record as it is. -/
theorem lobby_record_without_socket :
    (run_events (server_initial 3 2) scenario_abandoned_events).map
        (fun r => player_summary r.1 1) =
      some (some (true, PlayerState.LOBBY, -1, "bob".toList, -1)) := by
  rfl

/-! ## Identifiers out of range and the limit of invalid messages -/

/-- C19 fails on the code.  The server has two room slots, so 4294967296 is not the
index of any room, and `atoi` reads the text `4294967296` as 0.  After the events of
`scenario_wrapped_join_events`, which start from the initial state, bob's
`JOIN_ROOM;4294967296` is not answered `ROOM_ERR;8`: bob is sent `ROOM_JOINED;0;`, he is
in room 0 with alice, and the game of room 0 has started. -/
theorem join_room_reads_wrapped_id :
    atoi "4294967296".toList = 0 ∧
    (run_events (server_initial 3 2) scenario_wrapped_join_events).map
        (fun r => (replies_to 1 r.2,
          r.1.rooms.map (fun room => (room.is_active, room.players0, room.players1,
            room.game.state)),
          player_summary r.1 1)) =
      some (["LOGIN_OK\n".toList, "ROOM_JOINED;0;\n".toList,
          "GAME_START;21;0;alice\n".toList],
        [(true, some 0, some 1, GameState.PLAYING), (false, none, none, GameState.WAITING)],
        some (true, PlayerState.IN_GAME, 5, "bob".toList, 0)) := by
  constructor <;> rfl

/-- C28 fails on the code.  After the events of `scenario_invalid_takes_events`, which
start from the initial state, alice has sent four `TAKE;9`, each answered
`TAKE_ERR;14;Invalid move` and each counted: her counter of invalid messages is 4, which
is more than `MAX_INVALID_MESSAGES`, no `ERROR;1;Too many invalid messages` is among
the messages she was sent, and she is still connected and in the game. -/
theorem invalid_commands_pass_the_limit :
    (run_events (server_initial 3 2) scenario_invalid_takes_events).map
        (fun r => (replies_to 0 r.2,
          r.1.players[0]?.map (fun p => (p.invalid_message_count, p.state, p.socket_fd,
            p.is_active)))) =
      some (["LOGIN_OK\n".toList, "ROOM_CREATED;0\n".toList, "WAIT_OPPONENT\n".toList,
          "GAME_START;21;1;bob\n".toList,
          "TAKE_ERR;14;Invalid move\n".toList, "TAKE_ERR;14;Invalid move\n".toList,
          "TAKE_ERR;14;Invalid move\n".toList, "TAKE_ERR;14;Invalid move\n".toList],
        some (4, PlayerState.IN_GAME, 4, true)) ∧
    MAX_INVALID_MESSAGES = 3 := by
  constructor <;> rfl

/-! ## Consistency of every reachable state -/

theorem ServerInv.weaken {X Y : Nat → Prop} {t : Server} (h : ServerInv X t)
    (hXY : ∀ i, X i → Y i) : ServerInv Y t :=
  ⟨h.room_ok, h.cell_player, h.player_cell, h.names, h.nicks,
    fun i p hi => h.link i p (fun hx => hi (hXY i hx))⟩

theorem ServerInv.close {X : Nat → Prop} {t : Server} (h : ServerInv X t)
    (hX : ∀ x, X x → PlayerSat (fun p => p.is_active = true → Link p) x t) : ServerOK t :=
  ⟨h.room_ok, h.cell_player, h.player_cell, h.names, h.nicks, by
    intro i p _ hp hact
    by_cases hx : X i
    · exact hX i hx p hp hact
    · exact h.link i p hx hp hact⟩

/-- Transfer of the invariant to a state whose records agree with the old ones in
every field the invariant reads; the state of an exempt player may differ. -/
theorem ServerInv.transfer {X : Nat → Prop} {t t' : Server} (h : ServerInv X t)
    (hP : ∀ (i : Nat) (p' : Player), t'.players[i]? = some p' → ∃ p : Player, t.players[i]? = some p ∧
      p'.is_active = p.is_active ∧ p'.room_id = p.room_id ∧ p'.nickname = p.nickname ∧
      (¬ X i → p'.state = p.state))
    (hP' : ∀ (i : Nat) (p : Player), t.players[i]? = some p → ∃ p' : Player, t'.players[i]? = some p')
    (hR : ∀ (r : Nat) (room' : Room), t'.rooms[r]? = some room' → ∃ room : Room, t.rooms[r]? = some room ∧
      room'.players0 = room.players0 ∧ room'.players1 = room.players1 ∧
      room'.player_count = room.player_count ∧ room'.is_active = room.is_active ∧
      room'.id = room.id ∧ room'.name = room.name)
    (hR' : ∀ (r : Nat) (room : Room), t.rooms[r]? = some room → ∃ room' : Room, t'.rooms[r]? = some room') :
    ServerInv X t' := by
  constructor
  · intro r room' hr
    obtain ⟨room, hroom, h0, h1, hc, ha, hi, _⟩ := hR r room' hr
    obtain ⟨k1, k2, k3, k4⟩ := h.room_ok r room hroom
    refine ⟨?_, ?_, ?_, ?_⟩
    · simp only [Room.present, h0, h1, hc] at k1 ⊢
      exact k1
    · rw [ha, hc]; exact k2
    · rw [ha, hi]; exact k3
    · rw [h0, h1]; exact k4
  · intro r room' i hr hhas
    obtain ⟨room, hroom, h0, h1, _⟩ := hR r room' hr
    have hhas' : room.has i := by
      simp only [Room.has, h0, h1] at hhas
      exact hhas
    obtain ⟨p, hp, hact, hrid⟩ := h.cell_player r room i hroom hhas'
    obtain ⟨p', hp'⟩ := hP' i p hp
    obtain ⟨q, hq, e1, e2, _⟩ := hP i p' hp'
    rw [hp] at hq
    cases hq
    exact ⟨p', hp', by rw [e1]; exact hact, by rw [e2]; exact hrid⟩
  · intro i p' hp' hact hrid
    obtain ⟨p, hp, e1, e2, _⟩ := hP i p' hp'
    rw [e1] at hact
    rw [e2] at hrid ⊢
    obtain ⟨room, hroom, hhas⟩ := h.player_cell i p hp hact hrid
    obtain ⟨room', hroom'⟩ := hR' _ room hroom
    obtain ⟨room2, hroom2, h0, h1, _⟩ := hR _ room' hroom'
    rw [hroom] at hroom2
    cases hroom2
    refine ⟨room', hroom', ?_⟩
    simp only [Room.has, h0, h1]
    exact hhas
  · intro r k room' other' hr hk ha hb hname
    obtain ⟨room, hroom, _, _, _, a1, _, n1⟩ := hR r room' hr
    obtain ⟨other, hother, _, _, _, a2, _, n2⟩ := hR k other' hk
    exact h.names r k room other hroom hother (by rw [← a1]; exact ha) (by rw [← a2]; exact hb)
      (by rw [← n1, ← n2]; exact hname)
  · intro i j p' q' hi hj ha hb hne heq
    obtain ⟨p, hp, a1, _, n1, _⟩ := hP i p' hi
    obtain ⟨q, hq, a2, _, n2, _⟩ := hP j q' hj
    exact h.nicks i j p q hp hq (by rw [← a1]; exact ha) (by rw [← a2]; exact hb)
      (by rw [← n1]; exact hne) (by rw [← n1, ← n2]; exact heq)
  · intro i p' hx hp' hact
    obtain ⟨p, hp, e1, e2, e3, e4⟩ := hP i p' hp'
    have hl := h.link i p hx hp (by rw [← e1]; exact hact)
    simp only [Link, e2, e3, e4 hx]
    exact hl

theorem ServerInv.updPlayer_keep {X : Nat → Prop} {t : Server} (h : ServerInv X t) (x : Nat)
    (f : Player → Player)
    (hf : ∀ p : Player, (f p).is_active = p.is_active ∧ (f p).room_id = p.room_id ∧
      (f p).nickname = p.nickname ∧ (¬ X x → (f p).state = p.state)) :
    ServerInv X (t.updPlayer x f) := by
  apply h.transfer
  · intro i p' hp'
    rw [updPlayer_players] at hp'
    by_cases hxi : x = i
    · subst hxi
      rw [if_pos rfl] at hp'
      cases hq : t.players[x]? with
      | none => rw [hq] at hp'; cases hp'
      | some q =>
        rw [hq] at hp'
        cases hp'
        exact ⟨q, rfl, (hf q).1, (hf q).2.1, (hf q).2.2.1, (hf q).2.2.2⟩
    · rw [if_neg hxi] at hp'
      exact ⟨p', hp', rfl, rfl, rfl, fun _ => rfl⟩
  · intro i p hp
    rw [updPlayer_players]
    split_ifs <;> simp [hp]
  · intro r room' hr
    rw [updPlayer_rooms] at hr
    exact ⟨room', hr, rfl, rfl, rfl, rfl, rfl, rfl⟩
  · intro r room hr
    rw [updPlayer_rooms]
    exact ⟨room, hr⟩

theorem ServerInv.updPlayer_benign {X : Nat → Prop} {t : Server} (x : Nat)
    (f : Player → Player)
    (hf : ∀ p : Player, (f p).is_active = p.is_active ∧ (f p).room_id = p.room_id ∧
      (f p).nickname = p.nickname ∧ (f p).state = p.state)
    (h : ServerInv X t) : ServerInv X (t.updPlayer x f) :=
  h.updPlayer_keep x f (fun p => ⟨(hf p).1, (hf p).2.1, (hf p).2.2.1, fun _ => (hf p).2.2.2⟩)

theorem ServerInv.updPlayer_exempt {X : Nat → Prop} {t : Server} (x : Nat)
    (f : Player → Player) (hX : X x)
    (hf : ∀ p : Player, (f p).is_active = p.is_active ∧ (f p).room_id = p.room_id ∧
      (f p).nickname = p.nickname)
    (h : ServerInv X t) : ServerInv X (t.updPlayer x f) :=
  h.updPlayer_keep x f (fun p => ⟨(hf p).1, (hf p).2.1, (hf p).2.2, fun hn => absurd hX hn⟩)

theorem ServerInv.setPlayer_benign {X : Nat → Prop} {t : Server} (x : Nat) (p p' : Player)
    (hp : t.players[x]? = some p)
    (hf : p'.is_active = p.is_active ∧ p'.room_id = p.room_id ∧
      p'.nickname = p.nickname ∧ p'.state = p.state)
    (h : ServerInv X t) : ServerInv X (t.setPlayer x p') := by
  have heq : t.setPlayer x p' = t.updPlayer x (fun q => if q = p then p' else q) := by
    simp [Server.updPlayer, hp]
  rw [heq]
  apply h.transfer
  · intro i q' hq'
    rw [updPlayer_players] at hq'
    by_cases hxi : x = i
    · subst hxi
      rw [if_pos rfl, hp] at hq'
      simp only [Option.map_some', if_true, Option.some.injEq] at hq'
      subst hq'
      exact ⟨p, hp, hf.1, hf.2.1, hf.2.2.1, fun _ => hf.2.2.2⟩
    · rw [if_neg hxi] at hq'
      exact ⟨q', hq', rfl, rfl, rfl, fun _ => rfl⟩
  · intro i q hq
    rw [updPlayer_players]
    split_ifs <;> simp [hq]
  · intro r room' hr
    rw [updPlayer_rooms] at hr
    exact ⟨room', hr, rfl, rfl, rfl, rfl, rfl, rfl⟩
  · intro r room hr
    rw [updPlayer_rooms]
    exact ⟨room, hr⟩

theorem ServerInv.setRoom_keep {X : Nat → Prop} {t : Server} (r : Nat) (room room' : Room)
    (hroom : t.rooms[r]? = some room)
    (hf : room'.players0 = room.players0 ∧ room'.players1 = room.players1 ∧
      room'.player_count = room.player_count ∧ room'.is_active = room.is_active ∧
      room'.id = room.id ∧ room'.name = room.name)
    (h : ServerInv X t) : ServerInv X (t.setRoom r room') := by
  apply h.transfer
  · intro i p' hp'
    rw [setRoom_players] at hp'
    exact ⟨p', hp', rfl, rfl, rfl, fun _ => rfl⟩
  · intro i p hp
    rw [setRoom_players]
    exact ⟨p, hp⟩
  · intro k other hk
    rw [setRoom_rooms] at hk
    by_cases hrk : r = k
    · subst hrk
      rw [if_pos rfl, hroom] at hk
      simp only [Option.map_some', Option.some.injEq] at hk
      subst hk
      exact ⟨room, hroom, hf⟩
    · rw [if_neg hrk] at hk
      exact ⟨other, hk, rfl, rfl, rfl, rfl, rfl, rfl⟩
  · intro k other hk
    rw [setRoom_rooms]
    split_ifs <;> simp [hk]

theorem ServerInv.set_state_keeps {X : Nat → Prop} {t : Server} (x : Option Nat)
    (st : PlayerState) (hX : ∀ i, x = some i → X i) (h : ServerInv X t) :
    ServerInv X (player_set_state t x st) := by
  unfold Nim.player_set_state
  cases x with
  | none => exact h
  | some i => exact h.updPlayer_exempt i _ (hX i rfl) (fun p => ⟨rfl, rfl, rfl⟩)

theorem ServerInv.leave_step {X : Nat → Prop} {t t' : Server} (h : ServerInv X t)
    (x r : Nat) (room room' : Room) (hX : X x)
    (hroom : t.rooms[r]? = some room) (hhas : room.has x)
    (hP : ∀ j : Nat, t'.players[j]? =
      if x = j then (t.players[j]?).map (fun p => { p with room_id := -1 })
      else t.players[j]?)
    (hR : ∀ k : Nat, t'.rooms[k]? = if r = k then some room' else t.rooms[k]?)
    (hok : RoomOK r room')
    (hcells : ∀ i, room'.has i ↔ (room.has i ∧ i ≠ x))
    (hname : room'.is_active = true → room.is_active = true ∧ room'.name = room.name) :
    ServerInv X t' := by
  obtain ⟨px, hpx, hpxa, hpxr⟩ := h.cell_player r room x hroom hhas
  constructor
  · intro k other hk
    rw [hR] at hk
    by_cases hrk : r = k
    · subst hrk
      rw [if_pos rfl] at hk
      cases hk
      exact hok
    · rw [if_neg hrk] at hk
      exact h.room_ok k other hk
  · intro k other i hk hhasi
    rw [hR] at hk
    by_cases hrk : r = k
    · subst hrk
      rw [if_pos rfl] at hk
      cases hk
      obtain ⟨hi, hne⟩ := (hcells i).mp hhasi
      obtain ⟨p, hp, hpa, hpr⟩ := h.cell_player r room i hroom hi
      refine ⟨p, ?_, hpa, hpr⟩
      rw [hP, if_neg (fun e => hne e.symm)]
      exact hp
    · rw [if_neg hrk] at hk
      obtain ⟨p, hp, hpa, hpr⟩ := h.cell_player k other i hk hhasi
      have hne : x ≠ i := by
        intro e
        subst e
        rw [hpx] at hp
        cases hp
        rw [hpxr] at hpr
        exact hrk (by exact_mod_cast hpr)
      refine ⟨p, ?_, hpa, hpr⟩
      rw [hP, if_neg hne]
      exact hp
  · intro i p' hp' hact hrid
    rw [hP] at hp'
    by_cases hxi : x = i
    · subst hxi
      rw [if_pos rfl, hpx] at hp'
      simp only [Option.map_some', Option.some.injEq] at hp'
      subst hp'
      simp at hrid
    · rw [if_neg hxi] at hp'
      obtain ⟨other, hother, hhasi⟩ := h.player_cell i p' hp' hact hrid
      by_cases hrk : r = p'.room_id.toNat
      · rw [← hrk] at hother
        rw [hroom] at hother
        cases hother
        refine ⟨room', ?_, (hcells i).mpr ⟨hhasi, fun e => hxi e.symm⟩⟩
        rw [hR, ← hrk, if_pos rfl]
      · refine ⟨other, ?_, hhasi⟩
        rw [hR, if_neg hrk]
        exact hother
  · intro k1 k2 r1 r2 h1 h2 a1 a2 hn
    rw [hR] at h1 h2
    have key : ∀ (k : Nat) (other : Room),
        (if r = k then some room' else t.rooms[k]?) = some other → other.is_active = true →
        ∃ old : Room, t.rooms[k]? = some old ∧ old.is_active = true ∧ old.name = other.name := by
      intro k other hk ha
      by_cases hrk : r = k
      · subst hrk
        rw [if_pos rfl] at hk
        cases hk
        exact ⟨room, hroom, (hname ha).1, (hname ha).2.symm⟩
      · rw [if_neg hrk] at hk
        exact ⟨other, hk, ha, rfl⟩
    obtain ⟨o1, ho1, ha1, hn1⟩ := key k1 r1 h1 a1
    obtain ⟨o2, ho2, ha2, hn2⟩ := key k2 r2 h2 a2
    exact h.names k1 k2 o1 o2 ho1 ho2 ha1 ha2 (by rw [hn1, hn2]; exact hn)
  · intro i j p' q' hi hj a1 a2 hne heq
    have key : ∀ (k : Nat) (q : Player), t'.players[k]? = some q →
        ∃ old : Player, t.players[k]? = some old ∧ old.is_active = q.is_active ∧
          old.nickname = q.nickname := by
      intro k q hk
      rw [hP] at hk
      by_cases hxk : x = k
      · subst hxk
        rw [if_pos rfl, hpx] at hk
        simp only [Option.map_some', Option.some.injEq] at hk
        subst hk
        exact ⟨px, hpx, rfl, rfl⟩
      · rw [if_neg hxk] at hk
        exact ⟨q, hk, rfl, rfl⟩
    obtain ⟨o1, ho1, ha1, hn1⟩ := key i p' hi
    obtain ⟨o2, ho2, ha2, hn2⟩ := key j q' hj
    exact h.nicks i j o1 o2 ho1 ho2 (by rw [ha1]; exact a1) (by rw [ha2]; exact a2)
      (by rw [hn1]; exact hne) (by rw [hn1, hn2]; exact heq)
  · intro i p' hx hp' hact
    rw [hP] at hp'
    have hxi : x ≠ i := fun e => hx (e ▸ hX)
    rw [if_neg hxi] at hp'
    exact h.link i p' hx hp' hact

theorem room_present_cases (room : Room) :
    room.present = (if room.players0 = none then 0 else 1) +
      (if room.players1 = none then 0 else 1) := rfl

theorem ServerInv.remove_player_keeps {X : Nat → Prop} {t : Server} (r : Nat) (x : Option Nat)
    (hX : ∀ i, x = some i → X i) (h : ServerInv X t) :
    ServerInv X (room_remove_player t r x).2 := by
  cases x with
  | none =>
    unfold Nim.room_remove_player
    cases t.rooms[r]? <;> exact h
  | some i =>
    cases hroom : t.rooms[r]? with
    | none =>
      unfold Nim.room_remove_player
      rw [hroom]
      exact h
    | some room =>
      have hlt : r < t.rooms.length := (List.getElem?_eq_some_iff.mp hroom).1
      obtain ⟨hcount, hactive, hid, hdist⟩ := h.room_ok r room hroom
      have hXi := hX i rfl
      by_cases h0 : room.players0 = some i
      · have h1 : room.players1 ≠ some i := hdist i h0
        by_cases hempty : room.player_count - 1 = 0
        · have hp1 : room.players1 = none := by
            rw [room_present_cases, h0] at hcount
            by_contra hne
            simp [hne] at hcount
            omega
          refine h.leave_step i r room
            { room with players0 := none, players1 := none, is_active := false,
                        player_count := 0, id := -1, name := [],
                        game := game_reset room.game }
            hXi hroom (Or.inl h0) ?_ ?_ ?_ ?_ ?_
          · intro j
            simp [Nim.room_remove_player, hroom, h0, room_is_empty, hempty, room_destroy,
              updPlayer_rooms, setRoom_rooms, hlt, updPlayer_players, setRoom_players, hp1]
          · intro k
            by_cases hrk : r = k
            · subst hrk
              simp [Nim.room_remove_player, hroom, h0, room_is_empty, hempty, room_destroy,
                updPlayer_rooms, setRoom_rooms, hlt, updPlayer_players, setRoom_players, hp1]
            · simp [Nim.room_remove_player, hroom, h0, room_is_empty, hempty, room_destroy,
                updPlayer_rooms, setRoom_rooms, hlt, updPlayer_players, setRoom_players, hp1, hrk]
          · simp [RoomOK, Room.present]
          · intro j
            simp only [Room.has, h0, hp1]
            constructor
            · rintro (hh | hh) <;> cases hh
            · rintro ⟨hh | hh, hne⟩
              · cases hh
                exact absurd rfl hne
              · cases hh
          · intro hh
            cases hh
        · have hpos : 0 < room.player_count - 1 := by
            rw [room_present_cases, h0] at hcount
            by_cases hp1 : room.players1 = none
            · simp [hp1] at hcount
              omega
            · simp [hp1] at hcount
              omega
          refine h.leave_step i r room
            { room with players0 := none, player_count := room.player_count - 1 }
            hXi hroom (Or.inl h0) ?_ ?_ ?_ ?_ ?_
          · intro j
            simp [Nim.room_remove_player, hroom, h0, room_is_empty, hempty,
              updPlayer_rooms, setRoom_rooms, hlt, updPlayer_players, setRoom_players]
          · intro k
            by_cases hrk : r = k
            · subst hrk
              simp [Nim.room_remove_player, hroom, h0, room_is_empty, hempty,
                updPlayer_rooms, setRoom_rooms, hlt, updPlayer_players, setRoom_players]
            · simp [Nim.room_remove_player, hroom, h0, room_is_empty, hempty,
                updPlayer_rooms, setRoom_rooms, hlt, updPlayer_players, setRoom_players, hrk]
          · refine ⟨?_, ?_, ?_, ?_⟩
            · rw [room_present_cases, h0] at hcount
              simp only [Room.present]
              simp at hcount ⊢
              omega
            · simp only
              constructor
              · intro _
                exact hpos
              · intro _
                exact hactive.mpr (by omega)
            · exact hid
            · intro j hj
              cases hj
          · intro j
            simp only [Room.has, h0]
            constructor
            · rintro (hh | hh)
              · cases hh
              · refine ⟨Or.inr hh, ?_⟩
                intro e
                subst e
                exact h1 hh
            · rintro ⟨hh | hh, hne⟩
              · cases hh
                exact absurd rfl hne
              · exact Or.inr hh
          · intro hh
            exact ⟨hactive.mpr (by omega), rfl⟩
      · by_cases h1 : room.players1 = some i
        · by_cases hempty : room.player_count - 1 = 0
          · have hp0 : room.players0 = none := by
              rw [room_present_cases, h1] at hcount
              by_contra hne
              simp [hne] at hcount
              omega
            refine h.leave_step i r room
              { room with players0 := none, players1 := none, is_active := false,
                          player_count := 0, id := -1, name := [],
                          game := game_reset room.game }
              hXi hroom (Or.inr h1) ?_ ?_ ?_ ?_ ?_
            · intro j
              simp [Nim.room_remove_player, hroom, h0, h1, room_is_empty, hempty, room_destroy,
                updPlayer_rooms, setRoom_rooms, hlt, updPlayer_players, setRoom_players, hp0]
            · intro k
              by_cases hrk : r = k
              · subst hrk
                simp [Nim.room_remove_player, hroom, h0, h1, room_is_empty, hempty,
                  room_destroy, updPlayer_rooms, setRoom_rooms, hlt, updPlayer_players,
                  setRoom_players, hp0]
              · simp [Nim.room_remove_player, hroom, h0, h1, room_is_empty, hempty,
                  room_destroy, updPlayer_rooms, setRoom_rooms, hlt, updPlayer_players,
                  setRoom_players, hp0, hrk]
            · simp [RoomOK, Room.present]
            · intro j
              simp only [Room.has, h1, hp0]
              constructor
              · rintro (hh | hh) <;> cases hh
              · rintro ⟨hh | hh, hne⟩
                · cases hh
                · cases hh
                  exact absurd rfl hne
            · intro hh
              cases hh
          · have hpos : 0 < room.player_count - 1 := by
              rw [room_present_cases, h1] at hcount
              by_cases hp0 : room.players0 = none
              · simp [hp0] at hcount
                omega
              · simp [hp0] at hcount
                omega
            refine h.leave_step i r room
              { room with players1 := none, player_count := room.player_count - 1 }
              hXi hroom (Or.inr h1) ?_ ?_ ?_ ?_ ?_
            · intro j
              simp [Nim.room_remove_player, hroom, h0, h1, room_is_empty, hempty,
                updPlayer_rooms, setRoom_rooms, hlt, updPlayer_players, setRoom_players]
            · intro k
              by_cases hrk : r = k
              · subst hrk
                simp [Nim.room_remove_player, hroom, h0, h1, room_is_empty, hempty,
                  updPlayer_rooms, setRoom_rooms, hlt, updPlayer_players, setRoom_players]
              · simp [Nim.room_remove_player, hroom, h0, h1, room_is_empty, hempty,
                  updPlayer_rooms, setRoom_rooms, hlt, updPlayer_players, setRoom_players, hrk]
            · refine ⟨?_, ?_, ?_, ?_⟩
              · rw [room_present_cases, h1] at hcount
                simp only [Room.present]
                simp at hcount ⊢
                omega
              · simp only
                constructor
                · intro _
                  exact hpos
                · intro _
                  exact hactive.mpr (by omega)
              · exact hid
              · intro j _ hj
                cases hj
            · intro j
              simp only [Room.has, h1]
              constructor
              · rintro (hh | hh)
                · refine ⟨Or.inl hh, ?_⟩
                  intro e
                  subst e
                  exact h0 hh
                · cases hh
              · rintro ⟨hh | hh, hne⟩
                · exact Or.inl hh
                · cases hh
                  exact absurd rfl hne
            · intro hh
              exact ⟨hactive.mpr (by omega), rfl⟩
        · have : (Nim.room_remove_player t r (some i)).2 = t := by
            simp [Nim.room_remove_player, hroom, h0, h1]
          rw [this]
          exact h

theorem ServerInv.local_step {X : Nat → Prop} {t t' : Server} (h : ServerInv X t)
    (T : Nat → Prop) (r : Nat)
    (hP : ∀ i : Nat, ¬ T i → t'.players[i]? = t.players[i]?)
    (hR : ∀ k : Nat, k ≠ r → t'.rooms[k]? = t.rooms[k]?)
    (l1 : ∀ room' : Room, t'.rooms[r]? = some room' → RoomOK r room')
    (l2 : ∀ (room' : Room) (i : Nat), t'.rooms[r]? = some room' → room'.has i →
      ∃ p' : Player, t'.players[i]? = some p' ∧ p'.is_active = true ∧ p'.room_id = r)
    (l3 : ∀ (i : Nat) (p' : Player), T i → t'.players[i]? = some p' → p'.is_active = true →
      0 ≤ p'.room_id → ∃ room' : Room, t'.rooms[p'.room_id.toNat]? = some room' ∧ room'.has i)
    (l4 : ∀ (i : Nat) (p : Player), T i → t.players[i]? = some p → p.is_active = true →
      0 ≤ p.room_id → p.room_id = r)
    (l5 : ∀ (i : Nat) (p : Player), ¬ T i → t.players[i]? = some p → p.is_active = true →
      p.room_id = r → ∃ room' : Room, t'.rooms[r]? = some room' ∧ room'.has i)
    (l6 : ∀ room' : Room, t'.rooms[r]? = some room' → room'.is_active = true →
      (∃ room : Room, t.rooms[r]? = some room ∧ room.is_active = true ∧
        room.name = room'.name) ∨
      (∀ (k : Nat) (other : Room), k ≠ r → t.rooms[k]? = some other →
        other.is_active = true → other.name ≠ room'.name))
    (l7 : ∀ (i : Nat) (p' : Player), T i → t'.players[i]? = some p' → p'.is_active = true →
      p'.nickname ≠ [] → ∀ (j : Nat) (q' : Player), j ≠ i → t'.players[j]? = some q' →
        q'.is_active = true → q'.nickname ≠ p'.nickname)
    (l8 : ∀ (i : Nat) (p' : Player), T i → ¬ X i → t'.players[i]? = some p' →
      p'.is_active = true → Link p') :
    ServerInv X t' := by
  constructor
  · intro k room' hk
    by_cases hkr : k = r
    · subst hkr
      exact l1 room' hk
    · rw [hR k hkr] at hk
      exact h.room_ok k room' hk
  · intro k room' i hk hhas
    by_cases hkr : k = r
    · subst hkr
      exact l2 room' i hk hhas
    · rw [hR k hkr] at hk
      obtain ⟨p, hp, hpa, hpr⟩ := h.cell_player k room' i hk hhas
      have hTi : ¬ T i := by
        intro hT
        have := l4 i p hT hp hpa (by rw [hpr]; exact Int.natCast_nonneg k)
        rw [hpr] at this
        exact hkr (by exact_mod_cast this)
      exact ⟨p, by rw [hP i hTi]; exact hp, hpa, hpr⟩
  · intro i p' hp' hact hrid
    by_cases hT : T i
    · exact l3 i p' hT hp' hact hrid
    · rw [hP i hT] at hp'
      obtain ⟨room, hroom, hhas⟩ := h.player_cell i p' hp' hact hrid
      by_cases hkr : p'.room_id.toNat = r
      · have hr' : p'.room_id = r := by
          rw [← hkr]
          exact (Int.toNat_of_nonneg hrid).symm
        rw [hkr]
        exact l5 i p' hT hp' hact hr'
      · exact ⟨room, by rw [hR _ hkr]; exact hroom, hhas⟩
  · intro k1 k2 r1 r2 h1 h2 a1 a2 hn
    by_cases e1 : k1 = r
    · by_cases e2 : k2 = r
      · rw [e1, e2]
      · subst e1
        rw [hR k2 e2] at h2
        rcases l6 r1 h1 a1 with ⟨old, hold, holda, holdn⟩ | hfresh
        · exact h.names k1 k2 old r2 hold h2 holda a2 (by rw [holdn]; exact hn)
        · exact absurd hn.symm (hfresh k2 r2 e2 h2 a2)
    · rw [hR k1 e1] at h1
      by_cases e2 : k2 = r
      · subst e2
        rcases l6 r2 h2 a2 with ⟨old, hold, holda, holdn⟩ | hfresh
        · exact h.names k1 k2 r1 old h1 hold a1 holda (by rw [holdn]; exact hn)
        · exact absurd hn (hfresh k1 r1 e1 h1 a1)
      · rw [hR k2 e2] at h2
        exact h.names k1 k2 r1 r2 h1 h2 a1 a2 hn
  · intro i j p' q' hi hj a1 a2 hne heq
    by_contra hij
    by_cases hTi : T i
    · exact l7 i p' hTi hi a1 hne j q' (fun e => hij e.symm) hj a2 heq.symm
    · by_cases hTj : T j
      · exact l7 j q' hTj hj a2 (by rw [← heq]; exact hne) i p' hij hi a1 heq
      · rw [hP i hTi] at hi
        rw [hP j hTj] at hj
        exact hij (h.nicks i j p' q' hi hj a1 a2 hne heq)
  · intro i p' hx hp' hact
    by_cases hT : T i
    · exact l8 i p' hT hx hp' hact
    · rw [hP i hT] at hp'
      exact h.link i p' hx hp' hact

theorem PlayerSat.after_update {Q : Player → Prop} {x : Nat} {t : Server} (y : Nat)
    (f : Player → Player) (hf : ∀ p : Player, Q p → Q (f p)) (h : PlayerSat Q x t) :
    PlayerSat Q x (t.updPlayer y f) := by
  intro p hp
  rw [updPlayer_players] at hp
  by_cases hyx : y = x
  · rw [if_pos hyx] at hp
    cases hq : t.players[x]? with
    | none => rw [hq] at hp; cases hp
    | some q =>
      rw [hq] at hp
      cases hp
      exact hf q (h q hq)
  · rw [if_neg hyx] at hp
    exact h p hp

theorem PlayerSat.update_self {Q : Player → Prop} {x : Nat} {t : Server}
    (f : Player → Player) (hf : ∀ p : Player, Q (f p)) :
    PlayerSat Q x (t.updPlayer x f) := by
  intro p hp
  rw [updPlayer_players, if_pos rfl] at hp
  cases hq : t.players[x]? with
  | none => rw [hq] at hp; cases hp
  | some q =>
    rw [hq] at hp
    cases hp
    exact hf q

theorem PlayerSat.after_set_room {Q : Player → Prop} {x : Nat} {t : Server} (r : Nat) (room : Room)
    (h : PlayerSat Q x t) : PlayerSat Q x (t.setRoom r room) := by
  intro p hp
  rw [setRoom_players] at hp
  exact h p hp

theorem PlayerSat.after_set_state {Q : Player → Prop} {x : Nat} {t : Server}
    (y : Option Nat) (st : PlayerState)
    (hf : ∀ p : Player, Q p → Q { p with state := st }) (h : PlayerSat Q x t) :
    PlayerSat Q x (player_set_state t y st) := by
  unfold Nim.player_set_state
  cases y with
  | none => exact h
  | some i => exact h.after_update i _ hf

theorem PlayerSat.set_state_self {Q : Player → Prop} {x : Nat} {t : Server}
    (st : PlayerState) (hf : ∀ p : Player, Q { p with state := st }) :
    PlayerSat Q x (Nim.player_set_state t (some x) st) := by
  unfold Nim.player_set_state
  exact PlayerSat.update_self _ hf

theorem PlayerSat.after_destroy {Q : Player → Prop} {x : Nat} {t : Server} (r : Nat)
    (hf : ∀ p : Player, Q p → Q { p with room_id := -1 }) (h : PlayerSat Q x t) :
    PlayerSat Q x (room_destroy t r) := by
  unfold Nim.room_destroy
  cases t.rooms[r]? with
  | none => exact h
  | some room =>
    simp only
    apply PlayerSat.after_set_room
    cases room.players1 with
    | none =>
      cases room.players0 with
      | none => exact h
      | some a => exact h.after_update a _ hf
    | some b =>
      cases room.players0 with
      | none => exact h.after_update b _ hf
      | some a => exact (h.after_update a _ hf).after_update b _ hf

theorem PlayerSat.after_remove {Q : Player → Prop} {x : Nat} {t : Server} (r : Nat)
    (y : Option Nat) (hf : ∀ p : Player, Q p → Q { p with room_id := -1 })
    (h : PlayerSat Q x t) : PlayerSat Q x (room_remove_player t r y).2 := by
  unfold Nim.room_remove_player
  cases t.rooms[r]? with
  | none => exact h
  | some room =>
    cases y with
    | none => exact h
    | some i =>
      simp only
      split_ifs
      · exact PlayerSat.after_destroy r hf ((h.after_set_room r _).after_update i _ hf)
      · exact (h.after_set_room r _).after_update i _ hf
      · exact PlayerSat.after_destroy r hf ((h.after_set_room r _).after_update i _ hf)
      · exact (h.after_set_room r _).after_update i _ hf
      · exact h

theorem PlayerSat.both {Q R : Player → Prop} {x : Nat} {t : Server} (h1 : PlayerSat Q x t)
    (h2 : PlayerSat R x t) : PlayerSat (fun p => Q p ∧ R p) x t :=
  fun p hp => ⟨h1 p hp, h2 p hp⟩

theorem PlayerSat.weaker {Q R : Player → Prop} {x : Nat} {t : Server} (h : PlayerSat Q x t)
    (hQR : ∀ p : Player, Q p → R p) : PlayerSat R x t :=
  fun p hp => hQR p (h p hp)

/-- A player whose room id names room `r` or no room has no room id after the
removal from room `r`. -/
theorem PlayerSat.removed {X : Nat → Prop} {x : Nat} {t : Server} (r : Nat)
    (hinv : ServerInv X t)
    (h : PlayerSat (fun p => p.room_id = (r : Int) ∨ p.room_id < 0) x t) :
    PlayerSat (fun p => p.is_active = true → p.room_id < 0) x
      (Nim.room_remove_player t r (some x)).2 := by
  cases hp : t.players[x]? with
  | none =>
    intro q hq
    have hh : PlayerSat (fun _ => False) x t := by
      intro p' hp'
      rw [hp] at hp'
      cases hp'
    exact absurd (PlayerSat.after_remove r (some x) (fun _ hq => hq) hh q hq) id
  | some p =>
    by_cases hneg : p.is_active = true → p.room_id < 0
    · have hh : PlayerSat (fun q => q.is_active = true → q.room_id < 0) x t := by
        intro p' hp'
        rw [hp] at hp'
        cases hp'
        exact hneg
      exact PlayerSat.after_remove r (some x) (fun q hq hact => by simp) hh
    · push_neg at hneg
      obtain ⟨hact, hrid⟩ := hneg
      have hr : p.room_id = (r : Int) := by
        rcases h p hp with e | e
        · exact e
        · omega
      obtain ⟨room, hroom, hhas⟩ := hinv.player_cell x p hp hact hrid
      rw [hr, Int.toNat_ofNat] at hroom
      have hb : ∀ t1 : Server, PlayerSat (fun q => q.room_id < 0) x
          (t1.updPlayer x (fun q => { q with room_id := -1 })) :=
        fun t1 => PlayerSat.update_self _ (fun q => by simp)
      have key : PlayerSat (fun q => q.room_id < 0) x
          (Nim.room_remove_player t r (some x)).2 := by
        unfold Nim.room_remove_player
        rw [hroom]
        simp only
        rcases hhas with h0 | h1
        · rw [if_pos h0]
          split_ifs
          · exact PlayerSat.after_destroy r (fun q _ => by simp) (hb _)
          · exact hb _
        · by_cases h0 : room.players0 = some x
          · rw [if_pos h0]
            split_ifs
            · exact PlayerSat.after_destroy r (fun q _ => by simp) (hb _)
            · exact hb _
          · rw [if_neg h0, if_pos h1]
            split_ifs
            · exact PlayerSat.after_destroy r (fun q _ => by simp) (hb _)
            · exact hb _
      exact key.weaker (fun q hq _ => hq)

theorem link_of_lobby {p : Player} (hst : p.state = PlayerState.LOBBY) (hneg : p.room_id < 0) :
    Link p := by
  refine ⟨?_, fun _ => hneg, ?_⟩
  · rintro (e | e) <;> rw [hst] at e <;> cases e
  · intro e
    rw [hst] at e
    cases e

theorem PlayerSat.lobby_link {x : Nat} {t : Server}
    (h1 : PlayerSat (fun p => p.state = PlayerState.LOBBY) x t)
    (h2 : PlayerSat (fun p => p.is_active = true → p.room_id < 0) x t) :
    PlayerSat (fun p => p.is_active = true → Link p) x t :=
  fun p hp hact => link_of_lobby (h1 p hp) (h2 p hp hact)

theorem room_get_opponent_has {room : Room} {x : Option Nat} {o : Nat}
    (h : room_get_opponent room x = some o) : room.has o ∧ x ≠ some o := by
  unfold room_get_opponent at h
  cases x with
  | none => cases h
  | some slot =>
    simp only at h
    split_ifs at h with h0 h1
    · exact ⟨Or.inl h, fun e => h0.2 (by rw [h, e])⟩
    · exact ⟨Or.inr h, fun e => h1.2 (by rw [h, e])⟩

theorem room_id_of_find {rooms : List Room} {id : Int} {r : Nat}
    (h : room_find_by_id rooms id = some r) : id = (r : Int) := by
  obtain ⟨h0, _, h2, _⟩ := room_find_by_id_eq_some.mp h
  rw [← h2]
  exact (Int.toNat_of_nonneg h0).symm

theorem game_over_inv (s : Server) (slot r o : Nat) (player : Player) (room room1 : Room)
    (h : ServerOK s)
    (hplayer : s.players[slot]? = some player)
    (hfind : room_find_by_id s.rooms player.room_id = some r)
    (hroom : s.rooms[r]? = some room)
    (hkeep : room1.players0 = room.players0 ∧ room1.players1 = room.players1 ∧
      room1.player_count = room.player_count ∧ room1.is_active = room.is_active ∧
      room1.id = room.id ∧ room1.name = room.name)
    (hopp : room_get_opponent room1 (some slot) = some o) :
    ServerOK (room_remove_player (room_remove_player (player_set_state
      (player_set_state (s.setRoom r room1) (some slot) PlayerState.LOBBY) (some o)
        PlayerState.LOBBY) r (some o)).2 r (some slot)).2 := by
  have hX1 : ∀ i, some slot = some i → (fun i => i = slot ∨ i = o) i :=
    fun i e => Or.inl (Option.some.inj e).symm
  have hX2 : ∀ i, some o = some i → (fun i => i = slot ∨ i = o) i :=
    fun i e => Or.inr (Option.some.inj e).symm
  have h0 : ServerInv (fun i => i = slot ∨ i = o) s := h.weaken (fun _ hf => hf.elim)
  have h2 := ServerInv.set_state_keeps (some o) PlayerState.LOBBY hX2
    (ServerInv.set_state_keeps (some slot) PlayerState.LOBBY hX1
      (ServerInv.setRoom_keep r room room1 hroom hkeep h0))
  have h3 := ServerInv.remove_player_keeps r (some o) hX2 h2
  have h4 := ServerInv.remove_player_keeps r (some slot) hX1 h3
  have hohas : room.has o := by
    have := (room_get_opponent_has hopp).1
    simp only [Room.has, hkeep.1, hkeep.2.1] at this
    exact this
  have hrid_slot : PlayerSat (fun p => p.room_id = (r : Int) ∨ p.room_id < 0) slot s := by
    intro p hp
    rw [hplayer] at hp
    cases hp
    exact Or.inl (room_id_of_find hfind)
  have hrid_o : PlayerSat (fun p => p.room_id = (r : Int) ∨ p.room_id < 0) o s := by
    intro p hp
    obtain ⟨q, hq, _, hqr⟩ := h.cell_player r room o hroom hohas
    rw [hq] at hp
    cases hp
    exact Or.inl hqr
  refine h4.close ?_
  rintro x (rfl | rfl)
  · apply PlayerSat.lobby_link
    · refine PlayerSat.after_remove _ _ (by intro p hp; exact hp) ?_
      refine PlayerSat.after_remove _ _ (by intro p hp; exact hp) ?_
      refine PlayerSat.after_set_state _ _ (by intro p _; rfl) ?_
      exact PlayerSat.set_state_self _ (by intro p; rfl)
    · apply PlayerSat.removed r h3
      refine PlayerSat.after_remove _ _ (by intro p _; exact Or.inr (by simp)) ?_
      refine PlayerSat.after_set_state _ _ (by intro p hp; exact hp) ?_
      refine PlayerSat.after_set_state _ _ (by intro p hp; exact hp) ?_
      exact PlayerSat.after_set_room _ _ hrid_slot
  · apply PlayerSat.lobby_link
    · refine PlayerSat.after_remove _ _ (by intro p hp; exact hp) ?_
      refine PlayerSat.after_remove _ _ (by intro p hp; exact hp) ?_
      exact PlayerSat.set_state_self _ (by intro p; rfl)
    · refine PlayerSat.after_remove _ _ (by intro p _ _; simp) ?_
      apply PlayerSat.removed r h2
      refine PlayerSat.after_set_state _ _ (by intro p hp; exact hp) ?_
      refine PlayerSat.after_set_state _ _ (by intro p hp; exact hp) ?_
      exact PlayerSat.after_set_room _ _ hrid_o

theorem game_over_alone_inv (s : Server) (slot r : Nat) (player : Player) (room room1 : Room)
    (h : ServerOK s)
    (hplayer : s.players[slot]? = some player)
    (hfind : room_find_by_id s.rooms player.room_id = some r)
    (hroom : s.rooms[r]? = some room)
    (hkeep : room1.players0 = room.players0 ∧ room1.players1 = room.players1 ∧
      room1.player_count = room.player_count ∧ room1.is_active = room.is_active ∧
      room1.id = room.id ∧ room1.name = room.name) :
    ServerOK (room_remove_player
      (player_set_state (s.setRoom r room1) (some slot) PlayerState.LOBBY) r (some slot)).2 := by
  have hX1 : ∀ i, some slot = some i → (fun i => i = slot) i :=
    fun i e => (Option.some.inj e).symm
  have h0 : ServerInv (fun i => i = slot) s := h.weaken (fun _ hf => hf.elim)
  have h2 := ServerInv.set_state_keeps (some slot) PlayerState.LOBBY hX1
    (ServerInv.setRoom_keep r room room1 hroom hkeep h0)
  have h3 := ServerInv.remove_player_keeps r (some slot) hX1 h2
  have hrid_slot : PlayerSat (fun p => p.room_id = (r : Int) ∨ p.room_id < 0) slot s := by
    intro p hp
    rw [hplayer] at hp
    cases hp
    exact Or.inl (room_id_of_find hfind)
  refine h3.close ?_
  rintro x rfl
  apply PlayerSat.lobby_link
  · refine PlayerSat.after_remove _ _ (by intro p hp; exact hp) ?_
    exact PlayerSat.set_state_self _ (by intro p; rfl)
  · apply PlayerSat.removed r h2
    refine PlayerSat.after_set_state _ _ (by intro p hp; exact hp) ?_
    exact PlayerSat.after_set_room _ _ hrid_slot

theorem opt_inv_some {α : Type} {P : Server → Prop} {t : Server} {out : α}
    (h : P t) : ∀ r ∈ (some (t, out) : Option (Server × α)), P r.1 := by
  intro r hr
  cases hr
  exact h

theorem opt_inv_none {α : Type} {P : Server → Prop} :
    ∀ r ∈ (none : Option (Server × α)), P r.1 := by
  intro r hr
  cases hr

theorem ServerInv.count_invalid_keeps {X : Nat → Prop} {t : Server} (x : Nat) (h : ServerInv X t) :
    ServerInv X (Nim.count_invalid t x) :=
  h.updPlayer_benign x _ (fun _ => ⟨rfl, rfl, rfl, rfl⟩)

set_option maxHeartbeats 1000000 in
theorem handle_take_inv (s : Server) (slot : Nat) (msg : ParsedMessage) (h : ServerOK s) :
    ∀ r ∈ handle_take s slot msg, ServerOK r.1 := by
  unfold handle_take
  simp only []
  repeat' split
  all_goals first
    | exact opt_inv_none
    | (apply opt_inv_some
       with_reducible first
         | exact h
         | exact ServerInv.count_invalid_keeps slot h
         | (repeat (first
             | exact h
             | refine ServerInv.updPlayer_benign _ _ (by intro p; exact ⟨rfl, rfl, rfl, rfl⟩) ?_
             | refine ServerInv.setRoom_keep _ _ _ (by assumption)
                 (by exact ⟨rfl, rfl, rfl, rfl, rfl, rfl⟩) ?_)
            done)
         | exact game_over_inv _ _ _ _ _ _ _ h (by assumption) (by assumption) (by assumption)
             (by exact ⟨rfl, rfl, rfl, rfl, rfl, rfl⟩) (by assumption)
         | exact game_over_alone_inv _ _ _ _ _ _ h (by assumption) (by assumption)
             (by assumption) (by exact ⟨rfl, rfl, rfl, rfl, rfl, rfl⟩))


theorem slot_room_id {s : Server} {slot r : Nat} {player : Player}
    (hplayer : s.players[slot]? = some player)
    (hfind : room_find_by_id s.rooms player.room_id = some r) :
    PlayerSat (fun p => p.room_id = (r : Int) ∨ p.room_id < 0) slot s := by
  intro p hp
  rw [hplayer] at hp
  cases hp
  exact Or.inl (room_id_of_find hfind)

theorem opponent_room_id {s : Server} {slot r : Nat} {room : Room} (h : ServerOK s)
    (hroom : s.rooms[r]? = some room) (o : Nat)
    (hopp : room_get_opponent room (some slot) = some o) :
    PlayerSat (fun p => p.room_id = (r : Int) ∨ p.room_id < 0) o s := by
  intro p hp
  obtain ⟨q, hq, _, hqr⟩ := h.cell_player r room o hroom (room_get_opponent_has hopp).1
  rw [hq] at hp
  cases hp
  exact Or.inl hqr

/-- The invariant after a player and then a second player are taken out of room `r`
and moved to the lobby. -/
theorem leave_two_inv (t : Server) (slot r : Nat) (opp : Option Nat) (h : ServerOK t)
    (hs : PlayerSat (fun p => p.room_id = (r : Int) ∨ p.room_id < 0) slot t)
    (ho : ∀ o, opp = some o →
      PlayerSat (fun p => p.room_id = (r : Int) ∨ p.room_id < 0) o t) :
    ServerOK (player_set_state (room_remove_player
      (player_set_state (room_remove_player t r opp).2 opp PlayerState.LOBBY)
        r (some slot)).2 (some slot) PlayerState.LOBBY) := by
  have hX1 : ∀ i, some slot = some i → (fun i => i = slot ∨ some i = opp) i :=
    fun i e => Or.inl (Option.some.inj e).symm
  have hX2 : ∀ i, opp = some i → (fun i => i = slot ∨ some i = opp) i :=
    fun i e => Or.inr e.symm
  have h0 : ServerInv (fun i => i = slot ∨ some i = opp) t := h.weaken (fun _ hf => hf.elim)
  have h1 := ServerInv.remove_player_keeps r opp hX2 h0
  have h2 := ServerInv.set_state_keeps opp PlayerState.LOBBY hX2 h1
  have h3 := ServerInv.remove_player_keeps r (some slot) hX1 h2
  have h4 := ServerInv.set_state_keeps (some slot) PlayerState.LOBBY hX1 h3
  refine h4.close ?_
  rintro x (rfl | hx)
  · apply PlayerSat.lobby_link
    · exact PlayerSat.set_state_self _ (by intro p; rfl)
    · refine PlayerSat.after_set_state _ _ (by intro p hp; exact hp) ?_
      apply PlayerSat.removed r h2
      refine PlayerSat.after_set_state _ _ (by intro p hp; exact hp) ?_
      refine PlayerSat.after_remove _ _ (by intro p _; exact Or.inr (by simp)) ?_
      exact hs
  · subst hx
    apply PlayerSat.lobby_link
    · refine PlayerSat.after_set_state _ _ (by intro p _; rfl) ?_
      refine PlayerSat.after_remove _ _ (by intro p hp; exact hp) ?_
      exact PlayerSat.set_state_self _ (by intro p; rfl)
    · refine PlayerSat.after_set_state _ _ (by intro p hp; exact hp) ?_
      refine PlayerSat.after_remove _ _ (by intro p _ _; simp) ?_
      refine PlayerSat.after_set_state _ _ (by intro p hp; exact hp) ?_
      exact PlayerSat.removed r h0 (ho x rfl)

theorem leave_one_inv (t : Server) (slot r : Nat) (h : ServerOK t)
    (hs : PlayerSat (fun p => p.room_id = (r : Int) ∨ p.room_id < 0) slot t) :
    ServerOK (player_set_state (room_remove_player t r (some slot)).2 (some slot)
      PlayerState.LOBBY) := by
  have key := leave_two_inv t slot r none h hs (fun _ e => by cases e)
  have e1 : (room_remove_player t r none).2 = t := by
    unfold room_remove_player
    cases t.rooms[r]? <;> rfl
  have e2 : player_set_state t none PlayerState.LOBBY = t := rfl
  rw [e1, e2] at key
  exact key

set_option maxHeartbeats 1000000 in
theorem handle_leave_room_inv (s : Server) (slot : Nat) (msg : ParsedMessage) (h : ServerOK s) :
    ∀ r ∈ handle_leave_room s slot msg, ServerOK r.1 := by
  unfold handle_leave_room
  simp only []
  repeat' split
  all_goals first
    | exact opt_inv_none
    | (apply opt_inv_some
       with_reducible first
         | exact h
         | exact leave_two_inv _ _ _ _
             (ServerInv.setRoom_keep _ _ _ (by assumption)
               (by exact ⟨rfl, rfl, rfl, rfl, rfl, rfl⟩) h)
             (PlayerSat.after_set_room _ _ (slot_room_id (by assumption) (by assumption)))
             (fun o ho => PlayerSat.after_set_room _ _ (opponent_room_id h (by assumption) o ho))
         | exact leave_one_inv _ _ _
             (ServerInv.setRoom_keep _ _ _ (by assumption)
               (by exact ⟨rfl, rfl, rfl, rfl, rfl, rfl⟩) h)
             (PlayerSat.after_set_room _ _ (slot_room_id (by assumption) (by assumption)))
         | exact leave_two_inv _ _ _ _ h (slot_room_id (by assumption) (by assumption))
             (fun o ho => opponent_room_id h (by assumption) o ho)
         | exact leave_one_inv _ _ _ h (slot_room_id (by assumption) (by assumption)))

theorem PlayerSat.update_other {Q : Player → Prop} {x : Nat} {t : Server} (y : Nat)
    (f : Player → Player) (hne : y ≠ x) (h : PlayerSat Q x t) :
    PlayerSat Q x (t.updPlayer y f) := by
  intro p hp
  rw [updPlayer_players, if_neg hne] at hp
  exact h p hp

theorem ServerInv.deactivate {X : Nat → Prop} {t : Server} (x : Nat) (f : Player → Player)
    (hf : ∀ p : Player, (f p).is_active = false)
    (hneg : PlayerSat (fun p => p.is_active = true → p.room_id < 0) x t)
    (h : ServerInv X t) : ServerInv X (t.updPlayer x f) := by
  have hsame : ∀ i : Nat, ¬ i = x → (t.updPlayer x f).players[i]? = t.players[i]? := by
    intro i hi
    rw [updPlayer_players, if_neg (fun e => hi e.symm)]
  have hnew : ∀ p' : Player, (t.updPlayer x f).players[x]? = some p' → p'.is_active = false := by
    intro p' hp'
    exact @PlayerSat.update_self (fun p => p.is_active = false) x t f hf p' hp'
  have hcell : ∀ (k : Nat) (room : Room) (i : Nat), t.rooms[k]? = some room → room.has i →
      ∃ p : Player, (t.updPlayer x f).players[i]? = some p ∧ p.is_active = true ∧
        p.room_id = k := by
    intro k room i hk hhas
    obtain ⟨p, hp, hpa, hpr⟩ := h.cell_player k room i hk hhas
    have hix : ¬ i = x := by
      intro e
      subst e
      have := hneg p hp hpa
      omega
    exact ⟨p, by rw [hsame i hix]; exact hp, hpa, hpr⟩
  refine h.local_step (fun i => i = x) 0 hsame ?_ ?_ ?_ ?_ ?_ ?_ ?_ ?_ ?_
  · intro k _
    rw [updPlayer_rooms]
  · intro room' hr
    rw [updPlayer_rooms] at hr
    exact h.room_ok 0 room' hr
  · intro room' i hr hhas
    rw [updPlayer_rooms] at hr
    exact hcell 0 room' i hr hhas
  · intro i p' hi hp' hact
    subst hi
    rw [hnew p' hp'] at hact
    cases hact
  · intro i p hi hp hact hrid
    subst hi
    have := hneg p hp hact
    omega
  · intro i p hi hp hact hrid
    obtain ⟨room, hroom, hhas⟩ := h.player_cell i p hp hact (by rw [hrid]; exact Int.natCast_nonneg 0)
    rw [hrid, Int.toNat_ofNat] at hroom
    exact ⟨room, by rw [updPlayer_rooms]; exact hroom, hhas⟩
  · intro room' hr ha
    rw [updPlayer_rooms] at hr
    exact Or.inl ⟨room', hr, ha, rfl⟩
  · intro i p' hi hp' hact
    subst hi
    rw [hnew p' hp'] at hact
    cases hact
  · intro i p' hi _ hp' hact
    subst hi
    rw [hnew p' hp'] at hact
    cases hact

theorem PlayerSat.inactive_link {x : Nat} {t : Server}
    (h : PlayerSat (fun p => p.is_active = false) x t) :
    PlayerSat (fun p => p.is_active = true → Link p) x t := by
  intro p hp hact
  rw [h p hp] at hact
  cases hact

theorem PlayerSat.disconnected_link {x : Nat} {t : Server}
    (h : PlayerSat (fun p => p.state = PlayerState.DISCONNECTED) x t) :
    PlayerSat (fun p => p.is_active = true → Link p) x t := by
  intro p hp _
  have hst := h p hp
  refine ⟨?_, ?_, ?_⟩
  · rintro (e | e) <;> rw [hst] at e <;> cases e
  · rintro (e | e) <;> rw [hst] at e <;> cases e
  · intro e
    rw [hst] at e
    cases e

/-- The invariant after an opponent is moved from room `r` to the lobby and the
player is taken out of the room and its record is freed. -/
theorem free_after_leave_inv (t : Server) (slot r : Nat) (opp : Option Nat) (now : Int)
    (h : ServerOK t) (hne : opp ≠ some slot)
    (hs : PlayerSat (fun p => p.room_id = (r : Int) ∨ p.room_id < 0) slot t)
    (ho : ∀ o, opp = some o →
      PlayerSat (fun p => p.room_id = (r : Int) ∨ p.room_id < 0) o t) :
    ServerOK ((room_remove_player
      (player_set_state (room_remove_player t r opp).2 opp PlayerState.LOBBY)
        r (some slot)).2.updPlayer slot (fun p => player_reset p false now)) := by
  have hX1 : ∀ i, some slot = some i → (fun i => i = slot ∨ some i = opp) i :=
    fun i e => Or.inl (Option.some.inj e).symm
  have hX2 : ∀ i, opp = some i → (fun i => i = slot ∨ some i = opp) i :=
    fun i e => Or.inr e.symm
  have h0 : ServerInv (fun i => i = slot ∨ some i = opp) t := h.weaken (fun _ hf => hf.elim)
  have h1 := ServerInv.remove_player_keeps r opp hX2 h0
  have h2 := ServerInv.set_state_keeps opp PlayerState.LOBBY hX2 h1
  have h3 := ServerInv.remove_player_keeps r (some slot) hX1 h2
  have hneg : PlayerSat (fun p => p.is_active = true → p.room_id < 0) slot
      (room_remove_player
        (player_set_state (room_remove_player t r opp).2 opp PlayerState.LOBBY)
          r (some slot)).2 := by
    apply PlayerSat.removed r h2
    refine PlayerSat.after_set_state _ _ (by intro p hp; exact hp) ?_
    refine PlayerSat.after_remove _ _ (by intro p _; exact Or.inr (by simp)) ?_
    exact hs
  have h4 := ServerInv.deactivate slot (fun p => player_reset p false now)
    (by intro p; rfl) hneg h3
  refine h4.close ?_
  rintro x (rfl | hx)
  · apply PlayerSat.inactive_link
    exact PlayerSat.update_self _ (by intro p; rfl)
  · have hxs : x ≠ slot := by
      intro e
      subst e
      exact hne hx.symm
    subst hx
    apply PlayerSat.lobby_link
    · refine PlayerSat.update_other _ _ (fun e => hxs e.symm) ?_
      refine PlayerSat.after_remove _ _ (by intro p hp; exact hp) ?_
      exact PlayerSat.set_state_self _ (by intro p; rfl)
    · refine PlayerSat.update_other _ _ (fun e => hxs e.symm) ?_
      refine PlayerSat.after_remove _ _ (by intro p _ _; simp) ?_
      refine PlayerSat.after_set_state _ _ (by intro p hp; exact hp) ?_
      exact PlayerSat.removed r h0 (ho x rfl)

theorem free_after_leave_one_inv (t : Server) (slot r : Nat) (now : Int)
    (h : ServerOK t)
    (hs : PlayerSat (fun p => p.room_id = (r : Int) ∨ p.room_id < 0) slot t) :
    ServerOK ((room_remove_player t r (some slot)).2.updPlayer slot
      (fun p => player_reset p false now)) := by
  have key := free_after_leave_inv t slot r none now h (by intro e; cases e) hs
    (fun _ e => by cases e)
  have e1 : (room_remove_player t r none).2 = t := by
    unfold room_remove_player
    cases t.rooms[r]? <;> rfl
  have e2 : player_set_state t none PlayerState.LOBBY = t := rfl
  rw [e1, e2] at key
  exact key

theorem free_inv (t : Server) (slot : Nat) (now : Int) (h : ServerOK t)
    (hneg : PlayerSat (fun p => p.is_active = true → p.room_id < 0) slot t) :
    ServerOK (t.updPlayer slot (fun p => player_reset p false now)) :=
  ServerInv.deactivate slot _ (by intro p; rfl) hneg h

theorem keep_inv (t : Server) (slot : Nat) (now : Int) (h : ServerOK t) :
    ServerOK (t.updPlayer slot (fun p => player_reset p true now)) := by
  have h0 : ServerInv (fun i => i = slot) t := h.weaken (fun _ hf => hf.elim)
  have h1 := @ServerInv.updPlayer_exempt (fun i => i = slot) t slot
    (fun p => player_reset p true now) rfl (by intro p; exact ⟨rfl, rfl, rfl⟩) h0
  refine h1.close ?_
  rintro x rfl
  apply PlayerSat.disconnected_link
  exact PlayerSat.update_self _ (by intro p; rfl)

/-- A player whose room id names no active room has, under the invariant, no room
id at all when the record is active. -/
theorem no_room_id {s : Server} {slot : Nat} {player : Player} (h : ServerOK s)
    (hplayer : s.players[slot]? = some player)
    (hfind : room_find_by_id s.rooms player.room_id = none) :
    PlayerSat (fun p => p.is_active = true → p.room_id < 0) slot s := by
  intro p hp hact
  rw [hplayer] at hp
  obtain rfl : player = p := Option.some.inj hp
  by_contra hge
  have hge' : 0 ≤ player.room_id := by omega
  obtain ⟨room, hroom, hhas⟩ := h.player_cell slot player hplayer hact hge'
  obtain ⟨hcount, hactive, _, _⟩ := h.room_ok _ room hroom
  have hpos : 0 < room.player_count := by
    rw [hcount, room_present_cases]
    rcases hhas with e | e <;> rw [e] <;> simp <;> split_ifs <;> omega
  have hfound : room_find_by_id s.rooms player.room_id = some player.room_id.toNat := by
    apply room_find_by_id_eq_some.mpr
    refine ⟨hge', ?_, rfl, room, hroom, hactive.mpr hpos⟩
    have := (List.getElem?_eq_some_iff.mp hroom).1
    omega
  rw [hfound] at hfind
  cases hfind

theorem room_get_opponent_ne (room : Room) (slot : Nat) :
    room_get_opponent room (some slot) ≠ some slot :=
  fun e => (room_get_opponent_has e).2 rfl

theorem negative_room_id {s : Server} {slot : Nat} {player : Player}
    (hplayer : s.players[slot]? = some player) (hneg : ¬ player.room_id ≥ 0) :
    PlayerSat (fun p => p.is_active = true → p.room_id < 0) slot s := by
  intro p hp _
  rw [hplayer] at hp
  obtain rfl : player = p := Option.some.inj hp
  omega

theorem found_room_exists {Q : Prop} {rooms : List Room} {id : Int} {r : Nat}
    (hfind : room_find_by_id rooms id = some r) (hnone : rooms[r]? = none) : Q := by
  obtain ⟨_, _, _, room, hroom, _⟩ := room_find_by_id_eq_some.mp hfind
  rw [hnone] at hroom
  cases hroom

set_option maxHeartbeats 1000000 in
theorem server_handle_disconnect_inv (s : Server) (slot : Nat) (graceful : Bool) (now : Int)
    (h : ServerOK s) : ServerOK (server_handle_disconnect s slot graceful now).1 := by
  unfold server_handle_disconnect
  simp only []
  repeat' split
  all_goals
    with_reducible first
      | exact h
      | exact free_inv _ _ _ h (no_room_id h (by assumption) (by assumption))
      | exact free_inv _ _ _ h (negative_room_id (by assumption) (by assumption))
      | exact found_room_exists (by assumption) (by assumption)
      | exact free_after_leave_inv _ _ _ _ _
          (ServerInv.setRoom_keep _ _ _ (by assumption)
            (by exact ⟨rfl, rfl, rfl, rfl, rfl, rfl⟩) h)
          (room_get_opponent_ne _ _)
          (PlayerSat.after_set_room _ _ (slot_room_id (by assumption) (by assumption)))
          (fun o ho => PlayerSat.after_set_room _ _ (opponent_room_id h (by assumption) o ho))
      | exact free_after_leave_one_inv _ _ _ _
          (ServerInv.setRoom_keep _ _ _ (by assumption)
            (by exact ⟨rfl, rfl, rfl, rfl, rfl, rfl⟩) h)
          (PlayerSat.after_set_room _ _ (slot_room_id (by assumption) (by assumption)))
      | exact free_after_leave_one_inv _ _ _ _ h (slot_room_id (by assumption) (by assumption))
      | exact keep_inv _ _ _
          (ServerInv.setRoom_keep _ _ _ (by assumption)
            (by exact ⟨rfl, rfl, rfl, rfl, rfl, rfl⟩) h)
      | exact keep_inv _ _ _ h

set_option maxHeartbeats 1000000 in
theorem server_handle_timeout_inv (s : Server) (slot : Nat) (now : Int)
    (h : ServerOK s) : ServerOK (server_handle_timeout s slot now).1 := by
  unfold server_handle_timeout
  simp only []
  repeat' split
  all_goals
    with_reducible first
      | exact h
      | exact free_inv _ _ _ h (no_room_id h (by assumption) (by assumption))
      | exact free_inv _ _ _ h (negative_room_id (by assumption) (by assumption))
      | exact found_room_exists (by assumption) (by assumption)
      | exact free_after_leave_inv _ _ _ _ _ h (room_get_opponent_ne _ _)
          (slot_room_id (by assumption) (by assumption))
          (fun o ho => opponent_room_id h (by assumption) o ho)
      | exact free_after_leave_one_inv _ _ _ _ h (slot_room_id (by assumption) (by assumption))

/-- The invariant after player `x`, who is in no room, is entered into room `r`:
`room'` is the new record of the room and `f` the update of the player record. -/
theorem ServerInv.enter_step {X : Nat → Prop} {t : Server} (h : ServerInv X t)
    (x r : Nat) (p : Player) (old room' : Room) (f : Player → Player) (hX : X x)
    (hold : t.rooms[r]? = some old)
    (hplayer : t.players[x]? = some p) (hact : p.is_active = true) (hneg : p.room_id < 0)
    (hok : RoomOK r room')
    (hcells : ∀ i, room'.has i ↔ (old.has i ∨ i = x))
    (hname : (old.is_active = true ∧ old.name = room'.name) ∨
      (∀ (k : Nat) (other : Room), k ≠ r → t.rooms[k]? = some other →
        other.is_active = true → other.name ≠ room'.name))
    (hf : ∀ q : Player, (f q).is_active = q.is_active ∧ (f q).nickname = q.nickname ∧
      (f q).room_id = r) :
    ServerInv X ((t.setRoom r room').updPlayer x f) := by
  have hlt : r < t.rooms.length := (List.getElem?_eq_some_iff.mp hold).1
  have hsame : ∀ i : Nat, ¬ i = x →
      ((t.setRoom r room').updPlayer x f).players[i]? = t.players[i]? := by
    intro i hi
    rw [updPlayer_players, if_neg (fun e => hi e.symm), setRoom_players]
  have hnew : ((t.setRoom r room').updPlayer x f).players[x]? = some (f p) := by
    rw [updPlayer_players, if_pos rfl, setRoom_players, hplayer]
    rfl
  have hroom' : ((t.setRoom r room').updPlayer x f).rooms[r]? = some room' := by
    rw [updPlayer_rooms, setRoom_rooms, if_pos rfl, hold]
    rfl
  refine h.local_step (fun i => i = x) r hsame ?_ ?_ ?_ ?_ ?_ ?_ ?_ ?_ ?_
  · intro k hk
    rw [updPlayer_rooms, setRoom_rooms, if_neg (fun e => hk e.symm)]
  · intro room2 hr
    rw [hroom'] at hr
    cases hr
    exact hok
  · intro room2 i hr hhas
    rw [hroom'] at hr
    cases hr
    rcases (hcells i).mp hhas with hi | hi
    · obtain ⟨q, hq, hqa, hqr⟩ := h.cell_player r old i hold hi
      have hix : ¬ i = x := by
        intro e
        subst e
        rw [hplayer] at hq
        cases hq
        omega
      exact ⟨q, by rw [hsame i hix]; exact hq, hqa, hqr⟩
    · subst hi
      exact ⟨f p, hnew, by rw [(hf p).1]; exact hact, (hf p).2.2⟩
  · intro i p' hi hp' _ _
    subst hi
    rw [hnew] at hp'
    cases hp'
    rw [(hf p).2.2, Int.toNat_ofNat]
    exact ⟨room', hroom', (hcells i).mpr (Or.inr rfl)⟩
  · intro i q hi hq _ hrid
    subst hi
    rw [hplayer] at hq
    cases hq
    omega
  · intro i q hi hq hqa hqr
    obtain ⟨room, hroom, hhas⟩ := h.player_cell i q hq hqa (by rw [hqr]; exact Int.natCast_nonneg r)
    rw [hqr, Int.toNat_ofNat, hold] at hroom
    cases hroom
    exact ⟨room', hroom', (hcells i).mpr (Or.inl hhas)⟩
  · intro room2 hr ha
    rw [hroom'] at hr
    cases hr
    rcases hname with ⟨h1, h2⟩ | h2
    · exact Or.inl ⟨old, hold, h1, h2⟩
    · exact Or.inr h2
  · intro i p' hi hp' hpa hne j q' hji hq' hqa heq
    subst hi
    rw [hnew] at hp'
    cases hp'
    rw [hsame j hji] at hq'
    rw [(hf p).2.1] at hne heq
    exact hji (h.nicks j i q' p hq' hplayer hqa hact (by rw [heq]; exact hne) heq)
  · intro i p' hi hx
    subst hi
    exact absurd hX hx

theorem PlayerSat.read {Q : Player → Prop} {x : Nat} {t : Server} {p : Player}
    (h : PlayerSat Q x t) (hp : t.players[x]? = some p) : Q p :=
  h p hp

theorem room_create_cases (s : Server) (name : List Char) (slot : Nat) :
    room_create s name (some slot) = (-1, s) ∨
    ∃ (k : Nat) (old : Room), find_free_slot s.rooms = some k ∧ s.rooms[k]? = some old ∧
      room_find_by_name s.rooms name = none ∧
      room_create s name (some slot) = ((k : Int),
        (s.setRoom k
          { old with id := k, name := name.take MAX_ROOM_NAME_LENGTH, is_active := true,
                     player_count := 0 + 1, players0 := some slot, players1 := none,
                     game := game_init old.game }).updPlayer slot
          (fun p => { p with room_id := k, skips_remaining := SKIPS_PER_PLAYER })) := by
  cases hname : room_find_by_name s.rooms name with
  | some _ =>
    left
    simp [room_create, hname]
  | none =>
    cases hfree : find_free_slot s.rooms with
    | none =>
      left
      simp [room_create, hname, hfree]
    | some k =>
      cases hold : s.rooms[k]? with
      | none =>
        left
        simp [room_create, hname, hfree, hold]
      | some old =>
        right
        have hlt : k < s.rooms.length := (List.getElem?_eq_some_iff.mp hold).1
        refine ⟨k, old, rfl, hold, rfl, ?_⟩
        simp [room_create, hname, hfree, room_add_player, setRoom_rooms, hlt, hold,
          room_is_full, PLAYERS_PER_ROOM, updPlayer_rooms]
        simp [Server.setRoom]

theorem PlayerSat.member_link {x : Nat} {t : Server}
    (h : PlayerSat (fun p => (p.state = PlayerState.IN_ROOM ∨ p.state = PlayerState.IN_GAME ∨
      p.state = PlayerState.DISCONNECTED) ∧ 0 ≤ p.room_id) x t) :
    PlayerSat (fun p => p.is_active = true → Link p) x t := by
  intro p hp _
  obtain ⟨hst, hrid⟩ := h p hp
  refine ⟨fun _ => hrid, ?_, ?_⟩
  · rintro (e | e) <;> rcases hst with h1 | h1 | h1 <;> rw [h1] at e <;> cases e
  · intro e
    rcases hst with h1 | h1 | h1 <;> rw [h1] at e <;> cases e

theorem inactive_room_empty {r : Nat} {room : Room} (hok : RoomOK r room)
    (hinactive : room.is_active = false) (i : Nat) : ¬ room.has i := by
  obtain ⟨hcount, hactive, _, _⟩ := hok
  have hzero : ¬ 0 < room.player_count := by
    intro hpos
    rw [hactive.mpr hpos] at hinactive
    cases hinactive
  rw [hcount, room_present_cases] at hzero
  rintro (e | e) <;> rw [e] at hzero <;> simp at hzero <;> split_ifs at hzero <;> omega

theorem create_failed_inv (s : Server) (name : List Char) (slot : Nat) (h : ServerOK s)
    (hfail : (room_create s name (some slot)).1 < 0) :
    ServerOK (room_create s name (some slot)).2 := by
  rcases room_create_cases s name slot with e | ⟨k, old, _, _, _, e⟩
  · rw [e]
    exact h
  · rw [e] at hfail
    simp at hfail
    omega

theorem create_done_inv (s : Server) (name : List Char) (slot : Nat) (player : Player)
    (h : ServerOK s) (hplayer : s.players[slot]? = some player)
    (hact : player.is_active = true) (hstate : player.state = PlayerState.LOBBY)
    (hlen : name.length ≤ MAX_ROOM_NAME_LENGTH)
    (hdone : ¬ (room_create s name (some slot)).1 < 0) :
    ServerOK (player_set_state (room_create s name (some slot)).2 (some slot)
      PlayerState.IN_ROOM) := by
  rcases room_create_cases s name slot with e | ⟨k, old, hfree, hold, hname, e⟩
  · rw [e] at hdone
    exact absurd (show ((-1 : Int), s).1 < 0 by simp) hdone
  · rw [e]
    have hneg : player.room_id < 0 := (h.link slot player (fun hf => hf) hplayer hact).2.1
      (Or.inr hstate)
    obtain ⟨x, hx, htest, _⟩ := find_first_some_spec _ _ _ hfree
    rw [hold] at hx
    cases hx
    have hinactive : old.is_active = false := by simpa using htest
    have hempty := inactive_room_empty (h.room_ok k old hold) hinactive
    have h0 : ServerInv (fun i => i = slot) s := h.weaken (fun _ hf => hf.elim)
    have h1 := h0.enter_step slot k player old
      { old with id := k, name := name.take MAX_ROOM_NAME_LENGTH, is_active := true,
                 player_count := 0 + 1, players0 := some slot, players1 := none,
                 game := game_init old.game }
      (fun p => { p with room_id := k, skips_remaining := SKIPS_PER_PLAYER }) rfl hold hplayer
      hact hneg ?_ ?_ ?_ (fun q => ⟨rfl, rfl, rfl⟩)
    · have h2 := ServerInv.set_state_keeps (some slot) PlayerState.IN_ROOM
        (fun i e => (Option.some.inj e).symm) h1
      refine h2.close ?_
      rintro x rfl
      apply PlayerSat.member_link
      refine PlayerSat.both ?_ ?_
      · exact PlayerSat.set_state_self _ (by intro p; exact Or.inl rfl)
      · refine PlayerSat.after_set_state _ _ (by intro p hp; exact hp) ?_
        exact PlayerSat.update_self _ (by intro p; exact Int.natCast_nonneg k)
    · refine ⟨?_, ?_, ?_, ?_⟩
      · simp [Room.present]
      · simp
      · intro _
        rfl
      · intro i _ hi
        cases hi
    · intro i
      constructor
      · rintro (hi | hi)
        · exact Or.inr (Option.some.inj hi).symm
        · cases hi
      · rintro (hi | hi)
        · exact absurd hi (hempty i)
        · exact Or.inl (by rw [hi])
    · right
      intro k' other _ hother hactive
      have hmem : other ∈ s.rooms := List.getElem?_mem hother
      have := (find_first_eq_none _ _).mp hname other hmem
      rw [List.take_of_length_le hlen]
      intro e
      simp [hactive, e] at this

set_option maxHeartbeats 1000000 in
theorem handle_create_room_inv (s : Server) (slot : Nat) (msg : ParsedMessage) (h : ServerOK s)
    (hact : PlayerSat (fun p => p.is_active = true) slot s) :
    ∀ r ∈ handle_create_room s slot msg, ServerOK r.1 := by
  unfold handle_create_room
  simp only []
  repeat' split
  all_goals first
    | exact opt_inv_none
    | (apply opt_inv_some
       with_reducible first
         | exact h
         | exact ServerInv.count_invalid_keeps slot h
         | exact create_failed_inv _ _ _ h (by assumption)
         | exact create_done_inv _ _ _ _ h (by assumption) (hact.read (by assumption))
             (not_not.mp (by assumption))
             (valid_room_name_length (not_not.mp (by assumption))) (by assumption))

theorem room_add_player_cases (t : Server) (r x : Nat) (room : Room)
    (hroom : t.rooms[r]? = some room) (hcount : room.player_count = room.present)
    (hnotfull : ¬ room_is_full room = true) :
    ∃ room' : Room, room_add_player t r (some x) = (true, (t.setRoom r room').updPlayer x
        (fun p => { p with room_id := room.id, skips_remaining := SKIPS_PER_PLAYER })) ∧
      room'.player_count = room.player_count + 1 ∧ room'.present = room.present + 1 ∧
      (∀ i, room'.has i ↔ (room.has i ∨ i = x)) ∧
      room'.is_active = room.is_active ∧ room'.id = room.id ∧ room'.name = room.name ∧
      (¬ room.has x → ∀ i, room'.players0 = some i → room'.players1 ≠ some i) := by
  have hlt : ¬ room.player_count ≥ 2 := by
    simpa [room_is_full, PLAYERS_PER_ROOM] using hnotfull
  by_cases h0 : room.players0 = none
  · refine ⟨{ room with players0 := some x, player_count := room.player_count + 1 }, ?_, rfl,
      ?_, ?_, rfl, rfl, rfl, ?_⟩
    · simp [room_add_player, hroom, hnotfull, h0]
    · simp [Room.present, h0]
      omega
    · intro i
      simp only [Room.has, h0]
      constructor
      · rintro (e | e)
        · exact Or.inr (Option.some.inj e).symm
        · exact Or.inl (Or.inr e)
      · rintro ((e | e) | e)
        · cases e
        · exact Or.inr e
        · exact Or.inl (by rw [e])
    · intro hx i hi hi1
      simp only at hi hi1
      cases hi
      exact hx (Or.inr hi1)
  · have h1 : room.players1 = none := by
      rw [hcount, room_present_cases] at hlt
      by_contra hne
      simp [h0, hne] at hlt
    refine ⟨{ room with players1 := some x, player_count := room.player_count + 1 }, ?_, rfl,
      ?_, ?_, rfl, rfl, rfl, ?_⟩
    · simp [room_add_player, hroom, hnotfull, h0, h1]
    · simp [Room.present, h0, h1]
    · intro i
      simp only [Room.has, h1]
      constructor
      · rintro (e | e)
        · exact Or.inl (Or.inl e)
        · exact Or.inr (Option.some.inj e).symm
      · rintro ((e | e) | e)
        · exact Or.inl e
        · cases e
        · exact Or.inr (by rw [e])
    · intro hx i hi hi1
      simp only at hi hi1
      cases hi1
      exact hx (Or.inl hi)

theorem PlayerSat.after_start_game {Q : Player → Prop} {x : Nat} {t : Server} (r : Nat)
    (hf : ∀ p : Player, Q p →
      Q { p with state := PlayerState.IN_GAME, skips_remaining := SKIPS_PER_PLAYER })
    (h : PlayerSat Q x t) : PlayerSat Q x (Nim.room_start_game t r).2 := by
  unfold Nim.room_start_game
  cases t.rooms[r]? with
  | none => exact h
  | some room =>
    simp only
    split_ifs
    · exact h
    · exact h
    · cases room.players1 with
      | none =>
        cases room.players0 with
        | none => exact h.after_set_room _ _
        | some a => exact (h.after_set_room _ _).after_update a _ hf
      | some b =>
        cases room.players0 with
        | none => exact (h.after_set_room _ _).after_update b _ hf
        | some a => exact ((h.after_set_room _ _).after_update a _ hf).after_update b _ hf

theorem ServerInv.start_game_keeps {X : Nat → Prop} {t : Server} (r : Nat)
    (hcells : ∀ (room : Room) (i : Nat), t.rooms[r]? = some room → room.has i → X i)
    (h : ServerInv X t) : ServerInv X (Nim.room_start_game t r).2 := by
  unfold Nim.room_start_game
  cases hroom : t.rooms[r]? with
  | none => exact h
  | some room =>
    simp only
    split_ifs
    · exact h
    · exact h
    · have hX0 : ∀ a, room.players0 = some a → X a := fun a ha => hcells room a hroom (Or.inl ha)
      have hX1 : ∀ a, room.players1 = some a → X a := fun a ha => hcells room a hroom (Or.inr ha)
      cases h0 : room.players0 with
      | none =>
        cases h1 : room.players1 with
        | none =>
          exact ServerInv.setRoom_keep r room _ hroom ⟨h0.symm, h1.symm, rfl, rfl, rfl, rfl⟩ h
        | some b =>
          refine ServerInv.updPlayer_exempt b _ (hX1 b h1) (fun p => ⟨rfl, rfl, rfl⟩) ?_
          exact ServerInv.setRoom_keep r room _ hroom ⟨h0.symm, h1.symm, rfl, rfl, rfl, rfl⟩ h
      | some a =>
        cases h1 : room.players1 with
        | none =>
          refine ServerInv.updPlayer_exempt a _ (hX0 a h0) (fun p => ⟨rfl, rfl, rfl⟩) ?_
          exact ServerInv.setRoom_keep r room _ hroom ⟨h0.symm, h1.symm, rfl, rfl, rfl, rfl⟩ h
        | some b =>
          refine ServerInv.updPlayer_exempt b _ (hX1 b h1) (fun p => ⟨rfl, rfl, rfl⟩) ?_
          refine ServerInv.updPlayer_exempt a _ (hX0 a h0) (fun p => ⟨rfl, rfl, rfl⟩) ?_
          exact ServerInv.setRoom_keep r room _ hroom ⟨h0.symm, h1.symm, rfl, rfl, rfl, rfl⟩ h

theorem not_true_of_bnot {b : Bool} (h : (!b) = true) : ¬ b = true := by
  cases b
  · intro e
    cases e
  · cases h

theorem member_state {s : Server} {r o : Nat} {room : Room} (h : ServerOK s)
    (hroom : s.rooms[r]? = some room) (hhas : room.has o) :
    PlayerSat (fun p => (p.state = PlayerState.IN_ROOM ∨ p.state = PlayerState.IN_GAME ∨
      p.state = PlayerState.DISCONNECTED) ∧ 0 ≤ p.room_id) o s := by
  intro p hp
  obtain ⟨q, hq, hqa, hqr⟩ := h.cell_player r room o hroom hhas
  rw [hq] at hp
  obtain rfl : q = p := Option.some.inj hp
  have hrid : 0 ≤ q.room_id := by rw [hqr]; exact Int.natCast_nonneg r
  refine ⟨?_, hrid⟩
  have hlink := (h.link o q (fun hf => hf) hq hqa).2.1
  cases hst : q.state with
  | CONNECTING => exact absurd (hlink (Or.inl hst)) (by omega)
  | LOBBY => exact absurd (hlink (Or.inr hst)) (by omega)
  | IN_ROOM => exact Or.inl rfl
  | IN_GAME => exact Or.inr (Or.inl rfl)
  | DISCONNECTED => exact Or.inr (Or.inr rfl)

theorem join_inv (s : Server) (slot r : Nat) (id : Int) (player : Player) (room : Room)
    (h : ServerOK s) (hplayer : s.players[slot]? = some player)
    (hact : player.is_active = true) (hstate : player.state = PlayerState.LOBBY)
    (hfind : room_find_by_id s.rooms id = some r)
    (hroom : s.rooms[r]? = some room) (hnotfull : ¬ room_is_full room = true) :
    (room_add_player s r (some slot)).1 = true ∧
    ServerOK (player_set_state (room_add_player s r (some slot)).2 (some slot)
      PlayerState.IN_ROOM) ∧
    ServerOK (room_start_game (player_set_state (room_add_player s r (some slot)).2
      (some slot) PlayerState.IN_ROOM) r).2 := by
  obtain ⟨hcount, hactive, hid, hdist⟩ := h.room_ok r room hroom
  have hra : room.is_active = true := by
    obtain ⟨_, _, _, room2, hroom2, ha⟩ := room_find_by_id_eq_some.mp hfind
    rw [hroom] at hroom2
    cases hroom2
    exact ha
  have hneg : player.room_id < 0 := (h.link slot player (fun hf => hf) hplayer hact).2.1
    (Or.inr hstate)
  have hnot : ¬ room.has slot := by
    intro hhas
    obtain ⟨q, hq, _, hqr⟩ := h.cell_player r room slot hroom hhas
    rw [hplayer] at hq
    cases hq
    omega
  obtain ⟨room', hadd, hc', hp', hcells, ha', hid', hn', hdist'⟩ :=
    room_add_player_cases s r slot room hroom hcount hnotfull
  rw [hadd]
  have hlt : r < s.rooms.length := (List.getElem?_eq_some_iff.mp hroom).1
  have h0 : ServerInv (fun i => i = slot ∨ room.has i) s := h.weaken (fun _ hf => hf.elim)
  have hok' : RoomOK r room' := by
    refine ⟨by rw [hc', hp', hcount], ?_, by rw [ha', hid']; exact hid, hdist' hnot⟩
    rw [ha', hc']
    have := hactive.mp hra
    constructor
    · intro _
      omega
    · intro _
      exact hra
  have h1 := h0.enter_step slot r player room room'
    (fun p => { p with room_id := room.id, skips_remaining := SKIPS_PER_PLAYER }) (Or.inl rfl)
    hroom hplayer hact hneg hok' hcells (Or.inl ⟨hra, hn'.symm⟩)
    (fun q => ⟨rfl, rfl, hid hra⟩)
  have h2 := ServerInv.set_state_keeps (some slot) PlayerState.IN_ROOM
    (fun i e => Or.inl (Option.some.inj e).symm) h1
  have hroom2 : (player_set_state ((s.setRoom r room').updPlayer slot
      (fun p => { p with room_id := room.id, skips_remaining := SKIPS_PER_PLAYER }))
      (some slot) PlayerState.IN_ROOM).rooms[r]? = some room' := by
    simp [player_set_state, updPlayer_rooms, setRoom_rooms, hroom]
  have h3 := ServerInv.start_game_keeps r (by
    intro room2 i hr2 hhas
    rw [hroom2] at hr2
    cases hr2
    rcases (hcells i).mp hhas with e | e
    · exact Or.inr e
    · exact Or.inl e) h2
  have hslot : PlayerSat (fun p => (p.state = PlayerState.IN_ROOM ∨
      p.state = PlayerState.IN_GAME ∨ p.state = PlayerState.DISCONNECTED) ∧ 0 ≤ p.room_id) slot
      (player_set_state ((s.setRoom r room').updPlayer slot
        (fun p => { p with room_id := room.id, skips_remaining := SKIPS_PER_PLAYER }))
        (some slot) PlayerState.IN_ROOM) := by
    refine PlayerSat.both ?_ ?_
    · exact PlayerSat.set_state_self _ (by intro p; exact Or.inl rfl)
    · refine PlayerSat.after_set_state _ _ (by intro p hp; exact hp) ?_
      exact PlayerSat.update_self _ (by intro p; rw [hid hra]; exact Int.natCast_nonneg r)
  have hother : ∀ o, room.has o → PlayerSat (fun p => (p.state = PlayerState.IN_ROOM ∨
      p.state = PlayerState.IN_GAME ∨ p.state = PlayerState.DISCONNECTED) ∧ 0 ≤ p.room_id) o
      (player_set_state ((s.setRoom r room').updPlayer slot
        (fun p => { p with room_id := room.id, skips_remaining := SKIPS_PER_PLAYER }))
        (some slot) PlayerState.IN_ROOM) := by
    intro o ho
    have hne : slot ≠ o := by
      intro e
      subst e
      exact hnot ho
    unfold player_set_state
    refine PlayerSat.update_other _ _ hne ?_
    refine PlayerSat.update_other _ _ hne ?_
    exact PlayerSat.after_set_room _ _ (member_state h hroom ho)
  refine ⟨rfl, ?_, ?_⟩
  · refine h2.close ?_
    rintro x (rfl | hx)
    · exact PlayerSat.member_link hslot
    · exact PlayerSat.member_link (hother x hx)
  · refine h3.close ?_
    rintro x (rfl | hx)
    · apply PlayerSat.member_link
      exact PlayerSat.after_start_game r (by
        intro p hp
        exact ⟨Or.inr (Or.inl rfl), hp.2⟩) hslot
    · apply PlayerSat.member_link
      exact PlayerSat.after_start_game r (by
        intro p hp
        exact ⟨Or.inr (Or.inl rfl), hp.2⟩) (hother x hx)

set_option maxHeartbeats 1000000 in
theorem handle_join_room_inv (s : Server) (slot : Nat) (msg : ParsedMessage) (h : ServerOK s)
    (hact : PlayerSat (fun p => p.is_active = true) slot s) :
    ∀ r ∈ handle_join_room s slot msg, ServerOK r.1 := by
  unfold handle_join_room
  simp only []
  repeat' split
  all_goals first
    | exact opt_inv_none
    | (apply opt_inv_some
       with_reducible first
         | exact h
         | exact ServerInv.count_invalid_keeps slot h
         | exact (join_inv _ _ _ _ _ _ h (by assumption) (hact.read (by assumption))
             (not_not.mp (by assumption)) (by assumption) (by assumption)
             (by assumption)).2.1
         | exact (join_inv _ _ _ _ _ _ h (by assumption) (hact.read (by assumption))
             (not_not.mp (by assumption)) (by assumption) (by assumption)
             (by assumption)).2.2
         | exact absurd (join_inv _ _ _ _ _ _ h (by assumption) (hact.read (by assumption))
             (not_not.mp (by assumption)) (by assumption) (by assumption)
             (by assumption)).1 (not_true_of_bnot (by assumption)))

/-- The invariant after a step that leaves the rooms as they are and changes only
the records of the players in `T`, none of whom is in a room before or after. -/
theorem ServerInv.players_step {X : Nat → Prop} {t t' : Server} (h : ServerInv X t)
    (T : Nat → Prop)
    (hP : ∀ i : Nat, ¬ T i → t'.players[i]? = t.players[i]?)
    (hR : t'.rooms = t.rooms)
    (k1 : ∀ (i : Nat) (p : Player), T i → t.players[i]? = some p → p.is_active = true →
      p.room_id < 0)
    (k2 : ∀ (i : Nat) (p' : Player), T i → t'.players[i]? = some p' → p'.is_active = true →
      p'.room_id < 0)
    (l7 : ∀ (i : Nat) (p' : Player), T i → t'.players[i]? = some p' → p'.is_active = true →
      p'.nickname ≠ [] → ∀ (j : Nat) (q' : Player), j ≠ i → t'.players[j]? = some q' →
        q'.is_active = true → q'.nickname ≠ p'.nickname)
    (l8 : ∀ (i : Nat) (p' : Player), T i → ¬ X i → t'.players[i]? = some p' →
      p'.is_active = true → Link p') :
    ServerInv X t' := by
  have hcell : ∀ (k : Nat) (room : Room) (i : Nat), t.rooms[k]? = some room → room.has i →
      ∃ p : Player, t'.players[i]? = some p ∧ p.is_active = true ∧ p.room_id = k := by
    intro k room i hk hhas
    obtain ⟨p, hp, hpa, hpr⟩ := h.cell_player k room i hk hhas
    have hTi : ¬ T i := by
      intro hT
      have := k1 i p hT hp hpa
      omega
    exact ⟨p, by rw [hP i hTi]; exact hp, hpa, hpr⟩
  refine h.local_step T 0 hP ?_ ?_ ?_ ?_ ?_ ?_ ?_ l7 l8
  · intro k _
    rw [hR]
  · intro room' hr
    rw [hR] at hr
    exact h.room_ok 0 room' hr
  · intro room' i hr hhas
    rw [hR] at hr
    exact hcell 0 room' i hr hhas
  · intro i p' hi hp' hact hrid
    have := k2 i p' hi hp' hact
    omega
  · intro i p hi hp hact hrid
    have := k1 i p hi hp hact
    omega
  · intro i p _ hp hact hrid
    obtain ⟨room, hroom, hhas⟩ := h.player_cell i p hp hact (by rw [hrid]; exact Int.natCast_nonneg 0)
    rw [hrid, Int.toNat_ofNat] at hroom
    exact ⟨room, by rw [hR]; exact hroom, hhas⟩
  · intro room' hr ha
    rw [hR] at hr
    exact Or.inl ⟨room', hr, ha, rfl⟩

theorem room_replace_player_spec (room : Room) (d x : Nat) (hhas : room.has d)
    (hdist : ∀ i, room.players0 = some i → room.players1 ≠ some i) (hx : ¬ room.has x) :
    (∀ i, (room_replace_player room d x).has i ↔ (i = x ∨ (room.has i ∧ i ≠ d))) ∧
    (room_replace_player room d x).present = room.present ∧
    (room_replace_player room d x).player_count = room.player_count ∧
    (room_replace_player room d x).is_active = room.is_active ∧
    (room_replace_player room d x).id = room.id ∧
    (room_replace_player room d x).name = room.name ∧
    (∀ i, (room_replace_player room d x).players0 = some i →
      (room_replace_player room d x).players1 ≠ some i) := by
  unfold room_replace_player
  by_cases h0 : room.players0 = some d
  · have h1 : room.players1 ≠ some d := hdist d h0
    rw [if_pos h0]
    refine ⟨?_, ?_, rfl, rfl, rfl, rfl, ?_⟩
    · intro i
      simp only [Room.has]
      constructor
      · rintro (e | e)
        · exact Or.inl (Option.some.inj e).symm
        · refine Or.inr ⟨Or.inr e, ?_⟩
          intro hid
          subst hid
          exact h1 e
      · rintro (e | ⟨e | e, hne⟩)
        · exact Or.inl (by rw [e])
        · rw [h0] at e
          exact absurd (Option.some.inj e).symm hne
        · exact Or.inr e
    · simp [Room.present, h0]
    · intro i hi hi1
      simp only at hi hi1
      cases hi
      exact hx (Or.inr hi1)
  · have h1 : room.players1 = some d := by
      rcases hhas with e | e
      · exact absurd e h0
      · exact e
    rw [if_neg h0, if_pos h1]
    refine ⟨?_, ?_, rfl, rfl, rfl, rfl, ?_⟩
    · intro i
      simp only [Room.has]
      constructor
      · rintro (e | e)
        · refine Or.inr ⟨Or.inl e, ?_⟩
          intro hid
          subst hid
          exact h0 e
        · exact Or.inl (Option.some.inj e).symm
      · rintro (e | ⟨e | e, hne⟩)
        · exact Or.inr (by rw [e])
        · exact Or.inl e
        · rw [h1] at e
          exact absurd (Option.some.inj e).symm hne
    · simp [Room.present, h1]
    · intro i hi hi1
      simp only at hi hi1
      cases hi1
      exact hx (Or.inl hi)

/-- What the lookup of `player_find_disconnected` returns: an active record in state
DISCONNECTED that carries the nickname. -/
theorem found_disconnected {players : List Player} {nickname : List Char} {d : Nat}
    {p : Player} (h : player_find_disconnected players nickname = some d)
    (hp : players[d]? = some p) :
    p.is_active = true ∧ p.state = PlayerState.DISCONNECTED ∧ p.nickname = nickname := by
  obtain ⟨x, hx, htest, _⟩ := find_first_some_spec _ _ _ h
  rw [hp] at hx
  obtain rfl : p = x := Option.some.inj hx
  simpa [and_assoc] using htest

theorem valid_nickname_ne_nil {nick : List Char}
    (h : protocol_validate_nickname nick = ErrorCode.ERR_NONE) : nick ≠ [] := by
  intro e
  subst e
  simp [protocol_validate_nickname] at h

theorem takeover_room_inv (s : Server) (slot d r : Nat) (player disconnected : Player)
    (room : Room) (nickname : List Char) (now : Int) (st : PlayerState)
    (h : ServerOK s) (hplayer : s.players[slot]? = some player)
    (hact : player.is_active = true) (hstate : ¬ player.state ≠ PlayerState.CONNECTING)
    (hvalid : ¬ protocol_validate_nickname nickname ≠ ErrorCode.ERR_NONE)
    (hd : player_find_disconnected s.players nickname = some d)
    (hdp : s.players[d]? = some disconnected)
    (hfind : room_find_by_id ((s.setPlayer d (player_reset disconnected false now)).updPlayer slot
        (fun p => { player_set_nickname p nickname with
          room_id := disconnected.room_id
          skips_remaining := disconnected.skips_remaining })).rooms
      disconnected.room_id = some r)
    (hroom : ((s.setPlayer d (player_reset disconnected false now)).updPlayer slot
        (fun p => { player_set_nickname p nickname with
          room_id := disconnected.room_id
          skips_remaining := disconnected.skips_remaining })).rooms[r]? = some room)
    (hst : st = PlayerState.IN_GAME ∨ ¬ disconnected.state = PlayerState.DISCONNECTED) :
    ServerOK (player_set_state (((s.setPlayer d (player_reset disconnected false now)).updPlayer slot
        (fun p => { player_set_nickname p nickname with
          room_id := disconnected.room_id
          skips_remaining := disconnected.skips_remaining })).setRoom r (room_replace_player room d slot)) (some slot) st) ∧
    (player_set_state (((s.setPlayer d (player_reset disconnected false now)).updPlayer slot
        (fun p => { player_set_nickname p nickname with
          room_id := disconnected.room_id
          skips_remaining := disconnected.skips_remaining })).setRoom r (room_replace_player room d slot))
      (some slot) st).rooms[r]? = some (room_replace_player room d slot) := by
  rw [updPlayer_rooms, setPlayer_rooms] at hfind hroom
  have hstate' : player.state = PlayerState.CONNECTING := not_not.mp hstate
  have hvalid' := not_not.mp hvalid
  obtain ⟨hda, hds, hdn⟩ := found_disconnected hd hdp
  have hst' : st = PlayerState.IN_GAME := by
    rcases hst with e | e
    · exact e
    · exact absurd hds e
  have hlink := h.link slot player (fun hf => hf) hplayer hact
  have hneg : player.room_id < 0 := hlink.2.1 (Or.inl hstate')
  have hrid : disconnected.room_id = (r : Int) := room_id_of_find hfind
  have hne : d ≠ slot := by
    intro e
    subst e
    rw [hplayer] at hdp
    cases hdp
    rw [hstate'] at hds
    cases hds
  have hltd : d < s.players.length := (List.getElem?_eq_some_iff.mp hdp).1
  have hltr : r < s.rooms.length := (List.getElem?_eq_some_iff.mp hroom).1
  obtain ⟨_, _, hid, hdist⟩ := h.room_ok r room hroom
  have hok := h.room_ok r room hroom
  have hhasd : room.has d := by
    obtain ⟨room2, hroom2, hhas⟩ := h.player_cell d disconnected hdp hda
      (by rw [hrid]; exact Int.natCast_nonneg r)
    rw [hrid, Int.toNat_ofNat, hroom] at hroom2
    cases hroom2
    exact hhas
  have hnot : ¬ room.has slot := by
    intro hhas
    obtain ⟨q, hq, _, hqr⟩ := h.cell_player r room slot hroom hhas
    rw [hplayer] at hq
    cases hq
    omega
  obtain ⟨hcells, hpres, hcnt, hactive, hid', hname, hdist'⟩ :=
    room_replace_player_spec room d slot hhasd hdist hnot
  have hrooms : ∀ k : Nat, (player_set_state (((s.setPlayer d (player_reset disconnected false now)).updPlayer slot
        (fun p => { player_set_nickname p nickname with
          room_id := disconnected.room_id
          skips_remaining := disconnected.skips_remaining })).setRoom r (room_replace_player room d slot))
      (some slot) st).rooms[k]? =
      if r = k then some (room_replace_player room d slot) else s.rooms[k]? := by
    intro k
    by_cases hrk : r = k
    · subst hrk
      simp [player_set_state, updPlayer_rooms, setRoom_rooms, setPlayer_rooms, hroom]
    · simp [player_set_state, updPlayer_rooms, setRoom_rooms, setPlayer_rooms, hrk]
  have hother : ∀ i : Nat, ¬ (i = slot ∨ i = d) →
      (player_set_state (((s.setPlayer d (player_reset disconnected false now)).updPlayer slot
        (fun p => { player_set_nickname p nickname with
          room_id := disconnected.room_id
          skips_remaining := disconnected.skips_remaining })).setRoom r (room_replace_player room d slot))
        (some slot) st).players[i]? = s.players[i]? := by
    intro i hi
    push_neg at hi
    simp [player_set_state, updPlayer_players, setRoom_players, setPlayer_players,
      Ne.symm hi.1, Ne.symm hi.2]
  have hnewd : (player_set_state (((s.setPlayer d (player_reset disconnected false now)).updPlayer slot
        (fun p => { player_set_nickname p nickname with
          room_id := disconnected.room_id
          skips_remaining := disconnected.skips_remaining })).setRoom r (room_replace_player room d slot))
      (some slot) st).players[d]? = some (player_reset disconnected false now) := by
    simp [player_set_state, updPlayer_players, setRoom_players, setPlayer_players,
      Ne.symm hne, hdp]
  have hnews : (player_set_state (((s.setPlayer d (player_reset disconnected false now)).updPlayer slot
        (fun p => { player_set_nickname p nickname with
          room_id := disconnected.room_id
          skips_remaining := disconnected.skips_remaining })).setRoom r (room_replace_player room d slot))
      (some slot) st).players[slot]? =
      some { player with nickname := nickname.take MAX_NICKNAME_LENGTH,
                         room_id := disconnected.room_id,
                         skips_remaining := disconnected.skips_remaining, state := st } := by
    simp [player_set_state, updPlayer_players, setRoom_players, setPlayer_players,
      hne, hplayer, player_set_nickname]
  refine ⟨?_, by rw [hrooms, if_pos rfl]⟩
  refine h.local_step (fun i => i = slot ∨ i = d) r hother ?_ ?_ ?_ ?_ ?_ ?_ ?_ ?_ ?_
  · intro k hk
    rw [hrooms, if_neg (fun e => hk e.symm)]
  · intro room' hr
    rw [hrooms, if_pos rfl] at hr
    cases hr
    refine ⟨by rw [hcnt, hpres]; exact hok.1, by rw [hactive, hcnt]; exact hok.2.1,
      by rw [hactive, hid']; exact hid, hdist'⟩
  · intro room' i hr hhas
    rw [hrooms, if_pos rfl] at hr
    cases hr
    rcases (hcells i).mp hhas with e | ⟨e, hid⟩
    · subst e
      exact ⟨_, hnews, hact, hrid⟩
    · obtain ⟨q, hq, hqa, hqr⟩ := h.cell_player r room i hroom e
      have his : ¬ (i = slot ∨ i = d) := by
        rintro (e2 | e2)
        · subst e2
          exact hnot e
        · exact hid e2
      exact ⟨q, by rw [hother i his]; exact hq, hqa, hqr⟩
  · rintro i p' (rfl | rfl) hp' hpa _
    · rw [hnews] at hp'
      cases hp'
      refine ⟨room_replace_player room d i, ?_, (hcells i).mpr (Or.inl rfl)⟩
      have hi : r = disconnected.room_id.toNat := by rw [hrid, Int.toNat_ofNat]
      have hk := hrooms disconnected.room_id.toNat
      rw [if_pos hi] at hk
      exact hk
    · rw [hnewd] at hp'
      cases hp'
      cases hpa
  · rintro i p (rfl | rfl) hp hpa hpr
    · rw [hplayer] at hp
      cases hp
      omega
    · rw [hdp] at hp
      cases hp
      exact hrid
  · intro i p hi hp hpa hpr
    have hi := not_or.mp hi
    obtain ⟨room2, hroom2, hhas⟩ := h.player_cell i p hp hpa
      (by rw [hpr]; exact Int.natCast_nonneg r)
    rw [hpr, Int.toNat_ofNat, hroom] at hroom2
    cases hroom2
    exact ⟨_, by rw [hrooms, if_pos rfl], (hcells i).mpr (Or.inr ⟨hhas, hi.2⟩)⟩
  · intro room' hr ha
    rw [hrooms, if_pos rfl] at hr
    cases hr
    exact Or.inl ⟨room, hroom, by rw [← hactive]; exact ha, hname.symm⟩
  · rintro i p' (rfl | rfl) hp' hpa hpn j q' hji hq' hqa heq
    · rw [hnews] at hp'
      cases hp'
      simp only at heq
      rw [List.take_of_length_le (valid_nickname_length hvalid')] at heq
      by_cases hjd : j = d
      · subst hjd
        rw [hnewd] at hq'
        cases hq'
        cases hqa
      · rw [hother j (by push_neg; exact ⟨hji, hjd⟩)] at hq'
        exact hjd (h.nicks j d q' disconnected hq' hdp hqa hda
          (by rw [heq]; exact valid_nickname_ne_nil hvalid') (by rw [heq, hdn]))
    · rw [hnewd] at hp'
      cases hp'
      cases hpa
  · rintro i p' (rfl | rfl) _ hp' hpa
    · rw [hnews] at hp'
      cases hp'
      refine ⟨fun _ => by simp only; rw [hrid]; exact Int.natCast_nonneg r, ?_, ?_⟩
      · rintro (e | e) <;> simp only [hst'] at e <;> cases e
      · intro e
        simp only [hst'] at e
        cases e
    · rw [hnewd] at hp'
      cases hp'
      cases hpa

theorem takeover_lost_room_inv (s : Server) (slot d : Nat) (disconnected : Player)
    (nickname : List Char) (now : Int)
    (h : ServerOK s)
    (hd : player_find_disconnected s.players nickname = some d)
    (hdp : s.players[d]? = some disconnected)
    (hge : disconnected.room_id ≥ 0)
    (hfind : room_find_by_id ((s.setPlayer d (player_reset disconnected false now)).updPlayer slot
        (fun p => { player_set_nickname p nickname with
          room_id := disconnected.room_id
          skips_remaining := disconnected.skips_remaining })).rooms
      disconnected.room_id = none) :
    ServerOK ((s.setPlayer d (player_reset disconnected false now)).updPlayer slot
        (fun p => { player_set_nickname p nickname with
          room_id := disconnected.room_id
          skips_remaining := disconnected.skips_remaining })) := by
  rw [updPlayer_rooms, setPlayer_rooms] at hfind
  have := no_room_id h hdp hfind disconnected hdp (found_disconnected hd hdp).1
  omega

theorem takeover_lobby_inv (s : Server) (slot d : Nat) (player disconnected : Player)
    (nickname : List Char) (now : Int)
    (h : ServerOK s) (hplayer : s.players[slot]? = some player)
    (hact : player.is_active = true) (hstate : ¬ player.state ≠ PlayerState.CONNECTING)
    (hvalid : ¬ protocol_validate_nickname nickname ≠ ErrorCode.ERR_NONE)
    (hd : player_find_disconnected s.players nickname = some d)
    (hdp : s.players[d]? = some disconnected)
    (hlt : ¬ disconnected.room_id ≥ 0) :
    ServerOK (player_set_state ((s.setPlayer d (player_reset disconnected false now)).updPlayer slot
        (fun p => { player_set_nickname p nickname with
          room_id := disconnected.room_id
          skips_remaining := disconnected.skips_remaining })) (some slot) PlayerState.LOBBY) := by
  have hstate' : player.state = PlayerState.CONNECTING := not_not.mp hstate
  have hvalid' := not_not.mp hvalid
  obtain ⟨hda, hds, hdn⟩ := found_disconnected hd hdp
  have hlink := h.link slot player (fun hf => hf) hplayer hact
  have hneg : player.room_id < 0 := hlink.2.1 (Or.inl hstate')
  have hne : d ≠ slot := by
    intro e
    subst e
    rw [hplayer] at hdp
    cases hdp
    rw [hstate'] at hds
    cases hds
  have hother : ∀ i : Nat, ¬ (i = slot ∨ i = d) →
      (player_set_state ((s.setPlayer d (player_reset disconnected false now)).updPlayer slot
        (fun p => { player_set_nickname p nickname with
          room_id := disconnected.room_id
          skips_remaining := disconnected.skips_remaining })) (some slot) PlayerState.LOBBY).players[i]? = s.players[i]? := by
    intro i hi
    have hi := not_or.mp hi
    simp [player_set_state, updPlayer_players, setPlayer_players, Ne.symm hi.1, Ne.symm hi.2]
  have hnewd : (player_set_state ((s.setPlayer d (player_reset disconnected false now)).updPlayer slot
        (fun p => { player_set_nickname p nickname with
          room_id := disconnected.room_id
          skips_remaining := disconnected.skips_remaining })) (some slot) PlayerState.LOBBY).players[d]? =
      some (player_reset disconnected false now) := by
    simp [player_set_state, updPlayer_players, setPlayer_players, Ne.symm hne, hdp]
  have hnews : (player_set_state ((s.setPlayer d (player_reset disconnected false now)).updPlayer slot
        (fun p => { player_set_nickname p nickname with
          room_id := disconnected.room_id
          skips_remaining := disconnected.skips_remaining })) (some slot) PlayerState.LOBBY).players[slot]? =
      some { player with nickname := nickname.take MAX_NICKNAME_LENGTH,
                         room_id := disconnected.room_id,
                         skips_remaining := disconnected.skips_remaining,
                         state := PlayerState.LOBBY } := by
    simp [player_set_state, updPlayer_players, setPlayer_players, hne, hplayer,
      player_set_nickname]
  refine h.players_step (fun i => i = slot ∨ i = d) hother ?_ ?_ ?_ ?_ ?_
  · simp [player_set_state, updPlayer_rooms, setPlayer_rooms]
  · rintro i p (rfl | rfl) hp _
    · rw [hplayer] at hp
      cases hp
      exact hneg
    · rw [hdp] at hp
      cases hp
      omega
  · rintro i p' (rfl | rfl) hp' hpa
    · rw [hnews] at hp'
      cases hp'
      simp only
      omega
    · rw [hnewd] at hp'
      cases hp'
      cases hpa
  · rintro i p' (rfl | rfl) hp' hpa hpn j q' hji hq' hqa heq
    · rw [hnews] at hp'
      cases hp'
      simp only at heq
      rw [List.take_of_length_le (valid_nickname_length hvalid')] at heq
      by_cases hjd : j = d
      · subst hjd
        rw [hnewd] at hq'
        cases hq'
        cases hqa
      · rw [hother j (not_or.mpr ⟨hji, hjd⟩)] at hq'
        exact hjd (h.nicks j d q' disconnected hq' hdp hqa hda
          (by rw [heq]; exact valid_nickname_ne_nil hvalid') (by rw [heq, hdn]))
    · rw [hnewd] at hp'
      cases hp'
      cases hpa
  · rintro i p' (rfl | rfl) _ hp' hpa
    · rw [hnews] at hp'
      cases hp'
      exact link_of_lobby rfl (by simp only; omega)
    · rw [hnewd] at hp'
      cases hp'
      cases hpa

theorem login_success_inv (s : Server) (slot : Nat) (player : Player)
    (nickname : List Char)
    (h : ServerOK s) (hplayer : s.players[slot]? = some player)
    (hact : player.is_active = true) (hstate : ¬ player.state ≠ PlayerState.CONNECTING)
    (hvalid : ¬ protocol_validate_nickname nickname ≠ ErrorCode.ERR_NONE)
    (hfree : player_find_by_nickname s.players nickname = none) :
    ServerOK (s.updPlayer slot
      (fun p => { player_set_nickname p nickname with state := PlayerState.LOBBY })) := by
  have hstate' : player.state = PlayerState.CONNECTING := not_not.mp hstate
  have hvalid' := not_not.mp hvalid
  have hlink := h.link slot player (fun hf => hf) hplayer hact
  have hneg : player.room_id < 0 := hlink.2.1 (Or.inl hstate')
  have hother : ∀ i : Nat, ¬ i = slot →
      (s.updPlayer slot
        (fun p => { player_set_nickname p nickname with state := PlayerState.LOBBY })).players[i]? =
        s.players[i]? := by
    intro i hi
    simp [updPlayer_players, Ne.symm hi]
  have hnews : (s.updPlayer slot
      (fun p => { player_set_nickname p nickname with state := PlayerState.LOBBY })).players[slot]? =
      some { player with nickname := nickname.take MAX_NICKNAME_LENGTH,
                         state := PlayerState.LOBBY } := by
    simp [updPlayer_players, hplayer, player_set_nickname]
  refine h.players_step (fun i => i = slot) hother ?_ ?_ ?_ ?_ ?_
  · rw [updPlayer_rooms]
  · rintro i p rfl hp _
    rw [hplayer] at hp
    cases hp
    exact hneg
  · rintro i p' rfl hp' _
    rw [hnews] at hp'
    cases hp'
    exact hneg
  · rintro i p' rfl hp' hpa hpn j q' hji hq' hqa heq
    rw [hnews] at hp'
    cases hp'
    simp only at heq
    rw [List.take_of_length_le (valid_nickname_length hvalid')] at heq
    rw [hother j hji] at hq'
    have := (find_first_eq_none _ _).mp hfree q' (List.getElem?_mem hq')
    simp [hqa, heq] at this
    exact valid_nickname_ne_nil hvalid' this
  · rintro i p' rfl _ hp' _
    rw [hnews] at hp'
    cases hp'
    exact link_of_lobby rfl hneg

set_option maxHeartbeats 1000000 in
theorem handle_login_inv (s : Server) (slot : Nat) (msg : ParsedMessage) (now : Int)
    (h : ServerOK s)
    (hact : PlayerSat (fun p => p.is_active = true) slot s) :
    ∀ r ∈ handle_login s slot msg now, ServerOK r.1 := by
  unfold handle_login
  simp only []
  repeat' split
  all_goals first
    | exact opt_inv_none
    | (apply opt_inv_some
       with_reducible first
         | exact h
         | exact ServerInv.count_invalid_keeps slot h
         | exact login_success_inv _ _ _ _ h (by assumption) (hact.read (by assumption))
             (by assumption) (by assumption) (by assumption)
         | exact takeover_lobby_inv _ _ _ _ _ _ _ h (by assumption) (hact.read (by assumption))
             (by assumption) (by assumption) (by assumption) (by assumption) (by assumption)
         | exact takeover_lost_room_inv _ _ _ _ _ _ h (by assumption) (by assumption)
             (by assumption) (by assumption)
         | exact (takeover_room_inv _ _ _ _ _ _ _ _ _ _ h (by assumption)
             (hact.read (by assumption)) (by assumption) (by assumption) (by assumption)
             (by assumption) (by assumption) (by assumption) (Or.inl rfl)).1
         | exact (takeover_room_inv _ _ _ _ _ _ _ _ _ _ h (by assumption)
             (hact.read (by assumption)) (by assumption) (by assumption) (by assumption)
             (by assumption) (by assumption) (by assumption) (Or.inr (by assumption))).1
         | exact ServerInv.setRoom_keep _ _ _
             (takeover_room_inv _ _ _ _ _ _ _ _ _ _ h (by assumption)
               (hact.read (by assumption)) (by assumption) (by assumption) (by assumption)
               (by assumption) (by assumption) (by assumption) (Or.inl rfl)).2
             (by exact ⟨rfl, rfl, rfl, rfl, rfl, rfl⟩)
             (takeover_room_inv _ _ _ _ _ _ _ _ _ _ h (by assumption)
               (hact.read (by assumption)) (by assumption) (by assumption) (by assumption)
               (by assumption) (by assumption) (by assumption) (Or.inl rfl)).1
         | exact ServerInv.setRoom_keep _ _ _
             (takeover_room_inv _ _ _ _ _ _ _ _ _ _ h (by assumption)
               (hact.read (by assumption)) (by assumption) (by assumption) (by assumption)
               (by assumption) (by assumption) (by assumption) (Or.inr (by assumption))).2
             (by exact ⟨rfl, rfl, rfl, rfl, rfl, rfl⟩)
             (takeover_room_inv _ _ _ _ _ _ _ _ _ _ h (by assumption)
               (hact.read (by assumption)) (by assumption) (by assumption) (by assumption)
               (by assumption) (by assumption) (by assumption) (Or.inr (by assumption))).1)

theorem handle_ping_inv (s : Server) (slot : Nat) (msg : ParsedMessage) (h : ServerOK s) :
    ∀ r ∈ handle_ping s slot msg, ServerOK r.1 := by
  unfold handle_ping
  split
  · exact opt_inv_none
  · exact opt_inv_some h

theorem handle_pong_inv (s : Server) (slot : Nat) (msg : ParsedMessage) (now : Int)
    (h : ServerOK s) : ∀ r ∈ handle_pong s slot msg now, ServerOK r.1 := by
  unfold handle_pong
  split
  · exact opt_inv_none
  · exact opt_inv_some (ServerInv.updPlayer_benign slot _ (fun _ => ⟨rfl, rfl, rfl, rfl⟩) h)

theorem handle_list_rooms_inv (s : Server) (slot : Nat) (msg : ParsedMessage) (h : ServerOK s) :
    ∀ r ∈ handle_list_rooms s slot msg, ServerOK r.1 := by
  unfold handle_list_rooms
  repeat' split
  all_goals first
    | exact opt_inv_none
    | exact opt_inv_some h

theorem handle_skip_inv (s : Server) (slot : Nat) (msg : ParsedMessage) (h : ServerOK s) :
    ∀ r ∈ handle_skip s slot msg, ServerOK r.1 := by
  unfold handle_skip
  simp only []
  repeat' split
  all_goals first
    | exact opt_inv_none
    | (apply opt_inv_some
       with_reducible first
         | exact h
         | exact ServerInv.count_invalid_keeps slot h
         | (repeat (first
             | exact h
             | refine ServerInv.updPlayer_benign _ _ (by intro p; exact ⟨rfl, rfl, rfl, rfl⟩) ?_
             | refine ServerInv.setRoom_keep _ _ _ (by assumption)
                 (by exact ⟨rfl, rfl, rfl, rfl, rfl, rfl⟩) ?_)))

theorem opt_inv_pair {α : Type} {P : Server → Prop} {x : Server × α}
    (h : P x.1) : ∀ r ∈ (some x : Option (Server × α)), P r.1 := by
  intro r hr
  cases hr
  exact h

theorem dispatch_message_inv (s : Server) (slot : Nat) (parsed : ParsedMessage) (now : Int)
    (h : ServerOK s) (hact : PlayerSat (fun p => p.is_active = true) slot s) :
    ∀ r ∈ dispatch_message s slot parsed now, ServerOK r.1 := by
  unfold dispatch_message
  split
  · exact handle_login_inv s slot parsed now h hact
  · exact handle_list_rooms_inv s slot parsed h
  · exact handle_create_room_inv s slot parsed h hact
  · exact handle_join_room_inv s slot parsed h hact
  · exact handle_leave_room_inv s slot parsed h
  · exact handle_take_inv s slot parsed h
  · exact handle_skip_inv s slot parsed h
  · exact handle_ping_inv s slot parsed h
  · exact handle_pong_inv s slot parsed now h
  · exact opt_inv_pair (server_handle_disconnect_inv s slot true now h)
  · exact opt_inv_some (ServerInv.count_invalid_keeps slot h)

theorem server_handle_message_inv (s : Server) (slot : Nat) (message : List Char) (now : Int)
    (h : ServerOK s) (hact : PlayerSat (fun p => p.is_active = true) slot s) :
    ∀ r ∈ server_handle_message s slot message now, ServerOK r.1 := by
  unfold server_handle_message
  simp only []
  split
  · exact opt_inv_none
  · split
    · split
      · exact opt_inv_some
          (server_handle_disconnect_inv _ slot false now (ServerInv.count_invalid_keeps slot h))
      · exact opt_inv_some (ServerInv.count_invalid_keeps slot h)
    · exact dispatch_message_inv s slot _ now h hact

theorem check_rate_limit_keeps (player : Player) (now : Int) :
    (check_rate_limit player now).2.is_active = player.is_active ∧
    (check_rate_limit player now).2.room_id = player.room_id ∧
    (check_rate_limit player now).2.nickname = player.nickname ∧
    (check_rate_limit player now).2.state = player.state := by
  unfold check_rate_limit
  simp only []
  split_ifs <;> simp

theorem PlayerSat.set_player_self {Q : Player → Prop} {x : Nat} {t : Server} (p : Player)
    (hp : Q p) : PlayerSat Q x (t.setPlayer x p) := by
  intro q hq
  rw [setPlayer_players, if_pos rfl] at hq
  cases ht : t.players[x]? with
  | none => rw [ht] at hq; cases hq
  | some old =>
    rw [ht] at hq
    cases hq
    exact hp

theorem process_frame_inv (s : Server) (slot : Nat) (frame : List Char) (now : Int)
    (h : ServerOK s) (hact : PlayerSat (fun p => p.is_active = true) slot s) :
    ∀ r ∈ process_frame s slot frame now,
      ServerOK r.1 ∧ (r.2.2 = false → PlayerSat (fun p => p.is_active = true) slot r.1) := by
  unfold process_frame
  simp only []
  split
  · intro r hr
    cases hr
  · rename_i player hplayer
    have h1 : ServerOK (s.setPlayer slot (check_rate_limit player now).2) :=
      ServerInv.setPlayer_benign slot player _ hplayer (check_rate_limit_keeps player now) h
    have hact1 : PlayerSat (fun p => p.is_active = true) slot
        (s.setPlayer slot (check_rate_limit player now).2) :=
      PlayerSat.set_player_self _ (by
        rw [(check_rate_limit_keeps player now).1]
        exact hact.read hplayer)
    split
    · intro r hr
      cases hr
      exact ⟨ServerInv.count_invalid_keeps slot h1, fun _ =>
        PlayerSat.after_update slot _ (fun p hp => hp) hact1⟩
    · split
      · intro r hr
        cases hr
      · rename_i result hresult
        intro r hr
        cases hr
        refine ⟨server_handle_message_inv _ slot frame now h1 hact1 result hresult, ?_⟩
        intro e
        cases e

theorem process_lines_inv (now : Int) (slot : Nat) :
    ∀ (lines : List (List Char)) (s : Server), ServerOK s →
      PlayerSat (fun p => p.is_active = true) slot s →
      ∀ r ∈ process_lines s slot now lines, ServerOK r.1 := by
  intro lines
  induction lines with
  | nil =>
    intro s h _
    unfold process_lines
    exact opt_inv_some h
  | cons line rest ih =>
    intro s h hact
    unfold process_lines
    simp only []
    split
    · cases hframe : process_frame s slot (strip_cr line) now with
      | none => exact opt_inv_none
      | some res =>
        obtain ⟨server1, out, dispatched⟩ := res
        obtain ⟨h1, hkeep⟩ := process_frame_inv s slot (strip_cr line) now h hact _ hframe
        simp only
        cases hp1 : server1.players[slot]? with
        | none => exact opt_inv_none
        | some player1 =>
          simp only
          split
          · exact opt_inv_some h1
          · rename_i hcont
            have hact1 : PlayerSat (fun p => p.is_active = true) slot server1 := by
              cases hd : dispatched with
              | false => exact hkeep hd
              | true =>
                intro q hq
                rw [hp1] at hq
                obtain rfl : player1 = q := Option.some.inj hq
                by_contra hq
                exact hcont ⟨hd, Or.inr (by simpa using hq)⟩
            cases hrest : process_lines server1 slot now rest with
            | none => exact opt_inv_none
            | some res2 =>
              obtain ⟨server2, out2, finished⟩ := res2
              exact opt_inv_some (ih server1 h1 hact1 _ hrest)
    · exact ih s h hact

theorem read_from_client_inv (s : Server) (slot : Nat) (buffer : List Char) (now : Int)
    (h : ServerOK s) (hact : PlayerSat (fun p => p.is_active = true) slot s) :
    ∀ r ∈ read_from_client s slot buffer now, ServerOK r.1 := by
  have h0 : ServerOK (s.updPlayer slot (fun p => player_update_activity p now)) :=
    ServerInv.updPlayer_benign slot _ (fun _ => ⟨rfl, rfl, rfl, rfl⟩) h
  have hact0 : PlayerSat (fun p => p.is_active = true) slot
      (s.updPlayer slot (fun p => player_update_activity p now)) :=
    PlayerSat.after_update slot _ (fun p hp => hp) hact
  unfold read_from_client
  simp only []
  split
  · exact opt_inv_none
  · rename_i player hplayer
    split
    · split
      · exact opt_inv_some
          (server_handle_disconnect_inv _ slot false now (ServerInv.count_invalid_keeps slot h0))
      · exact opt_inv_some (ServerInv.count_invalid_keeps slot h0)
    · split
      · exact opt_inv_pair (server_handle_disconnect_inv _ slot false now h0)
      · have h1 : ∀ f : Player → Player,
            (∀ p : Player, (f p).is_active = p.is_active ∧ (f p).room_id = p.room_id ∧
              (f p).nickname = p.nickname ∧ (f p).state = p.state) →
            ServerOK ((s.updPlayer slot (fun p => player_update_activity p now)).updPlayer
              slot f) :=
          fun f hf => ServerInv.updPlayer_benign slot f hf h0
        have hact1 : ∀ f : Player → Player,
            (∀ p : Player, (f p).is_active = p.is_active ∧ (f p).room_id = p.room_id ∧
              (f p).nickname = p.nickname ∧ (f p).state = p.state) →
            PlayerSat (fun p => p.is_active = true) slot
              ((s.updPlayer slot (fun p => player_update_activity p now)).updPlayer slot f) :=
          fun f hf => PlayerSat.after_update slot f
            (fun p hp => by rw [(hf p).1]; exact hp) hact0
        split
        · exact opt_inv_some (server_handle_disconnect_inv _ slot false now
            (h1 _ (by intro p; exact ⟨rfl, rfl, rfl, rfl⟩)))
        · split
          · exact opt_inv_none
          · rename_i server2 out hlines
            exact opt_inv_some (process_lines_inv now slot _ _
              (h1 _ (by intro p; exact ⟨rfl, rfl, rfl, rfl⟩)) (hact1 _ (by intro p; exact ⟨rfl, rfl, rfl, rfl⟩))
              _ hlines)
          · rename_i server2 out hlines
            have h2 := process_lines_inv now slot _ _
              (h1 _ (by intro p; exact ⟨rfl, rfl, rfl, rfl⟩)) (hact1 _ (by intro p; exact ⟨rfl, rfl, rfl, rfl⟩))
              _ hlines
            refine opt_inv_some (ServerInv.updPlayer_benign slot _ ?_ h2)
            intro p
            split_ifs <;> exact ⟨rfl, rfl, rfl, rfl⟩

set_option maxHeartbeats 1000000 in
theorem check_timeouts_slot_inv (s : Server) (slot : Nat) (now : Int) (h : ServerOK s) :
    ServerOK (check_timeouts_slot s slot now).1 := by
  have hping : ServerOK (s.updPlayer slot
      (fun p => { p with last_ping := now, waiting_pong := true })) :=
    ServerInv.updPlayer_benign slot _ (fun _ => ⟨rfl, rfl, rfl, rfl⟩) h
  unfold check_timeouts_slot
  simp only []
  repeat' split
  all_goals
    with_reducible first
      | exact h
      | exact hping
      | exact server_handle_timeout_inv _ _ _ h
      | exact server_handle_disconnect_inv _ _ _ _ h
      | exact server_handle_disconnect_inv _ _ _ _ hping

theorem check_timeouts_loop_inv (now : Int) :
    ∀ (slots : List Nat) (s : Server), ServerOK s →
      ServerOK (check_timeouts_loop now slots s).1 := by
  intro slots
  induction slots with
  | nil =>
    intro s h
    exact h
  | cons slot rest ih =>
    intro s h
    unfold check_timeouts_loop
    exact ih _ (check_timeouts_slot_inv s slot now h)

theorem server_check_timeouts_inv (s : Server) (now : Int) (h : ServerOK s) :
    ServerOK (server_check_timeouts s now).1 :=
  check_timeouts_loop_inv now _ s h

theorem accept_new_client_inv (s : Server) (client_fd : Int) (now : Int) (h : ServerOK s) :
    ServerOK (accept_new_client s client_fd now) := by
  unfold accept_new_client
  cases hfree : player_find_free_slot s.players with
  | none => exact h
  | some slot =>
    simp only
    obtain ⟨old, hold, htest, _⟩ := find_first_some_spec _ _ _ hfree
    have hinactive : old.is_active = false := by simpa using htest
    have hlt : slot < s.players.length := (List.getElem?_eq_some_iff.mp hold).1
    have hother : ∀ i : Nat, ¬ i = slot →
        (s.setPlayer slot (player_create client_fd now)).players[i]? = s.players[i]? := by
      intro i hi
      rw [setPlayer_players, if_neg (fun e => hi e.symm)]
    have hnew : (s.setPlayer slot (player_create client_fd now)).players[slot]? =
        some (player_create client_fd now) := by
      rw [setPlayer_players, if_pos rfl, hold]
      rfl
    refine h.players_step (fun i => i = slot) hother rfl ?_ ?_ ?_ ?_
    · rintro i p rfl hp hpa
      rw [hold] at hp
      cases hp
      rw [hinactive] at hpa
      cases hpa
    · rintro i p' rfl hp' _
      rw [hnew] at hp'
      cases hp'
      show (-1 : Int) < 0
      decide
    · rintro i p' rfl hp' _ hpn
      rw [hnew] at hp'
      cases hp'
      exact absurd rfl hpn
    · rintro i p' rfl _ hp' _
      rw [hnew] at hp'
      cases hp'
      refine ⟨?_, fun _ => (by show (-1 : Int) < 0; decide), fun _ => rfl⟩
      rintro (e | e) <;> cases e

theorem server_step_inv (s : Server) (event : ServerEvent) (h : ServerOK s) :
    ∀ r ∈ server_step s event, ServerOK r.1 := by
  cases event with
  | connection client_fd now =>
    simp only [server_step]
    split
    · exact opt_inv_some h
    · exact opt_inv_some (accept_new_client_inv s client_fd now h)
  | received slot buffer now =>
    simp only [server_step]
    split
    · exact opt_inv_some h
    · rename_i player hplayer
      split
      · rename_i hcond
        apply read_from_client_inv s slot buffer now h
        intro p hp
        rw [hplayer] at hp
        cases hp
        exact hcond.1
      · exact opt_inv_some h
  | closed slot now =>
    simp only [server_step]
    split
    · exact opt_inv_some h
    · split
      · exact opt_inv_pair (server_handle_disconnect_inv s slot false now h)
      · exact opt_inv_some h
  | tick now =>
    simp only [server_step]
    exact opt_inv_pair (server_check_timeouts_inv s now h)

theorem run_events_inv :
    ∀ (events : List ServerEvent) (s : Server), ServerOK s →
      ∀ r ∈ run_events s events, ServerOK r.1 := by
  intro events
  induction events with
  | nil =>
    intro s h
    unfold run_events
    exact opt_inv_some h
  | cons event rest ih =>
    intro s h
    unfold run_events
    cases hstep : server_step s event with
    | none => exact opt_inv_none
    | some res =>
      obtain ⟨server1, out⟩ := res
      have h1 := server_step_inv s event h _ hstep
      simp only
      cases hrest : run_events server1 rest with
      | none => exact opt_inv_none
      | some res2 =>
        obtain ⟨server2, out2⟩ := res2
        exact opt_inv_some (ih server1 h1 _ hrest)

theorem server_initial_inv (max_clients max_rooms : Nat) :
    ServerOK (server_initial max_clients max_rooms) := by
  have hplayers : ∀ (i : Nat) (p : Player),
      (server_initial max_clients max_rooms).players[i]? = some p → p.is_active = false := by
    intro i p hp
    have hmem := List.getElem?_mem hp
    simp only [server_initial, player_init_all] at hmem
    rw [List.eq_of_mem_replicate hmem]
  have hrooms : ∀ (r : Nat) (room : Room),
      (server_initial max_clients max_rooms).rooms[r]? = some room →
        room.players0 = none ∧ room.players1 = none ∧ room.player_count = 0 ∧
          room.is_active = false := by
    intro r room hr
    have hmem := List.getElem?_mem hr
    simp only [server_initial, room_init_all] at hmem
    rw [List.eq_of_mem_replicate hmem]
    exact ⟨rfl, rfl, rfl, rfl⟩
  constructor
  · intro r room hr
    obtain ⟨h0, h1, hc, ha⟩ := hrooms r room hr
    refine ⟨by simp [Room.present, h0, h1, hc], by simp [ha, hc], by simp [ha], ?_⟩
    intro i hi
    rw [h0] at hi
    cases hi
  · intro r room i hr hhas
    obtain ⟨h0, h1, _, _⟩ := hrooms r room hr
    rcases hhas with e | e
    · rw [h0] at e
      cases e
    · rw [h1] at e
      cases e
  · intro i p hp hpa
    rw [hplayers i p hp] at hpa
    cases hpa
  · intro r k room other hr _ ha
    rw [(hrooms r room hr).2.2.2] at ha
    cases ha
  · intro i j p q hp _ hpa
    rw [hplayers i p hp] at hpa
    cases hpa
  · intro i p _ hp hpa
    rw [hplayers i p hp] at hpa
    cases hpa

/-- Every state the server can reach is consistent. -/
theorem reachable_inv {max_clients max_rooms : Nat} {s : Server}
    (h : Reachable max_clients max_rooms s) : ServerOK s := by
  obtain ⟨events, out, hrun⟩ := h
  exact run_events_inv events _ (server_initial_inv max_clients max_rooms) _ hrun

/-! ## Rooms and their players -/

/-- The started game of the fixture is a reachable state. -/
theorem scenario_started_reachable : Reachable 3 2 scenario_started :=
  ⟨scenario_setup_events, _, rfl⟩

/-- Claim C23: in every reachable state, for every room slot, `player_count` is the
number of player references that are set, it is at most 2, and the room is active
exactly when `player_count > 0`. -/
theorem room_count_invariant {max_clients max_rooms : Nat} {s : Server}
    (h : Reachable max_clients max_rooms s) :
    ∀ (r : Nat) (room : Room), s.rooms[r]? = some room →
      room.player_count = room.present ∧ room.player_count ≤ 2 ∧
      (room.is_active = true ↔ room.player_count > 0) := by
  intro r room hr
  obtain ⟨hcount, hactive, _, _⟩ := (reachable_inv h).room_ok r room hr
  refine ⟨hcount, ?_, hactive⟩
  rw [hcount, room_present_cases]
  split_ifs <;> omega

/-- Witness of C23 on the started game: room 0 holds two players and is active, room 1
holds none and is inactive. -/
theorem room_count_invariant_witness :
    Reachable 3 2 scenario_started ∧
    scenario_started.rooms.map (fun room => (room.player_count, room.present, room.is_active)) =
      [(2, 2, true), (0, 0, false)] ∧
    ∀ (r : Nat) (room : Room), scenario_started.rooms[r]? = some room →
      room.player_count = room.present ∧ room.player_count ≤ 2 ∧
      (room.is_active = true ↔ room.player_count > 0) :=
  ⟨scenario_started_reachable, rfl, room_count_invariant scenario_started_reachable⟩

/-- Claim C21: in every reachable state no two active rooms have the same name. -/
theorem active_room_names_unique {max_clients max_rooms : Nat} {s : Server}
    (h : Reachable max_clients max_rooms s) :
    ∀ (r k : Nat) (room other : Room), s.rooms[r]? = some room → s.rooms[k]? = some other →
      room.is_active = true → other.is_active = true → room.name = other.name → r = k :=
  (reachable_inv h).names

/-- Witness of C21 on the started game. -/
theorem active_room_names_unique_witness :
    Reachable 3 2 scenario_started ∧
    ∀ (r k : Nat) (room other : Room), scenario_started.rooms[r]? = some room →
      scenario_started.rooms[k]? = some other →
      room.is_active = true → other.is_active = true → room.name = other.name → r = k :=
  ⟨scenario_started_reachable, active_room_names_unique scenario_started_reachable⟩

/-- Claim C25: in every reachable state, an active record in IN_ROOM or IN_GAME has a
room id that is the index of an active room whose references contain the record, and
every reference of an active room points to an active record whose room id is the id
of the room (which is its index). -/
theorem room_membership_invariant {max_clients max_rooms : Nat} {s : Server}
    (h : Reachable max_clients max_rooms s) :
    (∀ (i : Nat) (p : Player), s.players[i]? = some p → p.is_active = true →
      p.state = PlayerState.IN_ROOM ∨ p.state = PlayerState.IN_GAME →
      ∃ (r : Nat) (room : Room), p.room_id = (r : Int) ∧ s.rooms[r]? = some room ∧
        room.is_active = true ∧ (room.players0 = some i ∨ room.players1 = some i)) ∧
    (∀ (r : Nat) (room : Room) (i : Nat), s.rooms[r]? = some room → room.is_active = true →
      room.players0 = some i ∨ room.players1 = some i →
      ∃ p : Player, s.players[i]? = some p ∧ p.is_active = true ∧ p.room_id = room.id ∧
        room.id = (r : Int)) := by
  have hinv := reachable_inv h
  constructor
  · intro i p hp hact hstate
    have hrid : 0 ≤ p.room_id := (hinv.link i p (fun hf => hf) hp hact).1 hstate
    obtain ⟨room, hroom, hhas⟩ := hinv.player_cell i p hp hact hrid
    obtain ⟨hcount, hactive, _, _⟩ := hinv.room_ok _ room hroom
    refine ⟨p.room_id.toNat, room, (Int.toNat_of_nonneg hrid).symm, hroom, ?_, hhas⟩
    apply hactive.mpr
    rw [hcount, room_present_cases]
    rcases hhas with e | e <;> rw [e] <;> simp <;> split_ifs <;> omega
  · intro r room i hr hactive hhas
    obtain ⟨p, hp, hpa, hpr⟩ := hinv.cell_player r room i hr hhas
    have hid := (hinv.room_ok r room hr).2.2.1 hactive
    exact ⟨p, hp, hpa, by rw [hpr, hid], hid⟩

/-- Witness of C25 on the started game: both players are IN_GAME with room id 0, and
room 0 refers to both. -/
theorem room_membership_invariant_witness :
    Reachable 3 2 scenario_started ∧
    (scenario_started.players.map (fun p => (p.is_active, p.state, p.room_id)) =
        [(true, PlayerState.IN_GAME, 0), (true, PlayerState.IN_GAME, 0),
          (false, PlayerState.CONNECTING, -1)] ∧
      scenario_started.rooms.map (fun room => (room.is_active, room.id, room.players0,
          room.players1)) =
        [(true, 0, some 0, some 1), (false, -1, none, none)]) ∧
    (∀ (r : Nat) (room : Room) (i : Nat), scenario_started.rooms[r]? = some room →
      room.is_active = true → room.players0 = some i ∨ room.players1 = some i →
      ∃ p : Player, scenario_started.players[i]? = some p ∧ p.is_active = true ∧
        p.room_id = room.id ∧ room.id = (r : Int)) :=
  ⟨scenario_started_reachable, ⟨rfl, rfl⟩,
    (room_membership_invariant scenario_started_reachable).2⟩

/-! ## Nickname sessions -/

/-- In a consistent state the search for a dormant session finds the one active
DISCONNECTED record that carries the nickname. -/
theorem find_disconnected_unique {s : Server} {d : Nat} {dormant : Player}
    {nickname : List Char} (h : ServerOK s) (hd : s.players[d]? = some dormant)
    (hda : dormant.is_active = true) (hds : dormant.state = PlayerState.DISCONNECTED)
    (hdn : dormant.nickname = nickname) (hne : nickname ≠ []) :
    player_find_disconnected s.players nickname = some d := by
  unfold player_find_disconnected
  refine find_first_eq_some _ s.players d dormant hd (by simp [hda, hds, hdn]) ?_
  intro i y hi hy
  by_contra htest
  have htest' : y.is_active = true ∧ y.state = PlayerState.DISCONNECTED ∧
      y.nickname = nickname := by
    simpa [and_assoc] using htest
  have := h.nicks i d y dormant hy hd htest'.1 hda (by rw [htest'.2.2]; exact hne)
    (by rw [htest'.2.2, hdn])
  omega

/-- In a consistent state a nickname carried by a record that is active and not
DISCONNECTED has no dormant session and is found by `player_find_by_nickname`. -/
theorem nickname_taken_lookups {s : Server} {j : Nat} {other : Player}
    {nickname : List Char} (h : ServerOK s) (hj : s.players[j]? = some other)
    (hoa : other.is_active = true) (hos : other.state ≠ PlayerState.DISCONNECTED)
    (hon : other.nickname = nickname) (hne : nickname ≠ []) :
    player_find_disconnected s.players nickname = none ∧
    ∃ k, player_find_by_nickname s.players nickname = some k := by
  constructor
  · unfold player_find_disconnected
    rw [find_first_eq_none]
    intro y hy
    by_contra htest
    have htest' : y.is_active = true ∧ y.state = PlayerState.DISCONNECTED ∧
        y.nickname = nickname := by
      simpa [and_assoc] using htest
    obtain ⟨i, hi⟩ := List.mem_iff_getElem?.mp hy
    have hij := h.nicks i j y other hi hj htest'.1 hoa (by rw [htest'.2.2]; exact hne)
      (by rw [htest'.2.2, hon])
    subst hij
    rw [hj] at hi
    cases hi
    exact hos htest'.2.1
  · cases hfind : player_find_by_nickname s.players nickname with
    | some k => exact ⟨k, rfl⟩
    | none =>
      unfold player_find_by_nickname at hfind
      have := (find_first_eq_none _ _).mp hfind other (List.getElem?_mem hj)
      have hlen : 0 < nickname.length := List.length_pos.mpr hne
      simp [hoa, hon, hlen] at this

/-- LOGIN with a nickname carried by a connected record: LOGIN_ERR;6 and no change. -/
theorem login_taken (s : Server) (slot j : Nat) (player other : Player)
    (nickname : List Char) (now : Int) (h : ServerOK s)
    (hplayer : s.players[slot]? = some player) (hsock : 0 ≤ player.socket_fd)
    (hstate : player.state = PlayerState.CONNECTING)
    (hvalid : protocol_validate_nickname nickname = ErrorCode.ERR_NONE)
    (hj : s.players[j]? = some other) (hoa : other.is_active = true)
    (hos : other.state ≠ PlayerState.DISCONNECTED) (hon : other.nickname = nickname) :
    handle_login s slot (login_message nickname) now =
      some (s, [(slot, "LOGIN_ERR;6;Nickname already taken\n".toList)]) := by
  obtain ⟨hfd, k, hfn⟩ := nickname_taken_lookups h hj hoa hos hon (valid_nickname_ne_nil hvalid)
  have htext : protocol_create_login_err BUFFER_SIZE ErrorCode.ERR_NICKNAME_TAKEN none =
      "LOGIN_ERR;6;Nickname already taken\n".toList := rfl
  simp [handle_login, hplayer, hstate, login_message, ParsedMessage.param, hvalid, hfd, hfn,
    send_to_connected s slot player _ hplayer hsock, htext]

/-- A member of a room has player index 0 or 1 there. -/
theorem room_index_of_member {room : Room} {x : Nat} (h : room.has x) :
    room_get_player_index room (some x) = 0 ∨ room_get_player_index room (some x) = 1 := by
  unfold room_get_player_index
  simp only
  rcases h with e | e
  · left
    rw [if_pos e]
  · split_ifs
    · left
      rfl
    · right
      rfl

/-- LOGIN with the nickname of a dormant session: the sender takes the nickname, room
and skips of the dormant record, which is freed. -/
theorem login_takeover (s : Server) (slot d : Nat) (player dormant : Player)
    (nickname : List Char) (now : Int) (h : ServerOK s)
    (hplayer : s.players[slot]? = some player) (hact : player.is_active = true)
    (hsock : 0 ≤ player.socket_fd) (hstate : player.state = PlayerState.CONNECTING)
    (hvalid : protocol_validate_nickname nickname = ErrorCode.ERR_NONE)
    (hd : s.players[d]? = some dormant) (hda : dormant.is_active = true)
    (hds : dormant.state = PlayerState.DISCONNECTED) (hdn : dormant.nickname = nickname) :
    ∃ (s' : Server) (out : List (Nat × List Char)),
      handle_login s slot (login_message nickname) now =
        some (s', (slot, "LOGIN_OK\n".toList) :: out) ∧
      s'.players[d]? = some (player_reset dormant false now) ∧
      s'.players[slot]? = some
        { player with
          nickname := nickname
          room_id := dormant.room_id
          skips_remaining := dormant.skips_remaining
          state := if 0 ≤ dormant.room_id then PlayerState.IN_GAME else PlayerState.LOBBY } := by
  have hfd := find_disconnected_unique h hd hda hds hdn (valid_nickname_ne_nil hvalid)
  have htake : List.take MAX_NICKNAME_LENGTH nickname = nickname :=
    List.take_of_length_le (valid_nickname_length hvalid)
  have hne : d ≠ slot := by
    intro e
    subst e
    rw [hplayer] at hd
    cases hd
    rw [hstate] at hds
    cases hds
  have hok : protocol_create_login_ok BUFFER_SIZE = "LOGIN_OK\n".toList := rfl
  by_cases hge : dormant.room_id ≥ 0
  · obtain ⟨room, hroom, hhas⟩ := h.player_cell d dormant hd hda hge
    obtain ⟨hcount, hactive, _, hdist⟩ := h.room_ok _ room hroom
    have hra : room.is_active = true := by
      apply hactive.mpr
      rw [hcount, room_present_cases]
      rcases hhas with e | e <;> rw [e] <;> simp <;> split_ifs <;> omega
    have hfind : room_find_by_id s.rooms dormant.room_id = some dormant.room_id.toNat := by
      apply room_find_by_id_eq_some.mpr
      refine ⟨hge, ?_, rfl, room, hroom, hra⟩
      have := (List.getElem?_eq_some_iff.mp hroom).1
      omega
    have hslotnot : ¬ room.has slot := by
      intro hs
      obtain ⟨q, hq, _, hqr⟩ := h.cell_player _ room slot hroom hs
      rw [hplayer] at hq
      obtain rfl : player = q := Option.some.inj hq
      have := (h.link slot player (fun hf => hf) hplayer hact).2.1 (Or.inl hstate)
      omega
    obtain ⟨hcells, _⟩ := room_replace_player_spec room d slot hhas hdist hslotnot
    have hhas1 : (room_replace_player room d slot).has slot := (hcells slot).mpr (Or.inl rfl)
    have hlt : dormant.room_id.toNat < s.rooms.length := (List.getElem?_eq_some_iff.mp hroom).1
    have hge' : 0 ≤ dormant.room_id := hge
    have hreadd : ∀ t : Server,
        t.players = ((s.setPlayer d (player_reset dormant false now)).updPlayer slot
            (fun p => { player_set_nickname p nickname with
              room_id := dormant.room_id
              skips_remaining := dormant.skips_remaining })).players →
        (player_set_state t (some slot) PlayerState.IN_GAME).players[d]? =
          some (player_reset dormant false now) := by
      intro t ht
      simp [player_set_state, updPlayer_players, ht, setPlayer_players, Ne.symm hne, hd]
    have hreads : ∀ t : Server,
        t.players = ((s.setPlayer d (player_reset dormant false now)).updPlayer slot
            (fun p => { player_set_nickname p nickname with
              room_id := dormant.room_id
              skips_remaining := dormant.skips_remaining })).players →
        (player_set_state t (some slot) PlayerState.IN_GAME).players[slot]? =
          some { player with
            nickname := nickname
            room_id := dormant.room_id
            skips_remaining := dormant.skips_remaining
            state := PlayerState.IN_GAME } := by
      intro t ht
      simp [player_set_state, updPlayer_players, ht, setPlayer_players, hne, hplayer,
        player_set_nickname, htake]
    have hsend : (server_send_to_player
        ((s.setPlayer d (player_reset dormant false now)).updPlayer slot
            (fun p => { player_set_nickname p nickname with
              room_id := dormant.room_id
              skips_remaining := dormant.skips_remaining }))
        (some slot) "LOGIN_OK\n".toList).2 = [(slot, "LOGIN_OK\n".toList)] := by
      simp [server_send_to_player, has_socket, updPlayer_players, setPlayer_players, hne,
        hplayer, player_set_nickname, hsock]
    have hidx := room_index_of_member hhas1
    unfold handle_login
    simp only [hplayer, hstate, login_message, ParsedMessage.param, hvalid, hfd, hd, hds,
      updPlayer_rooms, setPlayer_rooms, hfind, hroom, hge, ne_eq, not_true_eq_false, if_false,
      if_true, List.getD_cons_zero, hok, lt_self_iff_false, hsend]
    split
    · split
      · refine ⟨_, _, rfl, ?_, ?_⟩
        · rw [setRoom_players]
          exact hreadd _ rfl
        · rw [setRoom_players]
          exact hreads _ rfl
      · rename_i hno
        exfalso
        have hskip : ∀ g : Game, ∃ v, g.player_skips
            (1 - room_get_player_index (room_replace_player room d slot) (some slot)) =
              some v := by
          intro g
          rcases hidx with e | e <;> rw [e] <;> simp [Game.player_skips]
        obtain ⟨v, hv⟩ := hskip (game_resume (room_replace_player room d slot).game)
        exact hno _ _ (by rw [setRoom_players]; exact hreads _ rfl) hv
    · exact ⟨_, _, rfl, hreadd _ rfl, hreads _ rfl⟩
  · have hres : handle_login s slot (login_message nickname) now =
        some (player_set_state
          ((s.setPlayer d (player_reset dormant false now)).updPlayer slot
            (fun p => { player_set_nickname p nickname with
              room_id := dormant.room_id
              skips_remaining := dormant.skips_remaining }))
          (some slot) PlayerState.LOBBY, [(slot, "LOGIN_OK\n".toList)]) := by
      simp [handle_login, hplayer, hstate, login_message, ParsedMessage.param, hvalid, hfd, hd,
        hge, hok, server_send_to_player, has_socket, updPlayer_players, setPlayer_players, hne,
        player_set_nickname, hsock]
    refine ⟨_, [], hres, ?_, ?_⟩
    · simp [player_set_state, updPlayer_players, setPlayer_players, Ne.symm hne, hd]
    · have hlt : ¬ 0 ≤ dormant.room_id := hge
      simp [player_set_state, updPlayer_players, setPlayer_players, hne, hplayer,
        player_set_nickname, htake, hlt]

/-- The fixture with a dropped player and a fresh connection is a reachable state. -/
theorem scenario_reconnecting_reachable : Reachable 3 2 scenario_reconnecting :=
  ⟨scenario_setup_events ++ [ServerEvent.closed 0 101, ServerEvent.connection 6 102], _, rfl⟩

/-- Claim C22: in every reachable state no two active records carry the same non-empty
nickname; a LOGIN of a connecting player with a nickname (one that passes validation)
of a DISCONNECTED record is answered LOGIN_OK, frees the dormant record and gives its
nickname, room and skips to the sender; a LOGIN with the nickname of another active
record is answered LOGIN_ERR;6 and changes nothing, the sender being in CONNECTING
without a nickname. -/
theorem nickname_session_contract {max_clients max_rooms : Nat} {s : Server}
    (h : Reachable max_clients max_rooms s) :
    (∀ (i j : Nat) (p q : Player), s.players[i]? = some p → s.players[j]? = some q →
      p.is_active = true → q.is_active = true → p.nickname ≠ [] →
      p.nickname = q.nickname → i = j) ∧
    (∀ (slot : Nat) (player : Player) (nickname : List Char) (now : Int),
      s.players[slot]? = some player → player.is_active = true → 0 ≤ player.socket_fd →
      player.state = PlayerState.CONNECTING →
      protocol_validate_nickname nickname = ErrorCode.ERR_NONE →
      (∀ (d : Nat) (dormant : Player), s.players[d]? = some dormant →
        dormant.is_active = true → dormant.state = PlayerState.DISCONNECTED →
        dormant.nickname = nickname →
        ∃ (s' : Server) (out : List (Nat × List Char)),
          handle_login s slot (login_message nickname) now =
            some (s', (slot, "LOGIN_OK\n".toList) :: out) ∧
          s'.players[d]? = some (player_reset dormant false now) ∧
          s'.players[slot]? = some
            { player with
              nickname := nickname
              room_id := dormant.room_id
              skips_remaining := dormant.skips_remaining
              state := if 0 ≤ dormant.room_id then PlayerState.IN_GAME
                else PlayerState.LOBBY }) ∧
      (∀ (j : Nat) (other : Player), s.players[j]? = some other →
        other.is_active = true → other.state ≠ PlayerState.DISCONNECTED →
        other.nickname = nickname →
        handle_login s slot (login_message nickname) now =
          some (s, [(slot, "LOGIN_ERR;6;Nickname already taken\n".toList)]) ∧
        player.nickname = [])) := by
  have hinv := reachable_inv h
  refine ⟨hinv.nicks, ?_⟩
  intro slot player nickname now hplayer hact hsock hstate hvalid
  constructor
  · intro d dormant hd hda hds hdn
    exact login_takeover s slot d player dormant nickname now hinv hplayer hact hsock hstate
      hvalid hd hda hds hdn
  · intro j other hj hoa hos hon
    exact ⟨login_taken s slot j player other nickname now hinv hplayer hsock hstate hvalid hj
      hoa hos hon, (hinv.link slot player (fun hf => hf) hplayer hact).2.2 hstate⟩

/-- Witness of C22: with alice dormant and bob playing, a third connection that logs
in as alice takes her session over, and one that logs in as bob gets LOGIN_ERR;6. -/
theorem nickname_session_contract_witness :
    Reachable 3 2 scenario_reconnecting ∧
    (scenario_reconnecting.players.map
        (fun p => (p.is_active, p.state, p.socket_fd, p.nickname)) =
      [(true, PlayerState.DISCONNECTED, -1, "alice".toList),
        (true, PlayerState.IN_GAME, 5, "bob".toList),
        (true, PlayerState.CONNECTING, 6, [])]) ∧
    (∃ (s' : Server) (out : List (Nat × List Char)),
      handle_login scenario_reconnecting 2 (login_message "alice".toList) 103 =
        some (s', (2, "LOGIN_OK\n".toList) :: out) ∧
      s'.players.map (fun p => (p.is_active, p.state, p.socket_fd, p.nickname)) =
        [(false, PlayerState.CONNECTING, -1, []),
          (true, PlayerState.IN_GAME, 5, "bob".toList),
          (true, PlayerState.IN_GAME, 6, "alice".toList)]) ∧
    handle_login scenario_reconnecting 2 (login_message "bob".toList) 103 =
      some (scenario_reconnecting, [(2, "LOGIN_ERR;6;Nickname already taken\n".toList)]) :=
  ⟨scenario_reconnecting_reachable, rfl, ⟨_, _, rfl, rfl⟩,
    (((nickname_session_contract scenario_reconnecting_reachable).2 2
      (player_create 6 102) "bob".toList 103 rfl rfl (by decide) rfl rfl).2 1 _ rfl rfl
      (by decide) rfl).1⟩

/-! ## Properties of a record that the handlers keep -/

theorem HandlerStable.kept_update {Q : Player → Prop} (hQ : HandlerStable Q) {x : Nat}
    {t : Server} (y : Nat) (f : Player → Player) (hf : ∀ p : Player, Player.keeps (f p) p)
    (h : PlayerSat Q x t) : PlayerSat Q x (t.updPlayer y f) :=
  h.after_update y f (fun p hp => hQ.fields p (f p) (hf p) hp)

theorem HandlerStable.kept_set_room {Q : Player → Prop} (_hQ : HandlerStable Q) {x : Nat}
    {t : Server} (r : Nat) (room : Room) (h : PlayerSat Q x t) :
    PlayerSat Q x (t.setRoom r room) :=
  h.after_set_room r room

theorem HandlerStable.kept_set_state {Q : Player → Prop} (hQ : HandlerStable Q) {x : Nat}
    {t : Server} (y : Option Nat) (st : PlayerState) (hst : st ≠ PlayerState.DISCONNECTED)
    (h : PlayerSat Q x t) : PlayerSat Q x (player_set_state t y st) :=
  h.after_set_state y st (fun p hp => hQ.staged p st hst hp)

theorem resumed_state_ne (p : Player) :
    (if p.state = PlayerState.DISCONNECTED then PlayerState.IN_GAME else p.state) ≠
      PlayerState.DISCONNECTED := by
  split_ifs with h
  · intro e
    cases e
  · exact h

theorem HandlerStable.kept_remove {Q : Player → Prop} (hQ : HandlerStable Q) {x : Nat}
    {t : Server} (r : Nat) (y : Option Nat) (h : PlayerSat Q x t) :
    PlayerSat Q x (room_remove_player t r y).2 :=
  h.after_remove r y (fun p hp => hQ.fields p _ ⟨rfl, rfl, rfl, rfl, rfl, rfl, rfl, rfl⟩ hp)

theorem HandlerStable.kept_start_game {Q : Player → Prop} (hQ : HandlerStable Q) {x : Nat}
    {t : Server} (r : Nat) (h : PlayerSat Q x t) :
    PlayerSat Q x (room_start_game t r).2 :=
  h.after_start_game r (fun p hp =>
    hQ.fields { p with state := PlayerState.IN_GAME } _ ⟨rfl, rfl, rfl, rfl, rfl, rfl, rfl, rfl⟩
      (hQ.staged p PlayerState.IN_GAME (fun e => PlayerState.noConfusion e) hp))

theorem HandlerStable.kept_count_invalid {Q : Player → Prop} (hQ : HandlerStable Q) {x : Nat}
    {t : Server} (y : Nat) (h : PlayerSat Q x t) :
    PlayerSat Q x (count_invalid t y) :=
  hQ.kept_update y _ (fun _ => ⟨rfl, rfl, rfl, rfl, rfl, rfl, rfl, rfl⟩) h

theorem HandlerStable.kept_add_player {Q : Player → Prop} (hQ : HandlerStable Q) {x : Nat}
    {t : Server} (r : Nat) (y : Option Nat) (h : PlayerSat Q x t) :
    PlayerSat Q x (room_add_player t r y).2 := by
  unfold room_add_player
  repeat' split
  all_goals first
    | exact h
    | exact hQ.kept_update _ _ (fun _ => ⟨rfl, rfl, rfl, rfl, rfl, rfl, rfl, rfl⟩) (hQ.kept_set_room _ _ h)

theorem HandlerStable.kept_room_create {Q : Player → Prop} (hQ : HandlerStable Q) {x : Nat}
    {t : Server} (name : List Char) (y : Option Nat) (h : PlayerSat Q x t) :
    PlayerSat Q x (room_create t name y).2 := by
  unfold room_create
  simp only []
  repeat' split
  all_goals first
    | exact h
    | exact hQ.kept_set_room _ _ (hQ.kept_add_player _ _ (hQ.kept_set_room _ _ h))
    | exact hQ.kept_add_player _ _ (hQ.kept_set_room _ _ h)

theorem HandlerStable.kept_reset {Q : Player → Prop} (hQ : HandlerStable Q) {x : Nat}
    {t : Server} (y : Nat) (old : Player) (keep : Bool) (now : Int)
    (hold : t.players[y]? = some old) (h : PlayerSat Q x t) :
    PlayerSat Q x (t.setPlayer y (player_reset old keep now)) := by
  intro p hp
  rw [setPlayer_players] at hp
  by_cases hyx : y = x
  · subst hyx
    rw [if_pos rfl, hold] at hp
    cases hp
    exact hQ.reset old keep now (h old hold)
  · rw [if_neg hyx] at hp
    exact h p hp

theorem HandlerStable.kept_named {Q : Player → Prop} (hQ : HandlerStable Q) {x : Nat}
    {t : Server} (y : Nat) (nickname : List Char) (st : PlayerState) (f : Player → Player)
    (hvalid : ¬ protocol_validate_nickname nickname ≠ ErrorCode.ERR_NONE)
    (hst : st ≠ PlayerState.DISCONNECTED)
    (hf : ∀ p : Player, Player.keeps (f p) { player_set_nickname p nickname with state := st })
    (h : PlayerSat Q x t) : PlayerSat Q x (t.updPlayer y f) :=
  h.after_update y f (fun p hp =>
    hQ.fields { player_set_nickname p nickname with state := st } (f p) (hf p)
      (hQ.staged _ st hst (hQ.named p nickname (not_not.mp hvalid) hp)))

theorem HandlerStable.kept_renamed {Q : Player → Prop} (hQ : HandlerStable Q) {x : Nat}
    {t : Server} (y : Nat) (nickname : List Char) (f : Player → Player)
    (hvalid : ¬ protocol_validate_nickname nickname ≠ ErrorCode.ERR_NONE)
    (hf : ∀ p : Player, Player.keeps (f p) (player_set_nickname p nickname))
    (h : PlayerSat Q x t) : PlayerSat Q x (t.updPlayer y f) :=
  h.after_update y f (fun p hp =>
    hQ.fields (player_set_nickname p nickname) (f p) (hf p)
      (hQ.named p nickname (not_not.mp hvalid) hp))

theorem HandlerStable.kept_reset_self {Q : Player → Prop} (hQ : HandlerStable Q) {x : Nat}
    {t : Server} (y : Nat) (keep : Bool) (now : Int) (h : PlayerSat Q x t) :
    PlayerSat Q x (t.updPlayer y (fun p => player_reset p keep now)) :=
  h.after_update y _ (fun p hp => hQ.reset p keep now hp)

set_option maxHeartbeats 1000000 in
theorem HandlerStable.kept_disconnect {Q : Player → Prop} (hQ : HandlerStable Q) {x : Nat}
    {t : Server} (slot : Nat) (graceful : Bool) (now : Int) (h : PlayerSat Q x t) :
    PlayerSat Q x (server_handle_disconnect t slot graceful now).1 := by
  unfold server_handle_disconnect
  simp only []
  repeat' split
  all_goals
    with_reducible repeat (first
      | exact h
      | apply HandlerStable.kept_reset_self hQ
      | apply HandlerStable.kept_set_room hQ
      | refine HandlerStable.kept_set_state hQ _ _ (fun e => PlayerState.noConfusion e) ?_
      | apply HandlerStable.kept_remove hQ)

set_option maxHeartbeats 1000000 in
theorem handle_take_kept {Q : Player → Prop} (hQ : HandlerStable Q) {x : Nat} (s : Server)
    (slot : Nat) (msg : ParsedMessage) (h : PlayerSat Q x s) :
    ∀ r ∈ handle_take s slot msg, PlayerSat Q x r.1 := by
  unfold handle_take
  simp only []
  repeat' split
  all_goals first
    | exact opt_inv_none
    | (apply opt_inv_some
       with_reducible repeat (first
         | exact h
         | apply HandlerStable.kept_count_invalid hQ
         | apply HandlerStable.kept_set_room hQ
         | refine HandlerStable.kept_set_state hQ _ _ (fun e => PlayerState.noConfusion e) ?_
         | apply HandlerStable.kept_remove hQ))

set_option maxHeartbeats 1000000 in
theorem handle_skip_kept {Q : Player → Prop} (hQ : HandlerStable Q) {x : Nat} (s : Server)
    (slot : Nat) (msg : ParsedMessage) (h : PlayerSat Q x s) :
    ∀ r ∈ handle_skip s slot msg, PlayerSat Q x r.1 := by
  unfold handle_skip
  simp only []
  repeat' split
  all_goals first
    | exact opt_inv_none
    | (apply opt_inv_some
       with_reducible repeat (first
         | exact h
         | apply HandlerStable.kept_count_invalid hQ
         | apply HandlerStable.kept_set_room hQ
         | refine HandlerStable.kept_update hQ _ _ (by intro p; exact ⟨rfl, rfl, rfl, rfl, rfl, rfl, rfl, rfl⟩) ?_))

set_option maxHeartbeats 1000000 in
theorem handle_login_kept {Q : Player → Prop} (hQ : HandlerStable Q) {x : Nat} (s : Server)
    (slot : Nat) (msg : ParsedMessage) (now : Int) (h : PlayerSat Q x s) :
    ∀ r ∈ handle_login s slot msg now, PlayerSat Q x r.1 := by
  unfold handle_login
  simp only []
  repeat' split
  all_goals first
    | exact opt_inv_none
    | (apply opt_inv_some
       with_reducible repeat (first
         | exact h
         | apply HandlerStable.kept_count_invalid hQ
         | apply HandlerStable.kept_set_room hQ
         | refine HandlerStable.kept_set_state hQ _ _ (fun e => PlayerState.noConfusion e) ?_
         | refine HandlerStable.kept_set_state hQ _ _ (by assumption) ?_
         | refine HandlerStable.kept_reset hQ _ _ _ _ (by assumption) ?_
         | refine HandlerStable.kept_named hQ _ _ _ _ (by assumption)
             (fun e => PlayerState.noConfusion e) (by intro p; exact ⟨rfl, rfl, rfl, rfl, rfl, rfl, rfl, rfl⟩) ?_
         | refine HandlerStable.kept_renamed hQ _ _ _ (by assumption)
             (by intro p; exact ⟨rfl, rfl, rfl, rfl, rfl, rfl, rfl, rfl⟩) ?_))

set_option maxHeartbeats 1000000 in
theorem handle_list_rooms_kept {Q : Player → Prop} (_hQ : HandlerStable Q) {x : Nat} (s : Server)
    (slot : Nat) (msg : ParsedMessage) (h : PlayerSat Q x s) :
    ∀ r ∈ handle_list_rooms s slot msg, PlayerSat Q x r.1 := by
  unfold handle_list_rooms
  simp only []
  repeat' split
  all_goals first
    | exact opt_inv_none
    | exact opt_inv_some h

set_option maxHeartbeats 1000000 in
theorem handle_create_room_kept {Q : Player → Prop} (hQ : HandlerStable Q) {x : Nat} (s : Server)
    (slot : Nat) (msg : ParsedMessage) (h : PlayerSat Q x s) :
    ∀ r ∈ handle_create_room s slot msg, PlayerSat Q x r.1 := by
  unfold handle_create_room
  simp only []
  repeat' split
  all_goals first
    | exact opt_inv_none
    | (apply opt_inv_some
       with_reducible repeat (first
         | exact h
         | apply HandlerStable.kept_count_invalid hQ
         | apply HandlerStable.kept_room_create hQ
         | refine HandlerStable.kept_set_state hQ _ _ (fun e => PlayerState.noConfusion e) ?_))

set_option maxHeartbeats 1000000 in
theorem handle_join_room_kept {Q : Player → Prop} (hQ : HandlerStable Q) {x : Nat} (s : Server)
    (slot : Nat) (msg : ParsedMessage) (h : PlayerSat Q x s) :
    ∀ r ∈ handle_join_room s slot msg, PlayerSat Q x r.1 := by
  unfold handle_join_room
  simp only []
  repeat' split
  all_goals first
    | exact opt_inv_none
    | (apply opt_inv_some
       with_reducible repeat (first
         | exact h
         | apply HandlerStable.kept_count_invalid hQ
         | apply HandlerStable.kept_add_player hQ
         | refine HandlerStable.kept_set_state hQ _ _ (fun e => PlayerState.noConfusion e) ?_
         | apply HandlerStable.kept_start_game hQ))

set_option maxHeartbeats 1000000 in
theorem handle_leave_room_kept {Q : Player → Prop} (hQ : HandlerStable Q) {x : Nat} (s : Server)
    (slot : Nat) (msg : ParsedMessage) (h : PlayerSat Q x s) :
    ∀ r ∈ handle_leave_room s slot msg, PlayerSat Q x r.1 := by
  unfold handle_leave_room
  simp only []
  repeat' split
  all_goals first
    | exact opt_inv_none
    | (apply opt_inv_some
       with_reducible repeat (first
         | exact h
         | apply HandlerStable.kept_set_room hQ
         | refine HandlerStable.kept_set_state hQ _ _ (fun e => PlayerState.noConfusion e) ?_
         | apply HandlerStable.kept_remove hQ))

set_option maxHeartbeats 1000000 in
theorem handle_ping_kept {Q : Player → Prop} (_hQ : HandlerStable Q) {x : Nat} (s : Server)
    (slot : Nat) (msg : ParsedMessage) (h : PlayerSat Q x s) :
    ∀ r ∈ handle_ping s slot msg, PlayerSat Q x r.1 := by
  unfold handle_ping
  repeat' split
  all_goals first
    | exact opt_inv_none
    | exact opt_inv_some h

theorem handle_pong_kept {Q : Player → Prop} (hQ : HandlerStable Q) {x : Nat} (s : Server)
    (slot : Nat) (msg : ParsedMessage) (now : Int) (h : PlayerSat Q x s) :
    ∀ r ∈ handle_pong s slot msg now, PlayerSat Q x r.1 := by
  unfold handle_pong
  split
  · exact opt_inv_none
  · exact opt_inv_some (hQ.kept_update slot _ (fun _ => ⟨rfl, rfl, rfl, rfl, rfl, rfl, rfl, rfl⟩) h)

theorem dispatch_message_kept {Q : Player → Prop} (hQ : HandlerStable Q) {x : Nat}
    (s : Server) (slot : Nat) (parsed : ParsedMessage) (now : Int) (h : PlayerSat Q x s) :
    ∀ r ∈ dispatch_message s slot parsed now, PlayerSat Q x r.1 := by
  unfold dispatch_message
  split
  · exact handle_login_kept hQ s slot parsed now h
  · exact handle_list_rooms_kept hQ s slot parsed h
  · exact handle_create_room_kept hQ s slot parsed h
  · exact handle_join_room_kept hQ s slot parsed h
  · exact handle_leave_room_kept hQ s slot parsed h
  · exact handle_take_kept hQ s slot parsed h
  · exact handle_skip_kept hQ s slot parsed h
  · exact handle_ping_kept hQ s slot parsed h
  · exact handle_pong_kept hQ s slot parsed now h
  · exact opt_inv_pair (hQ.kept_disconnect slot true now h)
  · exact opt_inv_some (hQ.kept_count_invalid slot h)

/-- A stable property of the record in a slot holds after `server_handle_message` if
it held before. -/
theorem server_handle_message_kept {Q : Player → Prop} (hQ : HandlerStable Q) {x : Nat}
    (s : Server) (slot : Nat) (message : List Char) (now : Int) (h : PlayerSat Q x s) :
    ∀ r ∈ server_handle_message s slot message now, PlayerSat Q x r.1 := by
  unfold server_handle_message
  simp only []
  split
  · exact opt_inv_none
  · split
    · split
      · exact opt_inv_some (hQ.kept_disconnect slot false now (hQ.kept_count_invalid slot h))
      · exact opt_inv_some (hQ.kept_count_invalid slot h)
    · exact dispatch_message_kept hQ s slot _ now h

/-! ## Rate limit -/

/-- Without the recorded flags `process_lines_trace` is `process_lines`. -/
theorem process_lines_trace_erase (slot : Nat) (now : Int) (lines : List (List Char)) :
    ∀ s : Server, process_lines s slot now lines =
      (process_lines_trace s slot now lines).map (fun r => (r.1, r.2.1, r.2.2.1)) := by
  induction lines with
  | nil => intro s; rfl
  | cons line rest ih =>
    intro s
    rw [process_lines, process_lines_trace]
    by_cases hlen : (strip_cr line).length > 0
    · simp only [hlen, if_true]
      cases hf : process_frame s slot (strip_cr line) now with
      | none => rfl
      | some r1 =>
        obtain ⟨s1, out, d⟩ := r1
        simp only []
        cases hp : s1.players[slot]? with
        | none => rfl
        | some p =>
          simp only []
          split_ifs
          · rfl
          · rw [ih]
            cases process_lines_trace s1 slot now rest <;> rfl
    · simp only [hlen, if_false]
      exact ih s

/-- The handlers leave the two fields of the rate limiter of a record alone as long
as the record stays active and connected. -/
theorem rate_kept_stable (m t : Int) :
    HandlerStable (fun p => p.is_active = true → 0 ≤ p.socket_fd →
      p.messages_this_second = m ∧ p.rate_limit_second = t) := by
  refine ⟨?_, ?_, ?_, ?_⟩
  · rintro p q ⟨h1, h2, _, _, _, _, h7, h8⟩ hp hact hsock
    rw [h2] at hact
    rw [h1] at hsock
    rw [h7, h8]
    exact hp hact hsock
  · intro p st _ hp hact hsock
    exact hp hact hsock
  · intro p keep now _ hact hsock
    cases keep with
    | true =>
      simp [player_reset] at hsock
    | false =>
      simp [player_reset] at hact
  · intro p nickname _ hp hact hsock
    exact hp hact hsock

/-- The result of `check_rate_limit` in closed form. -/
theorem check_rate_limit_eq (player : Player) (now : Int) :
    check_rate_limit player now =
      (decide ((if player.rate_limit_second = now then player.messages_this_second else 0) + 1
          ≤ MAX_MESSAGES_PER_SECOND),
        { player with
          rate_limit_second := now
          messages_this_second :=
            (if player.rate_limit_second = now then player.messages_this_second else 0) + 1 }) := by
  unfold check_rate_limit
  by_cases h : player.rate_limit_second = now
  · simp only [h, ne_eq, not_true_eq_false, if_false, if_true]
    split_ifs with h1
    · have : ¬ player.messages_this_second + 1 ≤ MAX_MESSAGES_PER_SECOND := by omega
      simp [this, ← h]
    · have : player.messages_this_second + 1 ≤ MAX_MESSAGES_PER_SECOND := by omega
      simp [this, ← h]
  · simp only [h, ne_eq, not_false_eq_true, if_false, if_true]
    simp [MAX_MESSAGES_PER_SECOND]

/-- A frame within the limit is handed to `server_handle_message`. -/
theorem process_frame_dispatched (s : Server) (slot : Nat) (player : Player)
    (frame : List Char) (now : Int) (c : Int) (hplayer : s.players[slot]? = some player)
    (hc : c = if player.rate_limit_second = now then player.messages_this_second else 0)
    (hlt : c < MAX_MESSAGES_PER_SECOND) :
    process_frame s slot frame now =
      (server_handle_message
        (s.setPlayer slot
          { player with rate_limit_second := now, messages_this_second := c + 1 })
        slot frame now).map (fun r => (r.1, r.2, true)) := by
  have hle : c + 1 ≤ MAX_MESSAGES_PER_SECOND := by omega
  unfold process_frame
  rw [hplayer]
  simp only [check_rate_limit_eq, ← hc, hle, decide_True, Bool.not_true]
  cases server_handle_message _ slot frame now <;> rfl

/-- A frame beyond the limit is dropped and counted as invalid. -/
theorem process_frame_dropped (s : Server) (slot : Nat) (player : Player)
    (frame : List Char) (now : Int) (c : Int) (hplayer : s.players[slot]? = some player)
    (hc : c = if player.rate_limit_second = now then player.messages_this_second else 0)
    (hge : MAX_MESSAGES_PER_SECOND ≤ c) :
    process_frame s slot frame now =
      some (s.setPlayer slot
        { player with
          rate_limit_second := now
          messages_this_second := c + 1
          invalid_message_count := player.invalid_message_count + 1 }, [], false) := by
  have hle : ¬ c + 1 ≤ MAX_MESSAGES_PER_SECOND := by omega
  have hlt : slot < s.players.length := by
    rcases Nat.lt_or_ge slot s.players.length with h | h
    · exact h
    · rw [List.getElem?_eq_none h] at hplayer
      cases hplayer
  unfold process_frame
  rw [hplayer]
  simp only [check_rate_limit_eq, ← hc, hle, decide_False, Bool.not_false, if_true]
  simp [count_invalid, Server.updPlayer, Server.setPlayer, hlt]

/-- After a frame the sender, unless the frame ended its session, has one more frame
counted in the second `now`. -/
theorem process_frame_counts (s : Server) (slot : Nat) (player : Player)
    (frame : List Char) (now : Int) (c : Int) (hplayer : s.players[slot]? = some player)
    (hc : c = if player.rate_limit_second = now then player.messages_this_second else 0) :
    ∀ r, process_frame s slot frame now = some r →
      r.2.2 = decide (c < MAX_MESSAGES_PER_SECOND) ∧
      ∀ p1 : Player, r.1.players[slot]? = some p1 →
        ¬ (r.2.2 = true ∧ (p1.socket_fd < 0 ∨ p1.is_active = false)) →
        p1.rate_limit_second = now ∧ p1.messages_this_second = c + 1 := by
  intro r hr
  by_cases hlt : c < MAX_MESSAGES_PER_SECOND
  · rw [process_frame_dispatched s slot player frame now c hplayer hc hlt] at hr
    cases hm : server_handle_message
        (s.setPlayer slot
          { player with rate_limit_second := now, messages_this_second := c + 1 })
        slot frame now with
    | none => rw [hm] at hr; cases hr
    | some r1 =>
      rw [hm] at hr
      cases hr
      refine ⟨by simp [hlt], ?_⟩
      intro p1 hp1 hcont
      have hstart : PlayerSat (fun p => p.is_active = true → 0 ≤ p.socket_fd →
          p.messages_this_second = c + 1 ∧ p.rate_limit_second = now) slot
          (s.setPlayer slot
            { player with rate_limit_second := now, messages_this_second := c + 1 }) :=
        PlayerSat.set_player_self _ (fun _ _ => ⟨rfl, rfl⟩)
      have hend := server_handle_message_kept (rate_kept_stable (c + 1) now) _ slot frame now
        hstart r1 hm p1 hp1
      have hact : p1.is_active = true := by
        cases ha : p1.is_active with
        | true => rfl
        | false => exact absurd ⟨rfl, Or.inr ha⟩ hcont
      have hsock : 0 ≤ p1.socket_fd := by
        by_contra hneg
        exact hcont ⟨rfl, Or.inl (by omega)⟩
      exact ⟨(hend hact hsock).2, (hend hact hsock).1⟩
  · rw [process_frame_dropped s slot player frame now c hplayer hc (by omega)] at hr
    cases hr
    refine ⟨by simp [hlt], ?_⟩
    intro p1 hp1 _
    simp only [setPlayer_players, if_true, hplayer, Option.map_some'] at hp1
    cases hp1
    exact ⟨rfl, rfl⟩

/-- The flags recorded by the loop over the lines of one batch. -/
theorem process_lines_trace_flags (slot : Nat) (now : Int) (lines : List (List Char)) :
    ∀ (s : Server) (player : Player) (c : Int), s.players[slot]? = some player →
      c = (if player.rate_limit_second = now then player.messages_this_second else 0) →
      ∀ r, process_lines_trace s slot now lines = some r →
        (∀ k : Nat, k < r.2.2.2.length →
          r.2.2.2[k]? = some (decide (c + k < MAX_MESSAGES_PER_SECOND))) ∧
        (r.2.2.1 = true → r.2.2.2.length =
          (lines.filter (fun l => decide ((strip_cr l).length > 0))).length) := by
  induction lines with
  | nil =>
    intro s player c _ _ r hr
    rw [process_lines_trace] at hr
    cases hr
    exact ⟨fun k hk => absurd hk (Nat.not_lt_zero k), fun _ => rfl⟩
  | cons line rest ih =>
    intro s player c hplayer hc r hr
    rw [process_lines_trace] at hr
    by_cases hlen : (strip_cr line).length > 0
    · simp only [hlen, if_true] at hr
      cases hf : process_frame s slot (strip_cr line) now with
      | none => rw [hf] at hr; cases hr
      | some r1 =>
        obtain ⟨s1, out, d⟩ := r1
        rw [hf] at hr
        simp only [] at hr
        obtain ⟨hd, hnext⟩ := process_frame_counts s slot player _ now c hplayer hc _ hf
        simp only [] at hd hnext
        cases hp : s1.players[slot]? with
        | none => rw [hp] at hr; cases hr
        | some p1 =>
          rw [hp] at hr
          simp only [] at hr
          by_cases hret : d = true ∧ (p1.socket_fd < 0 ∨ p1.is_active = false)
          · rw [if_pos hret] at hr
            cases hr
            refine ⟨?_, fun hfin => by cases hfin⟩
            intro k hk
            have hk0 : k = 0 := by simpa using hk
            subst hk0
            simp [hd]
          · rw [if_neg hret] at hr
            obtain ⟨hsec, hmsg⟩ := hnext p1 hp hret
            cases hrec : process_lines_trace s1 slot now rest with
            | none => rw [hrec] at hr; cases hr
            | some r2 =>
              obtain ⟨s2, out2, finished, flags⟩ := r2
              rw [hrec] at hr
              cases hr
              obtain ⟨hflags, hcount⟩ := ih s1 p1 (c + 1) hp (by rw [if_pos hsec, hmsg]) _ hrec
              simp only [] at hflags hcount
              refine ⟨?_, ?_⟩
              · intro k hk
                cases k with
                | zero => simp [hd]
                | succ k =>
                  have hk1 : k < flags.length := by simpa using hk
                  have := hflags k hk1
                  simp only [List.getElem?_cons_succ, this]
                  congr 2
                  push_cast
                  apply propext
                  constructor <;> intro h <;> omega
              · intro hfin
                simp only [List.length_cons, List.filter_cons, hlen, decide_True, if_true]
                rw [hcount hfin]
    · simp only [hlen, if_false] at hr
      obtain ⟨hflags, hcount⟩ := ih s player c hplayer hc r hr
      refine ⟨hflags, ?_⟩
      intro hfin
      rw [hcount hfin]
      simp [List.filter_cons, hlen]

/-- Flags that are set exactly below position 20 are `min n 20` times true, then false. -/
theorem flags_of_first (flags : List Bool)
    (h : ∀ k : Nat, k < flags.length →
      flags[k]? = some (decide ((0 : Int) + k < MAX_MESSAGES_PER_SECOND))) :
    flags = List.replicate (min flags.length 20) true ++
      List.replicate (flags.length - 20) false := by
  apply List.ext_getElem?
  intro k
  by_cases hk : k < flags.length
  · rw [h k hk]
    by_cases h20 : k < 20
    · rw [List.getElem?_append_left (by simp; omega)]
      simp [List.getElem?_replicate, MAX_MESSAGES_PER_SECOND, h20, hk]
    · rw [List.getElem?_append_right (by simp; omega)]
      simp [List.getElem?_replicate, MAX_MESSAGES_PER_SECOND, h20, hk]
      omega
  · rw [List.getElem?_eq_none (by omega), List.getElem?_eq_none (by simp; omega)]

/-- Claim C29, as the code has it.  Let `c` be the number of frames the limiter has
counted for the player in the second `now` (0 when the last counted frame was in a
different second: the counter restarts).  A frame is handed to `server_handle_message`
exactly when `c < 20`; otherwise it is dropped: nothing is sent, the invalid counter
goes up by one, and socket, activity flag and state of the record stay as they are.
Of the non-empty frames of one batch that the loop of `read_from_client` reaches, the
one at position `k` is dispatched exactly when `c + k < 20`; the loop reaches all of
them unless the handling of a dispatched frame ends the session, and for `c = 0` the
dispatched frames are the first `min n 20`. -/
theorem rate_limit_contract (s : Server) (slot : Nat) (player : Player) (now : Int) (c : Int)
    (hplayer : s.players[slot]? = some player)
    (hc : c = if player.rate_limit_second = now then player.messages_this_second else 0) :
    (∀ frame : List Char,
      (c < MAX_MESSAGES_PER_SECOND →
        process_frame s slot frame now =
          (server_handle_message
            (s.setPlayer slot
              { player with rate_limit_second := now, messages_this_second := c + 1 })
            slot frame now).map (fun r => (r.1, r.2, true))) ∧
      (MAX_MESSAGES_PER_SECOND ≤ c →
        process_frame s slot frame now =
          some (s.setPlayer slot
            { player with
              rate_limit_second := now
              messages_this_second := c + 1
              invalid_message_count := player.invalid_message_count + 1 }, [], false))) ∧
    (∀ (lines : List (List Char)) (r : Server × List (Nat × List Char) × Bool × List Bool),
      process_lines_trace s slot now lines = some r →
      process_lines s slot now lines = some (r.1, r.2.1, r.2.2.1) ∧
      (∀ k : Nat, k < r.2.2.2.length →
        r.2.2.2[k]? = some (decide (c + k < MAX_MESSAGES_PER_SECOND))) ∧
      (r.2.2.1 = true → r.2.2.2.length =
        (lines.filter (fun l => decide ((strip_cr l).length > 0))).length) ∧
      (player.rate_limit_second ≠ now →
        r.2.2.2 = List.replicate (min r.2.2.2.length 20) true ++
          List.replicate (r.2.2.2.length - 20) false)) := by
  refine ⟨fun frame => ⟨process_frame_dispatched s slot player frame now c hplayer hc,
    process_frame_dropped s slot player frame now c hplayer hc⟩, ?_⟩
  intro lines r hr
  obtain ⟨hflags, hcount⟩ := process_lines_trace_flags slot now lines s player c hplayer hc r hr
  refine ⟨by rw [process_lines_trace_erase, hr]; rfl, hflags, hcount, ?_⟩
  intro hne
  rw [if_neg hne] at hc
  subst hc
  exact flags_of_first _ hflags

set_option maxRecDepth 100000

/-- Witness of C29: 25 `PING` frames in one batch from a fresh connection yield 20
`PONG` replies; the last five frames are dropped, the invalid counter is 5 and the
player stays connected. -/
theorem rate_limit_contract_witness :
    scenario_fresh.players[0]? = some (player_create 4 100) ∧
    (process_lines_trace scenario_fresh 0 101 (split_lines scenario_ping_flood).1).map
        (fun r => (r.2.1.length, r.2.2.1, r.2.2.2, player_summary r.1 0,
          (r.1.players[0]?).map (fun p => p.invalid_message_count))) =
      some (20, true, List.replicate 20 true ++ List.replicate 5 false,
        some (true, PlayerState.CONNECTING, 4, [], -1), some 5) ∧
    (read_from_client scenario_fresh 0 scenario_ping_flood 101).map (fun r => r.2) =
      some (List.replicate 20 (0, "PONG\n".toList)) ∧
    (∀ (lines : List (List Char)) (r : Server × List (Nat × List Char) × Bool × List Bool),
      process_lines_trace scenario_fresh 0 101 lines = some r →
      r.2.2.2 = List.replicate (min r.2.2.2.length 20) true ++
        List.replicate (r.2.2.2.length - 20) false) :=
  ⟨rfl, rfl, rfl, fun lines r hr =>
    ((rate_limit_contract scenario_fresh 0 (player_create 4 100) 101 0 rfl rfl).2
      lines r hr).2.2.2 (by decide)⟩

/-- Counterexample to C29 as stated: of the three non-empty frames `LOGOUT`, `PING`,
`PING` received in one batch only the first is dispatched; the session ends with it
and the loop returns without looking at the other two. -/
theorem frames_after_logout_counterexample :
    (split_lines "LOGOUT\nPING\nPING\n".toList).1 =
      ["LOGOUT".toList, "PING".toList, "PING".toList] ∧
    (process_lines_trace scenario_fresh 0 101
        (split_lines "LOGOUT\nPING\nPING\n".toList).1).map
        (fun r => (r.2.1, r.2.2.1, r.2.2.2)) = some ([], false, [true]) ∧
    (read_from_client scenario_fresh 0 "LOGOUT\nPING\nPING\n".toList 101).map
        (fun r => (r.2, player_summary r.1 0)) =
      some ([], some (false, PlayerState.CONNECTING, -1, [], -1)) :=
  ⟨rfl, rfl, rfl⟩

/-! ## Replies to the sender -/

theorem replies_to_nil (slot : Nat) : replies_to slot [] = [] := rfl

theorem replies_to_append (slot : Nat) (a b : List (Nat × List Char)) :
    replies_to slot (a ++ b) = replies_to slot a ++ replies_to slot b := by
  simp [replies_to]

/-- What `server_send_to_player` sends to a given slot. -/
theorem replies_to_send (slot : Nat) (t : Server) (x : Option Nat) (text : List Char) :
    replies_to slot (server_send_to_player t x text).2 =
      if x = some slot ∧ has_socket t (some slot) = true then [text] else [] := by
  unfold server_send_to_player
  cases x with
  | none => simp [replies_to]
  | some y =>
    by_cases hy : y = slot
    · subst hy
      by_cases hs : has_socket t (some y) = true
      · simp [replies_to, hs]
      · simp [replies_to, hs]
    · have hne : ¬ (some y = some slot) := fun e => hy (Option.some.inj e)
      by_cases hs : has_socket t (some y) = true
      · simp [replies_to, hs, hy]
      · simp [replies_to, hs, hy]

theorem has_socket_setRoom (t : Server) (r : Nat) (room : Room) (x : Option Nat) :
    has_socket (t.setRoom r room) x = has_socket t x := rfl

theorem has_socket_updPlayer (t : Server) (y : Nat) (f : Player → Player) (x : Option Nat)
    (hf : ∀ p : Player, (f p).socket_fd = p.socket_fd) :
    has_socket (t.updPlayer y f) x = has_socket t x := by
  cases x with
  | none => rfl
  | some i =>
    unfold has_socket
    simp only [updPlayer_players]
    by_cases hyi : y = i
    · rw [if_pos hyi]
      cases t.players[i]? with
      | none => rfl
      | some p => simp [hf]
    · rw [if_neg hyi]

theorem has_socket_set_state (t : Server) (y : Option Nat) (st : PlayerState) (x : Option Nat) :
    has_socket (player_set_state t y st) x = has_socket t x := by
  unfold player_set_state
  cases y with
  | none => rfl
  | some i => exact has_socket_updPlayer t i _ x (fun _ => rfl)

theorem has_socket_count_invalid (t : Server) (y : Nat) (x : Option Nat) :
    has_socket (count_invalid t y) x = has_socket t x :=
  has_socket_updPlayer t y _ x (fun _ => rfl)

theorem has_socket_destroy (t : Server) (r : Nat) (x : Option Nat) :
    has_socket (room_destroy t r) x = has_socket t x := by
  unfold room_destroy
  cases t.rooms[r]? with
  | none => rfl
  | some room =>
    simp only [has_socket_setRoom]
    cases room.players1 <;> cases room.players0 <;>
      simp [has_socket_updPlayer]

theorem has_socket_remove (t : Server) (r : Nat) (y : Option Nat) (x : Option Nat) :
    has_socket (room_remove_player t r y).2 x = has_socket t x := by
  unfold room_remove_player
  cases t.rooms[r]? with
  | none => rfl
  | some room =>
    cases y with
    | none => rfl
    | some i =>
      simp only
      split_ifs <;>
        simp [has_socket_destroy, has_socket_updPlayer, has_socket_setRoom]

theorem has_socket_start_game (t : Server) (r : Nat) (x : Option Nat) :
    has_socket (room_start_game t r).2 x = has_socket t x := by
  unfold room_start_game
  cases t.rooms[r]? with
  | none => rfl
  | some room =>
    simp only
    split_ifs
    · rfl
    · rfl
    · cases room.players1 <;> cases room.players0 <;>
        simp [has_socket_updPlayer, has_socket_setRoom]

theorem has_socket_add_player (t : Server) (r : Nat) (y : Option Nat) (x : Option Nat) :
    has_socket (room_add_player t r y).2 x = has_socket t x := by
  unfold room_add_player
  cases t.rooms[r]? with
  | none => rfl
  | some room =>
    cases y with
    | none => rfl
    | some i =>
      simp only
      split_ifs <;> simp [has_socket_updPlayer, has_socket_setRoom]

theorem has_socket_room_create (t : Server) (name : List Char) (y : Option Nat)
    (x : Option Nat) : has_socket (room_create t name y).2 x = has_socket t x := by
  unfold room_create
  simp only []
  repeat' split
  all_goals simp [has_socket_add_player, has_socket_setRoom]

theorem has_socket_of_player {s : Server} {slot : Nat} {player : Player}
    (hplayer : s.players[slot]? = some player) (hsock : 0 ≤ player.socket_fd) :
    has_socket s (some slot) = true := by
  simp [has_socket, hplayer, hsock]

set_option maxHeartbeats 1000000 in
theorem handle_take_replies (s : Server) (slot : Nat) (msg : ParsedMessage)
    (hconn : has_socket s (some slot) = true) :
    ∀ r ∈ handle_take s slot msg,
      (∃ (remaining : Int) (my_turn : Bool), replies_to slot r.2 =
        [protocol_create_take_ok BUFFER_SIZE remaining my_turn]) ∨
      (∃ (winner loser : List Char), replies_to slot r.2 =
        [protocol_create_game_over BUFFER_SIZE winner loser]) ∨
      (∃ (err : ErrorCode) (detail : Option (List Char)), replies_to slot r.2 =
        [protocol_create_take_err BUFFER_SIZE err detail]) := by
  unfold handle_take
  simp only []
  repeat' split
  all_goals
    intro r hr
    cases hr
    try simp only [replies_to_append, replies_to_send, replies_to_nil, has_socket_setRoom,
      has_socket_count_invalid, has_socket_set_state, has_socket_remove, has_socket_updPlayer,
      room_get_opponent_ne, hconn, and_self, false_and, if_true, if_false, implies_true,
      List.singleton_append, List.append_nil, List.nil_append]
    try first
      | exact Or.inl ⟨_, _, rfl⟩
      | exact Or.inr (Or.inl ⟨_, _, rfl⟩)
      | exact Or.inr (Or.inr ⟨_, _, rfl⟩)

set_option maxHeartbeats 1000000 in
theorem handle_skip_replies (s : Server) (slot : Nat) (msg : ParsedMessage)
    (hconn : has_socket s (some slot) = true) :
    ∀ r ∈ handle_skip s slot msg,
      (∃ my_turn : Bool, replies_to slot r.2 = [protocol_create_skip_ok BUFFER_SIZE my_turn]) ∨
      (∃ (err : ErrorCode) (detail : Option (List Char)), replies_to slot r.2 =
        [protocol_create_skip_err BUFFER_SIZE err detail]) := by
  unfold handle_skip
  simp only []
  repeat' split
  all_goals
    intro r hr
    cases hr
    try simp only [replies_to_append, replies_to_send, replies_to_nil, has_socket_setRoom,
      has_socket_count_invalid, has_socket_set_state, has_socket_remove, has_socket_updPlayer,
      room_get_opponent_ne, hconn, and_self, false_and, if_true, if_false, implies_true,
      List.singleton_append, List.append_nil, List.nil_append]
    try first
      | exact Or.inl ⟨_, rfl⟩
      | exact Or.inr ⟨_, _, rfl⟩

set_option maxHeartbeats 1000000 in
theorem handle_leave_room_replies (s : Server) (slot : Nat) (msg : ParsedMessage)
    (hconn : has_socket s (some slot) = true) :
    ∀ r ∈ handle_leave_room s slot msg,
      replies_to slot r.2 = [protocol_create_leave_ok BUFFER_SIZE] ∨
      (∃ (err : ErrorCode) (detail : Option (List Char)), replies_to slot r.2 =
        [protocol_create_error BUFFER_SIZE err detail]) := by
  unfold handle_leave_room
  simp only []
  repeat' split
  all_goals
    intro r hr
    cases hr
    try simp only [replies_to_append, replies_to_send, replies_to_nil, has_socket_setRoom,
      has_socket_count_invalid, has_socket_set_state, has_socket_remove, has_socket_updPlayer,
      room_get_opponent_ne, hconn, and_self, false_and, if_true, if_false, implies_true,
      List.singleton_append, List.append_nil, List.nil_append]
    try first
      | exact Or.inl rfl
      | exact Or.inl trivial
      | exact Or.inr ⟨_, _, rfl⟩

theorem handle_list_rooms_replies (s : Server) (slot : Nat) (msg : ParsedMessage)
    (hconn : has_socket s (some slot) = true) :
    ∀ r ∈ handle_list_rooms s slot msg,
      (∃ listing : List Char, replies_to slot r.2 =
        [protocol_create_rooms BUFFER_SIZE listing]) ∨
      (∃ (err : ErrorCode) (detail : Option (List Char)), replies_to slot r.2 =
        [protocol_create_error BUFFER_SIZE err detail]) := by
  unfold handle_list_rooms
  simp only []
  repeat' split
  all_goals
    intro r hr
    cases hr
    try simp only [replies_to_send, hconn, and_self, if_true]
    try first
      | exact Or.inl ⟨_, rfl⟩
      | exact Or.inr ⟨_, _, rfl⟩

theorem handle_ping_replies (s : Server) (slot : Nat) (msg : ParsedMessage)
    (hconn : has_socket s (some slot) = true) :
    ∀ r ∈ handle_ping s slot msg,
      replies_to slot r.2 = [protocol_create_pong BUFFER_SIZE] := by
  unfold handle_ping
  split
  all_goals
    intro r hr
    cases hr
    try simp [replies_to_send, hconn]

theorem handle_pong_replies (s : Server) (slot : Nat) (msg : ParsedMessage) (now : Int) :
    ∀ r ∈ handle_pong s slot msg now, r.2 = [] := by
  unfold handle_pong
  split
  all_goals
    intro r hr
    cases hr
    try rfl

set_option maxHeartbeats 1000000 in
theorem disconnect_replies (s : Server) (slot : Nat) (graceful : Bool) (now : Int) :
    replies_to slot (server_handle_disconnect s slot graceful now).2 = [] := by
  unfold server_handle_disconnect
  simp only []
  repeat' split
  all_goals
    try simp [replies_to_append, replies_to_send, replies_to_nil, room_get_opponent_ne]

set_option maxHeartbeats 1000000 in
theorem handle_create_room_replies (s : Server) (slot : Nat) (msg : ParsedMessage)
    (hconn : has_socket s (some slot) = true) :
    ∀ r ∈ handle_create_room s slot msg,
      (∃ id : Int, replies_to slot r.2 =
        [protocol_create_room_created BUFFER_SIZE id,
          protocol_create_wait_opponent BUFFER_SIZE]) ∨
      (∃ (err : ErrorCode) (detail : Option (List Char)), replies_to slot r.2 =
        [protocol_create_room_err BUFFER_SIZE err detail]) := by
  unfold handle_create_room
  simp only []
  repeat' split
  all_goals
    intro r hr
    cases hr
    try simp only [replies_to_append, replies_to_send, replies_to_nil, has_socket_count_invalid,
      has_socket_set_state, has_socket_room_create, hconn, and_self, if_true,
      List.singleton_append]
    try first
      | exact Or.inl ⟨_, rfl⟩
      | exact Or.inr ⟨_, _, rfl⟩

/-- If the room refers to the connected player in exactly one cell, the two
`send_game_start` calls send exactly one message to the player. -/
theorem game_start_replies (t : Server) (r slot : Nat) (room : Room)
    (hroom : t.rooms[r]? = some room) (hconn : has_socket t (some slot) = true)
    (hin : room.has slot) (hdist : ∀ i, room.players0 = some i → room.players1 ≠ some i) :
    ∃ (stones : Int) (my_turn : Bool) (opponent : List Char),
      replies_to slot (send_game_start t r 0) ++ replies_to slot (send_game_start t r 1) =
        [protocol_create_game_start BUFFER_SIZE stones my_turn opponent] := by
  unfold send_game_start
  rw [hroom]
  simp only [Room.players, if_true, one_ne_zero, if_false]
  rcases hin with e | e
  · have h1 : room.players1 ≠ some slot := hdist slot e
    rw [e]
    simp only [hconn, if_true, replies_to_send, and_self]
    cases hp1 : room.players1 with
    | none => exact ⟨_, _, _, rfl⟩
    | some o =>
      have hne : ¬ (some o = some slot) := fun eo => h1 (by rw [hp1, eo])
      simp only []
      split_ifs
      · simp only [replies_to_send, hne, false_and, if_false]
        exact ⟨_, _, _, rfl⟩
      · exact ⟨_, _, _, rfl⟩
  · have h0 : room.players0 ≠ some slot := fun e0 => hdist slot e0 e
    rw [e]
    simp only [hconn, if_true, replies_to_send, and_self]
    cases hp0 : room.players0 with
    | none => exact ⟨_, _, _, rfl⟩
    | some o =>
      have hne : ¬ (some o = some slot) := fun eo => h0 (by rw [hp0, eo])
      simp only []
      split_ifs
      · simp only [replies_to_send, hne, false_and, if_false]
        exact ⟨_, _, _, rfl⟩
      · exact ⟨_, _, _, rfl⟩

theorem room_start_game_cells (t : Server) (r : Nat) (room : Room)
    (hroom : t.rooms[r]? = some room) :
    ∃ room2 : Room, (room_start_game t r).2.rooms[r]? = some room2 ∧
      room2.players0 = room.players0 ∧ room2.players1 = room.players1 := by
  have hlt : r < t.rooms.length := (List.getElem?_eq_some_iff.mp hroom).1
  unfold room_start_game
  rw [hroom]
  simp only []
  split_ifs
  · exact ⟨room, hroom, rfl, rfl⟩
  · exact ⟨room, hroom, rfl, rfl⟩
  · refine ⟨{ room with game := game_start room.game }, ?_, rfl, rfl⟩
    cases room.players0 <;> cases room.players1 <;>
      simp [updPlayer_rooms, setRoom_rooms, hlt]

/-- A successful JOIN_ROOM in a consistent state fills the room, and the two
`send_game_start` calls send exactly one `GAME_START` to the joining player. -/
theorem join_replies (s : Server) (slot r : Nat) (id : Int) (player : Player) (room : Room)
    (h : ServerOK s) (hplayer : s.players[slot]? = some player)
    (hact : player.is_active = true) (hstate : ¬ player.state ≠ PlayerState.LOBBY)
    (hconn : has_socket s (some slot) = true)
    (hfind : room_find_by_id s.rooms id = some r)
    (hroom : s.rooms[r]? = some room) (hnotfull : ¬ room_is_full room = true) :
    (∀ room1 : Room, (player_set_state (room_add_player s r (some slot)).2 (some slot)
        PlayerState.IN_ROOM).rooms[r]? = some room1 → room_is_full room1 = true) ∧
    ∃ (stones : Int) (my_turn : Bool) (opponent : List Char),
      replies_to slot (send_game_start (room_start_game (player_set_state
        (room_add_player s r (some slot)).2 (some slot) PlayerState.IN_ROOM) r).2 r 0) ++
      replies_to slot (send_game_start (room_start_game (player_set_state
        (room_add_player s r (some slot)).2 (some slot) PlayerState.IN_ROOM) r).2 r 1) =
        [protocol_create_game_start BUFFER_SIZE stones my_turn opponent] := by
  obtain ⟨hcount, hactive, hid, hdist⟩ := h.room_ok r room hroom
  have hra : room.is_active = true := by
    obtain ⟨_, _, _, room2, hroom2, ha⟩ := room_find_by_id_eq_some.mp hfind
    rw [hroom] at hroom2
    cases hroom2
    exact ha
  have hneg : player.room_id < 0 := (h.link slot player (fun hf => hf) hplayer hact).2.1
    (Or.inr (not_not.mp hstate))
  have hnot : ¬ room.has slot := by
    intro hhas
    obtain ⟨q, hq, _, hqr⟩ := h.cell_player r room slot hroom hhas
    rw [hplayer] at hq
    cases hq
    omega
  obtain ⟨room', hadd, hc', hp', hcells, ha', hid', hn', hdist'⟩ :=
    room_add_player_cases s r slot room hroom hcount hnotfull
  have hconn2 : has_socket (room_start_game (player_set_state
      (room_add_player s r (some slot)).2 (some slot) PlayerState.IN_ROOM) r).2 (some slot)
      = true := by
    simp only [has_socket_start_game, has_socket_set_state, has_socket_add_player, hconn]
  rw [hadd] at hconn2 ⊢
  have hroom2 : (player_set_state ((s.setRoom r room').updPlayer slot
      (fun p => { p with room_id := room.id, skips_remaining := SKIPS_PER_PLAYER }))
      (some slot) PlayerState.IN_ROOM).rooms[r]? = some room' := by
    simp [player_set_state, updPlayer_rooms, setRoom_rooms, hroom]
  constructor
  · intro room1 hroom1
    rw [hroom2] at hroom1
    cases hroom1
    have hpos := hactive.mp hra
    simp only [room_is_full, PLAYERS_PER_ROOM, ge_iff_le, decide_eq_true_eq]
    omega
  · obtain ⟨room3, hroom3, h30, h31⟩ := room_start_game_cells _ r room' hroom2
    refine game_start_replies _ r slot room3 hroom3 hconn2 ?_ ?_
    · rcases (hcells slot).mpr (Or.inr rfl) with e | e
      · exact Or.inl (by rw [h30]; exact e)
      · exact Or.inr (by rw [h31]; exact e)
    · intro i hi
      rw [h31]
      rw [h30] at hi
      exact hdist' hnot i hi

set_option maxHeartbeats 1000000 in
theorem handle_join_room_replies (s : Server) (slot : Nat) (msg : ParsedMessage)
    (h : ServerOK s) (hact : PlayerSat (fun p => p.is_active = true) slot s)
    (hconn : has_socket s (some slot) = true) :
    ∀ r ∈ handle_join_room s slot msg,
      (∃ (waiting : List Char) (stones : Int) (my_turn : Bool) (opponent : List Char),
        replies_to slot r.2 =
          [protocol_create_room_joined BUFFER_SIZE (atoi (msg.param 0)) waiting,
            protocol_create_game_start BUFFER_SIZE stones my_turn opponent]) ∨
      (∃ (err : ErrorCode) (detail : Option (List Char)), replies_to slot r.2 =
        [protocol_create_room_err BUFFER_SIZE err detail]) := by
  unfold handle_join_room
  simp only []
  repeat' split
  all_goals
    intro r hr
    cases hr
    try simp only [replies_to_append, replies_to_send, replies_to_nil, has_socket_count_invalid,
      has_socket_set_state, has_socket_add_player, has_socket_start_game, hconn, and_self,
      if_true, List.singleton_append]
    try first
      | exact Or.inr ⟨_, _, rfl⟩
      | exact absurd ((join_replies s slot _ _ _ _ h (by assumption)
          (hact.read (by assumption)) (by assumption) hconn (by assumption) (by assumption)
          (by assumption)).1 _ (by assumption)) (by assumption)
      | (obtain ⟨stones, my_turn, opponent, hg⟩ := (join_replies s slot _ _ _ _ h (by assumption)
          (hact.read (by assumption)) (by assumption) hconn (by assumption) (by assumption)
          (by assumption)).2
         rw [List.cons_append, hg]
         exact Or.inl ⟨_, _, _, _, rfl⟩)

theorem has_socket_takeover (s : Server) (slot d : Nat) (player dormant : Player)
    (nickname : List Char) (q : Player) (hplayer : s.players[slot]? = some player)
    (hstate : ¬ player.state ≠ PlayerState.CONNECTING)
    (hfind : player_find_disconnected s.players nickname = some d)
    (hd : s.players[d]? = some dormant) :
    has_socket (s.setPlayer d q) (some slot) = has_socket s (some slot) := by
  have hne : d ≠ slot := by
    intro e
    subst e
    rw [hplayer] at hd
    cases hd
    have := (found_disconnected hfind hplayer).2.1
    rw [not_not.mp hstate] at this
    cases this
  simp only [has_socket, setPlayer_players, if_neg hne]

set_option maxHeartbeats 1000000 in
theorem handle_login_replies (s : Server) (slot : Nat) (msg : ParsedMessage) (now : Int)
    (hconn : has_socket s (some slot) = true) :
    ∀ r ∈ handle_login s slot msg now,
      replies_to slot r.2 = [protocol_create_login_ok BUFFER_SIZE] ∨
      (∃ (stones : Int) (my_turn : Bool) (mine theirs : Int), replies_to slot r.2 =
        [protocol_create_login_ok BUFFER_SIZE,
          protocol_create_game_resumed BUFFER_SIZE stones my_turn mine theirs]) ∨
      (∃ (err : ErrorCode) (detail : Option (List Char)), replies_to slot r.2 =
        [protocol_create_login_err BUFFER_SIZE err detail]) := by
  unfold handle_login
  simp only []
  repeat' split
  all_goals
    intro r hr
    cases hr
    try (have hk : ∀ q : Player, has_socket (s.setPlayer _ q) (some slot) =
          has_socket s (some slot) :=
        fun q => has_socket_takeover s slot _ _ _ _ q (by assumption) (by assumption)
          (by assumption) (by assumption))
    try simp only [replies_to_append, replies_to_send, replies_to_nil, has_socket_count_invalid,
      has_socket_set_state, has_socket_setRoom, has_socket_updPlayer, player_set_nickname,
      room_get_opponent_ne, hconn, and_self, false_and, if_true, if_false, implies_true,
      List.singleton_append, List.append_nil, List.nil_append]
    try simp only [hk, replies_to_append, replies_to_send, replies_to_nil,
      has_socket_set_state, has_socket_setRoom, has_socket_updPlayer, player_set_nickname,
      room_get_opponent_ne, hconn, and_self, false_and, if_true, if_false, implies_true,
      List.singleton_append, List.append_nil, List.nil_append]
    try first
      | exact Or.inl rfl
      | exact Or.inl trivial
      | exact Or.inr (Or.inl ⟨_, _, _, _, rfl⟩)
      | exact Or.inr (Or.inr ⟨_, _, rfl⟩)

/-- For a frame that parses, `server_handle_message` is the dispatch on the parsed
message. -/
theorem server_handle_message_parsed (s : Server) (slot : Nat) (player : Player)
    (message : List Char) (parsed : ParsedMessage) (now : Int)
    (hplayer : s.players[slot]? = some player)
    (hparse : protocol_parse_message message = (true, parsed)) :
    server_handle_message s slot message now = dispatch_message s slot parsed now := by
  unfold server_handle_message
  rw [hplayer]
  simp only [hparse, Bool.not_true, Bool.false_eq_true, if_false]

/-- The messages to the sender that a client command causes when its handler returns,
in a reachable state and for a connected player: LIST_ROOMS, LEAVE_ROOM, TAKE, SKIP and
PING cause exactly one; PONG and LOGOUT cause none; LOGIN causes `LOGIN_OK`, or
`LOGIN_OK` followed by `GAME_RESUMED`, or one `LOGIN_ERR`; CREATE_ROOM causes
`ROOM_CREATED` followed by `WAIT_OPPONENT`, or one `ROOM_ERR`; JOIN_ROOM causes
`ROOM_JOINED` followed by `GAME_START`, or one `ROOM_ERR`. -/
theorem command_reply_shapes {max_clients max_rooms : Nat} {s : Server}
    (h : Reachable max_clients max_rooms s) (slot : Nat) (player : Player)
    (message : List Char) (parsed : ParsedMessage) (now : Int)
    (hplayer : s.players[slot]? = some player) (hact : player.is_active = true)
    (hsock : 0 ≤ player.socket_fd)
    (hparse : protocol_parse_message message = (true, parsed)) :
    ∀ r ∈ server_handle_message s slot message now,
      (parsed.type = MessageType.MSG_LIST_ROOMS →
        (∃ listing : List Char, replies_to slot r.2 =
          [protocol_create_rooms BUFFER_SIZE listing]) ∨
        (∃ (err : ErrorCode) (detail : Option (List Char)), replies_to slot r.2 =
          [protocol_create_error BUFFER_SIZE err detail])) ∧
      (parsed.type = MessageType.MSG_LEAVE_ROOM →
        replies_to slot r.2 = [protocol_create_leave_ok BUFFER_SIZE] ∨
        (∃ (err : ErrorCode) (detail : Option (List Char)), replies_to slot r.2 =
          [protocol_create_error BUFFER_SIZE err detail])) ∧
      (parsed.type = MessageType.MSG_TAKE →
        (∃ (remaining : Int) (my_turn : Bool), replies_to slot r.2 =
          [protocol_create_take_ok BUFFER_SIZE remaining my_turn]) ∨
        (∃ (winner loser : List Char), replies_to slot r.2 =
          [protocol_create_game_over BUFFER_SIZE winner loser]) ∨
        (∃ (err : ErrorCode) (detail : Option (List Char)), replies_to slot r.2 =
          [protocol_create_take_err BUFFER_SIZE err detail])) ∧
      (parsed.type = MessageType.MSG_SKIP →
        (∃ my_turn : Bool, replies_to slot r.2 =
          [protocol_create_skip_ok BUFFER_SIZE my_turn]) ∨
        (∃ (err : ErrorCode) (detail : Option (List Char)), replies_to slot r.2 =
          [protocol_create_skip_err BUFFER_SIZE err detail])) ∧
      (parsed.type = MessageType.MSG_PING →
        replies_to slot r.2 = [protocol_create_pong BUFFER_SIZE]) ∧
      ((parsed.type = MessageType.MSG_PONG ∨ parsed.type = MessageType.MSG_LOGOUT) →
        replies_to slot r.2 = []) ∧
      (parsed.type = MessageType.MSG_LOGIN →
        replies_to slot r.2 = [protocol_create_login_ok BUFFER_SIZE] ∨
        (∃ (stones : Int) (my_turn : Bool) (mine theirs : Int), replies_to slot r.2 =
          [protocol_create_login_ok BUFFER_SIZE,
            protocol_create_game_resumed BUFFER_SIZE stones my_turn mine theirs]) ∨
        (∃ (err : ErrorCode) (detail : Option (List Char)), replies_to slot r.2 =
          [protocol_create_login_err BUFFER_SIZE err detail])) ∧
      (parsed.type = MessageType.MSG_CREATE_ROOM →
        (∃ id : Int, replies_to slot r.2 =
          [protocol_create_room_created BUFFER_SIZE id,
            protocol_create_wait_opponent BUFFER_SIZE]) ∨
        (∃ (err : ErrorCode) (detail : Option (List Char)), replies_to slot r.2 =
          [protocol_create_room_err BUFFER_SIZE err detail])) ∧
      (parsed.type = MessageType.MSG_JOIN_ROOM →
        (∃ (waiting : List Char) (stones : Int) (my_turn : Bool) (opponent : List Char),
          replies_to slot r.2 =
            [protocol_create_room_joined BUFFER_SIZE (atoi (parsed.param 0)) waiting,
              protocol_create_game_start BUFFER_SIZE stones my_turn opponent]) ∨
        (∃ (err : ErrorCode) (detail : Option (List Char)), replies_to slot r.2 =
          [protocol_create_room_err BUFFER_SIZE err detail])) := by
  have hinv := reachable_inv h
  have hconn := has_socket_of_player hplayer hsock
  have hactive : PlayerSat (fun p => p.is_active = true) slot s := by
    intro p hp
    rw [hplayer] at hp
    cases hp
    exact hact
  rw [server_handle_message_parsed s slot player message parsed now hplayer hparse]
  intro r hr
  unfold dispatch_message at hr
  refine ⟨?_, ?_, ?_, ?_, ?_, ?_, ?_, ?_, ?_⟩
  · intro e
    rw [e] at hr
    exact handle_list_rooms_replies s slot parsed hconn r hr
  · intro e
    rw [e] at hr
    exact handle_leave_room_replies s slot parsed hconn r hr
  · intro e
    rw [e] at hr
    exact handle_take_replies s slot parsed hconn r hr
  · intro e
    rw [e] at hr
    exact handle_skip_replies s slot parsed hconn r hr
  · intro e
    rw [e] at hr
    exact handle_ping_replies s slot parsed hconn r hr
  · rintro (e | e) <;> rw [e] at hr <;> simp only [] at hr
    · rw [handle_pong_replies s slot parsed now r hr]
      rfl
    · cases hr
      exact disconnect_replies s slot true now
  · intro e
    rw [e] at hr
    exact handle_login_replies s slot parsed now hconn r hr
  · intro e
    rw [e] at hr
    exact handle_create_room_replies s slot parsed hconn r hr
  · intro e
    rw [e] at hr
    exact handle_join_room_replies s slot parsed hinv hactive hconn r hr

/-! ## Handlers return -/

theorem returns_some {α : Type} (x : α) : ∃ r, (some x : Option α) = some r := ⟨x, rfl⟩

theorem room_add_player_rooms_isSome (t : Server) (r k : Nat) (x : Option Nat)
    (h : (t.rooms[k]?).isSome = true) :
    (((room_add_player t r x).2).rooms[k]?).isSome = true := by
  unfold room_add_player
  repeat' split
  all_goals first
    | exact h
    | (simp only [updPlayer_rooms, setRoom_rooms]
       split_ifs <;> simp_all)

theorem player_set_state_rooms (t : Server) (x : Option Nat) (st : PlayerState) :
    (player_set_state t x st).rooms = t.rooms := by
  unfold player_set_state
  cases x with
  | none => rfl
  | some i => exact updPlayer_rooms _ _ _

/-- A player whose room id finds room `r` sits at index 0 or 1 of that room. -/
theorem member_index {s : Server} {slot r : Nat} {player : Player} {room : Room}
    (h : ServerOK s) (hplayer : s.players[slot]? = some player)
    (hact : player.is_active = true)
    (hfind : room_find_by_id s.rooms player.room_id = some r)
    (hroom : s.rooms[r]? = some room) :
    room.has slot := by
  obtain ⟨h0, _, hr, _⟩ := room_find_by_id_eq_some.mp hfind
  obtain ⟨room', hroom', hhas⟩ := h.player_cell slot player hplayer hact h0
  rw [hr, hroom] at hroom'
  cases hroom'
  exact hhas

theorem handle_list_rooms_returns (s : Server) (slot : Nat) (msg : ParsedMessage)
    (player : Player) (hplayer : s.players[slot]? = some player) :
    ∃ r, handle_list_rooms s slot msg = some r := by
  unfold handle_list_rooms
  rw [hplayer]
  simp only []
  split <;> exact returns_some _

theorem handle_ping_returns (s : Server) (slot : Nat) (msg : ParsedMessage)
    (player : Player) (hplayer : s.players[slot]? = some player) :
    ∃ r, handle_ping s slot msg = some r := by
  unfold handle_ping
  rw [hplayer]
  exact returns_some _

theorem handle_pong_returns (s : Server) (slot : Nat) (msg : ParsedMessage) (now : Int)
    (player : Player) (hplayer : s.players[slot]? = some player) :
    ∃ r, handle_pong s slot msg now = some r := by
  unfold handle_pong
  rw [hplayer]
  exact returns_some _

theorem handle_create_room_returns (s : Server) (slot : Nat) (msg : ParsedMessage)
    (player : Player) (hplayer : s.players[slot]? = some player) :
    ∃ r, handle_create_room s slot msg = some r := by
  unfold handle_create_room
  rw [hplayer]
  simp only []
  repeat' split
  all_goals exact returns_some _

theorem handle_leave_room_returns (s : Server) (slot : Nat) (msg : ParsedMessage)
    (player : Player) (hplayer : s.players[slot]? = some player) :
    ∃ r, handle_leave_room s slot msg = some r := by
  unfold handle_leave_room
  rw [hplayer]
  simp only []
  repeat' split
  all_goals first
    | exact returns_some _
    | exact found_room_exists (by assumption) (by assumption)

theorem joined_room_exists {Q : Prop} {s : Server} {r : Nat} {room : Room} {x y : Option Nat}
    {st : PlayerState} (hroom : s.rooms[r]? = some room)
    (hnone : (player_set_state (room_add_player s r x).2 y st).rooms[r]? = none) : Q := by
  have h := room_add_player_rooms_isSome s r r x (by simp [hroom])
  rw [player_set_state_rooms] at hnone
  rw [hnone] at h
  cases h

theorem handle_join_room_returns (s : Server) (slot : Nat) (msg : ParsedMessage)
    (player : Player) (hplayer : s.players[slot]? = some player) :
    ∃ r, handle_join_room s slot msg = some r := by
  unfold handle_join_room
  rw [hplayer]
  simp only []
  repeat' split
  all_goals first
    | exact returns_some _
    | exact found_room_exists (by assumption) (by assumption)
    | exact joined_room_exists (by assumption) (by assumption)


theorem index_skips_some (g : Game) {i : Int} (h : i = 0 ∨ i = 1) :
    ∃ v, g.player_skips i = some v := by
  rcases h with e | e <;> subst e <;> simp [Game.player_skips]

theorem skips_none_absurd {Q : Prop} {g : Game} {i : Int} (hi : i = 0 ∨ i = 1)
    (hnone : g.player_skips i = none) : Q := by
  obtain ⟨v, hv⟩ := index_skips_some g hi
  rw [hv] at hnone
  cases hnone

theorem can_skip_none_absurd {Q : Prop} {g : Game} {i : Int} (hi : i = 0 ∨ i = 1)
    (hnone : game_can_skip g i = none) : Q := by
  obtain ⟨v, hv⟩ := index_skips_some g hi
  simp [game_can_skip, hv] at hnone

theorem skip_turn_none_absurd {Q : Prop} {g : Game} {i : Int} (hi : i = 0 ∨ i = 1)
    (hnone : game_skip_turn g i = none) : Q := by
  rcases hi with e | e
  · rw [e, game_skip_turn_zero] at hnone
    cases hnone
  · rw [e, game_skip_turn_one] at hnone
    cases hnone

theorem handle_skip_returns (s : Server) (slot : Nat) (msg : ParsedMessage)
    (player : Player) (h : ServerOK s) (hplayer : s.players[slot]? = some player)
    (hact : player.is_active = true) :
    ∃ r, handle_skip s slot msg = some r := by
  unfold handle_skip
  rw [hplayer]
  simp only []
  repeat' split
  all_goals first
    | exact returns_some _
    | exact found_room_exists (by assumption) (by assumption)
    | exact can_skip_none_absurd (room_index_of_member
        (member_index h hplayer hact (by assumption) (by assumption))) (by assumption)
    | exact skip_turn_none_absurd (room_index_of_member
        (member_index h hplayer hact (by assumption) (by assumption))) (by assumption)
    | exact skips_none_absurd (room_index_of_member
        (member_index h hplayer hact (by assumption) (by assumption))) (by assumption)

theorem found_player_exists {Q : Prop} {players : List Player} {nickname : List Char}
    {d : Nat} (h : player_find_disconnected players nickname = some d)
    (hnone : players[d]? = none) : Q := by
  obtain ⟨x, hx, _⟩ := find_first_some_spec _ _ _ h
  rw [hnone] at hx
  cases hx

theorem setPlayer_players_isSome (t : Server) (i slot : Nat) (p : Player)
    (h : (t.players[slot]?).isSome = true) :
    ((t.setPlayer i p).players[slot]?).isSome = true := by
  rw [setPlayer_players]
  split_ifs <;> simp_all

theorem room_replace_player_has {room : Room} {d slot : Nat} (h : room.has d) :
    (room_replace_player room d slot).has slot := by
  unfold room_replace_player
  rcases h with e | e
  · rw [if_pos e]
    exact Or.inl rfl
  · by_cases e0 : room.players0 = some d
    · rw [if_pos e0]
      exact Or.inl rfl
    · rw [if_neg e0, if_pos e]
      exact Or.inr rfl

set_option maxHeartbeats 1000000 in
theorem handle_login_returns (s : Server) (slot : Nat) (msg : ParsedMessage) (now : Int)
    (player : Player) (h : ServerOK s) (hplayer : s.players[slot]? = some player) :
    ∃ r, handle_login s slot msg now = some r := by
  unfold handle_login
  rw [hplayer]
  simp only []
  repeat' split
  all_goals first
    | exact returns_some _
    | exact found_room_exists (by assumption) (by assumption)
    | exact found_player_exists (by assumption) (by assumption)
    | skip
  rename_i hst hpar hval _ d hd _ dormant hdp hrid _ r hfind _ room hroom hpaused _ _ hx
  exfalso
  have hdormant := found_disconnected hd hdp
  simp only [updPlayer_rooms, setPlayer_rooms] at hfind hroom
  obtain ⟨h0, _, hr, _⟩ := room_find_by_id_eq_some.mp hfind
  obtain ⟨room', hroom', hhas⟩ := h.player_cell d dormant hdp hdormant.1 h0
  rw [hr, hroom] at hroom'
  cases hroom'
  have hhas2 : ({ room_replace_player room d slot with
      game := game_resume (room_replace_player room d slot).game } : Room).has slot :=
    room_replace_player_has hhas
  have hidx := room_index_of_member hhas2
  have hsome : (s.players[slot]?).isSome = true := by simp [hplayer]
  obtain ⟨me, hme⟩ := Option.isSome_iff_exists.mp
    (setRoom_players_isSome _ r _ slot
      (player_set_state_players_isSome _ (some slot) _ slot
        (setRoom_players_isSome _ r _ slot
          (updPlayer_players_isSome _ slot slot _
            (setPlayer_players_isSome s d slot (player_reset dormant false now) hsome)))))
  obtain ⟨v, hv⟩ := index_skips_some (game_resume (room_replace_player room d slot).game)
    (i := 1 - room_get_player_index ({ room_replace_player room d slot with
      game := game_resume (room_replace_player room d slot).game } : Room) (some slot))
    (by omega)
  exact hx me v hme hv

/-- A player reference of a room names a record. -/
theorem cell_record {s : Server} {r : Nat} {room : Room} (h : ServerOK s)
    (hroom : s.rooms[r]? = some room) {g : Game} {i : Int} {w : Nat}
    (hc : ({ room with game := g } : Room).players i = some (some w)) :
    ∃ p, s.players[w]? = some p := by
  have hhas : room.has w := by
    unfold Room.players at hc
    simp only [] at hc
    split_ifs at hc
    · exact Or.inl (Option.some.inj hc)
    · exact Or.inr (Option.some.inj hc)
  obtain ⟨p, hp, _⟩ := h.cell_player r room w hroom hhas
  exact ⟨p, hp⟩

/-- After an accepted take that ends the game in a room with both places taken, the
places of the winner and of the loser are taken. -/
theorem final_take_cells {room : Room} {slot : Nat} {k : Int} (hhas : room.has slot)
    (hacc : (game_take_stones room.game (room_get_player_index room (some slot)) k).1 = true)
    (hover : game_is_over
      (game_take_stones room.game (room_get_player_index room (some slot)) k).2 = true)
    (hguard : (game_take_stones room.game (room_get_player_index room (some slot)) k).2.stones
      = 0 → room.players0 ≠ none ∧ room.players1 ≠ none) :
    ∃ w l : Nat,
      ({ room with game :=
          (game_take_stones room.game (room_get_player_index room (some slot)) k).2 } :
        Room).players (game_get_winner
          (game_take_stones room.game (room_get_player_index room (some slot)) k).2) =
        some (some w) ∧
      ({ room with game :=
          (game_take_stones room.game (room_get_player_index room (some slot)) k).2 } :
        Room).players (1 - game_get_winner
          (game_take_stones room.game (room_get_player_index room (some slot)) k).2) =
        some (some l) := by
  have hidx := room_index_of_member hhas
  rw [game_take_stones_eq] at hacc hover hguard ⊢
  by_cases hg : room.game.state = GameState.PLAYING ∧
      room.game.current_player = room_get_player_index room (some slot) ∧ 1 ≤ k ∧ k ≤ 3 ∧
      k ≤ room.game.stones
  · rw [if_pos hg] at hacc hover hguard ⊢
    by_cases hz : room.game.stones - k = 0
    · rw [if_pos hz] at hover hguard ⊢
      obtain ⟨h0, h1⟩ := hguard hz
      obtain ⟨a, ha⟩ := Option.ne_none_iff_exists'.mp h0
      obtain ⟨b, hb⟩ := Option.ne_none_iff_exists'.mp h1
      rcases hidx with e | e
      · refine ⟨b, a, ?_, ?_⟩ <;> simp [game_get_winner, Room.players, e, ha, hb]
      · refine ⟨a, b, ?_, ?_⟩ <;> simp [game_get_winner, Room.players, e, ha, hb]
    · rw [if_neg hz] at hover
      simp [game_is_over, hg.1] at hover
  · rw [if_neg hg] at hacc
    simp at hacc

set_option maxHeartbeats 1000000 in
theorem handle_take_returns (s : Server) (slot : Nat) (msg : ParsedMessage)
    (player : Player) (h : ServerOK s) (hplayer : s.players[slot]? = some player)
    (hact : player.is_active = true)
    (hguard : ∀ (r : Nat) (room : Room), s.rooms[r]? = some room → room.has slot →
      (game_take_stones room.game (room_get_player_index room (some slot))
        (atoi (msg.param 0))).1 = true →
      (game_take_stones room.game (room_get_player_index room (some slot))
        (atoi (msg.param 0))).2.stones = 0 →
      room.players0 ≠ none ∧ room.players1 ≠ none) :
    ∃ r, handle_take s slot msg = some r := by
  unfold handle_take
  rw [hplayer]
  simp only []
  repeat' split
  all_goals first
    | exact returns_some _
    | exact found_room_exists (by assumption) (by assumption)
    | skip
  · rename_i _ _ _ r hfind _ room hroom _ _ hacc hover _ _ w l hw hl _ _ hx
    exfalso
    obtain ⟨pw, hpw⟩ := cell_record h hroom hw
    obtain ⟨pl, hpl⟩ := cell_record h hroom hl
    exact hx pw pl (by rw [setRoom_players]; exact hpw) (by rw [setRoom_players]; exact hpl)
  · rename_i _ _ _ r hfind _ room hroom _ _ hacc hover _ _ hx
    exfalso
    have hhas := member_index h hplayer hact hfind hroom
    have hacc2 : (game_take_stones room.game (room_get_player_index room (some slot))
        (atoi (msg.param 0))).1 = true := by
      simpa using hacc
    obtain ⟨w, l, hw, hl⟩ := final_take_cells hhas hacc2 hover
      (hguard r room hroom hhas hacc2)
    exact hx w l hw hl

/-- In a consistent state every handler returns, a take that ends the game in a room
with a free place excepted. -/
theorem dispatch_message_returns (s : Server) (slot : Nat) (parsed : ParsedMessage)
    (now : Int) (player : Player) (h : ServerOK s)
    (hplayer : s.players[slot]? = some player) (hact : player.is_active = true)
    (hguard : parsed.type = MessageType.MSG_TAKE →
      ∀ (r : Nat) (room : Room), s.rooms[r]? = some room → room.has slot →
        (game_take_stones room.game (room_get_player_index room (some slot))
          (atoi (parsed.param 0))).1 = true →
        (game_take_stones room.game (room_get_player_index room (some slot))
          (atoi (parsed.param 0))).2.stones = 0 →
        room.players0 ≠ none ∧ room.players1 ≠ none) :
    ∃ r, dispatch_message s slot parsed now = some r := by
  unfold dispatch_message
  split
  · exact handle_login_returns s slot parsed now player h hplayer
  · exact handle_list_rooms_returns s slot parsed player hplayer
  · exact handle_create_room_returns s slot parsed player hplayer
  · exact handle_join_room_returns s slot parsed player hplayer
  · exact handle_leave_room_returns s slot parsed player hplayer
  · exact handle_take_returns s slot parsed player h hplayer hact (hguard (by assumption))
  · exact handle_skip_returns s slot parsed player h hplayer hact
  · exact handle_ping_returns s slot parsed player hplayer
  · exact handle_pong_returns s slot parsed now player hplayer
  · exact returns_some _
  · exact returns_some _

theorem command_reply_total {max_clients max_rooms : Nat} {s : Server}
    (h : Reachable max_clients max_rooms s) (slot : Nat) (player : Player)
    (message : List Char) (parsed : ParsedMessage) (now : Int)
    (hplayer : s.players[slot]? = some player) (hact : player.is_active = true)
    (hparse : protocol_parse_message message = (true, parsed))
    (hguard : parsed.type = MessageType.MSG_TAKE →
      ∀ (r : Nat) (room : Room), s.rooms[r]? = some room → room.has slot →
        (game_take_stones room.game (room_get_player_index room (some slot))
          (atoi (parsed.param 0))).1 = true →
        (game_take_stones room.game (room_get_player_index room (some slot))
          (atoi (parsed.param 0))).2.stones = 0 →
        room.players0 ≠ none ∧ room.players1 ≠ none) :
    ∃ r, server_handle_message s slot message now = some r := by
  rw [server_handle_message_parsed s slot player message parsed now hplayer hparse]
  exact dispatch_message_returns s slot parsed now player (reachable_inv h) hplayer hact hguard

/-- The state of the fixture with three stones left is reachable. -/
theorem scenario_last_stones_reachable : Reachable 3 2 scenario_last_stones :=
  ⟨scenario_last_stones_events, _, rfl⟩

set_option maxRecDepth 100000

/-- Claim C27, as the code has it.  In a reachable state, for a connected player and a
frame that parses to a client command, a TAKE that takes the last stones in a room with
a free place excepted, `server_handle_message` returns, and: LIST_ROOMS, LEAVE_ROOM,
TAKE, SKIP and PING cause exactly one message to the sender (the success reply, for the
TAKE that ends the game the `GAME_OVER` text, or the error reply); PONG and LOGOUT
cause none; LOGIN causes `LOGIN_OK`, or `LOGIN_OK` followed by `GAME_RESUMED`, or one
`LOGIN_ERR`; CREATE_ROOM causes `ROOM_CREATED` followed by `WAIT_OPPONENT`, or one
`ROOM_ERR`; JOIN_ROOM causes `ROOM_JOINED` followed by `GAME_START`, or one
`ROOM_ERR`. -/
theorem command_reply_contract {max_clients max_rooms : Nat} {s : Server}
    (h : Reachable max_clients max_rooms s) (slot : Nat) (player : Player)
    (message : List Char) (parsed : ParsedMessage) (now : Int)
    (hplayer : s.players[slot]? = some player) (hact : player.is_active = true)
    (hsock : 0 ≤ player.socket_fd)
    (hparse : protocol_parse_message message = (true, parsed))
    (hguard : parsed.type = MessageType.MSG_TAKE →
      ∀ (r : Nat) (room : Room), s.rooms[r]? = some room → room.has slot →
        (game_take_stones room.game (room_get_player_index room (some slot))
          (atoi (parsed.param 0))).1 = true →
        (game_take_stones room.game (room_get_player_index room (some slot))
          (atoi (parsed.param 0))).2.stones = 0 →
        room.players0 ≠ none ∧ room.players1 ≠ none) :
    ∃ r, server_handle_message s slot message now = some r ∧
      (parsed.type = MessageType.MSG_LIST_ROOMS →
        (∃ listing : List Char, replies_to slot r.2 =
          [protocol_create_rooms BUFFER_SIZE listing]) ∨
        (∃ (err : ErrorCode) (detail : Option (List Char)), replies_to slot r.2 =
          [protocol_create_error BUFFER_SIZE err detail])) ∧
      (parsed.type = MessageType.MSG_LEAVE_ROOM →
        replies_to slot r.2 = [protocol_create_leave_ok BUFFER_SIZE] ∨
        (∃ (err : ErrorCode) (detail : Option (List Char)), replies_to slot r.2 =
          [protocol_create_error BUFFER_SIZE err detail])) ∧
      (parsed.type = MessageType.MSG_TAKE →
        (∃ (remaining : Int) (my_turn : Bool), replies_to slot r.2 =
          [protocol_create_take_ok BUFFER_SIZE remaining my_turn]) ∨
        (∃ (winner loser : List Char), replies_to slot r.2 =
          [protocol_create_game_over BUFFER_SIZE winner loser]) ∨
        (∃ (err : ErrorCode) (detail : Option (List Char)), replies_to slot r.2 =
          [protocol_create_take_err BUFFER_SIZE err detail])) ∧
      (parsed.type = MessageType.MSG_SKIP →
        (∃ my_turn : Bool, replies_to slot r.2 =
          [protocol_create_skip_ok BUFFER_SIZE my_turn]) ∨
        (∃ (err : ErrorCode) (detail : Option (List Char)), replies_to slot r.2 =
          [protocol_create_skip_err BUFFER_SIZE err detail])) ∧
      (parsed.type = MessageType.MSG_PING →
        replies_to slot r.2 = [protocol_create_pong BUFFER_SIZE]) ∧
      ((parsed.type = MessageType.MSG_PONG ∨ parsed.type = MessageType.MSG_LOGOUT) →
        replies_to slot r.2 = []) ∧
      (parsed.type = MessageType.MSG_LOGIN →
        replies_to slot r.2 = [protocol_create_login_ok BUFFER_SIZE] ∨
        (∃ (stones : Int) (my_turn : Bool) (mine theirs : Int), replies_to slot r.2 =
          [protocol_create_login_ok BUFFER_SIZE,
            protocol_create_game_resumed BUFFER_SIZE stones my_turn mine theirs]) ∨
        (∃ (err : ErrorCode) (detail : Option (List Char)), replies_to slot r.2 =
          [protocol_create_login_err BUFFER_SIZE err detail])) ∧
      (parsed.type = MessageType.MSG_CREATE_ROOM →
        (∃ id : Int, replies_to slot r.2 =
          [protocol_create_room_created BUFFER_SIZE id,
            protocol_create_wait_opponent BUFFER_SIZE]) ∨
        (∃ (err : ErrorCode) (detail : Option (List Char)), replies_to slot r.2 =
          [protocol_create_room_err BUFFER_SIZE err detail])) ∧
      (parsed.type = MessageType.MSG_JOIN_ROOM →
        (∃ (waiting : List Char) (stones : Int) (my_turn : Bool) (opponent : List Char),
          replies_to slot r.2 =
            [protocol_create_room_joined BUFFER_SIZE (atoi (parsed.param 0)) waiting,
              protocol_create_game_start BUFFER_SIZE stones my_turn opponent]) ∨
        (∃ (err : ErrorCode) (detail : Option (List Char)), replies_to slot r.2 =
          [protocol_create_room_err BUFFER_SIZE err detail])) := by
  obtain ⟨r, hr⟩ := command_reply_total h slot player message parsed now hplayer hact hparse
    hguard
  exact ⟨r, hr, command_reply_shapes h slot player message parsed now hplayer hact hsock
    hparse r hr⟩

/-- Witness of C27: with three stones left alice, playing against bob, sends `TAKE;3`
and gets the one reply `GAME_OVER;bob;alice`. -/
theorem command_reply_contract_witness :
    Reachable 3 2 scenario_last_stones ∧
    ∃ r, server_handle_message scenario_last_stones 0 "TAKE;3".toList 107 = some r ∧
      replies_to 0 r.2 = ["GAME_OVER;bob;alice\n".toList] :=
  ⟨scenario_last_stones_reachable,
    match command_reply_contract scenario_last_stones_reachable 0 _ "TAKE;3".toList
      (take_message "3".toList) 107 rfl rfl (by decide) rfl
      (by
        intro _ r room hroom hhas _ _
        match r, hroom with
        | 0, hroom =>
          cases hroom
          exact ⟨by decide, by decide⟩
        | 1, hroom =>
          cases hroom
          rcases hhas with e | e <;> cases e
        | n + 2, hroom => cases hroom) with
    | ⟨r, hr, hshape⟩ => ⟨r, hr, by
        have e : server_handle_message scenario_last_stones 0 "TAKE;3".toList 107 =
            some r := hr
        have : (server_handle_message scenario_last_stones 0 "TAKE;3".toList 107).map
            (fun r => replies_to 0 r.2) = some ["GAME_OVER;bob;alice\n".toList] := rfl
        rw [e] at this
        exact Option.some.inj this⟩⟩

/-- Counterexample to C27 as stated: `PONG` and `LOGOUT` cause no message to the
sender, and a successful `CREATE_ROOM`, a successful `JOIN_ROOM` and a `LOGIN` that
resumes a paused game each cause two. -/
theorem command_replies_counterexample :
    (server_handle_message scenario_started 0 "PONG".toList 101).map
        (fun r => replies_to 0 r.2) = some [] ∧
    (server_handle_message scenario_started 0 "LOGOUT".toList 101).map
        (fun r => (replies_to 0 r.2, replies_to 1 r.2)) =
      some ([], ["GAME_OVER;bob;alice\n".toList]) ∧
    (run_events (server_initial 3 2)
        [ServerEvent.connection 4 100, ServerEvent.received 0 "LOGIN;alice\n".toList 100,
          ServerEvent.received 0 "CREATE_ROOM;r1\n".toList 101]).map
        (fun r => replies_to 0 r.2) =
      some ["LOGIN_OK\n".toList, "ROOM_CREATED;0\n".toList, "WAIT_OPPONENT\n".toList] ∧
    (run_events (server_initial 3 2) scenario_setup_events).map (fun r => replies_to 1 r.2) =
      some ["LOGIN_OK\n".toList, "ROOM_JOINED;0;\n".toList,
        "GAME_START;21;0;alice\n".toList] ∧
    (server_handle_message scenario_reconnecting 2 "LOGIN;alice".toList 103).map
        (fun r => replies_to 2 r.2) =
      some ["LOGIN_OK\n".toList, "GAME_RESUMED;21;1;1;1\n".toList] := by
  refine ⟨rfl, rfl, rfl, rfl, rfl⟩

/-! ## Properties of a record that the events keep -/

theorem PlayerSat.set_player {Q : Player → Prop} {x : Nat} {t : Server} (y : Nat)
    (old new : Player) (hold : t.players[y]? = some old) (hnew : Q old → Q new)
    (h : PlayerSat Q x t) : PlayerSat Q x (t.setPlayer y new) := by
  intro p hp
  rw [setPlayer_players] at hp
  by_cases hyx : y = x
  · subst hyx
    rw [if_pos rfl, hold] at hp
    cases hp
    exact hnew (h old hold)
  · rw [if_neg hyx] at hp
    exact h p hp

set_option maxHeartbeats 1000000 in
theorem HandlerStable.kept_timeout {Q : Player → Prop} (hQ : HandlerStable Q) {x : Nat}
    {t : Server} (slot : Nat) (now : Int) (h : PlayerSat Q x t) :
    PlayerSat Q x (server_handle_timeout t slot now).1 := by
  unfold server_handle_timeout
  simp only []
  repeat' split
  all_goals
    with_reducible repeat (first
      | exact h
      | apply HandlerStable.kept_reset_self hQ
      | apply HandlerStable.kept_set_room hQ
      | refine HandlerStable.kept_set_state hQ _ _ (fun e => PlayerState.noConfusion e) ?_
      | apply HandlerStable.kept_remove hQ)

set_option maxHeartbeats 1000000 in
theorem check_timeouts_slot_kept {Q : Player → Prop} (hQ : HandlerStable Q) {x : Nat}
    (s : Server) (slot : Nat) (now : Int) (h : PlayerSat Q x s) :
    PlayerSat Q x (check_timeouts_slot s slot now).1 := by
  unfold check_timeouts_slot
  simp only []
  repeat' split
  all_goals
    with_reducible repeat (first
      | exact h
      | apply HandlerStable.kept_timeout hQ
      | apply HandlerStable.kept_disconnect hQ
      | refine HandlerStable.kept_update hQ _ _ (by intro p; exact ⟨rfl, rfl, rfl, rfl, rfl, rfl, rfl, rfl⟩) ?_)

theorem check_timeouts_loop_kept {Q : Player → Prop} (hQ : HandlerStable Q) {x : Nat}
    (now : Int) (slots : List Nat) :
    ∀ s : Server, PlayerSat Q x s → PlayerSat Q x (check_timeouts_loop now slots s).1 := by
  induction slots with
  | nil => intro s h; exact h
  | cons slot rest ih =>
    intro s h
    exact ih _ (check_timeouts_slot_kept hQ s slot now h)

theorem server_check_timeouts_kept {Q : Player → Prop} (hQ : HandlerStable Q) {x : Nat}
    (s : Server) (now : Int) (h : PlayerSat Q x s) :
    PlayerSat Q x (server_check_timeouts s now).1 :=
  check_timeouts_loop_kept hQ now _ s h

theorem accept_new_client_kept {Q : Player → Prop} {x : Nat} (s : Server) (client_fd : Int)
    (now : Int) (hcreate : Q (player_create client_fd now)) (h : PlayerSat Q x s) :
    PlayerSat Q x (accept_new_client s client_fd now) := by
  unfold accept_new_client
  split
  · exact h
  · rename_i slot hfind
    intro p hp
    rw [setPlayer_players] at hp
    by_cases hyx : slot = x
    · rw [if_pos hyx] at hp
      cases hq : s.players[x]? with
      | none => rw [hq] at hp; cases hp
      | some q =>
        rw [hq] at hp
        cases hp
        exact hcreate
    · rw [if_neg hyx] at hp
      exact h p hp

theorem process_frame_kept {Q : Player → Prop} (hQ : HandlerStable Q)
    (hlim : ∀ (p : Player) (now : Int), Q p → Q (check_rate_limit p now).2) {x : Nat}
    (s : Server) (slot : Nat) (frame : List Char) (now : Int) (h : PlayerSat Q x s) :
    ∀ r ∈ process_frame s slot frame now, PlayerSat Q x r.1 := by
  unfold process_frame
  split
  · intro r hr
    cases hr
  · rename_i player hplayer
    have h1 : PlayerSat Q x (s.setPlayer slot (check_rate_limit player now).2) :=
      PlayerSat.set_player slot player _ hplayer (hlim player now) h
    simp only []
    split
    · intro r hr
      cases hr
      exact hQ.kept_count_invalid slot h1
    · split
      · intro r hr
        cases hr
      · rename_i result hresult
        intro r hr
        cases hr
        exact server_handle_message_kept hQ _ slot frame now h1 result hresult

theorem process_lines_kept {Q : Player → Prop} (hQ : HandlerStable Q)
    (hlim : ∀ (p : Player) (now : Int), Q p → Q (check_rate_limit p now).2) {x : Nat}
    (slot : Nat) (now : Int) (lines : List (List Char)) :
    ∀ s : Server, PlayerSat Q x s → ∀ r ∈ process_lines s slot now lines,
      PlayerSat Q x r.1 := by
  induction lines with
  | nil =>
    intro s h r hr
    simp only [process_lines, Option.mem_def, Option.some.injEq] at hr
    subst hr
    exact h
  | cons line rest ih =>
    intro s h r hr
    rw [process_lines] at hr
    by_cases hlen : (strip_cr line).length > 0
    · simp only [hlen, if_true] at hr
      cases hf : process_frame s slot (strip_cr line) now with
      | none => rw [hf] at hr; cases hr
      | some r1 =>
        obtain ⟨s1, out, d⟩ := r1
        rw [hf] at hr
        simp only [] at hr
        have h1 : PlayerSat Q x s1 := process_frame_kept hQ hlim s slot _ now h _ hf
        cases hp : s1.players[slot]? with
        | none => rw [hp] at hr; cases hr
        | some p1 =>
          rw [hp] at hr
          simp only [] at hr
          split_ifs at hr
          · cases hr
            exact h1
          · cases hrec : process_lines s1 slot now rest with
            | none => rw [hrec] at hr; cases hr
            | some r2 =>
              obtain ⟨s2, out2, fin⟩ := r2
              rw [hrec] at hr
              cases hr
              exact ih s1 h1 (s2, out2, fin) hrec
    · simp only [hlen, if_false] at hr
      exact ih s h r hr

set_option maxHeartbeats 1000000 in
theorem read_from_client_kept {Q : Player → Prop} (hQ : EventStable Q) {x : Nat}
    (s : Server) (slot : Nat) (buffer : List Char) (now : Int) (h : PlayerSat Q x s) :
    ∀ r ∈ read_from_client s slot buffer now, PlayerSat Q x r.1 := by
  have hact : PlayerSat Q x (s.updPlayer slot (fun p => player_update_activity p now)) :=
    hQ.handlers.kept_update slot _ (fun _ => ⟨rfl, rfl, rfl, rfl, rfl, rfl, rfl, rfl⟩) h
  have hbuf : ∀ (text : List Char) (len : Int),
      PlayerSat Q x ((s.updPlayer slot (fun p => player_update_activity p now)).updPlayer slot
        (fun p => { p with recv_buffer := text, recv_buffer_len := len })) :=
    fun text len => hact.after_update slot _ (fun p hp => hQ.buffered p text len hp)
  unfold read_from_client
  split
  · intro r hr
    cases hr
  · simp only []
    split
    · split
      · exact opt_inv_some (hQ.handlers.kept_disconnect slot false now
          (hQ.handlers.kept_count_invalid slot hact))
      · exact opt_inv_some (hQ.handlers.kept_count_invalid slot hact)
    · split
      · exact opt_inv_pair (hQ.handlers.kept_disconnect slot false now hact)
      · split
        · exact opt_inv_some (hQ.handlers.kept_disconnect slot false now (hbuf _ _))
        · intro r hr
          cases hl : process_lines ((s.updPlayer slot
              (fun p => player_update_activity p now)).updPlayer slot
              (fun p => { p with recv_buffer := _, recv_buffer_len := _ })) slot now _ with
          | none => rw [hl] at hr; cases hr
          | some r1 =>
            have h1 := process_lines_kept hQ.handlers hQ.limited slot now _ _ (hbuf _ _) r1 hl
            obtain ⟨s2, out, fin⟩ := r1
            rw [hl] at hr
            cases fin with
            | false =>
              cases hr
              exact h1
            | true =>
              cases hr
              refine PlayerSat.after_update slot _ ?_ h1
              intro p hp
              split_ifs
              · exact hQ.buffered p _ _ hp
              · exact hQ.buffered p _ _ hp

theorem server_step_kept {Q : Player → Prop} (hQ : HandlerStable Q)
    (hcreate : ∀ (fd : Int) (now : Int), Q (player_create fd now))
    (hread : ∀ (s : Server) (slot : Nat) (buffer : List Char) (now : Int),
      (∀ x : Nat, PlayerSat Q x s) → ∀ r ∈ read_from_client s slot buffer now,
        ∀ x : Nat, PlayerSat Q x r.1)
    (s : Server) (event : ServerEvent) (h : ∀ x : Nat, PlayerSat Q x s) :
    ∀ r ∈ server_step s event, ∀ x : Nat, PlayerSat Q x r.1 := by
  cases event with
  | connection client_fd now =>
    simp only [server_step]
    split
    · intro r hr
      cases hr
      exact h
    · intro r hr
      cases hr
      exact fun x => accept_new_client_kept s client_fd now (hcreate _ _) (h x)
  | received slot buffer now =>
    simp only [server_step]
    split
    · intro r hr
      cases hr
      exact h
    · split
      · exact hread s slot buffer now h
      · intro r hr
        cases hr
        exact h
  | closed slot now =>
    simp only [server_step]
    split
    · intro r hr
      cases hr
      exact h
    · split
      · intro r hr
        cases hr
        exact fun x => hQ.kept_disconnect slot false now (h x)
      · intro r hr
        cases hr
        exact h
  | tick now =>
    simp only [server_step]
    intro r hr
    cases hr
    exact fun x => server_check_timeouts_kept hQ s now (h x)

theorem run_events_kept {Q : Player → Prop} (hQ : HandlerStable Q)
    (hcreate : ∀ (fd : Int) (now : Int), Q (player_create fd now))
    (hread : ∀ (s : Server) (slot : Nat) (buffer : List Char) (now : Int),
      (∀ x : Nat, PlayerSat Q x s) → ∀ r ∈ read_from_client s slot buffer now,
        ∀ x : Nat, PlayerSat Q x r.1)
    (events : List ServerEvent) :
    ∀ s : Server, (∀ x : Nat, PlayerSat Q x s) → ∀ r ∈ run_events s events,
      ∀ x : Nat, PlayerSat Q x r.1 := by
  induction events with
  | nil =>
    intro s h r hr
    simp only [run_events, Option.mem_def, Option.some.injEq] at hr
    subst hr
    exact h
  | cons event rest ih =>
    intro s h r hr
    rw [run_events] at hr
    cases hs : server_step s event with
    | none => rw [hs] at hr; cases hr
    | some r1 =>
      obtain ⟨s1, out⟩ := r1
      rw [hs] at hr
      simp only [] at hr
      have h1 := server_step_kept hQ hcreate hread s event h _ hs
      cases hrec : run_events s1 rest with
      | none => rw [hrec] at hr; cases hr
      | some r2 =>
        obtain ⟨s2, out2⟩ := r2
        rw [hrec] at hr
        cases hr
        exact ih s1 h1 (s2, out2) hrec

theorem server_initial_kept {Q : Player → Prop} (max_clients max_rooms : Nat)
    (hfree : Q (player_reset Player.zeroed false 0)) :
    ∀ x : Nat, PlayerSat Q x (server_initial max_clients max_rooms) := by
  intro x p hp
  have hmem : p ∈ player_init_all max_clients := List.getElem?_mem hp
  unfold player_init_all at hmem
  rw [List.eq_of_mem_replicate hmem]
  exact hfree

/-- A property that the events keep and that a free and a new record have holds for
every record of every reachable state. -/
theorem reachable_kept {Q : Player → Prop} (hQ : HandlerStable Q)
    (hcreate : ∀ (fd : Int) (now : Int), Q (player_create fd now))
    (hread : ∀ (s : Server) (slot : Nat) (buffer : List Char) (now : Int),
      (∀ x : Nat, PlayerSat Q x s) → ∀ r ∈ read_from_client s slot buffer now,
        ∀ x : Nat, PlayerSat Q x r.1)
    {max_clients max_rooms : Nat} {s : Server} (h : Reachable max_clients max_rooms s) :
    ∀ (i : Nat) (p : Player), s.players[i]? = some p → Q p := by
  obtain ⟨events, out, hrun⟩ := h
  have hfree : Q (player_reset Player.zeroed false 0) :=
    hQ.reset (player_create 0 0) false 0 (hcreate 0 0)
  intro i p hp
  exact run_events_kept hQ hcreate hread events _
    (server_initial_kept max_clients max_rooms hfree) _ hrun i p hp

/-! ## Timers -/

/-- A record in state DISCONNECTED has no socket: no event disturbs this. -/
theorem connection_stable :
    EventStable (fun p => p.state = PlayerState.DISCONNECTED → p.socket_fd < 0) := by
  refine ⟨⟨?_, ?_, ?_, ?_⟩, ?_, ?_, ?_⟩
  · rintro p q ⟨h1, _, _, h4, _⟩ hp hq
    rw [h1]
    exact hp (by rw [← h4]; exact hq)
  · intro p st hst _ hq
    exact absurd hq hst
  · intro p keep now _ _
    cases keep <;> simp [player_reset]
  · intro p nickname _ hp hq
    exact hp hq
  · intro p now hp hq
    rw [(check_rate_limit_fields p now).1]
    exact hp (by rw [← (check_rate_limit_fields p now).2.2.1]; exact hq)
  · intro p text len hp hq
    exact hp hq
  · intro fd now hq
    cases hq

/-- In a reachable state a record in state DISCONNECTED has no socket. -/
theorem disconnected_has_no_socket {max_clients max_rooms : Nat} {s : Server}
    (h : Reachable max_clients max_rooms s) (i : Nat) (p : Player)
    (hp : s.players[i]? = some p) (hstate : p.state = PlayerState.DISCONNECTED) :
    p.socket_fd < 0 :=
  reachable_kept connection_stable.handlers connection_stable.created
    (fun s slot buffer now hs r hr x =>
      read_from_client_kept connection_stable s slot buffer now (hs x) r hr) h i p hp hstate

/-- Claim C38.  The body of the loop of `server_check_timeouts` at time `now`, for an
active record with a socket in a reachable state.  If the state is CONNECTING and
`now - last_activity > 30`, the record is sent `ERROR;4;Login timeout` and is
disconnected.  Otherwise: if it is not awaiting a pong and `now - last_activity > 10`,
it is sent `PING`, `waiting_pong` is set and `last_ping` becomes `now`; if it is
awaiting a pong and `now - last_ping > 5`, it is disconnected; and when none of the
three strict comparisons holds, as at exactly 30, 10 and 5 seconds, nothing is sent and
the state is unchanged. -/
theorem timer_tick_contract {max_clients max_rooms : Nat} {s : Server}
    (h : Reachable max_clients max_rooms s) (slot : Nat) (player : Player) (now : Int)
    (hplayer : s.players[slot]? = some player) (hact : player.is_active = true)
    (hsock : 0 ≤ player.socket_fd) :
    (player.state = PlayerState.CONNECTING ∧ now - player.last_activity > 30 →
      check_timeouts_slot s slot now =
        ((server_handle_disconnect s slot false now).1,
          (slot, "ERROR;4;Login timeout\n".toList) ::
            (server_handle_disconnect s slot false now).2) ∧
      ∃ p', (check_timeouts_slot s slot now).1.players[slot]? = some p' ∧
        p'.socket_fd = -1) ∧
    (¬ (player.state = PlayerState.CONNECTING ∧ now - player.last_activity > 30) →
      (player.waiting_pong = false ∧ now - player.last_activity > 10 →
        check_timeouts_slot s slot now =
          (s.updPlayer slot (fun p => { p with last_ping := now, waiting_pong := true }),
            [(slot, "PING\n".toList)])) ∧
      (player.waiting_pong = true ∧ now - player.last_ping > 5 →
        check_timeouts_slot s slot now = server_handle_disconnect s slot false now ∧
        ∃ p', (check_timeouts_slot s slot now).1.players[slot]? = some p' ∧
          p'.socket_fd = -1) ∧
      (¬ (player.waiting_pong = false ∧ now - player.last_activity > 10) →
        ¬ (player.waiting_pong = true ∧ now - player.last_ping > 5) →
        check_timeouts_slot s slot now = (s, []))) := by
  have hnd : ¬ player.state = PlayerState.DISCONNECTED := fun e =>
    absurd (disconnected_has_no_socket h slot player hplayer e) (by omega)
  have hconn : has_socket s (some slot) = true := by
    simp [has_socket, hplayer, hsock]
  have hsend : ∀ text : List Char,
      server_send_to_player s (some slot) text = (true, [(slot, text)]) := by
    intro text
    simp [server_send_to_player, hconn]
  have herr : protocol_create_error BUFFER_SIZE ErrorCode.ERR_NOT_LOGGED_IN
      (some "Login timeout".toList) = "ERROR;4;Login timeout\n".toList := by
    decide
  have hping : snprintf BUFFER_SIZE "PING\n".toList = "PING\n".toList := by
    decide
  have hnact : (!player.is_active) = false := by simp [hact]
  constructor
  · rintro ⟨hst, hlate⟩
    have hcond : player.state = PlayerState.CONNECTING ∧ player.socket_fd ≥ 0 ∧
        now - player.last_activity > LOGIN_TIMEOUT := ⟨hst, hsock, hlate⟩
    have heq : check_timeouts_slot s slot now =
        ((server_handle_disconnect s slot false now).1,
          (slot, "ERROR;4;Login timeout\n".toList) ::
            (server_handle_disconnect s slot false now).2) := by
      unfold check_timeouts_slot
      rw [hplayer]
      simp only [hnact, Bool.false_eq_true, if_false, hnd, hcond, and_self, if_true, hsend, herr]
      rfl
    refine ⟨heq, ?_⟩
    rw [heq]
    exact disconnect_closes s slot player false now hplayer
  · intro hnot
    have hcond : ¬ (player.state = PlayerState.CONNECTING ∧ player.socket_fd ≥ 0 ∧
        now - player.last_activity > LOGIN_TIMEOUT) := fun hc => hnot ⟨hc.1, hc.2.2⟩
    refine ⟨?_, ?_, ?_⟩
    · rintro ⟨hw, hlate⟩
      have hneed : player_needs_ping player now = true := by
        unfold player_needs_ping
        have : ¬ player.socket_fd < 0 := by omega
        simp [this, hw, PING_INTERVAL, hlate]
      unfold check_timeouts_slot
      rw [hplayer]
      simp only [hnact, Bool.false_eq_true, if_false, hnd, hcond, hneed, hsock, ge_iff_le,
        and_self, if_true, hsend, hping, updPlayer_players, hplayer, Option.map_some']
      have hcond2 : (player.state = PlayerState.CONNECTING ∧
          LOGIN_TIMEOUT < now - player.last_activity) = False :=
        eq_false (fun hc => hnot ⟨hc.1, hc.2⟩)
      simp [player_pong_timeout_expired, hcond2, PING_TIMEOUT]
    · rintro ⟨hw, hlate⟩
      have hneed : player_needs_ping player now = false := by
        unfold player_needs_ping
        simp [hw]
      have hexp : player_pong_timeout_expired player now = true := by
        unfold player_pong_timeout_expired
        simp [hw, PING_TIMEOUT, hlate]
      have heq : check_timeouts_slot s slot now = server_handle_disconnect s slot false now := by
        unfold check_timeouts_slot
        rw [hplayer]
        simp only [hnact, Bool.false_eq_true, if_false, hnd, hcond, hneed, and_false, hplayer,
          hexp, if_true, List.nil_append]
      refine ⟨heq, ?_⟩
      rw [heq]
      exact disconnect_closes s slot player false now hplayer
    · intro hb hc
      have hneed : player_needs_ping player now = false := by
        unfold player_needs_ping
        have : ¬ player.socket_fd < 0 := by omega
        simp only [this, if_false, PING_INTERVAL]
        cases hw : player.waiting_pong with
        | true => simp
        | false =>
          have : ¬ now - player.last_activity > 10 := fun hl => hb ⟨hw, hl⟩
          simp [this]
      have hexp : player_pong_timeout_expired player now = false := by
        unfold player_pong_timeout_expired
        cases hw : player.waiting_pong with
        | false => simp
        | true =>
          have : ¬ now - player.last_ping > 5 := fun hl => hc ⟨hw, hl⟩
          simp [PING_TIMEOUT, this]
      unfold check_timeouts_slot
      rw [hplayer]
      simp only [hnact, Bool.false_eq_true, if_false, hnd, hcond, hneed, and_false, hplayer,
        hexp]

/-- Witness of C38 on the started game: at time 120 the first player, last active at
100 and not awaiting a pong, is sent `PING`. -/
theorem timer_tick_contract_witness :
    Reachable 3 2 scenario_started ∧
    check_timeouts_slot scenario_started 0 120 =
      (scenario_started.updPlayer 0 (fun p => { p with last_ping := 120, waiting_pong := true }),
        [(0, "PING\n".toList)]) :=
  ⟨scenario_started_reachable,
    ((timer_tick_contract scenario_started_reachable 0 _ 120 rfl rfl (by decide)).2
      (by decide)).1 ⟨rfl, by decide⟩⟩

/-! ## Inbound buffer -/

theorem check_rate_limit_buffer (player : Player) (now : Int) :
    (check_rate_limit player now).2.recv_buffer = player.recv_buffer ∧
    (check_rate_limit player now).2.recv_buffer_len = player.recv_buffer_len := by
  unfold check_rate_limit
  simp only []
  split_ifs <;> simp

/-- The unterminated tail is not longer than the text and the line in progress. -/
theorem split_lines_loop_tail_length (text : List Char) :
    ∀ current : List Char,
      (split_lines_loop text current).2.length ≤ text.length + current.length := by
  induction text with
  | nil => intro current; simp [split_lines_loop]
  | cons c rest ih =>
    intro current
    rw [split_lines_loop]
    by_cases hc : c = '\n'
    · simp only [hc, if_true]
      have := ih []
      simp only [List.length_nil, List.length_cons] at this ⊢
      omega
    · simp only [hc, if_false]
      have := ih (current ++ [c])
      simp only [List.length_append, List.length_cons, List.length_nil] at this ⊢
      omega

theorem split_lines_tail_length (text : List Char) :
    (split_lines text).2.length ≤ text.length := by
  have := split_lines_loop_tail_length text []
  simpa [split_lines] using this

/-- The handlers keep the inbound buffer of every record consistent. -/
theorem buffer_stable : HandlerStable BufferOK := by
  refine ⟨?_, ?_, ?_, ?_⟩
  · rintro p q ⟨_, _, _, _, h5, h6, _⟩ hp
    unfold BufferOK
    rw [h5, h6]
    exact hp
  · intro p st _ hp
    exact hp
  · intro p keep now _
    cases keep <;> simp [player_reset, BufferOK, Player.zeroed, BUFFER_SIZE]
  · intro p nickname _ hp
    exact hp

theorem buffer_limited (p : Player) (now : Int) (h : BufferOK p) :
    BufferOK (check_rate_limit p now).2 := by
  unfold BufferOK
  rw [(check_rate_limit_buffer p now).1, (check_rate_limit_buffer p now).2]
  exact h

/-- The stored length is the one set at the start of the read, or the record was reset. -/
theorem length_stable (n : Int) :
    HandlerStable (fun p => p.recv_buffer_len = n ∨ p.recv_buffer_len = 0) := by
  refine ⟨?_, ?_, ?_, ?_⟩
  · rintro p q ⟨_, _, _, _, _, h6, _⟩ hp
    rw [h6]
    exact hp
  · intro p st _ hp
    exact hp
  · intro p keep now _
    cases keep <;> simp [player_reset, Player.zeroed]
  · intro p nickname _ hp
    exact hp

/-- An update of a record keeps a property when the record has a second property that
makes the update keep the first. -/
theorem PlayerSat.update_from {Q R : Player → Prop} {x : Nat} {t : Server} (y : Nat)
    (f : Player → Player) (hf : ∀ p : Player, R p → Q p → Q (f p))
    (hR : PlayerSat R y t) (h : PlayerSat Q x t) : PlayerSat Q x (t.updPlayer y f) := by
  intro p hp
  rw [updPlayer_players] at hp
  by_cases hyx : y = x
  · subst hyx
    rw [if_pos rfl] at hp
    cases hq : t.players[y]? with
    | none => rw [hq] at hp; cases hp
    | some q =>
      rw [hq] at hp
      cases hp
      exact hf q (hR q hq) (h q hq)
  · rw [if_neg hyx] at hp
    exact h p hp

set_option maxHeartbeats 1000000 in
/-- A read keeps the inbound buffer of every record consistent. -/
theorem read_from_client_buffer (s : Server) (slot : Nat) (buffer : List Char) (now : Int)
    (hs : ∀ x : Nat, PlayerSat BufferOK x s) :
    ∀ r ∈ read_from_client s slot buffer now, ∀ x : Nat, PlayerSat BufferOK x r.1 := by
  intro r hr x
  revert r
  have h := hs x
  have hact : PlayerSat BufferOK x (s.updPlayer slot (fun p => player_update_activity p now)) :=
    buffer_stable.kept_update slot _ (fun _ => ⟨rfl, rfl, rfl, rfl, rfl, rfl, rfl, rfl⟩) h
  unfold read_from_client
  split
  · intro r hr
    cases hr
  · rename_i player hplayer
    have hok : BufferOK player := hs slot player hplayer
    simp only []
    split
    · split
      · exact opt_inv_some (buffer_stable.kept_disconnect slot false now
          (buffer_stable.kept_count_invalid slot hact))
      · exact opt_inv_some (buffer_stable.kept_count_invalid slot hact)
    · split
      · exact opt_inv_pair (buffer_stable.kept_disconnect slot false now hact)
      · rename_i hfit
        have hlen : ((player.recv_buffer ++ buffer).length : Int) =
            player.recv_buffer_len + buffer.length := by
          rw [List.length_append, Nat.cast_add, hok.1]
        have hbound : player.recv_buffer_len + (buffer.length : Int) ≤ BUFFER_SIZE - 1 := by
          omega
        have hbuf : PlayerSat BufferOK x
            ((s.updPlayer slot (fun p => player_update_activity p now)).updPlayer slot
              (fun p => { p with
                recv_buffer := player.recv_buffer ++ buffer
                recv_buffer_len := player.recv_buffer_len + buffer.length })) :=
          hact.after_update slot _ (fun p _ => ⟨hlen, hbound⟩)
        have hown : PlayerSat (fun p => p.recv_buffer_len =
              player.recv_buffer_len + buffer.length ∨ p.recv_buffer_len = 0) slot
            ((s.updPlayer slot (fun p => player_update_activity p now)).updPlayer slot
              (fun p => { p with
                recv_buffer := player.recv_buffer ++ buffer
                recv_buffer_len := player.recv_buffer_len + buffer.length })) :=
          PlayerSat.update_self _ (fun _ => Or.inl rfl)
        split
        · exact opt_inv_some (buffer_stable.kept_disconnect slot false now hbuf)
        · intro r hr
          cases hl : process_lines ((s.updPlayer slot
              (fun p => player_update_activity p now)).updPlayer slot
              (fun p => { p with
                recv_buffer := player.recv_buffer ++ buffer
                recv_buffer_len := player.recv_buffer_len + buffer.length })) slot now
              (split_lines (player.recv_buffer ++ buffer)).1 with
          | none => rw [hl] at hr; cases hr
          | some r1 =>
            have h1 := process_lines_kept buffer_stable buffer_limited slot now _ _ hbuf r1 hl
            have h2 := process_lines_kept (length_stable _)
              (fun p now hp => by
                rw [(check_rate_limit_buffer p now).2]
                exact hp) slot now _ _ hown r1 hl
            obtain ⟨s2, out, fin⟩ := r1
            rw [hl] at hr
            cases fin with
            | false =>
              cases hr
              exact h1
            | true =>
              cases hr
              refine PlayerSat.update_from slot _ ?_ h2 h1
              intro p hR hp
              have htail := split_lines_tail_length (player.recv_buffer ++ buffer)
              split_ifs with hrem
              · refine ⟨?_, ?_⟩
                · rcases hR with hR | hR
                  · simp only [hR, ← hlen]
                    omega
                  · simp only [hR] at hrem
                    omega
                · rcases hR with hR | hR
                  · simp only [hR]
                    omega
                  · simp only [hR] at hrem
                    omega
              · exact ⟨rfl, by simp [BUFFER_SIZE]⟩

/-- In a reachable state every record has a consistent inbound buffer. -/
theorem reachable_buffer {max_clients max_rooms : Nat} {s : Server}
    (h : Reachable max_clients max_rooms s) (i : Nat) (p : Player)
    (hp : s.players[i]? = some p) : BufferOK p :=
  reachable_kept buffer_stable (fun fd now => by simp [BufferOK, player_create, Player.zeroed, BUFFER_SIZE])
    read_from_client_buffer h i p hp

/-- After `server_handle_disconnect` the record has no socket and an empty buffer. -/
theorem disconnect_clears (s : Server) (slot : Nat) (player : Player) (graceful : Bool)
    (now : Int) (hplayer : s.players[slot]? = some player) :
    ∃ p', (server_handle_disconnect s slot graceful now).1.players[slot]? = some p' ∧
      p'.socket_fd = -1 ∧ p'.recv_buffer = [] ∧ p'.recv_buffer_len = 0 := by
  have hsome : (s.players[slot]?).isSome = true := by simp [hplayer]
  have hfree : ∀ (t : Server) (out : List (Nat × List Char)),
      (t.players[slot]?).isSome = true →
      ∃ p', ((t.updPlayer slot (fun p => player_reset p false now), out) :
          Server × List (Nat × List Char)).1.players[slot]? = some p' ∧ p'.socket_fd = -1 ∧
        p'.recv_buffer = [] ∧ p'.recv_buffer_len = 0 := by
    intro t out ht
    obtain ⟨q, hq⟩ := Option.isSome_iff_exists.mp ht
    exact ⟨player_reset q false now, by simp [updPlayer_players, hq],
      by simp [player_reset], by simp [player_reset, Player.zeroed],
      by simp [player_reset, Player.zeroed]⟩
  have hkeep : ∀ (t : Server) (out : List (Nat × List Char)),
      (t.players[slot]?).isSome = true →
      ∃ p', ((t.updPlayer slot (fun p => player_reset p true now), out) :
          Server × List (Nat × List Char)).1.players[slot]? = some p' ∧ p'.socket_fd = -1 ∧
        p'.recv_buffer = [] ∧ p'.recv_buffer_len = 0 := by
    intro t out ht
    obtain ⟨q, hq⟩ := Option.isSome_iff_exists.mp ht
    exact ⟨player_reset q true now, by simp [updPlayer_players, hq],
      by simp [player_reset], by simp [player_reset], by simp [player_reset]⟩
  unfold server_handle_disconnect
  simp only [hplayer]
  repeat' split
  all_goals first
    | apply hfree
    | apply hkeep
  all_goals first
    | exact hsome
    | (apply room_remove_player_players_isSome
       first
         | exact hsome
         | (apply player_set_state_players_isSome
            apply room_remove_player_players_isSome
            apply setRoom_players_isSome
            exact hsome))

/-- The state of the fixture with one byte buffered is reachable. -/
theorem scenario_one_byte_reachable : Reachable 3 2 scenario_one_byte :=
  ⟨[ServerEvent.connection 4 100, ServerEvent.received 0 ['a'] 100], _, rfl⟩

/-- A text without LF holds no complete line. -/
theorem split_lines_loop_no_lf (text : List Char) :
    ∀ current : List Char, '\n' ∉ text →
      split_lines_loop text current = ([], current ++ text) := by
  induction text with
  | nil => intro current _; simp [split_lines_loop]
  | cons c rest ih =>
    intro current h
    have hc : c ≠ '\n' := fun e => h (by simp [e])
    have hrest : '\n' ∉ rest := fun e => h (List.mem_cons_of_mem _ e)
    rw [split_lines_loop, if_neg hc, ih _ hrest]
    simp

theorem updPlayer_eq_setPlayer (s : Server) (slot : Nat) (player : Player)
    (f : Player → Player) (hplayer : s.players[slot]? = some player) :
    s.updPlayer slot f = s.setPlayer slot (f player) := by
  unfold Server.updPlayer
  rw [hplayer]

theorem setPlayer_setPlayer (s : Server) (slot : Nat) (p q : Player) :
    (s.setPlayer slot p).setPlayer slot q = s.setPlayer slot q := by
  simp [Server.setPlayer]

theorem setPlayer_get (s : Server) (slot : Nat) (player p : Player)
    (hplayer : s.players[slot]? = some player) :
    (s.setPlayer slot p).players[slot]? = some p := by
  rw [setPlayer_players, if_pos rfl, hplayer]
  rfl

/-- Claim C32, as the code has it.  In every reachable state, which is the state after
any sequence of reads and other events, every record has
`0 <= recv_buffer_len <= BUFFER_SIZE - 1 = 1023`, and the length is that of the buffered
text, so the terminator written at index `recv_buffer_len` is inside the buffer.  A read
of bytes that pass `is_valid_protocol_data` and that would make the length exceed 1023
is answered by `server_handle_disconnect` alone, without appending: afterwards the
record has no socket and an empty buffer.  After every read, of whatever bytes, the
bound holds again for every record. -/
theorem recv_buffer_bounded {max_clients max_rooms : Nat} {s : Server}
    (h : Reachable max_clients max_rooms s) (slot : Nat) (player : Player)
    (hplayer : s.players[slot]? = some player) :
    (0 ≤ player.recv_buffer_len ∧ player.recv_buffer_len ≤ BUFFER_SIZE - 1 ∧
      ((BUFFER_SIZE : Int) - 1 = 1023) ∧
      (player.recv_buffer.length : Int) = player.recv_buffer_len) ∧
    (∀ (buffer : List Char) (now : Int), is_valid_protocol_data buffer = true →
      player.recv_buffer_len + buffer.length > 1023 →
      read_from_client s slot buffer now =
        some (server_handle_disconnect
          (s.updPlayer slot (fun p => player_update_activity p now)) slot false now) ∧
      ∃ p', (server_handle_disconnect
          (s.updPlayer slot (fun p => player_update_activity p now)) slot false
            now).1.players[slot]? = some p' ∧
        p'.socket_fd = -1 ∧ p'.recv_buffer = [] ∧ p'.recv_buffer_len = 0) ∧
    (∀ (buffer : List Char) (now : Int) (r : Server × List (Nat × List Char)),
      read_from_client s slot buffer now = some r →
      ∀ (i : Nat) (p : Player), r.1.players[i]? = some p →
        0 ≤ p.recv_buffer_len ∧ p.recv_buffer_len ≤ 1023) := by
  have hok := reachable_buffer h slot player hplayer
  have hall : ∀ x : Nat, PlayerSat BufferOK x s := fun x p hp => reachable_buffer h x p hp
  refine ⟨⟨?_, hok.2, by simp [BUFFER_SIZE], hok.1⟩, ?_, ?_⟩
  · rw [← hok.1]
    exact Int.natCast_nonneg _
  · intro buffer now hvalid hover
    have hover2 : (buffer.length : Int) > (BUFFER_SIZE : Int) - player.recv_buffer_len - 1 := by
      simp only [BUFFER_SIZE]
      push_cast
      omega
    refine ⟨?_, ?_⟩
    · unfold read_from_client
      rw [hplayer]
      simp only [hvalid, Bool.not_true, Bool.false_eq_true, if_false, hover2, if_true]
    · apply disconnect_clears
      rw [updPlayer_players, if_pos rfl, hplayer]
      rfl
  · intro buffer now r hr i p hp
    have hq := read_from_client_buffer s slot buffer now hall r hr i p hp
    refine ⟨?_, ?_⟩
    · rw [← hq.1]
      exact Int.natCast_nonneg _
    · have := hq.2
      simp only [BUFFER_SIZE] at this
      push_cast at this
      omega

/-- Witness of C32 on the state in which the first client has sent one byte. -/
theorem recv_buffer_bounded_witness :
    Reachable 3 2 scenario_one_byte ∧
    scenario_one_byte.players.map (fun p => (p.recv_buffer, p.recv_buffer_len)) =
      [(['a'], 1), ([], 0), ([], 0)] ∧
    (∀ (buffer : List Char) (now : Int) (r : Server × List (Nat × List Char)),
      read_from_client scenario_one_byte 0 buffer now = some r →
      ∀ (i : Nat) (p : Player), r.1.players[i]? = some p →
        0 ≤ p.recv_buffer_len ∧ p.recv_buffer_len ≤ 1023) :=
  ⟨scenario_one_byte_reachable, rfl,
    (recv_buffer_bounded scenario_one_byte_reachable 0 _ rfl).2.2⟩

/-- Counterexample to C32 as stated.  The first client has one byte in its buffer and
sends 1023 bytes of value 1, which would make the length 1024: the bytes are rejected
as binary data, nothing is appended, and the player is not disconnected. -/
theorem binary_overflow_read_counterexample :
    Reachable 3 2 scenario_one_byte ∧
    (scenario_one_byte.players[0]?).map (fun p => (p.recv_buffer_len, p.socket_fd)) =
      some (1, 4) ∧
    (1 : Int) + ((List.replicate 1023 (Char.ofNat 1)).length : Int) > 1023 ∧
    (read_from_client scenario_one_byte 0 (List.replicate 1023 (Char.ofNat 1)) 101).map
      (fun r => (r.2, (r.1.players[0]?).map (fun p =>
        (p.socket_fd, p.is_active, p.recv_buffer, p.recv_buffer_len,
          p.invalid_message_count)))) =
      some ([], some (4, true, ['a'], 1, 1)) :=
  ⟨scenario_one_byte_reachable, rfl, by decide, rfl⟩

/-- Claim C31.  A connected player sends bytes that pass `is_valid_protocol_data` and fit
the buffer, and the buffer with the bytes appended contains no LF, so that it holds no
complete line.  If the buffer then holds more than 256 bytes, `read_from_client` sends
the player `ERROR;1;Message too long` and disconnects the player by
`server_handle_disconnect`, after which the record has no socket; no frame is
dispatched.  If it holds at most 256 bytes, nothing is sent and the state changes only
in the player's record, which keeps its socket and holds the buffer with the bytes
appended. -/
theorem flood_guard_contract {max_clients max_rooms : Nat} {s : Server}
    (h : Reachable max_clients max_rooms s) (slot : Nat) (player : Player)
    (buffer : List Char) (now : Int)
    (hplayer : s.players[slot]? = some player) (hsock : 0 ≤ player.socket_fd)
    (hbytes : buffer ≠ []) (hvalid : is_valid_protocol_data buffer = true)
    (hfit : player.recv_buffer_len + buffer.length ≤ 1023)
    (hline : '\n' ∉ player.recv_buffer ++ buffer) :
    (split_lines (player.recv_buffer ++ buffer)).1 = [] ∧
    (player.recv_buffer_len + buffer.length > 256 →
      read_from_client s slot buffer now =
        some ((server_handle_disconnect (s.setPlayer slot
            { player with
              last_activity := now
              recv_buffer := player.recv_buffer ++ buffer
              recv_buffer_len := player.recv_buffer_len + buffer.length }) slot false now).1,
          (slot, "ERROR;1;Message too long\n".toList) ::
            (server_handle_disconnect (s.setPlayer slot
              { player with
                last_activity := now
                recv_buffer := player.recv_buffer ++ buffer
                recv_buffer_len := player.recv_buffer_len + buffer.length }) slot false
              now).2) ∧
      ∃ p', (server_handle_disconnect (s.setPlayer slot
            { player with
              last_activity := now
              recv_buffer := player.recv_buffer ++ buffer
              recv_buffer_len := player.recv_buffer_len + buffer.length }) slot false
            now).1.players[slot]? = some p' ∧ p'.socket_fd = -1) ∧
    (player.recv_buffer_len + buffer.length ≤ 256 →
      read_from_client s slot buffer now =
        some (s.setPlayer slot
          { player with
            last_activity := now
            recv_buffer := player.recv_buffer ++ buffer
            recv_buffer_len := player.recv_buffer_len + buffer.length }, [])) := by
  have hok := reachable_buffer h slot player hplayer
  have hsplit : split_lines (player.recv_buffer ++ buffer) = ([], player.recv_buffer ++ buffer) := by
    unfold split_lines
    rw [split_lines_loop_no_lf _ _ hline]
    rfl
  have hfit2 : ¬ (buffer.length : Int) > (BUFFER_SIZE : Int) - player.recv_buffer_len - 1 := by
    simp only [BUFFER_SIZE]
    push_cast
    omega
  have hs0 : s.updPlayer slot (fun p => player_update_activity p now) =
      s.setPlayer slot { player with last_activity := now } :=
    updPlayer_eq_setPlayer s slot player _ hplayer
  have hs1 : (s.updPlayer slot (fun p => player_update_activity p now)).updPlayer slot
      (fun p => { p with
        recv_buffer := player.recv_buffer ++ buffer
        recv_buffer_len := player.recv_buffer_len + buffer.length }) =
      s.setPlayer slot
        { player with
          last_activity := now
          recv_buffer := player.recv_buffer ++ buffer
          recv_buffer_len := player.recv_buffer_len + buffer.length } := by
    rw [hs0, updPlayer_eq_setPlayer _ slot _ _ (setPlayer_get s slot player _ hplayer),
      setPlayer_setPlayer]
  have hget := setPlayer_get s slot player
    { player with
      last_activity := now
      recv_buffer := player.recv_buffer ++ buffer
      recv_buffer_len := player.recv_buffer_len + buffer.length } hplayer
  have hconn : has_socket (s.setPlayer slot
      { player with
        last_activity := now
        recv_buffer := player.recv_buffer ++ buffer
        recv_buffer_len := player.recv_buffer_len + buffer.length }) (some slot) = true := by
    simp [has_socket, hget, hsock]
  have herr : protocol_create_error BUFFER_SIZE ErrorCode.ERR_INVALID_FORMAT
      (some "Message too long".toList) = "ERROR;1;Message too long\n".toList := by
    decide
  refine ⟨by rw [hsplit], ?_, ?_⟩
  · intro hlong
    have hflood : player.recv_buffer_len + (buffer.length : Int) > MAX_MESSAGE_WITHOUT_NEWLINE ∧
        ¬ '\n' ∈ player.recv_buffer ++ buffer := ⟨hlong, hline⟩
    refine ⟨?_, disconnect_closes _ slot _ false now hget⟩
    unfold read_from_client
    rw [hplayer]
    simp only [hvalid, Bool.not_true, Bool.false_eq_true, if_false, hfit2, hs1, hflood,
      and_self, if_true, server_send_to_player, hconn, herr]
    rfl
  · intro hshort
    have hflood : ¬ (player.recv_buffer_len + (buffer.length : Int) >
        MAX_MESSAGE_WITHOUT_NEWLINE ∧ ¬ '\n' ∈ player.recv_buffer ++ buffer) := by
      intro hc
      have := hc.1
      simp only [MAX_MESSAGE_WITHOUT_NEWLINE] at this
      omega
    have hpos : 0 < buffer.length := List.length_pos.mpr hbytes
    have hlen : ((player.recv_buffer ++ buffer).length : Int) =
        player.recv_buffer_len + buffer.length := by
      rw [List.length_append, Nat.cast_add, hok.1]
    have hrem : player.recv_buffer_len + (buffer.length : Int) > 0 ∧
        player.recv_buffer_len + (buffer.length : Int) ≤ (BUFFER_SIZE : Int) := by
      have h0 : 0 ≤ player.recv_buffer_len := by
        rw [← hok.1]
        exact Int.natCast_nonneg _
      simp only [BUFFER_SIZE]
      push_cast
      omega
    unfold read_from_client
    rw [hplayer]
    simp only [hvalid, Bool.not_true, Bool.false_eq_true, if_false, hfit2, hs1, hflood,
      hsplit, process_lines]
    rw [updPlayer_eq_setPlayer _ slot _ _ hget, setPlayer_setPlayer]
    simp only [sub_self, sub_zero]
    rw [if_pos hrem]

/-- Witness of C31: the first client has sent `a` and sends `b`; both bytes are kept. -/
theorem flood_guard_contract_witness :
    Reachable 3 2 scenario_one_byte ∧
    read_from_client scenario_one_byte 0 ['b'] 101 =
      some (scenario_one_byte.setPlayer 0
        { player_create 4 100 with
          last_activity := 101
          recv_buffer := ['a', 'b']
          recv_buffer_len := 2 }, []) :=
  ⟨scenario_one_byte_reachable,
    (flood_guard_contract scenario_one_byte_reachable 0 _ ['b'] 101 rfl (by decide) (by decide)
      (by decide) (by decide) (by decide)).2.2 (by decide)⟩

/-! ## Framing -/


/-- Without the recorded frames `process_lines_frames` is `process_lines`. -/
theorem process_lines_frames_erase (slot : Nat) (now : Int) (lines : List (List Char)) :
    ∀ s : Server, process_lines s slot now lines =
      (process_lines_frames s slot now lines).map (fun r => (r.1, r.2.1, r.2.2.1)) := by
  induction lines with
  | nil => intro s; rfl
  | cons line rest ih =>
    intro s
    rw [process_lines, process_lines_frames]
    by_cases hlen : (strip_cr line).length > 0
    · simp only [hlen, if_true]
      cases hf : process_frame s slot (strip_cr line) now with
      | none => rfl
      | some r1 =>
        obtain ⟨s1, out, d⟩ := r1
        simp only []
        cases hp : s1.players[slot]? with
        | none => rfl
        | some p =>
          simp only []
          split_ifs
          · rfl
          · rw [ih]
            cases process_lines_frames s1 slot now rest <;> rfl
    · simp only [hlen, if_false]
      exact ih s

/-- Without the recorded frames `read_from_client_frames` is `read_from_client`. -/
theorem read_from_client_frames_erase (s : Server) (slot : Nat) (buffer : List Char)
    (now : Int) :
    read_from_client s slot buffer now =
      (read_from_client_frames s slot buffer now).map (fun r => (r.1, r.2.1)) := by
  unfold read_from_client read_from_client_frames
  cases s.players[slot]? with
  | none => rfl
  | some player =>
    simp only []
    split_ifs
    · rfl
    · rfl
    · rfl
    · rfl
    · rw [process_lines_frames_erase]
      cases process_lines_frames _ slot now _ with
      | none => rfl
      | some r =>
        obtain ⟨s2, out, fin, frames⟩ := r
        cases fin <;> rfl

/-- A loop that ran to its end reached every frame of positive length. -/
theorem process_lines_frames_reached (slot : Nat) (now : Int) (lines : List (List Char)) :
    ∀ (s : Server) (r : Server × List (Nat × List Char) × Bool × List (List Char × Bool)),
      process_lines_frames s slot now lines = some r → r.2.2.1 = true →
      r.2.2.2.map Prod.fst =
        (lines.map strip_cr).filter (fun f => decide (0 < f.length)) := by
  induction lines with
  | nil =>
    intro s r hr _
    rw [process_lines_frames] at hr
    cases hr
    rfl
  | cons line rest ih =>
    intro s r hr hfin
    rw [process_lines_frames] at hr
    by_cases hlen : (strip_cr line).length > 0
    · simp only [hlen, if_true] at hr
      cases hf : process_frame s slot (strip_cr line) now with
      | none => rw [hf] at hr; cases hr
      | some r1 =>
        obtain ⟨s1, out, d⟩ := r1
        rw [hf] at hr
        simp only [] at hr
        cases hp : s1.players[slot]? with
        | none => rw [hp] at hr; cases hr
        | some p =>
          rw [hp] at hr
          simp only [] at hr
          split_ifs at hr
          · cases hr
            cases hfin
          · cases hrec : process_lines_frames s1 slot now rest with
            | none => rw [hrec] at hr; cases hr
            | some r2 =>
              obtain ⟨s2, out2, fin, frames⟩ := r2
              rw [hrec] at hr
              cases hr
              have := ih s1 _ hrec hfin
              simp only [List.map_cons, List.filter_cons, hlen, decide_True, if_true]
              simp only [gt_iff_lt] at hlen
              simp only [hlen, decide_True, if_true, List.cons.injEq, true_and]
              exact this
    · simp only [hlen, if_false] at hr
      have := ih s r hr hfin
      simp only [gt_iff_lt] at hlen
      simp only [List.map_cons, List.filter_cons, hlen, decide_False, Bool.false_eq_true,
        if_false]
      exact this

/-- A loop that did not run to its end left the player without a connection. -/
theorem process_lines_frames_ended (slot : Nat) (now : Int) (lines : List (List Char)) :
    ∀ (s : Server) (r : Server × List (Nat × List Char) × Bool × List (List Char × Bool)),
      process_lines_frames s slot now lines = some r → r.2.2.1 = false →
      ∃ p : Player, r.1.players[slot]? = some p ∧ (p.socket_fd < 0 ∨ p.is_active = false) := by
  induction lines with
  | nil =>
    intro s r hr hfin
    rw [process_lines_frames] at hr
    cases hr
    cases hfin
  | cons line rest ih =>
    intro s r hr hfin
    rw [process_lines_frames] at hr
    by_cases hlen : (strip_cr line).length > 0
    · simp only [hlen, if_true] at hr
      cases hf : process_frame s slot (strip_cr line) now with
      | none => rw [hf] at hr; cases hr
      | some r1 =>
        obtain ⟨s1, out, d⟩ := r1
        rw [hf] at hr
        simp only [] at hr
        cases hp : s1.players[slot]? with
        | none => rw [hp] at hr; cases hr
        | some p =>
          rw [hp] at hr
          simp only [] at hr
          split_ifs at hr with hcond
          · cases hr
            exact ⟨p, hp, hcond.2⟩
          · cases hrec : process_lines_frames s1 slot now rest with
            | none => rw [hrec] at hr; cases hr
            | some r2 =>
              obtain ⟨s2, out2, fin, frames⟩ := r2
              rw [hrec] at hr
              cases hr
              exact ih s1 (s2, out2, fin, frames) hrec hfin
    · simp only [hlen, if_false] at hr
      exact ih s r hr hfin

/-- The lines of a text in two parts: the second part continues the line that the
first part left unterminated. -/
theorem split_lines_loop_append (a b : List Char) :
    ∀ current : List Char, split_lines_loop (a ++ b) current =
      ((split_lines_loop a current).1 ++
          (split_lines_loop b (split_lines_loop a current).2).1,
        (split_lines_loop b (split_lines_loop a current).2).2) := by
  induction a with
  | nil => intro current; simp [split_lines_loop]
  | cons c a ih =>
    intro current
    rw [List.cons_append, split_lines_loop, split_lines_loop]
    by_cases hc : c = '\n'
    · simp only [hc, if_true, ih [], List.cons_append]
    · simp only [hc, if_false, ih (current ++ [c])]

/-- The unterminated tail holds no LF. -/
theorem split_lines_loop_tail_no_lf (text : List Char) :
    ∀ current : List Char, '\n' ∉ current → '\n' ∉ (split_lines_loop text current).2 := by
  induction text with
  | nil => intro current h; simpa [split_lines_loop] using h
  | cons c rest ih =>
    intro current h
    rw [split_lines_loop]
    by_cases hc : c = '\n'
    · simp only [hc, if_true]
      exact ih [] (List.not_mem_nil _)
    · simp only [hc, if_false]
      apply ih
      intro hmem
      rcases List.mem_append.mp hmem with h1 | h1
      · exact h h1
      · exact hc (List.mem_singleton.mp h1).symm

/-- Splitting a buffer that starts with an unterminated tail continues the line that
the tail began. -/
theorem split_lines_current (text current : List Char) (h : '\n' ∉ current) :
    split_lines (current ++ text) = split_lines_loop text current := by
  unfold split_lines
  rw [split_lines_loop_append, split_lines_loop_no_lf current [] h]
  simp

/-- The lines of LF-terminated messages followed by an unterminated tail. -/
theorem split_lines_loop_stream (messages : List (List Char)) (tail : List Char)
    (hm : ∀ m ∈ messages, '\n' ∉ m) (ht : '\n' ∉ tail) :
    split_lines_loop (lf_terminated messages ++ tail) [] = (messages, tail) := by
  induction messages with
  | nil =>
    rw [lf_terminated, List.map_nil, List.flatten_nil, List.nil_append,
      split_lines_loop_no_lf tail [] ht]
    rfl
  | cons m ms ih =>
    have hrest := ih (fun x hx => hm x (List.mem_cons_of_mem _ hx))
    have hshape : lf_terminated (m :: ms) ++ tail =
        m ++ ('\n' :: (lf_terminated ms ++ tail)) := by
      simp [lf_terminated]
    rw [hshape, split_lines_loop_append,
      split_lines_loop_no_lf m [] (hm m (List.mem_cons_self _ _))]
    simp only [List.nil_append, split_lines_loop, if_true, hrest]

/-- A line without CR is its own frame. -/
theorem strip_cr_of_no_cr (line : List Char) (h : '\r' ∉ line) : strip_cr line = line := by
  unfold strip_cr
  rw [if_neg]
  intro hlast
  exact h (List.mem_of_getLast?_eq_some hlast)

/-- The stored length is the one set at the start of the read, or the record has lost
its socket. -/
theorem intact_stable (n : Int) :
    HandlerStable (fun p => p.recv_buffer_len = n ∨ p.socket_fd < 0) := by
  refine ⟨?_, ?_, ?_, ?_⟩
  · rintro p q ⟨h1, _, _, _, _, h6, _⟩ hp
    rw [h6, h1]
    exact hp
  · intro p st _ hp
    exact hp
  · intro p keep now _
    cases keep <;> simp [player_reset]
  · intro p nickname _ hp
    exact hp

/-- A read after which the player is still connected took no path that disconnects:
its loop reached every frame of positive length in the buffer, and the record holds
the unterminated tail. -/
theorem read_frames_regular (s : Server) (slot : Nat) (buffer : List Char) (now : Int)
    (player : Player) (r : Server × List (Nat × List Char) × List (List Char × Bool))
    (hplayer : s.players[slot]? = some player)
    (hlen : player.recv_buffer_len = (player.recv_buffer.length : Int))
    (hvalid : is_valid_protocol_data buffer = true)
    (hr : read_from_client_frames s slot buffer now = some r)
    (hafter : ∀ p : Player, r.1.players[slot]? = some p → p.is_active = true ∧ 0 ≤ p.socket_fd) :
    r.2.2.map Prod.fst =
      ((split_lines (player.recv_buffer ++ buffer)).1.map strip_cr).filter
        (fun f => decide (0 < f.length)) ∧
    ∀ p : Player, r.1.players[slot]? = some p →
      p.recv_buffer = (split_lines (player.recv_buffer ++ buffer)).2 ∧
      p.recv_buffer_len = ((split_lines (player.recv_buffer ++ buffer)).2.length : Int) := by
  have hp0 : (s.updPlayer slot (fun p => player_update_activity p now)).players[slot]? =
      some (player_update_activity player now) := by
    rw [updPlayer_players, if_pos rfl, hplayer]
    rfl
  have hclosed : ∀ (t : Server) (q : Player), t.players[slot]? = some q →
      r.1 = (server_handle_disconnect t slot false now).1 → False := by
    intro t q hq hr1
    obtain ⟨p', hp', hs⟩ := disconnect_closes t slot q false now hq
    rw [← hr1] at hp'
    have := (hafter p' hp').2
    omega
  unfold read_from_client_frames at hr
  rw [hplayer] at hr
  simp only [hvalid, Bool.not_true, Bool.false_eq_true, if_false] at hr
  by_cases hover : (buffer.length : Int) > (BUFFER_SIZE : Int) - player.recv_buffer_len - 1
  · rw [if_pos hover] at hr
    cases hr
    exact absurd rfl (fun e => hclosed _ _ hp0 e)
  · rw [if_neg hover] at hr
    have hp1 : ((s.updPlayer slot (fun p => player_update_activity p now)).updPlayer slot
        (fun p => { p with
          recv_buffer := player.recv_buffer ++ buffer
          recv_buffer_len := player.recv_buffer_len + buffer.length })).players[slot]? =
        some { player_update_activity player now with
          recv_buffer := player.recv_buffer ++ buffer
          recv_buffer_len := player.recv_buffer_len + buffer.length } := by
      rw [updPlayer_players, if_pos rfl, hp0]
      rfl
    by_cases hflood : player.recv_buffer_len + (buffer.length : Int) >
        MAX_MESSAGE_WITHOUT_NEWLINE ∧ ¬ '\n' ∈ player.recv_buffer ++ buffer
    · rw [if_pos hflood] at hr
      cases hr
      exact absurd rfl (fun e => hclosed _ _ hp1 e)
    · rw [if_neg hflood] at hr
      cases hl : process_lines_frames ((s.updPlayer slot
          (fun p => player_update_activity p now)).updPlayer slot
          (fun p => { p with
            recv_buffer := player.recv_buffer ++ buffer
            recv_buffer_len := player.recv_buffer_len + buffer.length })) slot now
          (split_lines (player.recv_buffer ++ buffer)).1 with
      | none => rw [hl] at hr; cases hr
      | some r1 =>
        obtain ⟨s2, out, fin, frames⟩ := r1
        rw [hl] at hr
        cases fin with
        | false =>
          cases hr
          obtain ⟨p, hp, hgone⟩ := process_lines_frames_ended slot now _ _ _ hl rfl
          have hc := hafter p hp
          rcases hgone with hg | hg
          · omega
          · rw [hc.1] at hg
            cases hg
        | true =>
          cases hr
          have hreached := process_lines_frames_reached slot now _ _ _ hl rfl
          refine ⟨hreached, ?_⟩
          have hown : PlayerSat (fun p => p.recv_buffer_len =
                player.recv_buffer_len + buffer.length ∨ p.socket_fd < 0) slot
              ((s.updPlayer slot (fun p => player_update_activity p now)).updPlayer slot
                (fun p => { p with
                  recv_buffer := player.recv_buffer ++ buffer
                  recv_buffer_len := player.recv_buffer_len + buffer.length })) :=
            PlayerSat.update_self _ (fun _ => Or.inl rfl)
          have h2 := process_lines_kept (intact_stable _)
            (fun p now hp => by
              rw [(check_rate_limit_buffer p now).2, (check_rate_limit_fields p now).1]
              exact hp) slot now _ _ hown (s2, out, true)
            (by rw [process_lines_frames_erase, hl]; rfl)
          intro p hp
          have hconn := hafter p hp
          simp only [] at hp hconn
          rw [updPlayer_players, if_pos rfl] at hp
          cases hq : s2.players[slot]? with
          | none => rw [hq] at hp; cases hp
          | some q =>
            rw [hq] at hp
            simp only [Option.map_some', Option.some.injEq] at hp
            have hR := h2 q hq
            have htail := split_lines_tail_length (player.recv_buffer ++ buffer)
            have hsum : ((player.recv_buffer ++ buffer).length : Int) =
                player.recv_buffer_len + buffer.length := by
              rw [List.length_append, Nat.cast_add, hlen]
            have hcap : player.recv_buffer_len + (buffer.length : Int) ≤ 1023 := by
              simp only [BUFFER_SIZE] at hover
              push_cast at hover
              omega
            split_ifs at hp with hrem
            · subst hp
              simp only [] at hconn ⊢
              rcases hR with hR | hR
              · refine ⟨trivial, ?_⟩
                rw [hR]
                omega
              · omega
            · subst hp
              simp only [] at hconn ⊢
              rcases hR with hR | hR
              · rw [hR] at hrem
                have hzero : (split_lines (player.recv_buffer ++ buffer)).2.length = 0 := by
                  simp only [BUFFER_SIZE] at hrem
                  push_cast at hrem
                  omega
                rw [List.length_eq_zero.mp hzero]
                exact ⟨rfl, rfl⟩
              · omega

/-- A sequence of reads that ended with the player connected started so. -/
theorem read_sequence_connected (slot : Nat) (reads : List (List Char × Int)) (s : Server)
    (r : Server × List (List Char × Bool)) (hrun : read_sequence s slot reads = some r)
    (hend : ∀ p : Player, r.1.players[slot]? = some p → p.is_active = true ∧ 0 ≤ p.socket_fd) :
    ∀ p : Player, s.players[slot]? = some p → p.is_active = true ∧ 0 ≤ p.socket_fd := by
  cases reads with
  | nil =>
    rw [read_sequence] at hrun
    cases hrun
    exact hend
  | cons read rest =>
    intro p hp
    rw [read_sequence, hp] at hrun
    simp only [] at hrun
    split_ifs at hrun with hcond
    exact ⟨hcond.1, hcond.2.1⟩

/-- The reads of `read_sequence` are steps of the server on `received` events. -/
theorem read_sequence_run (slot : Nat) (reads : List (List Char × Int)) :
    ∀ (s : Server) (r : Server × List (List Char × Bool)),
      read_sequence s slot reads = some r →
      ∃ out, run_events s (reads.map (fun read => ServerEvent.received slot read.1 read.2)) =
        some (r.1, out) := by
  induction reads with
  | nil =>
    intro s r hrun
    rw [read_sequence] at hrun
    cases hrun
    exact ⟨[], rfl⟩
  | cons read rest ih =>
    intro s r hrun
    rw [read_sequence] at hrun
    cases hp : s.players[slot]? with
    | none => rw [hp] at hrun; cases hrun
    | some player =>
      rw [hp] at hrun
      simp only [] at hrun
      split_ifs at hrun with hcond
      cases hf : read_from_client_frames s slot read.1 read.2 with
      | none => rw [hf] at hrun; cases hrun
      | some r1 =>
        obtain ⟨s1, out, frames⟩ := r1
        rw [hf] at hrun
        simp only [] at hrun
        cases hrec : read_sequence s1 slot rest with
        | none => rw [hrec] at hrun; cases hrun
        | some r2 =>
          obtain ⟨s2, frames2⟩ := r2
          rw [hrec] at hrun
          cases hrun
          obtain ⟨out2, hout2⟩ := ih s1 (s2, frames2) hrec
          refine ⟨out ++ out2, ?_⟩
          rw [List.map_cons, run_events]
          simp only [server_step, hp, hcond, and_self, if_true, read_from_client_frames_erase,
            hf, Option.map_some', hout2]

/-- The frames reached by a sequence of reads after which the player is still connected
are the non-empty lines of the concatenated bytes, and the record holds what follows
the last LF. -/
theorem read_sequence_frames (slot : Nat) (reads : List (List Char × Int)) :
    ∀ (s : Server) (text : List Char) (r : Server × List (List Char × Bool)),
      (∀ p : Player, s.players[slot]? = some p →
        p.recv_buffer = text ∧ p.recv_buffer_len = (text.length : Int)) →
      '\n' ∉ text →
      (∀ read ∈ reads, is_valid_protocol_data read.1 = true) →
      read_sequence s slot reads = some r →
      (∀ p : Player, r.1.players[slot]? = some p → p.is_active = true ∧ 0 ≤ p.socket_fd) →
      r.2.map Prod.fst =
        ((split_lines_loop (reads.map Prod.fst).flatten text).1.map strip_cr).filter
          (fun f => decide (0 < f.length)) ∧
      ∀ p : Player, r.1.players[slot]? = some p →
        p.recv_buffer = (split_lines_loop (reads.map Prod.fst).flatten text).2 ∧
        p.recv_buffer_len =
          ((split_lines_loop (reads.map Prod.fst).flatten text).2.length : Int) := by
  induction reads with
  | nil =>
    intro s text r hbuf _ _ hrun _
    rw [read_sequence] at hrun
    cases hrun
    simp only [List.map_nil, List.flatten_nil, split_lines_loop, List.filter_nil]
    exact ⟨trivial, hbuf⟩
  | cons read rest ih =>
    intro s text r hbuf htext hvalid hrun hend
    rw [read_sequence] at hrun
    cases hp : s.players[slot]? with
    | none => rw [hp] at hrun; cases hrun
    | some player =>
      rw [hp] at hrun
      simp only [] at hrun
      split_ifs at hrun with hcond
      cases hf : read_from_client_frames s slot read.1 read.2 with
      | none => rw [hf] at hrun; cases hrun
      | some r1 =>
        obtain ⟨s1, out, frames⟩ := r1
        rw [hf] at hrun
        simp only [] at hrun
        cases hrec : read_sequence s1 slot rest with
        | none => rw [hrec] at hrun; cases hrun
        | some r2 =>
          obtain ⟨s2, frames2⟩ := r2
          rw [hrec] at hrun
          cases hrun
          obtain ⟨hb, hl⟩ := hbuf player hp
          have hafter := read_sequence_connected slot rest s1 (s2, frames2) hrec hend
          have hone := read_frames_regular s slot read.1 read.2 player (s1, out, frames) hp
            (by rw [hl, hb]) (hvalid read (List.mem_cons_self _ _)) hf hafter
          rw [hb, split_lines_current _ _ htext] at hone
          have hnext := ih s1 (split_lines_loop read.1 text).2 (s2, frames2) hone.2
            (split_lines_loop_tail_no_lf _ _ htext)
            (fun x hx => hvalid x (List.mem_cons_of_mem _ hx)) hrec hend
          simp only [List.map_cons, List.flatten_cons, split_lines_loop_append, List.map_append,
            List.filter_append]
          refine ⟨?_, hnext.2⟩
          rw [hone.1, hnext.1]

/-- Claim C33.  The messages are non-empty and of bytes 32..126, the buffer of the
player is empty, and the reads deliver, cut in any way, the messages each followed by
LF and then an unterminated tail.  If every read can be made and the player is still
connected after the last, so that no read exceeded the buffer or the flood limit and
no message caused a disconnect, the frames that the loop of `read_from_client` reached
are exactly the messages, each once and in order; if none was dropped by the rate
limit, each was handed to `server_handle_message`.  The record then holds the tail.
The cutting does not occur in the result, so messages delivered in one read, a message
split over several reads, and one message per read give the same sequence.  The reads
are steps of the server on `received` events, and without the recorded frames a read
is `read_from_client`. -/
theorem framing_contract (s : Server) (slot : Nat) (messages : List (List Char))
    (tail : List Char) (reads : List (List Char × Int)) (s' : Server)
    (trace : List (List Char × Bool)) (last : Player)
    (hstart : ∀ p : Player, s.players[slot]? = some p →
      p.recv_buffer = [] ∧ p.recv_buffer_len = 0)
    (hmsg : ∀ m ∈ messages, m ≠ [] ∧ ∀ c ∈ m, 32 ≤ c.toNat ∧ c.toNat ≤ 126)
    (htail : ∀ c ∈ tail, 32 ≤ c.toNat ∧ c.toNat ≤ 126)
    (hcut : (reads.map Prod.fst).flatten = lf_terminated messages ++ tail)
    (hrun : read_sequence s slot reads = some (s', trace))
    (hlast : s'.players[slot]? = some last)
    (hconn : last.is_active = true ∧ 0 ≤ last.socket_fd) :
    trace.map Prod.fst = messages ∧
    ((∀ e ∈ trace, e.2 = true) → trace = messages.map (fun m => (m, true))) ∧
    last.recv_buffer = tail ∧ last.recv_buffer_len = (tail.length : Int) ∧
    (∃ out, run_events s (reads.map (fun read => ServerEvent.received slot read.1 read.2)) =
      some (s', out)) ∧
    (∀ (t : Server) (buffer : List Char) (now : Int),
      read_from_client t slot buffer now =
        (read_from_client_frames t slot buffer now).map (fun r => (r.1, r.2.1))) := by
  have hlf : ∀ m ∈ messages, '\n' ∉ m := by
    intro m hm hmem
    have := (hmsg m hm).2 _ hmem
    revert this
    decide
  have hcr : ∀ m ∈ messages, '\r' ∉ m := by
    intro m hm hmem
    have := (hmsg m hm).2 _ hmem
    revert this
    decide
  have htlf : '\n' ∉ tail := by
    intro hmem
    have := htail _ hmem
    revert this
    decide
  have hvalid : ∀ read ∈ reads, is_valid_protocol_data read.1 = true := by
    intro read hread
    unfold is_valid_protocol_data
    rw [List.all_eq_true]
    intro c hc
    have hin : c ∈ (reads.map Prod.fst).flatten :=
      List.mem_flatten.mpr ⟨read.1, List.mem_map.mpr ⟨read, hread, rfl⟩, hc⟩
    rw [hcut] at hin
    simp only [Bool.or_eq_true, decide_eq_true_eq]
    rcases List.mem_append.mp hin with h1 | h1
    · unfold lf_terminated at h1
      obtain ⟨l, hl, hcl⟩ := List.mem_flatten.mp h1
      obtain ⟨m, hm, rfl⟩ := List.mem_map.mp hl
      rcases List.mem_append.mp hcl with h2 | h2
      · exact Or.inl (Or.inl ((hmsg m hm).2 c h2))
      · exact Or.inl (Or.inr (List.mem_singleton.mp h2))
    · exact Or.inl (Or.inl (htail c h1))
  have hend : ∀ p : Player, s'.players[slot]? = some p → p.is_active = true ∧ 0 ≤ p.socket_fd := by
    intro p hp
    rw [hlast] at hp
    cases hp
    exact hconn
  have hmain := read_sequence_frames slot reads s [] (s', trace)
    (fun p hp => ⟨(hstart p hp).1, by rw [(hstart p hp).2]; rfl⟩) (List.not_mem_nil _) hvalid
    hrun hend
  rw [hcut, split_lines_loop_stream messages tail hlf htlf] at hmain
  have hframes : (messages.map strip_cr).filter (fun f => decide (0 < f.length)) = messages := by
    have h1 : messages.map strip_cr = messages := by
      conv_rhs => rw [← List.map_id messages]
      exact List.map_congr_left (fun m hm => strip_cr_of_no_cr m (hcr m hm))
    rw [h1, List.filter_eq_self]
    intro m hm
    exact decide_eq_true (List.length_pos.mpr (hmsg m hm).1)
  have htrace : trace.map Prod.fst = messages := by
    rw [← hframes]
    exact hmain.1
  refine ⟨htrace, ?_, (hmain.2 last hlast).1, (hmain.2 last hlast).2,
    read_sequence_run slot reads s (s', trace) hrun,
    fun t buffer now => read_from_client_frames_erase t slot buffer now⟩
  intro hall
  rw [← htrace, List.map_map]
  conv_lhs => rw [← List.map_id trace]
  apply List.map_congr_left
  intro e he
  have := hall e he
  simp only [id, Function.comp]
  rw [← this]

/-- Witness of C33 on the started game: the first player sends two `PING` messages cut
into three reads, the second read holding the end of the first message and the whole
second one but for its LF. -/
theorem framing_contract_witness :
    ∃ (s' : Server) (trace : List (List Char × Bool)) (last : Player),
      read_sequence scenario_started 0
        [("PI".toList, 101), ("NG\nPING".toList, 101), ("\n".toList, 102)] =
          some (s', trace) ∧
      s'.players[0]? = some last ∧
      (last.is_active = true ∧ 0 ≤ last.socket_fd) ∧
      trace = [("PING".toList, true), ("PING".toList, true)] ∧
      trace.map Prod.fst = ["PING".toList, "PING".toList] ∧
      last.recv_buffer = [] :=
  ⟨_, _, _, rfl, rfl, ⟨rfl, by decide⟩, rfl,
    (framing_contract scenario_started 0 ["PING".toList, "PING".toList] []
      [("PI".toList, 101), ("NG\nPING".toList, 101), ("\n".toList, 102)] _ _ _
      (by decide) (by decide) (by decide) rfl rfl rfl ⟨rfl, by decide⟩).1,
    (framing_contract scenario_started 0 ["PING".toList, "PING".toList] []
      [("PI".toList, 101), ("NG\nPING".toList, 101), ("\n".toList, 102)] _ _ _
      (by decide) (by decide) (by decide) rfl rfl rfl ⟨rfl, by decide⟩).2.2.1⟩

/-! ## Validation of names -/

theorem any_false_iff {α : Type} (test : α → Bool) (l : List α) :
    l.any test = false ↔ ∀ x ∈ l, test x = false := by
  induction l with
  | nil => simp
  | cons a t ih => simp [List.any_cons, ih]

theorem isalpha_iff (c : Char) :
    isalpha c = true ↔ (97 ≤ c.toNat ∧ c.toNat ≤ 122) ∨ (65 ≤ c.toNat ∧ c.toNat ≤ 90) := by
  simp [isalpha]

theorem isalnum_iff (c : Char) :
    isalnum c = true ↔ (97 ≤ c.toNat ∧ c.toNat ≤ 122) ∨ (65 ≤ c.toNat ∧ c.toNat ≤ 90) ∨
      (48 ≤ c.toNat ∧ c.toNat ≤ 57) := by
  simp [isalnum, isalpha, isdigit, or_assoc]

/-- Claim C36.  For every string `s` of 7-bit ASCII characters,
`protocol_validate_nickname s` is `ERR_NONE` exactly when `s` is non-empty, at most 32
bytes long, consists only of letters, digits and `_`, and begins with a letter; every
other result is `ERR_NICKNAME_INVALID`, whose code is 7. -/
theorem validate_nickname_contract (s : List Char) (h7 : ∀ c ∈ s, c.toNat < 128) :
    (protocol_validate_nickname s = ErrorCode.ERR_NONE ↔
      s ≠ [] ∧ s.length ≤ 32 ∧
      (∀ c ∈ s, (97 ≤ c.toNat ∧ c.toNat ≤ 122) ∨ (65 ≤ c.toNat ∧ c.toNat ≤ 90) ∨
        (48 ≤ c.toNat ∧ c.toNat ≤ 57) ∨ c = '_') ∧
      (∃ (c : Char) (rest : List Char), s = c :: rest ∧
        ((97 ≤ c.toNat ∧ c.toNat ≤ 122) ∨ (65 ≤ c.toNat ∧ c.toNat ≤ 90)))) ∧
    (protocol_validate_nickname s ≠ ErrorCode.ERR_NONE →
      protocol_validate_nickname s = ErrorCode.ERR_NICKNAME_INVALID) ∧
    ErrorCode.ERR_NICKNAME_INVALID.toInt = 7 := by
  refine ⟨?_, validate_nickname_codes s, rfl⟩
  have hchars : (s.any (fun c => !isalnum c && c != '_')) = false ↔
      ∀ c ∈ s, (97 ≤ c.toNat ∧ c.toNat ≤ 122) ∨ (65 ≤ c.toNat ∧ c.toNat ≤ 90) ∨
        (48 ≤ c.toNat ∧ c.toNat ≤ 57) ∨ c = '_' := by
    rw [any_false_iff]
    constructor
    · intro h c hc
      have := h c hc
      by_cases ha : isalnum c = true
      · rcases (isalnum_iff c).mp ha with h1 | h1 | h1
        · exact Or.inl h1
        · exact Or.inr (Or.inl h1)
        · exact Or.inr (Or.inr (Or.inl h1))
      · simp [ha] at this
        exact Or.inr (Or.inr (Or.inr this))
    · intro h c hc
      rcases h c hc with h1 | h1 | h1 | h1
      · simp [(isalnum_iff c).mpr (Or.inl h1)]
      · simp [(isalnum_iff c).mpr (Or.inr (Or.inl h1))]
      · simp [(isalnum_iff c).mpr (Or.inr (Or.inr h1))]
      · simp [h1]
  unfold protocol_validate_nickname
  cases s with
  | nil => simp
  | cons c rest =>
    have hlen : ¬ (c :: rest).length = 0 := by simp
    simp only [hlen, if_false, MAX_NICKNAME_LENGTH, List.headD_cons]
    by_cases hl : (c :: rest).length > 32
    · simp only [hl, if_true]
      constructor
      · intro h
        cases h
      · rintro ⟨_, h2, _⟩
        omega
    · simp only [hl, if_false]
      by_cases hany : ((c :: rest).any (fun c => !isalnum c && c != '_')) = true
      · simp only [hany, if_true]
        constructor
        · intro h
          cases h
        · rintro ⟨_, _, h3, _⟩
          have := hchars.mpr h3
          rw [hany] at this
          cases this
      · have hany' : ((c :: rest).any (fun c => !isalnum c && c != '_')) = false := by
          simpa using hany
        simp only [hany', Bool.false_eq_true, if_false]
        by_cases hal : isalpha c = true
        · simp only [hal, Bool.not_true, Bool.false_eq_true, if_false, true_iff]
          exact ⟨by simp, by omega, hchars.mp hany', c, rest, rfl, (isalpha_iff c).mp hal⟩
        · have hal' : isalpha c = false := by simpa using hal
          simp only [hal', Bool.not_false, if_true]
          constructor
          · intro h
            cases h
          · rintro ⟨_, _, _, c', rest', e, hc'⟩
            cases e
            exact absurd ((isalpha_iff c).mpr hc') hal

/-- Witness of C36: `alice_7` is accepted and `7alice` is rejected. -/
theorem validate_nickname_contract_witness :
    (∀ c ∈ "alice_7".toList, c.toNat < 128) ∧
    protocol_validate_nickname "alice_7".toList = ErrorCode.ERR_NONE ∧
    protocol_validate_nickname "7alice".toList = ErrorCode.ERR_NICKNAME_INVALID ∧
    (protocol_validate_nickname "alice_7".toList = ErrorCode.ERR_NONE ↔
      "alice_7".toList ≠ [] ∧ "alice_7".toList.length ≤ 32 ∧
      (∀ c ∈ "alice_7".toList, (97 ≤ c.toNat ∧ c.toNat ≤ 122) ∨
        (65 ≤ c.toNat ∧ c.toNat ≤ 90) ∨ (48 ≤ c.toNat ∧ c.toNat ≤ 57) ∨ c = '_') ∧
      (∃ (c : Char) (rest : List Char), "alice_7".toList = c :: rest ∧
        ((97 ≤ c.toNat ∧ c.toNat ≤ 122) ∨ (65 ≤ c.toNat ∧ c.toNat ≤ 90)))) :=
  ⟨by decide, by decide, by decide,
    (validate_nickname_contract "alice_7".toList (by decide)).1⟩

/-- Claim C37.  For every string `s` of 7-bit ASCII characters,
`protocol_validate_room_name s` is `ERR_NONE` exactly when `s` is non-empty, at most 64
bytes long and consists only of letters, digits, `_` and space; every other result is
`ERR_INVALID_PARAMS`, whose code is 3. -/
theorem validate_room_name_contract (s : List Char) (h7 : ∀ c ∈ s, c.toNat < 128) :
    (protocol_validate_room_name s = ErrorCode.ERR_NONE ↔
      s ≠ [] ∧ s.length ≤ 64 ∧
      (∀ c ∈ s, (97 ≤ c.toNat ∧ c.toNat ≤ 122) ∨ (65 ≤ c.toNat ∧ c.toNat ≤ 90) ∨
        (48 ≤ c.toNat ∧ c.toNat ≤ 57) ∨ c = '_' ∨ c = ' ')) ∧
    (protocol_validate_room_name s ≠ ErrorCode.ERR_NONE →
      protocol_validate_room_name s = ErrorCode.ERR_INVALID_PARAMS) ∧
    ErrorCode.ERR_INVALID_PARAMS.toInt = 3 := by
  refine ⟨?_, validate_room_name_codes s, rfl⟩
  have hchars : (s.any (fun c => !isalnum c && c != '_' && c != ' ')) = false ↔
      ∀ c ∈ s, (97 ≤ c.toNat ∧ c.toNat ≤ 122) ∨ (65 ≤ c.toNat ∧ c.toNat ≤ 90) ∨
        (48 ≤ c.toNat ∧ c.toNat ≤ 57) ∨ c = '_' ∨ c = ' ' := by
    rw [any_false_iff]
    constructor
    · intro h c hc
      have := h c hc
      by_cases ha : isalnum c = true
      · rcases (isalnum_iff c).mp ha with h1 | h1 | h1
        · exact Or.inl h1
        · exact Or.inr (Or.inl h1)
        · exact Or.inr (Or.inr (Or.inl h1))
      · simp [ha] at this
        by_cases hu : c = '_'
        · exact Or.inr (Or.inr (Or.inr (Or.inl hu)))
        · exact Or.inr (Or.inr (Or.inr (Or.inr (this hu))))
    · intro h c hc
      rcases h c hc with h1 | h1 | h1 | h1 | h1
      · simp [(isalnum_iff c).mpr (Or.inl h1)]
      · simp [(isalnum_iff c).mpr (Or.inr (Or.inl h1))]
      · simp [(isalnum_iff c).mpr (Or.inr (Or.inr h1))]
      · simp [h1]
      · simp [h1]
  unfold protocol_validate_room_name
  cases s with
  | nil => simp
  | cons c rest =>
    have hlen : ¬ (c :: rest).length = 0 := by simp
    simp only [hlen, if_false, MAX_ROOM_NAME_LENGTH]
    by_cases hl : (c :: rest).length > 64
    · simp only [hl, if_true]
      constructor
      · intro h
        cases h
      · rintro ⟨_, h2, _⟩
        omega
    · simp only [hl, if_false]
      by_cases hany : ((c :: rest).any (fun c => !isalnum c && c != '_' && c != ' ')) = true
      · simp only [hany, if_true]
        constructor
        · intro h
          cases h
        · rintro ⟨_, _, h3⟩
          have := hchars.mpr h3
          rw [hany] at this
          cases this
      · have hany' : ((c :: rest).any (fun c => !isalnum c && c != '_' && c != ' ')) = false := by
          simpa using hany
        simp only [hany', Bool.false_eq_true, if_false, true_iff]
        exact ⟨by simp, by omega, hchars.mp hany'⟩

/-- Witness of C37: `my room_1` is accepted and `room;1` is rejected. -/
theorem validate_room_name_contract_witness :
    (∀ c ∈ "my room_1".toList, c.toNat < 128) ∧
    protocol_validate_room_name "my room_1".toList = ErrorCode.ERR_NONE ∧
    protocol_validate_room_name "room;1".toList = ErrorCode.ERR_INVALID_PARAMS ∧
    (protocol_validate_room_name "my room_1".toList = ErrorCode.ERR_NONE ↔
      "my room_1".toList ≠ [] ∧ "my room_1".toList.length ≤ 64 ∧
      (∀ c ∈ "my room_1".toList, (97 ≤ c.toNat ∧ c.toNat ≤ 122) ∨
        (65 ≤ c.toNat ∧ c.toNat ≤ 90) ∨ (48 ≤ c.toNat ∧ c.toNat ≤ 57) ∨ c = '_' ∨ c = ' ')) :=
  ⟨by decide, by decide, by decide,
    (validate_room_name_contract "my room_1".toList (by decide)).1⟩

/-! ## Length of a game -/

/-- A call of `game_take_stones` or `game_skip_turn` lowers the measure by the number
of moves it records. -/
theorem applyOp_measure (g : Game) (op : GameOp) (hop : op.isRestart = false) :
    ∀ r, applyOp g op = some r →
      r.1.stones + r.1.player_skips0 + r.1.player_skips1 + r.2.length ≤
        g.stones + g.player_skips0 + g.player_skips1 := by
  intro r hr
  cases op with
  | start => simp [GameOp.isRestart] at hop
  | reset => simp [GameOp.isRestart] at hop
  | pause =>
    simp only [applyOp, Option.some.injEq] at hr
    subst hr
    unfold game_pause
    split_ifs <;> simp
  | resume =>
    simp only [applyOp, Option.some.injEq] at hr
    subst hr
    unfold game_resume
    split_ifs <;> simp
  | take p k =>
    simp only [applyOp, Option.some.injEq] at hr
    subst hr
    rw [game_take_stones_eq]
    by_cases h1 : g.state = GameState.PLAYING ∧ g.current_player = p ∧ 1 ≤ k ∧ k ≤ 3 ∧
        k ≤ g.stones
    · rw [if_pos h1]
      by_cases h2 : g.stones - k = 0
      · rw [if_pos h2]
        simp
        omega
      · rw [if_neg h2]
        simp
        omega
    · rw [if_neg h1]
      simp
  | skip p =>
    simp only [applyOp] at hr
    by_cases hc : g.current_player = p
    · by_cases h0 : p = 0
      · subst h0
        rw [game_skip_turn_zero] at hr
        simp only [Option.some.injEq] at hr
        subst hr
        by_cases hg : g.state = GameState.PLAYING ∧ g.current_player = 0 ∧
            0 < g.player_skips0
        · rw [if_pos hg]
          simp
          omega
        · rw [if_neg hg]
          simp
      · by_cases h1 : p = 1
        · subst h1
          rw [game_skip_turn_one] at hr
          simp only [Option.some.injEq] at hr
          subst hr
          by_cases hg : g.state = GameState.PLAYING ∧ g.current_player = 1 ∧
              0 < g.player_skips1
          · rw [if_pos hg]
            simp
            omega
          · rw [if_neg hg]
            simp
        · unfold game_skip_turn at hr
          by_cases hs : g.state = GameState.PLAYING
          · simp [hs, hc, Game.player_skips, h0, h1] at hr
          · simp only [hs, ne_eq, not_false_eq_true, if_true, Option.some.injEq] at hr
            subst hr
            simp
    · rw [game_skip_turn_other g p hc] at hr
      simp only [Option.some.injEq] at hr
      subst hr
      simp

theorem runFrom_measure (ops : List GameOp) (hops : ∀ op ∈ ops, op.isRestart = false) :
    ∀ st st' : Game × List Move, runFrom st ops = some st' →
      st'.1.stones + st'.1.player_skips0 + st'.1.player_skips1 + st'.2.length ≤
        st.1.stones + st.1.player_skips0 + st.1.player_skips1 + st.2.length := by
  induction ops with
  | nil =>
    intro st st' h
    simp only [runFrom, Option.some.injEq] at h
    subst h
    exact le_refl _
  | cons op ops ih =>
    intro st st' h
    simp only [runFrom] at h
    cases hr : applyOp st.1 op with
    | none => rw [hr] at h; cases h
    | some r =>
      rw [hr] at h
      have h1 := applyOp_measure st.1 op (hops op (List.mem_cons_self _ _)) r hr
      have h2 := ih (fun o ho => hops o (List.mem_cons_of_mem _ ho)) _ st' h
      simp only [List.length_append, Nat.cast_add] at h2
      omega

/-- Claim C39.  The measure `stones + skips[0] + skips[1]` is 23 after `game_start`.
A call of `game_take_stones` or `game_skip_turn` that is accepted lowers it by at least
one, and a rejected call does not raise it.  So every sequence of such calls on a
started game returns, the measure staying non-negative, and the accepted moves among
them are at most 23. -/
theorem accepted_moves_bounded (g0 : Game) (ops : List GameOp)
    (hops : ∀ op ∈ ops, op.isRestart = false) :
    (game_start g0).stones + (game_start g0).player_skips0 + (game_start g0).player_skips1
      = 23 ∧
    (∀ (g : Game) (op : GameOp), op.isRestart = false → ∀ r, applyOp g op = some r →
      r.1.stones + r.1.player_skips0 + r.1.player_skips1 + r.2.length ≤
        g.stones + g.player_skips0 + g.player_skips1) ∧
    ∃ g ms, runOps (game_start g0) ops = some (g, ms) ∧
      0 ≤ g.stones + g.player_skips0 + g.player_skips1 ∧
      g.stones + g.player_skips0 + g.player_skips1 + ms.length ≤ 23 ∧
      ms.length ≤ 23 := by
  refine ⟨rfl, applyOp_measure, ?_⟩
  obtain ⟨st, hst, ⟨h0, _, _, hs0, hs1, _⟩⟩ :=
    runFrom_GameInv ops (game_start g0, []) (game_start_GameInv g0)
  have hm := runFrom_measure ops hops (game_start g0, []) st hst
  have hstart : (game_start g0).stones + (game_start g0).player_skips0 +
      (game_start g0).player_skips1 = 23 := rfl
  simp only [List.length_nil, Nat.cast_zero, add_zero] at hm
  refine ⟨st.1, st.2, hst, ?_, ?_, ?_⟩
  · rcases hs0 with e0 | e0 <;> rcases hs1 with e1 | e1 <;> omega
  · omega
  · rcases hs0 with e0 | e0 <;> rcases hs1 with e1 | e1 <;> omega

/-- Witness of C39: five calls of which three are accepted; the measure falls from 23
to 20. -/
theorem accepted_moves_bounded_witness :
    (∀ op ∈ [GameOp.take 0 1, GameOp.skip 1, GameOp.skip 0, GameOp.skip 1, GameOp.take 0 3],
      op.isRestart = false) ∧
    (runOps (game_start ⟨GameState.WAITING, 0, 0, 0, 0, 0⟩)
        [GameOp.take 0 1, GameOp.skip 1, GameOp.skip 0, GameOp.skip 1, GameOp.take 0 3]).map
        (fun r => (r.1.stones, r.1.player_skips0, r.1.player_skips1, r.2.length)) =
      some (20, 0, 0, 3) ∧
    ∃ g ms, runOps (game_start ⟨GameState.WAITING, 0, 0, 0, 0, 0⟩)
        [GameOp.take 0 1, GameOp.skip 1, GameOp.skip 0, GameOp.skip 1, GameOp.take 0 3] =
          some (g, ms) ∧
      0 ≤ g.stones + g.player_skips0 + g.player_skips1 ∧
      g.stones + g.player_skips0 + g.player_skips1 + ms.length ≤ 23 ∧
      ms.length ≤ 23 :=
  ⟨by decide, by decide,
    (accepted_moves_bounded ⟨GameState.WAITING, 0, 0, 0, 0, 0⟩
      [GameOp.take 0 1, GameOp.skip 1, GameOp.skip 0, GameOp.skip 1, GameOp.take 0 3]
      (by decide)).2.2⟩

/-! ## Parser -/

theorem strtok_loop_other (c : Char) (rest current : List Char) (hc : c ≠ ';') :
    strtok_loop (c :: rest) current = strtok_loop rest (current ++ [c]) := by
  rw [strtok_loop, if_neg hc]

theorem strtok_loop_semi_nil (rest : List Char) :
    strtok_loop (';' :: rest) [] = strtok_loop rest [] := by
  rw [strtok_loop, if_pos rfl, if_pos rfl]

theorem strtok_loop_semi_cons (rest current : List Char) (hcur : current ≠ []) :
    strtok_loop (';' :: rest) current = current :: strtok_loop rest [] := by
  rw [strtok_loop, if_pos rfl, if_neg hcur]

theorem strtok_loop_field (field : List Char) (hfield : ';' ∉ field) :
    ∀ (rest current : List Char),
      strtok_loop (field ++ rest) current = strtok_loop rest (current ++ field) := by
  induction field with
  | nil => intro rest current; simp
  | cons c t ih =>
    intro rest current
    have hc : c ≠ ';' := fun e => hfield (by simp [e])
    have ht : ';' ∉ t := fun h => hfield (by simp [h])
    rw [List.cons_append, strtok_loop_other c _ _ hc, ih ht, List.append_assoc]
    rfl

theorem strtok_loop_params (params : List (List Char))
    (hparams : ∀ p ∈ params, p ≠ [] ∧ ';' ∉ p) :
    ∀ current : List Char, current ≠ [] →
      strtok_loop ((params.map (fun p => ';' :: p)).flatten) current = current :: params := by
  induction params with
  | nil =>
    intro current hcur
    simp [strtok_loop, hcur]
  | cons p ps ih =>
    intro current hcur
    obtain ⟨hp, hsemi⟩ := hparams p (List.mem_cons_self _ _)
    rw [List.map_cons, List.flatten_cons, List.cons_append,
      strtok_loop_semi_cons _ _ hcur, strtok_loop_field p hsemi, List.nil_append,
      ih (fun q hq => hparams q (List.mem_cons_of_mem _ hq)) p hp]

theorem strtok_tokens_join (command : List Char) (params : List (List Char))
    (hcommand : command ≠ [] ∧ ';' ∉ command)
    (hparams : ∀ p ∈ params, p ≠ [] ∧ ';' ∉ p) :
    strtok_tokens (join_message command params) = command :: params := by
  unfold strtok_tokens join_message
  rw [strtok_loop_field command hcommand.2, List.nil_append,
    strtok_loop_params params hparams command hcommand.1]

theorem cut_at_append (c : Char) (a b : List Char) :
    cut_at c (a ++ b) = if c ∈ a then cut_at c a else a ++ cut_at c b := by
  unfold cut_at
  induction a with
  | nil => simp
  | cons x t ih =>
    by_cases hx : x = c
    · subst hx
      simp [List.takeWhile]
    · have hne : (x != c) = true := by simpa using hx
      have hcx : ¬ c = x := fun e => hx e.symm
      simp only [List.cons_append, List.takeWhile_cons, hne, if_true, ih, List.mem_cons, hcx,
        false_or]
      split_ifs <;> rfl

theorem cut_at_of_not_mem (c : Char) (a : List Char) (h : c ∉ a) : cut_at c a = a := by
  have := cut_at_append c a []
  rw [if_neg h] at this
  simpa [cut_at] using this

/-- A text shorter than `MAX_MESSAGE_LENGTH` is parsed from its tokens. -/
theorem parse_of_short (text : List Char) (hlen : text.length < MAX_MESSAGE_LENGTH) :
    protocol_parse_message text =
      match strtok_tokens (cut_at '\r' (cut_at '\n' text)) with
      | [] => (false, ParsedMessage.unknown)
      | command :: rest =>
        (decide (protocol_string_to_message_type command ≠ MessageType.MSG_UNKNOWN),
          { type := protocol_string_to_message_type command
            param_count := ((rest.take MAX_PARAMS).map
              (fun token => safe_strcpy token MAX_PARAM_LENGTH)).length
            params := (rest.take MAX_PARAMS).map
              (fun token => safe_strcpy token MAX_PARAM_LENGTH) }) := by
  unfold protocol_parse_message
  by_cases h0 : text.length = 0
  · have : text = [] := List.length_eq_zero.mp h0
    subst this
    rfl
  · have hcond : ¬ (text.length = 0 ∨ text.length ≥ MAX_MESSAGE_LENGTH) := by omega
    have hcopy : safe_strcpy text MAX_MESSAGE_LENGTH = text := by
      unfold safe_strcpy
      exact List.take_of_length_le (by omega)
    simp only [hcond, if_false, hcopy]

/-- A text of `MAX_MESSAGE_LENGTH` bytes or more is rejected. -/
theorem parse_of_long (text : List Char) (hlen : MAX_MESSAGE_LENGTH ≤ text.length) :
    protocol_parse_message text = (false, ParsedMessage.unknown) := by
  unfold protocol_parse_message
  have hcond : text.length = 0 ∨ text.length ≥ MAX_MESSAGE_LENGTH := Or.inr hlen
  simp only [hcond, if_true]

theorem message_map_names :
    ∀ entry ∈ message_map,
      protocol_string_to_message_type entry.2 = entry.1 ∧
      entry.1 ≠ MessageType.MSG_UNKNOWN ∧ entry.2 ≠ [] ∧
      ';' ∉ entry.2 ∧ '\r' ∉ entry.2 ∧ '\n' ∉ entry.2 := by
  decide

theorem cut_join (command : List Char) (params : List (List Char)) (tail : List Char)
    (hcommand : '\r' ∉ command ∧ '\n' ∉ command)
    (hparams : ∀ p ∈ params, '\r' ∉ p ∧ '\n' ∉ p)
    (htail : tail = [] ∨ tail = ['\r']) :
    cut_at '\r' (cut_at '\n' (join_message command params ++ tail)) =
      join_message command params := by
  have hmem : ∀ c : Char, c ≠ ';' → c ∉ command → (∀ p ∈ params, c ∉ p) →
      c ∉ join_message command params := by
    intro c hc hcmd hps
    unfold join_message
    simp only [List.mem_append, List.mem_flatten, List.mem_map, not_or, not_exists, not_and]
    refine ⟨hcmd, ?_⟩
    rintro l ⟨p, hp, rfl⟩ hcl
    rcases List.mem_cons.mp hcl with e | e
    · exact hc e
    · exact hps p hp e
  have hn : '\n' ∉ join_message command params :=
    hmem '\n' (by decide) hcommand.2 (fun p hp => (hparams p hp).2)
  have hr : '\r' ∉ join_message command params :=
    hmem '\r' (by decide) hcommand.1 (fun p hp => (hparams p hp).1)
  rcases htail with e | e
  · subst e
    rw [List.append_nil, cut_at_of_not_mem _ _ hn, cut_at_of_not_mem _ _ hr]
  · subst e
    have hn2 : '\n' ∉ join_message command params ++ ['\r'] := by
      simp only [List.mem_append, List.mem_singleton, not_or]
      exact ⟨hn, by decide⟩
    rw [cut_at_of_not_mem _ _ hn2, cut_at_append, if_neg hr]
    simp [cut_at]

/-- Claim C34, as the code has it.  For every entry of `message_map`, which holds the
client command names with their types, and every list of at most 10 parameters, each
non-empty, at most 127 bytes long and free of `;`, CR and LF: if the text
`c;p1;...;pn`, together with the CR when one follows it, is shorter than 512 bytes,
`protocol_parse_message` returns true with the type of `c`, `param_count = n` and every
parameter in its position. -/
theorem parse_joined_message (entry : MessageType × List Char) (params : List (List Char))
    (cr : Bool) (hentry : entry ∈ message_map) (hcount : params.length ≤ 10)
    (hparams : ∀ p ∈ params, p ≠ [] ∧ p.length ≤ 127 ∧ ';' ∉ p ∧ '\r' ∉ p ∧ '\n' ∉ p)
    (hlen : (join_message entry.2 params ++ (if cr then ['\r'] else [])).length < 512) :
    protocol_parse_message (join_message entry.2 params ++ (if cr then ['\r'] else [])) =
      (true, { type := entry.1, param_count := params.length, params := params }) ∧
    ∀ i : Nat, i < params.length →
      (protocol_parse_message
        (join_message entry.2 params ++ (if cr then ['\r'] else []))).2.param i =
        params.getD i [] := by
  obtain ⟨htype, hknown, hne, hsemi, hcr, hlf⟩ := message_map_names entry hentry
  have hcut := cut_join entry.2 params (if cr then ['\r'] else []) ⟨hcr, hlf⟩
    (fun p hp => ⟨(hparams p hp).2.2.2.1, (hparams p hp).2.2.2.2⟩)
    (by cases cr <;> simp)
  have htok := strtok_tokens_join entry.2 params ⟨hne, hsemi⟩
    (fun p hp => ⟨(hparams p hp).1, (hparams p hp).2.2.1⟩)
  have htake : params.take MAX_PARAMS = params := List.take_of_length_le hcount
  have hcopy : params.map (fun token => safe_strcpy token MAX_PARAM_LENGTH) = params := by
    have : ∀ p ∈ params, safe_strcpy p MAX_PARAM_LENGTH = p := by
      intro p hp
      unfold safe_strcpy
      exact List.take_of_length_le (by
        have := (hparams p hp).2.1
        simp only [MAX_PARAM_LENGTH]
        omega)
    calc params.map (fun token => safe_strcpy token MAX_PARAM_LENGTH)
        = params.map id := List.map_congr_left this
      _ = params := List.map_id params
  have hparse : protocol_parse_message
      (join_message entry.2 params ++ (if cr then ['\r'] else [])) =
      (true, { type := entry.1, param_count := params.length, params := params }) := by
    rw [parse_of_short _ hlen, hcut, htok]
    simp only [htake, hcopy, htype]
    simp [hknown]
  refine ⟨hparse, ?_⟩
  intro i _
  rw [hparse]
  rfl

/-- Witness of C34: `LOGIN;alice` followed by CR. -/
theorem parse_joined_message_witness :
    (MessageType.MSG_LOGIN, "LOGIN".toList) ∈ message_map ∧
    protocol_parse_message "LOGIN;alice\r".toList =
      (true, { type := MessageType.MSG_LOGIN, param_count := 1, params := ["alice".toList] }) :=
  ⟨by decide,
    (parse_joined_message (MessageType.MSG_LOGIN, "LOGIN".toList) ["alice".toList] true
      (by decide) (by decide) (by decide) (by decide)).1⟩

/-- Counterexample to C34 as stated.  `LOGIN` with four parameters of 127, 127, 127
and 121 bytes is a joined message of 511 bytes and is parsed; followed by CR it has 512
bytes and is rejected. -/
theorem parse_with_cr_at_limit_counterexample :
    (join_message "LOGIN".toList
      [List.replicate 127 'a', List.replicate 127 'b', List.replicate 127 'c',
        List.replicate 121 'd']).length = 511 ∧
    (protocol_parse_message (join_message "LOGIN".toList
      [List.replicate 127 'a', List.replicate 127 'b', List.replicate 127 'c',
        List.replicate 121 'd'])).1 = true ∧
    protocol_parse_message (join_message "LOGIN".toList
      [List.replicate 127 'a', List.replicate 127 'b', List.replicate 127 'c',
        List.replicate 121 'd'] ++ ['\r']) = (false, ParsedMessage.unknown) := by
  refine ⟨by decide, ?_, ?_⟩
  · rw [(parse_of_short _ (by decide))]
    decide
  · exact parse_of_long _ (by decide)

/-- Claim C35, as the code has it.  For a frame whose first field is a known command
name, `protocol_parse_message` succeeds exactly when the length of the frame is between
1 and 511 bytes.  It then has the type of the command and keeps the first 10
parameters, each cut to its first 127 bytes, so that a parameter of at most 127 bytes
is stored unchanged. -/
theorem parse_limits (frame command : List Char) (rest : List (List Char))
    (htok : strtok_tokens (cut_at '\r' (cut_at '\n' frame)) = command :: rest)
    (hknown : protocol_string_to_message_type command ≠ MessageType.MSG_UNKNOWN) :
    ((protocol_parse_message frame).1 = true ↔ 1 ≤ frame.length ∧ frame.length ≤ 511) ∧
    (frame.length ≤ 511 →
      (protocol_parse_message frame).2.type = protocol_string_to_message_type command ∧
      (protocol_parse_message frame).2.params =
        (rest.take 10).map (fun token => token.take 127) ∧
      (protocol_parse_message frame).2.param_count =
        (protocol_parse_message frame).2.params.length ∧
      (protocol_parse_message frame).2.params.length = min 10 rest.length ∧
      ∀ (i : Nat) (token : List Char), i < 10 → rest[i]? = some token →
        token.length ≤ 127 → (protocol_parse_message frame).2.params[i]? = some token) := by
  have hne : frame ≠ [] := by
    intro e
    subst e
    simp [strtok_tokens, cut_at, strtok_loop] at htok
  have hpos : 1 ≤ frame.length := by
    cases frame with
    | nil => exact absurd rfl hne
    | cons c t => simp
  constructor
  · constructor
    · intro h
      refine ⟨hpos, ?_⟩
      by_contra hlong
      rw [parse_of_long frame (by simp only [MAX_MESSAGE_LENGTH]; omega)] at h
      cases h
    · rintro ⟨_, hle⟩
      rw [parse_of_short frame (by simp only [MAX_MESSAGE_LENGTH]; omega), htok]
      simp [hknown]
  · intro hle
    rw [parse_of_short frame (by simp only [MAX_MESSAGE_LENGTH]; omega), htok]
    refine ⟨rfl, rfl, rfl, ?_, ?_⟩
    · simp [MAX_PARAMS]
    · intro i token hi hget hlen
      simp only [MAX_PARAMS, MAX_PARAM_LENGTH, safe_strcpy, List.getElem?_map,
        List.getElem?_take, hi, if_true, hget, Option.map_some']
      rw [List.take_of_length_le (by omega)]

/-- Witness of C35: the frame `TAKE;2`. -/
theorem parse_limits_witness :
    strtok_tokens (cut_at '\r' (cut_at '\n' "TAKE;2".toList)) = ["TAKE".toList, "2".toList] ∧
    ((protocol_parse_message "TAKE;2".toList).1 = true ↔
      1 ≤ "TAKE;2".toList.length ∧ "TAKE;2".toList.length ≤ 511) ∧
    (protocol_parse_message "TAKE;2".toList).2.params = ["2".toList] :=
  ⟨by decide, (parse_limits "TAKE;2".toList "TAKE".toList ["2".toList] (by decide)
    (by decide)).1, by decide⟩

/-- Counterexample to C35 as stated.  A frame of 512 bytes that begins with `PING;` is
rejected, and a parameter of 128 bytes after `LOGIN;` is stored as its first 127
bytes. -/
theorem parse_limits_counterexample :
    ("PING;".toList ++ List.replicate 507 'a').length = 512 ∧
    (strtok_tokens (cut_at '\r' (cut_at '\n' ("PING;".toList ++ List.replicate 507 'a')))).head?
      = some "PING".toList ∧
    (protocol_parse_message ("PING;".toList ++ List.replicate 507 'a')).1 = false ∧
    (protocol_parse_message ("LOGIN;".toList ++ List.replicate 128 'a')).1 = true ∧
    (protocol_parse_message ("LOGIN;".toList ++ List.replicate 128 'a')).2.params =
      [List.replicate 127 'a'] := by
  refine ⟨by decide, by decide, ?_, ?_, ?_⟩
  · rw [parse_of_long _ (by decide)]
  · decide
  · decide

theorem cut_at_cons_other (c x : Char) (rest : List Char) (h : x ≠ c) :
    cut_at c (x :: rest) = x :: cut_at c rest := by
  have hne : (x != c) = true := by simpa using h
  simp [cut_at, List.takeWhile_cons, hne]

theorem strtok_loop_trailing (text : List Char) :
    ∀ current : List Char, strtok_loop (text ++ [';']) current = strtok_loop text current := by
  induction text with
  | nil =>
    intro current
    by_cases hcur : current = []
    · subst hcur
      rfl
    · rw [List.nil_append, strtok_loop_semi_cons _ _ hcur]
      simp [strtok_loop, hcur]
  | cons c t ih =>
    intro current
    by_cases hc : c = ';'
    · subst hc
      by_cases hcur : current = []
      · subst hcur
        rw [List.cons_append, strtok_loop_semi_nil, strtok_loop_semi_nil, ih]
      · rw [List.cons_append, strtok_loop_semi_cons _ _ hcur, strtok_loop_semi_cons _ _ hcur, ih]
    · rw [List.cons_append, strtok_loop_other c _ _ hc, strtok_loop_other c _ _ hc, ih]

theorem strtok_loop_double (a b : List Char) :
    ∀ current : List Char, strtok_loop (a ++ ';' :: ';' :: b) current =
      strtok_loop (a ++ ';' :: b) current := by
  induction a with
  | nil =>
    intro current
    by_cases hcur : current = []
    · subst hcur
      rw [List.nil_append, List.nil_append, strtok_loop_semi_nil]
    · rw [List.nil_append, List.nil_append, strtok_loop_semi_cons _ _ hcur,
        strtok_loop_semi_cons _ _ hcur, strtok_loop_semi_nil]
  | cons c t ih =>
    intro current
    by_cases hc : c = ';'
    · subst hc
      by_cases hcur : current = []
      · subst hcur
        rw [List.cons_append, List.cons_append, strtok_loop_semi_nil, strtok_loop_semi_nil, ih]
      · rw [List.cons_append, List.cons_append, strtok_loop_semi_cons _ _ hcur,
          strtok_loop_semi_cons _ _ hcur, ih]
    · rw [List.cons_append, List.cons_append, strtok_loop_other c _ _ hc,
        strtok_loop_other c _ _ hc, ih]

/-- Extra `;` characters do not change the tokens, and they do not shorten the text. -/
theorem extra_semicolons_tokens {m m' : List Char} (h : ExtraSemicolons m m') :
    strtok_tokens (cut_at '\r' (cut_at '\n' m')) = strtok_tokens (cut_at '\r' (cut_at '\n' m)) ∧
    m.length ≤ m'.length := by
  induction h with
  | same => exact ⟨rfl, le_refl _⟩
  | front m' h ih =>
    refine ⟨?_, by simp only [List.length_cons]; omega⟩
    rw [cut_at_cons_other '\n' ';' _ (by decide), cut_at_cons_other '\r' ';' _ (by decide),
      ← ih.1]
    exact strtok_loop_semi_nil _
  | back m' h ih =>
    refine ⟨?_, by simp only [List.length_append, List.length_singleton]; omega⟩
    rw [← ih.1, cut_at_append]
    by_cases hn : '\n' ∈ m'
    · rw [if_pos hn]
    · rw [if_neg hn, cut_at_of_not_mem '\n' m' hn,
        cut_at_of_not_mem '\n' [';'] (by decide), cut_at_append]
      by_cases hr : '\r' ∈ m'
      · rw [if_pos hr]
      · rw [if_neg hr, cut_at_of_not_mem '\r' m' hr, cut_at_of_not_mem '\r' [';'] (by decide)]
        exact strtok_loop_trailing m' []
  | beside a b h ih =>
    have e1 : ∀ rest : List Char, cut_at '\n' (';' :: rest) = ';' :: cut_at '\n' rest :=
      fun rest => cut_at_cons_other _ _ _ (by decide)
    have e2 : ∀ rest : List Char, cut_at '\r' (';' :: rest) = ';' :: cut_at '\r' rest :=
      fun rest => cut_at_cons_other _ _ _ (by decide)
    refine ⟨?_, by
      have := ih.2
      simp only [List.length_append, List.length_cons] at this ⊢
      omega⟩
    rw [← ih.1, cut_at_append, cut_at_append '\n' a]
    by_cases hn : '\n' ∈ a
    · rw [if_pos hn, if_pos hn]
    · rw [if_neg hn, if_neg hn]
      simp only [e1]
      rw [cut_at_append, cut_at_append '\r' a]
      by_cases hr : '\r' ∈ a
      · rw [if_pos hr, if_pos hr]
      · rw [if_neg hr, if_neg hr]
        simp only [e2]
        exact strtok_loop_double a _ []

theorem strtok_loop_nonempty (text : List Char) :
    ∀ current : List Char, ∀ token ∈ strtok_loop text current, token ≠ [] := by
  induction text with
  | nil =>
    intro current token h
    unfold strtok_loop at h
    split_ifs at h with hc
    · cases h
    · simp only [List.mem_singleton] at h
      rw [h]
      exact hc
  | cons c t ih =>
    intro current token h
    by_cases hc : c = ';'
    · subst hc
      by_cases hcur : current = []
      · subst hcur
        rw [strtok_loop_semi_nil] at h
        exact ih [] token h
      · rw [strtok_loop_semi_cons _ _ hcur] at h
        rcases List.mem_cons.mp h with e | e
        · rw [e]
          exact hcur
        · exact ih [] token e
    · rw [strtok_loop_other c _ _ hc] at h
      exact ih _ token h

/-- No parameter of a parsed message is empty. -/
theorem parse_params_nonempty (m : List Char) :
    ∀ p ∈ (protocol_parse_message m).2.params, p ≠ [] := by
  intro p hp
  by_cases hlen : m.length < MAX_MESSAGE_LENGTH
  · rw [parse_of_short m hlen] at hp
    cases htok : strtok_tokens (cut_at '\r' (cut_at '\n' m)) with
    | nil =>
      rw [htok] at hp
      cases hp
    | cons command rest =>
      rw [htok] at hp
      simp only [List.mem_map] at hp
      obtain ⟨token, htoken, rfl⟩ := hp
      have hmem : token ∈ strtok_loop (cut_at '\r' (cut_at '\n' m)) [] := by
        have : token ∈ command :: rest := List.mem_cons_of_mem _ (List.mem_of_mem_take htoken)
        rw [← htok] at this
        exact this
      have hne := strtok_loop_nonempty _ [] token hmem
      cases token with
      | nil => exact absurd rfl hne
      | cons c t => simp [safe_strcpy, MAX_PARAM_LENGTH]
  · rw [parse_of_long m (by omega)] at hp
    cases hp

/-- Claim C40, as the code has it.  If the second text is the first with extra `;`
characters inserted in front of it, at its end or next to a `;` it has, and the second
text is still shorter than 512 bytes, `protocol_parse_message` gives the same result
for both; and no parameter of a parsed message is empty. -/
theorem extra_semicolons_ignored (m m' : List Char) (h : ExtraSemicolons m m')
    (hlen : m'.length < MAX_MESSAGE_LENGTH) :
    protocol_parse_message m' = protocol_parse_message m ∧
    (∀ p ∈ (protocol_parse_message m').2.params, p ≠ []) := by
  obtain ⟨htok, hle⟩ := extra_semicolons_tokens h
  refine ⟨?_, parse_params_nonempty m'⟩
  rw [parse_of_short m' hlen, parse_of_short m (by omega), htok]

/-- Witness of C40: `;LOGIN;;bob;` parses exactly like `LOGIN;bob`. -/
theorem extra_semicolons_ignored_witness :
    ExtraSemicolons "LOGIN;bob".toList ";LOGIN;;bob;".toList ∧
    protocol_parse_message ";LOGIN;;bob;".toList = protocol_parse_message "LOGIN;bob".toList ∧
    protocol_parse_message "LOGIN;bob".toList =
      (true, { type := MessageType.MSG_LOGIN, param_count := 1, params := ["bob".toList] }) :=
  have h : ExtraSemicolons "LOGIN;bob".toList ";LOGIN;;bob;".toList :=
    ExtraSemicolons.front _ _ (ExtraSemicolons.back _ _
      (ExtraSemicolons.beside _ "LOGIN".toList "bob".toList (ExtraSemicolons.same _)))
  ⟨h, (extra_semicolons_ignored _ _ h (by decide)).1, by decide⟩

/-- Counterexample to C40 as stated.  `LOGIN;` followed by 505 letters has 511 bytes
and is parsed as a LOGIN; with one more `;` after the first it has 512 bytes and is
rejected. -/
theorem extra_semicolon_at_limit_counterexample :
    ExtraSemicolons ("LOGIN;".toList ++ List.replicate 505 'a')
      ("LOGIN;".toList ++ ';' :: List.replicate 505 'a') ∧
    ("LOGIN;".toList ++ List.replicate 505 'a').length = 511 ∧
    (protocol_parse_message ("LOGIN;".toList ++ List.replicate 505 'a')).1 = true ∧
    (protocol_parse_message ("LOGIN;".toList ++ List.replicate 505 'a')).2.type =
      MessageType.MSG_LOGIN ∧
    protocol_parse_message ("LOGIN;".toList ++ ';' :: List.replicate 505 'a') =
      (false, ParsedMessage.unknown) := by
  refine ⟨?_, by decide, by decide, by decide, ?_⟩
  · exact ExtraSemicolons.beside _ "LOGIN".toList (List.replicate 505 'a')
      (ExtraSemicolons.same _)
  · exact parse_of_long _ (by decide)

/-! ## Take that ends the game, in reachable states -/

/-- No event makes a nickname longer than `MAX_NICKNAME_LENGTH`. -/
theorem nickname_length_stable :
    EventStable (fun p => p.nickname.length ≤ MAX_NICKNAME_LENGTH) := by
  refine ⟨⟨?_, ?_, ?_, ?_⟩, ?_, ?_, ?_⟩
  · rintro p q ⟨_, _, h3, _⟩ hp
    rw [h3]
    exact hp
  · intro p st _ hp
    exact hp
  · intro p keep now hp
    cases keep
    · simp [player_reset, Player.zeroed]
    · simpa [player_reset] using hp
  · intro p nickname _ _
    simp only [player_set_nickname, List.length_take]
    exact Nat.min_le_left _ _
  · intro p now hp
    unfold check_rate_limit
    simp only []
    split_ifs <;> exact hp
  · intro p text len hp
    exact hp
  · intro fd now
    simp [player_create, Player.zeroed]

/-- In a reachable state no nickname is longer than `MAX_NICKNAME_LENGTH`. -/
theorem reachable_nickname_length {max_clients max_rooms : Nat} {s : Server}
    (h : Reachable max_clients max_rooms s) (i : Nat) (p : Player)
    (hp : s.players[i]? = some p) : p.nickname.length ≤ MAX_NICKNAME_LENGTH :=
  reachable_kept nickname_length_stable.handlers nickname_length_stable.created
    (fun s slot buffer now hs r hr x =>
      read_from_client_kept nickname_length_stable s slot buffer now (hs x) r hr) h i p hp

/-- In a consistent state the room id of a member of a room finds the room. -/
theorem member_finds_room {s : Server} {r slot : Nat} {room : Room} {player : Player}
    (h : ServerOK s) (hroom : s.rooms[r]? = some room) (hhas : room.has slot)
    (hplayer : s.players[slot]? = some player) :
    room_find_by_id s.rooms player.room_id = some r := by
  obtain ⟨p, hp, _, hrid⟩ := h.cell_player r room slot hroom hhas
  rw [hplayer] at hp
  cases hp
  obtain ⟨hcount, hactive, _, _⟩ := h.room_ok r room hroom
  have hpos : 0 < room.player_count := by
    rw [hcount, room_present_cases]
    rcases hhas with e | e
    · rw [e]
      simp only [reduceCtorEq, if_false]
      split_ifs <;> omega
    · rw [e]
      simp only [reduceCtorEq, if_false]
      split_ifs <;> omega
  have hlt : r < s.rooms.length := (List.getElem?_eq_some_iff.mp hroom).1
  rw [room_find_by_id_eq_some]
  refine ⟨by omega, by omega, by omega, room, hroom, hactive.mpr hpos⟩

/-- C3, as the code has it.  In a reachable state let a player with an open socket, in
state IN_GAME, in a room that holds this player and an opponent, send a TAKE that is
accepted and brings the stones of the room's game to 0.  Then `handle_take` sends
`GAME_OVER;<opponent nickname>;<mover nickname>` to the mover and, only if the
opponent's record has an open socket (`socket_fd >= 0`), the identical message to the
opponent, and nothing else is sent; the mover's record ends in LOBBY with no room id;
and if the opponent has an open socket, the opponent's record too ends in LOBBY with no
room id and the room is inactive. -/
theorem handle_take_game_over {max_clients max_rooms : Nat} {s : Server}
    (h : Reachable max_clients max_rooms s)
    (slot o r : Nat) (msg : ParsedMessage) (player opp : Player) (room : Room)
    (hplayer : s.players[slot]? = some player)
    (hopp : s.players[o]? = some opp)
    (hstate : player.state = PlayerState.IN_GAME)
    (hsock : 0 ≤ player.socket_fd)
    (hroom : s.rooms[r]? = some room)
    (hcells : (room.players0 = some slot ∧ room.players1 = some o) ∨
      (room.players0 = some o ∧ room.players1 = some slot))
    (hparam : 1 ≤ msg.param_count)
    (hacc : (game_take_stones room.game (room_get_player_index room (some slot))
      (atoi (msg.param 0))).1 = true)
    (hzero : (game_take_stones room.game (room_get_player_index room (some slot))
      (atoi (msg.param 0))).2.stones = 0) :
    ∃ s', handle_take s slot msg = some (s',
        (slot, "GAME_OVER;".toList ++ opp.nickname ++ ";".toList ++ player.nickname
            ++ "\n".toList) ::
          (if 0 ≤ opp.socket_fd then
            [(o, "GAME_OVER;".toList ++ opp.nickname ++ ";".toList ++ player.nickname
              ++ "\n".toList)]
          else [])) ∧
      s'.players[slot]? = some { player with state := PlayerState.LOBBY, room_id := -1 } ∧
      (0 ≤ opp.socket_fd →
        s'.players[o]? = some { opp with state := PlayerState.LOBBY, room_id := -1 } ∧
        ∃ room', s'.rooms[r]? = some room' ∧ room'.is_active = false) := by
  have hinv := reachable_inv h
  obtain ⟨hcount, _, _, hdist⟩ := hinv.room_ok r room hroom
  have hhas : room.has slot := by
    rcases hcells with ⟨h0, _⟩ | ⟨_, h1⟩
    · exact Or.inl h0
    · exact Or.inr h1
  have hne : o ≠ slot := by
    intro e
    subst e
    rcases hcells with ⟨h0, h1⟩ | ⟨h0, h1⟩ <;> exact hdist _ h0 h1
  have hcount2 : room.player_count = 2 := by
    rw [hcount, room_present_cases]
    rcases hcells with ⟨h0, h1⟩ | ⟨h0, h1⟩ <;> simp [h0, h1]
  have hfind := member_finds_room hinv hroom hhas hplayer
  obtain ⟨s', h1, h2, h3, h4⟩ := handle_take_final_aux s slot o r msg player opp room hplayer
    hopp hne hstate hsock hfind hroom hcells hcount2 hparam hacc hzero
  rw [game_over_text (reachable_nickname_length h o opp hopp)
    (reachable_nickname_length h slot player hplayer)] at h1
  exact ⟨s', h1, h2, fun _ => ⟨h3, h4⟩⟩

/-- Witness of C3: with three stones left alice takes them; both players are
connected. -/
theorem handle_take_game_over_witness :
    Reachable 3 2 scenario_last_stones ∧
    ∃ s', handle_take scenario_last_stones 0 (take_message "3".toList) = some (s',
        [(0, "GAME_OVER;bob;alice\n".toList), (1, "GAME_OVER;bob;alice\n".toList)]) ∧
      (s'.players[0]?).map (fun p => (p.state, p.room_id, p.socket_fd)) =
        some (PlayerState.LOBBY, -1, 4) ∧
      (s'.players[1]?).map (fun p => (p.state, p.room_id, p.socket_fd)) =
        some (PlayerState.LOBBY, -1, 5) ∧
      ∃ room', s'.rooms[0]? = some room' ∧ room'.is_active = false :=
  ⟨scenario_last_stones_reachable,
    match handle_take_game_over scenario_last_stones_reachable 0 1 0
      (take_message "3".toList) _ _ _ rfl rfl rfl (by decide) rfl (Or.inl ⟨rfl, rfl⟩)
      (by decide) (by decide) (by decide) with
    | ⟨s', h1, h2, h3⟩ =>
      ⟨s', h1, by rw [h2]; rfl, by rw [(h3 (by decide)).1]; rfl, (h3 (by decide)).2⟩⟩

end Nim
